import Mathlib

/-!
# Air-copy transfer protocol and storage address translator

A shallow embedding of `App/app/aircopy.c`, `App/app/aircopy.h`,
`App/driver/eeprom_compat.c` and the state-changing part of `App/ui/aircopy.c`.

Conventions of the embedding:

* `uint8_t`, `uint16_t` and `uint32_t` values are natural numbers; every place where the C
  code truncates is written with an explicit `% 256`, `% 65536` or `% 4294967296`.
* C arrays are lists; `g_FSK_Buffer` is a list of 36 words, a byte region is a list of bytes.
  The target is a little-endian Cortex-M0+, so the word `w` occupies the two bytes
  `w % 256`, `w / 256`.
* Globals and function-local statics live in the record `State`.
* Calls into drivers that are not part of the sources are recorded as `Event`s.
* `while` loops whose bound is not syntactically evident take a fuel argument and return
  `none` when the fuel runs out before the loop condition becomes false.
-/

namespace AirCopy

/-! ## aircopy.h -/

/-- The enum `AIRCOPY_WriteMode_t` of aircopy.h:45-48. -/
inductive AIRCOPY_WriteMode_t where
  | AIRCOPY_WRITE_STRUCT
  | AIRCOPY_WRITE_BYTES
  deriving DecidableEq

/-- The struct `AIRCOPY_Segment_t` of aircopy.h:58-62. -/
structure AIRCOPY_Segment_t where
  start_offset : Nat
  end_offset : Nat
  write_mode : AIRCOPY_WriteMode_t
  deriving DecidableEq

/-- The struct `AIRCOPY_TransferMap_t` of aircopy.h:72-76; the pointer `segments` is the list
of the segments it points at. -/
structure AIRCOPY_TransferMap_t where
  segments : List AIRCOPY_Segment_t
  num_segments : Nat
  total_blocks : Nat
  deriving DecidableEq

/-- The enum `AIRCOPY_State_t` of aircopy.h:82-86. -/
inductive AIRCOPY_State_t where
  | AIRCOPY_READY
  | AIRCOPY_TRANSFER
  | AIRCOPY_COMPLETE
  deriving DecidableEq

open AIRCOPY_WriteMode_t AIRCOPY_State_t

/-! ## aircopy.c: constants and the catalog of transfer maps -/

/-- The key `Obfuscation[8]` of aircopy.c:36. -/
def Obfuscation : List Nat :=
  [0x6C16, 0xE614, 0x912E, 0x400D, 0x3521, 0x40D5, 0x0313, 0x80E9]

/-- The macro `AIRCOPY_BANK_SEGMENTS(bank)` of aircopy.c:49-54. -/
def AIRCOPY_BANK_SEGMENTS (bank : Nat) : List AIRCOPY_Segment_t :=
  [ { start_offset := 0x0000 + bank * 0x0800, end_offset := 0x0000 + bank * 0x0800 + 0x0800,
      write_mode := AIRCOPY_WRITE_STRUCT },
    { start_offset := 0x4000 + bank * 0x0800, end_offset := 0x4000 + bank * 0x0800 + 0x0800,
      write_mode := AIRCOPY_WRITE_STRUCT },
    { start_offset := 0x8000 + bank * 0x0100, end_offset := 0x8000 + bank * 0x0100 + 0x0100,
      write_mode := AIRCOPY_WRITE_BYTES } ]

/-- The macro `AIRCOPY_STD_MAP(seg_array)` of aircopy.c:56-61. -/
def AIRCOPY_STD_MAP (seg_array : List AIRCOPY_Segment_t) : AIRCOPY_TransferMap_t :=
  { segments := seg_array, num_segments := 3, total_blocks := 68 }

/-- The map `AIRCOPY_Map_Bank##n` declared by `DECLARE_AIRCOPY_BANK(n)`, aircopy.c:65-70. -/
def AIRCOPY_Map_Bank (n : Nat) : AIRCOPY_TransferMap_t :=
  AIRCOPY_STD_MAP (AIRCOPY_BANK_SEGMENTS n)

/-- The array `AIRCOPY_Segments_Settings` of aircopy.c:89-91. -/
def AIRCOPY_Segments_Settings : List AIRCOPY_Segment_t :=
  [ { start_offset := 0xA000, end_offset := 0xA160, write_mode := AIRCOPY_WRITE_BYTES } ]

/-- The map `AIRCOPY_Map_Settings` of aircopy.c:93-97. -/
def AIRCOPY_Map_Settings : AIRCOPY_TransferMap_t :=
  { segments := AIRCOPY_Segments_Settings, num_segments := 1, total_blocks := 6 }

/-- The array `AIRCOPY_AvailableMaps` of aircopy.c:101-117.  The build-time constant
`AIRCOPY_NUM_BANKS` (`MR_CHANNELS_MAX / 128`, defined outside the sources) is a parameter;
the three `#if` blocks are the three conditionals. -/
def AIRCOPY_AvailableMaps (AIRCOPY_NUM_BANKS : Nat) : List AIRCOPY_TransferMap_t :=
  [AIRCOPY_Map_Bank 0, AIRCOPY_Map_Bank 1]
    ++ (if AIRCOPY_NUM_BANKS ≥ 4 then [AIRCOPY_Map_Bank 2, AIRCOPY_Map_Bank 3] else [])
    ++ (if AIRCOPY_NUM_BANKS ≥ 6 then [AIRCOPY_Map_Bank 4, AIRCOPY_Map_Bank 5] else [])
    ++ (if AIRCOPY_NUM_BANKS ≥ 8 then [AIRCOPY_Map_Bank 6, AIRCOPY_Map_Bank 7] else [])
    ++ [AIRCOPY_Map_Settings]

/-- The macro `AIRCOPY_NUM_MAPS` of aircopy.c:119. -/
def AIRCOPY_NUM_MAPS (AIRCOPY_NUM_BANKS : Nat) : Nat :=
  (AIRCOPY_AvailableMaps AIRCOPY_NUM_BANKS).length

/-! ## Words, bytes and memory regions -/

/-- The two bytes a 16-bit word occupies in memory, low byte first. -/
def wordBytes (w : Nat) : List Nat := [w % 256, w / 256 % 256]

/-- The bytes occupied by consecutive 16-bit words. -/
def bytesOfWords : List Nat → List Nat
  | [] => []
  | w :: ws => wordBytes w ++ bytesOfWords ws

/-- The 16-bit word stored in the two bytes at byte offset `2 * k` of a region. -/
def wordAt (mem : List Nat) (k : Nat) : Nat :=
  mem.getD (2 * k) 0 % 256 + 256 * (mem.getD (2 * k + 1) 0 % 256)

/-- Overwrite the `n` cells `off, off + 1, ..` of a region with `f 0, f 1, ..`
(cells outside the region are not part of the model and are dropped). -/
def blit (mem : List Nat) (off n : Nat) (f : Nat → Nat) : List Nat :=
  (List.range n).foldl (fun m k => m.set (off + k) (f k)) mem

/-- The C library call `memset(p, c, n)` on the region `mem`, `p` being `off` bytes into it. -/
def memset (mem : List Nat) (off c n : Nat) : List Nat :=
  blit mem off n (fun _ => c % 256)

/-! ## eeprom_compat.c -/

/-- The macro `HOLE_ADDR` of eeprom_compat.c:29. -/
def HOLE_ADDR : Nat := 0x1000000

/-- The struct `AddrMapping_t` of eeprom_compat.c:31-36. -/
structure AddrMapping_t where
  PY25Q16_Addr : Nat
  EEPROM_Addr : Nat
  Size : Nat
  deriving DecidableEq

/-- The macro `_MK_MAPPING` of eeprom_compat.c:38; the second and third members are `uint16_t`. -/
def _MK_MAPPING (PY25Q16_Addr EEPROM_From EEPROM_To : Nat) : AddrMapping_t :=
  { PY25Q16_Addr := PY25Q16_Addr % 4294967296,
    EEPROM_Addr := EEPROM_From % 65536,
    Size := (EEPROM_To + 65536 - EEPROM_From) % 65536 }

/-- The table `ADDR_MAPPINGS` of eeprom_compat.c:40-67. -/
def ADDR_MAPPINGS : List AddrMapping_t :=
  [ _MK_MAPPING 0x000000 0x000000 0x001000,
    _MK_MAPPING 0x001000 0x001000 0x002000,
    _MK_MAPPING 0x002000 0x002000 0x003000,
    _MK_MAPPING 0x003000 0x003000 0x004000,
    _MK_MAPPING 0x004000 0x004000 0x005000,
    _MK_MAPPING 0x005000 0x005000 0x006000,
    _MK_MAPPING 0x006000 0x006000 0x007000,
    _MK_MAPPING 0x007000 0x007000 0x008000,
    _MK_MAPPING 0x008000 0x008000 0x00880E,
    _MK_MAPPING 0x009000 0x009000 0x0090D6,
    _MK_MAPPING 0x00A000 0x00A000 0x00A160,
    _MK_MAPPING 0x010000 0x00B000 0x00B200 ]

/-- The scan of `AddrTranslate`, eeprom_compat.c:115-123: the first entry of the table whose
logical range contains `EEPROM_Addr` (the `goto HIT`), or `none` when the loop leaves the
table without a hit. -/
def AddrTranslate_scan (EEPROM_Addr : Nat) : List AddrMapping_t → Option AddrMapping_t
  | [] => none
  | p :: rest =>
    if p.EEPROM_Addr ≤ EEPROM_Addr ∧ EEPROM_Addr < p.EEPROM_Addr + p.Size then some p
    else AddrTranslate_scan EEPROM_Addr rest

/-- The three out-parameters of `AddrTranslate`; `End_out` is `none` when the function does
not store through that pointer. -/
structure AddrTranslate_out where
  PY25Q16_Addr_out : Nat
  Size_out : Nat
  End_out : Option Bool
  deriving DecidableEq

/-- The function `AddrTranslate` of eeprom_compat.c:113-144.  `End_requested` says whether the
caller passed a non-NULL `End_out`. -/
def AddrTranslate (EEPROM_Addr Size : Nat) (End_requested : Bool) : AddrTranslate_out :=
  match AddrTranslate_scan EEPROM_Addr ADDR_MAPPINGS with
  | none => { PY25Q16_Addr_out := HOLE_ADDR, Size_out := Size, End_out := none }
  | some p =>
    let Off := (EEPROM_Addr + 65536 - p.EEPROM_Addr) % 65536
    let Rem := (p.Size + 65536 - Off) % 65536
    let Size := if Size > Rem then Rem else Size
    { PY25Q16_Addr_out :=
        if HOLE_ADDR = p.PY25Q16_Addr then HOLE_ADDR else (p.PY25Q16_Addr + Off) % 4294967296,
      Size_out := Size,
      End_out :=
        if End_requested = true ∧ HOLE_ADDR ≠ p.PY25Q16_Addr then some (decide (Size = Rem))
        else none }

/-- One iteration of the loops of `EEPROM_ReadBuffer` and `EEPROM_WriteBuffer`, recorded for
the statements about tiling: the logical address and the offset of `pBuffer` (from the
caller's pointer) at the top of the iteration, and what `AddrTranslate` returned. -/
structure Chunk where
  Address : Nat
  pBuffer : Nat
  PY_Addr : Nat
  PY_Size : Nat
  AppendFlag : Option Bool
  deriving DecidableEq

/-- Modelled from the spec: `PY25Q16_ReadBuffer` (driver/py25q16.c is not among the sources)
is the physical read `read(physical_addr, buf, len)` of the storage device; the device
content is the byte array `flash`.  The `PY_Size` bytes go to the region `mem` at `off`. -/
def PY25Q16_ReadBuffer (flash : Nat → Nat) (PY_Addr : Nat) (mem : List Nat) (off PY_Size : Nat) :
    List Nat :=
  blit mem off PY_Size (fun k => flash (PY_Addr + k) % 256)

/-- The loop of `EEPROM_ReadBuffer`, eeprom_compat.c:73-89, on the destination region `mem`
with `pBuffer` the current offset into it.  Returns the region and the iterations made. -/
def EEPROM_ReadBuffer_loop (flash : Nat → Nat) :
    Nat → Nat → Nat → Nat → List Nat → Option (List Nat × List Chunk)
  | 0, _, _, Size, mem => if Size = 0 then some (mem, []) else none
  | fuel + 1, Address, pBuffer, Size, mem =>
    if Size = 0 then some (mem, [])
    else
      let r := AddrTranslate Address Size false
      let mem1 :=
        if r.PY25Q16_Addr_out ≥ HOLE_ADDR then memset mem pBuffer 0xff r.Size_out
        else PY25Q16_ReadBuffer flash r.PY25Q16_Addr_out mem pBuffer r.Size_out
      match EEPROM_ReadBuffer_loop flash fuel ((Address + r.Size_out) % 65536)
          (pBuffer + r.Size_out) ((Size + 65536 - r.Size_out) % 256) mem1 with
      | none => none
      | some (mem2, cs) =>
        some (mem2, { Address := Address, pBuffer := pBuffer, PY_Addr := r.PY25Q16_Addr_out,
                      PY_Size := r.Size_out, AppendFlag := r.End_out } :: cs)

/-- The function `EEPROM_ReadBuffer(Address, pBuffer, Size)` of eeprom_compat.c:71-90;
`mem` is the memory `pBuffer` points at, `Size` is a `uint8_t`. -/
def EEPROM_ReadBuffer (flash : Nat → Nat) (Address : Nat) (mem : List Nat) (Size : Nat) :
    Option (List Nat × List Chunk) :=
  EEPROM_ReadBuffer_loop flash 256 (Address % 65536) 0 (Size % 256) mem

/-- A call `PY25Q16_WriteBuffer(addr, data, size, AppendFlag)` of the storage driver. -/
structure PY25Q16_WriteBuffer_call where
  PY_Addr : Nat
  data : List Nat
  PY_Size : Nat
  AppendFlag : Option Bool
  deriving DecidableEq

/-- The loop of `EEPROM_WriteBuffer`, eeprom_compat.c:97-110, on the source region `mem`.
Returns the driver calls issued, in order, and the iterations made. -/
def EEPROM_WriteBuffer_loop (mem : List Nat) :
    Nat → Nat → Nat → Nat → Option (List PY25Q16_WriteBuffer_call × List Chunk)
  | 0, _, _, Size => if Size = 0 then some ([], []) else none
  | fuel + 1, Address, pBuffer, Size =>
    if Size = 0 then some ([], [])
    else
      let r := AddrTranslate Address Size true
      let calls :=
        if r.PY25Q16_Addr_out < HOLE_ADDR then
          [{ PY_Addr := r.PY25Q16_Addr_out, data := (mem.drop pBuffer).take r.Size_out,
             PY_Size := r.Size_out, AppendFlag := r.End_out : PY25Q16_WriteBuffer_call }]
        else []
      match EEPROM_WriteBuffer_loop mem fuel ((Address + r.Size_out) % 65536)
          (pBuffer + r.Size_out) ((Size + 65536 - r.Size_out) % 65536) with
      | none => none
      | some (ws, cs) =>
        some (calls ++ ws,
              { Address := Address, pBuffer := pBuffer, PY_Addr := r.PY25Q16_Addr_out,
                PY_Size := r.Size_out, AppendFlag := r.End_out } :: cs)

/-- The function `EEPROM_WriteBuffer(Address, pBuffer)` of eeprom_compat.c:92-111. -/
def EEPROM_WriteBuffer (Address : Nat) (mem : List Nat) :
    Option (List PY25Q16_WriteBuffer_call × List Chunk) :=
  EEPROM_WriteBuffer_loop mem 8 (Address % 65536) 0 8


/-! ## aircopy.c: state -/

/-- The values of `gRequestDisplayScreen` that occur in aircopy.c (the enum is declared in
ui/ui.h, outside the sources). -/
inductive GUI_DisplayType_t where
  | DISPLAY_AIRCOPY
  | DISPLAY_INVALID
  deriving DecidableEq

/-- The globals read or written by aircopy.c and ui/aircopy.c, and the three function-local
statics of `AIRCOPY_SendMessage` (aircopy.c:179-181). -/
structure State where
  gAircopyState : AIRCOPY_State_t
  gAirCopyBlockNumber : Nat
  gErrorsDuringAirCopy : Nat
  gAirCopyIsSendMode : Nat
  g_FSK_Buffer : List Nat
  gAircopyCurrentMapIndex : Nat
  gFSKWriteIndex : Nat
  gUpdateDisplay : Bool
  gAircopyStep : Nat
  gInputBoxIndex : Nat
  gInputBox : List Nat
  gRequestDisplayScreen : GUI_DisplayType_t
  lErrorsDuringAirCopy : Nat
  crc : List Nat
  gAircopySendCountdown : Nat
  CurrentOffset : Nat
  CurrentSegmentIndex : Nat
  deriving DecidableEq

/-- Calls into the radio and storage drivers, in the order they are made. -/
inductive Event where
  | BK4819_PrepareFSKReceive
  | BK4819_ResetFSK
  | RADIO_SetTxParameters
  | BK4819_SendFSKData (pBuffer : List Nat)
  | BK4819_SetupPowerAmplifier (bias frequency : Nat)
  | BK4819_ToggleGpioOut_PA_ENABLE (bSet : Bool)
  | EEPROM_ReadBuffer (Address Size : Nat)
  | EEPROM_WriteBuffer (Address : Nat) (data : List Nat)
  | RADIO_ConfigureSquelchAndOutputPower
  | RADIO_SetupRegisters (switchToForeground : Bool)
  | BK4819_SetupAircopy
  deriving DecidableEq

/-- The value read by an out-of-bounds `map->segments[i]`; no map of the catalog reads it. -/
def Segment_unspecified : AIRCOPY_Segment_t :=
  { start_offset := 0, end_offset := 0, write_mode := AIRCOPY_WRITE_STRUCT }

/-- The expression `map->segments[i]`. -/
def segmentAt (map : AIRCOPY_TransferMap_t) (i : Nat) : AIRCOPY_Segment_t :=
  map.segments.getD i Segment_unspecified

/-- The function `AIRCOPY_GetCurrentMap` of aircopy.c:125-131: the map and the state with the
possibly reset index. -/
def AIRCOPY_GetCurrentMap (NUM_BANKS : Nat) (s : State) : AIRCOPY_TransferMap_t × State :=
  let s1 :=
    if s.gAircopyCurrentMapIndex ≥ AIRCOPY_NUM_MAPS NUM_BANKS then
      { s with gAircopyCurrentMapIndex := 0 }
    else s
  ((AIRCOPY_AvailableMaps NUM_BANKS).getD s1.gAircopyCurrentMapIndex AIRCOPY_Map_Settings, s1)

/-- The function `AIRCOPY_clear` of aircopy.c:133-142 (the screenshot hook, which touches no
variable of `State`, is left out). -/
def AIRCOPY_clear (s : State) : State :=
  { s with crc := (List.range 15).foldl (fun c i => c.set i 0) s.crc }

/-- The function `AIRCOPY_FindSegmentForOffset` of aircopy.c:144-157; `none` is `NULL`. -/
def AIRCOPY_FindSegmentForOffset (NUM_BANKS : Nat) (off : Nat) (s : State) :
    Option AIRCOPY_Segment_t × State :=
  let (map, s1) := AIRCOPY_GetCurrentMap NUM_BANKS s
  ((List.range map.num_segments).findSome? (fun i =>
      let seg := segmentAt map i
      if off ≥ seg.start_offset ∧ off < seg.end_offset then some seg else none), s1)

/-- The function `AIRCOPY_CheckComplete` of aircopy.c:159-171. -/
def AIRCOPY_CheckComplete (NUM_BANKS : Nat) (s : State) : State :=
  let (map, s1) := AIRCOPY_GetCurrentMap NUM_BANKS s
  let done := (s1.gAirCopyBlockNumber + s1.gErrorsDuringAirCopy) % 65536
  if done ≥ map.total_blocks then { s1 with gAircopyState := AIRCOPY_COMPLETE } else s1

/-! ## aircopy.c: the send path -/

/-- The loop `for (i = 0; i < 34; i++) g_FSK_Buffer[i + 1] ^= Obfuscation[i % 8];`, which is
aircopy.c:224-226 in `AIRCOPY_SendMessage` and aircopy.c:262-264 in `AIRCOPY_StorePacket`. -/
def obfuscationLoop (g_FSK_Buffer : List Nat) : List Nat :=
  (List.range 34).foldl
    (fun buf i => buf.set (i + 1) (buf.getD (i + 1) 0 ^^^ Obfuscation.getD (i % 8) 0))
    g_FSK_Buffer

/-- The bytes `&g_FSK_Buffer[1] .. ` handed to `CRC_Calculate(&g_FSK_Buffer[1], 2 + 64)`. -/
def crcInput (g_FSK_Buffer : List Nat) : List Nat :=
  bytesOfWords ((g_FSK_Buffer.drop 1).take 33)

/-- The 64 bytes at `&g_FSK_Buffer[2]`. -/
def payloadBytes (g_FSK_Buffer : List Nat) : List Nat :=
  bytesOfWords ((g_FSK_Buffer.drop 2).take 32)

/-- The buffer after the 64 bytes at `&g_FSK_Buffer[2]` have been replaced by `mem`. -/
def storePayload (g_FSK_Buffer mem : List Nat) : List Nat :=
  blit g_FSK_Buffer 2 32 (fun k => wordAt mem k)

/-- Lines 222-226 of `AIRCOPY_SendMessage`, after `g_FSK_Buffer[1] = CurrentOffset` and after
`EEPROM_ReadBuffer` has left the bytes `mem` at `&g_FSK_Buffer[2]`: the checksum goes to word
34 and words 1..34 are obfuscated.  `CRC_Calculate` (driver/crc.c, outside the sources) is a
parameter; its result is stored in a `uint16_t`. -/
def AIRCOPY_SendMessage_frame (CRC_Calculate : List Nat → Nat) (g_FSK_Buffer : List Nat)
    (mem : List Nat) : List Nat :=
  let buf2 := storePayload g_FSK_Buffer mem
  let buf3 := buf2.set 34 (CRC_Calculate (crcInput buf2) % 65536)
  obfuscationLoop buf3

/-- The loop of aircopy.c:200-207. -/
def AIRCOPY_SendMessage_advance (map : AIRCOPY_TransferMap_t) : Nat → State → Option State
  | fuel, s =>
    if s.CurrentSegmentIndex < map.num_segments ∧
        s.CurrentOffset ≥ (segmentAt map s.CurrentSegmentIndex).end_offset then
      match fuel with
      | 0 => none
      | fuel1 + 1 =>
        let s1 := { s with CurrentSegmentIndex := (s.CurrentSegmentIndex + 1) % 65536 }
        let s2 :=
          if s1.CurrentSegmentIndex < map.num_segments then
            { s1 with CurrentOffset := (segmentAt map s1.CurrentSegmentIndex).start_offset }
          else s1
        AIRCOPY_SendMessage_advance map fuel1 s2
    else some s

/-- The function `AIRCOPY_SendMessage` of aircopy.c:177-239: the returned `bool`, the new
state and the driver calls.  `flash` is the content of the storage device. -/
def AIRCOPY_SendMessage (NUM_BANKS : Nat) (CRC_Calculate : List Nat → Nat) (flash : Nat → Nat)
    (s : State) : Option (Bool × State × List Event) :=
  if s.gAircopyState ≠ AIRCOPY_TRANSFER then some (true, s, [])
  else
    let s1 := { s with gAircopySendCountdown := (s.gAircopySendCountdown + 255) % 256 }
    if s1.gAircopySendCountdown ≠ 0 then some (true, s1, [])
    else
      let (map, s2) := AIRCOPY_GetCurrentMap NUM_BANKS s1
      let s3 :=
        if s2.gAirCopyBlockNumber = 0 then
          { s2 with CurrentSegmentIndex := 0, CurrentOffset := (segmentAt map 0).start_offset }
        else s2
      match AIRCOPY_SendMessage_advance map map.num_segments s3 with
      | none => none
      | some s4 =>
        if s4.CurrentSegmentIndex ≥ map.num_segments then
          some (false, { s4 with gAircopyState := AIRCOPY_COMPLETE }, [])
        else
          let buf1 := s4.g_FSK_Buffer.set 1 s4.CurrentOffset
          match EEPROM_ReadBuffer flash s4.CurrentOffset (payloadBytes buf1) 64 with
          | none => none
          | some (mem, _) =>
            let buf4 := AIRCOPY_SendMessage_frame CRC_Calculate buf1 mem
            some (false,
              { s4 with
                g_FSK_Buffer := buf4,
                CurrentOffset := (s4.CurrentOffset + 64) % 65536,
                gAirCopyBlockNumber := (s4.gAirCopyBlockNumber + 1) % 65536,
                gAircopySendCountdown := 30 },
              [Event.EEPROM_ReadBuffer s4.CurrentOffset 64,
               Event.RADIO_SetTxParameters, Event.BK4819_SendFSKData buf4,
               Event.BK4819_SetupPowerAmplifier 0 0,
               Event.BK4819_ToggleGpioOut_PA_ENABLE false])


/-! ## aircopy.c: the receive path -/

/-- The test of aircopy.c:252 on the raw buffer; `Status` is the value of register 0x0B. -/
def AIRCOPY_StorePacket_frameError (Status : Nat) (g_FSK_Buffer : List Nat) : Bool :=
  decide (Status &&& 0x0010 ≠ 0 ∨ g_FSK_Buffer.getD 0 0 ≠ 0xABCD ∨
    g_FSK_Buffer.getD 35 0 ≠ 0xDCBA)

/-- The test of aircopy.c:266-267 on the de-obfuscated buffer. -/
def AIRCOPY_StorePacket_crcError (CRC_Calculate : List Nat → Nat) (g_FSK_Buffer : List Nat) :
    Bool :=
  let Crc := CRC_Calculate (crcInput g_FSK_Buffer) % 65536
  decide (g_FSK_Buffer.getD 34 0 ≠ Crc)

/-- The loop of aircopy.c:277-283: the final value of `validOffset`. -/
def AIRCOPY_StorePacket_validOffset (map : AIRCOPY_TransferMap_t) (Offset : Nat) : Bool :=
  (List.range map.num_segments).any (fun i =>
    decide (Offset ≥ (segmentAt map i).start_offset ∧ Offset < (segmentAt map i).end_offset))

/-- The loop of aircopy.c:304-307 (`AIRCOPY_WRITE_BYTES`): `p8` is `&g_FSK_Buffer[2]` seen as
bytes, each call reads the 8 bytes at `p8 + i * 8`. -/
def AIRCOPY_StorePacket_writeBytes (g_FSK_Buffer : List Nat) (Offset : Nat) : List Event :=
  let p8 := bytesOfWords (g_FSK_Buffer.drop 2)
  (List.range 8).map (fun i =>
    Event.EEPROM_WriteBuffer ((Offset + i * 8) % 65536) ((p8.drop (i * 8)).take 8))

/-- The loop of aircopy.c:314-319 (`AIRCOPY_WRITE_STRUCT`): the loop state is the calls made so
far, the word index `pData` into `g_FSK_Buffer` and `Offset`. -/
def AIRCOPY_StorePacket_writeStruct (g_FSK_Buffer : List Nat) (Offset : Nat) : List Event :=
  ((List.range 8).foldl
    (fun (acc : List Event × Nat × Nat) _ =>
      let (calls, pData, Offset) := acc
      (calls ++ [Event.EEPROM_WriteBuffer Offset
          ((bytesOfWords (g_FSK_Buffer.drop pData)).take 8)],
        pData + 4, (Offset + 8) % 65536))
    ([], 2, Offset)).1

/-- The function `AIRCOPY_StorePacket` of aircopy.c:241-324.  `Status` is what
`BK4819_ReadRegister(BK4819_REG_0B)` returns. -/
def AIRCOPY_StorePacket (NUM_BANKS : Nat) (CRC_Calculate : List Nat → Nat) (Status : Nat)
    (s : State) : State × List Event :=
  if s.gFSKWriteIndex < 36 then (s, [])
  else
    let s1 := { s with gFSKWriteIndex := 0, gUpdateDisplay := true }
    if AIRCOPY_StorePacket_frameError Status s1.g_FSK_Buffer then
      let s2 := { s1 with gErrorsDuringAirCopy := (s1.gErrorsDuringAirCopy + 1) % 65536 }
      (AIRCOPY_CheckComplete NUM_BANKS s2,
        [Event.BK4819_PrepareFSKReceive, Event.BK4819_ResetFSK, Event.BK4819_PrepareFSKReceive])
    else
      let s2 := { s1 with g_FSK_Buffer := obfuscationLoop s1.g_FSK_Buffer }
      if AIRCOPY_StorePacket_crcError CRC_Calculate s2.g_FSK_Buffer then
        let s3 := { s2 with gErrorsDuringAirCopy := (s2.gErrorsDuringAirCopy + 1) % 65536 }
        (AIRCOPY_CheckComplete NUM_BANKS s3, [Event.BK4819_PrepareFSKReceive])
      else
        let Offset := s2.g_FSK_Buffer.getD 1 0
        let (map, s3) := AIRCOPY_GetCurrentMap NUM_BANKS s2
        if ¬ AIRCOPY_StorePacket_validOffset map Offset then
          let s4 := { s3 with gErrorsDuringAirCopy := (s3.gErrorsDuringAirCopy + 1) % 65536 }
          (AIRCOPY_CheckComplete NUM_BANKS s4, [Event.BK4819_PrepareFSKReceive])
        else
          match AIRCOPY_FindSegmentForOffset NUM_BANKS Offset s3 with
          | (none, s4) =>
            let s5 := { s4 with gErrorsDuringAirCopy := (s4.gErrorsDuringAirCopy + 1) % 65536 }
            (AIRCOPY_CheckComplete NUM_BANKS s5, [Event.BK4819_PrepareFSKReceive])
          | (some seg, s4) =>
            let writes :=
              if seg.write_mode = AIRCOPY_WRITE_BYTES then
                AIRCOPY_StorePacket_writeBytes s4.g_FSK_Buffer Offset
              else AIRCOPY_StorePacket_writeStruct s4.g_FSK_Buffer Offset
            let s5 := { s4 with gAirCopyBlockNumber := (s4.gAirCopyBlockNumber + 1) % 65536 }
            (AIRCOPY_CheckComplete NUM_BANKS s5, Event.BK4819_PrepareFSKReceive :: writes)

/-! ## ui/aircopy.c -/

/-- The function `set_bit` of ui/aircopy.c:30-32 on an array of `uint8_t`. -/
def set_bit (array : List Nat) (bit_index : Nat) : List Nat :=
  array.set (bit_index / 8) ((array.getD (bit_index / 8) 0 ||| (1 <<< (bit_index % 8))) % 256)

/-- The function `get_bit` of ui/aircopy.c:34-36. -/
def get_bit (array : List Nat) (bit_index : Nat) : Nat :=
  (array.getD (bit_index / 8) 0 >>> (bit_index % 8)) &&& 1

/-- The number of characters `sprintf` writes for `%u` or `%d` of a value below 100000. -/
def decimalWidth (n : Nat) : Nat :=
  if n < 10 then 1 else if n < 100 then 2 else if n < 1000 then 3 else if n < 10000 then 4
  else 5

/-- The number of bytes that the `sprintf` of ui/aircopy.c:83-87 writes into
`char String[16]` (ui/aircopy.c:40), the terminating zero included, and 0 when
`gAirCopyIsSendMode` is neither 0 nor 1 and nothing is written.  The text is
`"RCV:%02u.%02u%% E:%d"` of `percent / 100`, `percent % 100` and `gErrorsDuringAirCopy` in
receive mode and `"SND:%02u.%02u%%"` in send mode; `percent` is the `uint16_t` of
ui/aircopy.c:76-81. -/
def UI_DisplayAircopy_sprintf (NUM_BANKS : Nat) (s : State) : Nat :=
  let s1 :=
    if s.gAircopyState = AIRCOPY_READY then s
    else if s.gAircopyState = AIRCOPY_TRANSFER then s
    else { s with gAircopyState := AIRCOPY_READY }
  let (currentMap, s2) := AIRCOPY_GetCurrentMap NUM_BANKS s1
  let doneBlocks := (s2.gAirCopyBlockNumber + s2.gErrorsDuringAirCopy) % 65536
  let doneBlocks1 := if doneBlocks > currentMap.total_blocks then currentMap.total_blocks
    else doneBlocks
  let percent := (doneBlocks1 * 10000 / currentMap.total_blocks) % 65536
  if s2.gAirCopyIsSendMode = 0 then
    4 + max 2 (decimalWidth (percent / 100)) + 1 + max 2 (decimalWidth (percent % 100)) + 1
      + 3 + decimalWidth s2.gErrorsDuringAirCopy + 1
  else if s2.gAirCopyIsSendMode = 1 then
    4 + max 2 (decimalWidth (percent / 100)) + 1 + max 2 (decimalWidth (percent % 100)) + 1 + 1
  else 0

/-- The state after a call of `UI_DisplayAircopy` (ui/aircopy.c:38-160) that stays inside
`String[16]`: lines 46-53, 74-79, 107-109 and 124-132; what the call draws is not
modelled. -/
def UI_DisplayAircopy_effect (NUM_BANKS : Nat) (s : State) : State :=
  let s1 :=
    if s.gAircopyState = AIRCOPY_READY then s
    else if s.gAircopyState = AIRCOPY_TRANSFER then s
    else { s with gAircopyState := AIRCOPY_READY }
  let (currentMap, s2) := AIRCOPY_GetCurrentMap NUM_BANKS s1
  let doneBlocks := (s2.gAirCopyBlockNumber + s2.gErrorsDuringAirCopy) % 65536
  let doneBlocks1 := if doneBlocks > currentMap.total_blocks then currentMap.total_blocks
    else doneBlocks
  let doneBlocks2 := if s2.gAircopyState = AIRCOPY_READY then 0 else doneBlocks1
  if doneBlocks2 > 0 then
    let s3 :=
      if s2.gErrorsDuringAirCopy ≠ s2.lErrorsDuringAirCopy then
        { s2 with crc := set_bit s2.crc (doneBlocks2 - 1),
                  lErrorsDuringAirCopy := s2.gErrorsDuringAirCopy }
      else s2
    (AIRCOPY_GetCurrentMap NUM_BANKS s3).2
  else s2

/-- The function `UI_DisplayAircopy` of ui/aircopy.c:38-160.  The result is `none` when the
progress text does not fit `char String[16]`: the `sprintf` of lines 83-87 then writes past
the array and the behaviour of the call is undefined.  Otherwise it is the state after the
call.  The texts of lines 57-68 and 112-118 (frequency, input box, memory range) are not
modelled. -/
def UI_DisplayAircopy (NUM_BANKS : Nat) (s : State) : Option State :=
  if UI_DisplayAircopy_sprintf NUM_BANKS s > 16 then none
  else some (UI_DisplayAircopy_effect NUM_BANKS s)

/-- Modelled from the spec: `GUI_DisplayScreen` (ui/ui.c is not among the sources) renders the
screen being displayed; while the air-copy key handlers run this is the air-copy screen, whose
renderer is `UI_DisplayAircopy`.  Its only caller here, `AIRCOPY_Key_MENU`, has set
`gAirCopyIsSendMode` to 1 before the call, and in send mode the text always fits
(`UI_DisplayAircopy_send_mode`, `Key_MENU_refresh_defined`), so the call is the state change
of `UI_DisplayAircopy`. -/
def GUI_DisplayScreen (NUM_BANKS : Nat) (s : State) : State :=
  UI_DisplayAircopy_effect NUM_BANKS s

/-! ## aircopy.c: key handlers -/

/-- The function `AIRCOPY_Key_EXIT` of aircopy.c:378-402. -/
def AIRCOPY_Key_EXIT (bKeyPressed bKeyHeld : Bool) (s : State) : State × List Event :=
  if bKeyHeld ∨ ¬ bKeyPressed then (s, [])
  else if s.gInputBoxIndex = 0 then
    let s1 := { s with gAircopyStep := 1, gFSKWriteIndex := 0, gAirCopyBlockNumber := 0,
                       gInputBoxIndex := 0, gErrorsDuringAirCopy := 0,
                       lErrorsDuringAirCopy := 0, gAirCopyIsSendMode := 0 }
    let s2 := AIRCOPY_clear s1
    ({ s2 with gAircopyState := AIRCOPY_TRANSFER,
               gRequestDisplayScreen := GUI_DisplayType_t.DISPLAY_AIRCOPY },
      [Event.BK4819_PrepareFSKReceive])
  else
    let s1 := { s with gInputBoxIndex := (s.gInputBoxIndex + 255) % 256 }
    ({ s1 with gInputBox := s1.gInputBox.set s1.gInputBoxIndex 10,
               gRequestDisplayScreen := GUI_DisplayType_t.DISPLAY_AIRCOPY }, [])

/-- The function `AIRCOPY_Key_MENU` of aircopy.c:404-424. -/
def AIRCOPY_Key_MENU (NUM_BANKS : Nat) (bKeyPressed bKeyHeld : Bool) (s : State) : State :=
  if bKeyHeld ∨ ¬ bKeyPressed then s
  else
    let s1 := { s with gAircopyStep := 1, gFSKWriteIndex := 0, gAirCopyBlockNumber := 0,
                       gInputBoxIndex := 0, gAirCopyIsSendMode := 1,
                       g_FSK_Buffer := ((s.g_FSK_Buffer.set 0 0xABCD).set 1 0).set 35 0xDCBA }
    let s2 := AIRCOPY_clear s1
    let s3 := GUI_DisplayScreen NUM_BANKS s2
    { s3 with gAircopyState := AIRCOPY_TRANSFER }

/-- The function `AIRCOPY_Key_UP_DOWN` of aircopy.c:426-443; `Direction` is an `int8_t`. -/
def AIRCOPY_Key_UP_DOWN (NUM_BANKS : Nat) (bKeyPressed bKeyHeld : Bool) (Direction : Int)
    (s : State) : State :=
  if bKeyHeld ∨ ¬ bKeyPressed then s
  else
    let s1 :=
      if Direction = 1 then
        { s with gAircopyCurrentMapIndex :=
            (s.gAircopyCurrentMapIndex + 1) % AIRCOPY_NUM_MAPS NUM_BANKS }
      else if Direction = -1 then
        { s with gAircopyCurrentMapIndex :=
            (s.gAircopyCurrentMapIndex + AIRCOPY_NUM_MAPS NUM_BANKS - 1)
              % AIRCOPY_NUM_MAPS NUM_BANKS }
      else s
    { s1 with gRequestDisplayScreen := GUI_DisplayType_t.DISPLAY_AIRCOPY }

/-- The key codes of driver/keyboard.h that `AIRCOPY_ProcessKeys` tells apart; every other
code (`KEY_OTHER`) takes the `default` branch of its switch. -/
inductive KEY_Code_t where
  | KEY_0 | KEY_1 | KEY_2 | KEY_3 | KEY_4 | KEY_5 | KEY_6 | KEY_7 | KEY_8 | KEY_9
  | KEY_MENU | KEY_UP | KEY_DOWN | KEY_EXIT | KEY_OTHER
  deriving DecidableEq

open KEY_Code_t

/-- What the key handlers use from outside aircopy.c: the build flag
`ENABLE_NAVIG_LEFT_RIGHT`, the effect of `INPUTBOX_Append` on `gInputBoxIndex` and
`gInputBox`, and whether the frequency typed in the input box lies in a band of
`frequencyBandTable` that `TX_freq_check` lets through. -/
structure KeyEnv where
  ENABLE_NAVIG_LEFT_RIGHT : Bool
  INPUTBOX_Append : KEY_Code_t → Nat × List Nat → Nat × List Nat
  frequencyInBand : List Nat → Bool

/-- The function `AIRCOPY_Key_DIGITS` of aircopy.c:330-376; the radio set-up of an accepted
frequency is recorded as events, the VFO it configures is not part of the session state. -/
def AIRCOPY_Key_DIGITS (env : KeyEnv) (Key : KEY_Code_t) (bKeyPressed bKeyHeld : Bool)
    (s : State) : State × List Event :=
  if bKeyHeld ∨ ¬ bKeyPressed then (s, [])
  else
    let box := env.INPUTBOX_Append Key (s.gInputBoxIndex, s.gInputBox)
    let s1 := { s with gInputBoxIndex := box.1, gInputBox := box.2,
                       gRequestDisplayScreen := GUI_DisplayType_t.DISPLAY_AIRCOPY }
    if s1.gInputBoxIndex < 6 then (s1, [])
    else
      let s2 := { s1 with gInputBoxIndex := 0 }
      if env.frequencyInBand s2.gInputBox then
        (s2, [Event.RADIO_ConfigureSquelchAndOutputPower, Event.RADIO_SetupRegisters true,
              Event.BK4819_SetupAircopy, Event.BK4819_ResetFSK])
      else ({ s2 with gRequestDisplayScreen := GUI_DisplayType_t.DISPLAY_AIRCOPY }, [])

/-- The function `AIRCOPY_ProcessKeys` of aircopy.c:445-483. -/
def AIRCOPY_ProcessKeys (NUM_BANKS : Nat) (env : KeyEnv) (Key : KEY_Code_t)
    (bKeyPressed bKeyHeld : Bool) (s : State) : State × List Event :=
  match Key with
  | KEY_0 | KEY_1 | KEY_2 | KEY_3 | KEY_4 | KEY_5 | KEY_6 | KEY_7 | KEY_8 | KEY_9 =>
    AIRCOPY_Key_DIGITS env Key bKeyPressed bKeyHeld s
  | KEY_MENU => (AIRCOPY_Key_MENU NUM_BANKS bKeyPressed bKeyHeld s, [])
  | KEY_EXIT => AIRCOPY_Key_EXIT bKeyPressed bKeyHeld s
  | KEY_UP =>
    if env.ENABLE_NAVIG_LEFT_RIGHT then
      (AIRCOPY_Key_UP_DOWN NUM_BANKS bKeyPressed bKeyHeld (-1) s, [])
    else (AIRCOPY_Key_UP_DOWN NUM_BANKS bKeyPressed bKeyHeld 1 s, [])
  | KEY_DOWN =>
    if env.ENABLE_NAVIG_LEFT_RIGHT then
      (AIRCOPY_Key_UP_DOWN NUM_BANKS bKeyPressed bKeyHeld 1 s, [])
    else (AIRCOPY_Key_UP_DOWN NUM_BANKS bKeyPressed bKeyHeld (-1) s, [])
  | KEY_OTHER => (s, [])

/-! ## Sessions and the vocabulary of the statements -/

/-- The three tests a packet has to pass in `AIRCOPY_StorePacket` before it is written to
storage: the framing test on the raw buffer, the checksum test and the offset validation on
the de-obfuscated buffer. -/
def packetAccepted (NUM_BANKS : Nat) (CRC_Calculate : List Nat → Nat) (Status : Nat)
    (s : State) : Bool :=
  !AIRCOPY_StorePacket_frameError Status s.g_FSK_Buffer &&
  !AIRCOPY_StorePacket_crcError CRC_Calculate (obfuscationLoop s.g_FSK_Buffer) &&
  AIRCOPY_StorePacket_validOffset (AIRCOPY_GetCurrentMap NUM_BANKS s).1
    ((obfuscationLoop s.g_FSK_Buffer).getD 1 0)

/-- Modelled from the spec: the receive capability (app/app.c is not among the sources)
"appends words into the shared packet buffer and a write-index counter; when the index
reaches the full packet length, the receive path is invoked".  A received packet is the
status word of the modem and the 36 words; they are put in the buffer, the write index is
36, and `AIRCOPY_StorePacket` runs. -/
def receivePacket (NUM_BANKS : Nat) (CRC_Calculate : List Nat → Nat) (s : State)
    (pkt : Nat × List Nat) : State × List Event :=
  AIRCOPY_StorePacket NUM_BANKS CRC_Calculate pkt.1
    { s with g_FSK_Buffer := pkt.2, gFSKWriteIndex := 36 }

/-- The state after a sequence of received packets. -/
def receivePackets (NUM_BANKS : Nat) (CRC_Calculate : List Nat → Nat) :
    State → List (Nat × List Nat) → State
  | s, [] => s
  | s, pkt :: rest =>
    receivePackets NUM_BANKS CRC_Calculate (receivePacket NUM_BANKS CRC_Calculate s pkt).1 rest

/-- Whether the packet `pkt`, received in state `s`, is accepted. -/
def receiveAccepts (NUM_BANKS : Nat) (CRC_Calculate : List Nat → Nat) (s : State)
    (pkt : Nat × List Nat) : Bool :=
  packetAccepted NUM_BANKS CRC_Calculate pkt.1
    { s with g_FSK_Buffer := pkt.2, gFSKWriteIndex := 36 }

/-- The state after `n` calls of `AIRCOPY_SendMessage` (the send ticks of a session). -/
def sendTicks (NUM_BANKS : Nat) (CRC_Calculate : List Nat → Nat) (flash : Nat → Nat) :
    Nat → State → Option State
  | 0, s => some s
  | n + 1, s =>
    match AIRCOPY_SendMessage NUM_BANKS CRC_Calculate flash s with
    | none => none
    | some (_, s1, _) => sendTicks NUM_BANKS CRC_Calculate flash n s1

/-- The logical address `a` lies in the logical range of the table entry `p`. -/
def inEntry (p : AddrMapping_t) (a : Nat) : Prop :=
  p.EEPROM_Addr ≤ a ∧ a < p.EEPROM_Addr + p.Size

instance (p : AddrMapping_t) (a : Nat) : Decidable (inEntry p a) := by
  unfold inEntry; infer_instance

/-- The iterations `cs` of a read or write loop tile `n` bytes from logical address `a` and
buffer offset `off`: every chunk starts where the one before ended, in the logical space and
in the buffer, has between 1 and the remaining number of bytes, and nothing remains. -/
def Tiles : Nat → Nat → Nat → List Chunk → Prop
  | _, _, n, [] => n = 0
  | a, off, n, c :: cs =>
    c.Address = a ∧ c.pBuffer = off ∧ 1 ≤ c.PY_Size ∧ c.PY_Size ≤ n ∧
      Tiles (a + c.PY_Size) (off + c.PY_Size) (n - c.PY_Size) cs

/-- The un-obfuscated word `j` (`1 ≤ j ≤ 34`) of the packet for the block at `offset` whose 64
bytes are `mem`: the offset, the payload words, and the checksum of those 66 bytes. -/
def plainWord (CRC_Calculate : List Nat → Nat) (offset : Nat) (mem : List Nat) (j : Nat) : Nat :=
  if j = 1 then offset
  else if j ≤ 33 then wordAt mem (j - 2)
  else CRC_Calculate (wordBytes offset ++ mem) % 65536

/-- Whether the logical address `a` lies in some entry of `ADDR_MAPPINGS`. -/
def mapped (a : Nat) : Bool := (AddrTranslate_scan a ADDR_MAPPINGS).isSome

/-- What byte `i` of a read that starts at logical address `a` is expected to be: the
storage byte at the translated address of `a + i` when all of `a .. a + i` are backed, the
fill byte otherwise (a hole chunk extends to the end of the request). -/
def readSpec (flash : Nat → Nat) (a i : Nat) : Nat :=
  if ∀ k, k ≤ i → mapped (a + k) = true then
    flash (AddrTranslate (a + i) 1 false).PY25Q16_Addr_out % 256
  else 0xff

/-- The driver call that `EEPROM_WriteBuffer` is expected to issue for the chunk `c` of the
source bytes `mem`: none when the chunk starts at an unbacked address. -/
def writeCallOf (mem : List Nat) (c : Chunk) : Option PY25Q16_WriteBuffer_call :=
  if mapped c.Address = true then
    some { PY_Addr := c.PY_Addr, data := (mem.drop c.pBuffer).take c.PY_Size,
           PY_Size := c.PY_Size, AppendFlag := c.AppendFlag }
  else none

/-- The chunk `c` carries what the translator yields for its start address: the hole address
when that address is unbacked; otherwise, for the entry `(P, L, S)` that contains it, the
physical address `P + (Address - L)`, a size within the rest of the entry, and the end flag
that says whether the chunk reaches the end of the entry. -/
def chunkTranslated (c : Chunk) : Prop :=
  (mapped c.Address = false → c.PY_Addr = HOLE_ADDR) ∧
  ∀ p ∈ ADDR_MAPPINGS, inEntry p c.Address →
    c.PY_Addr = p.PY25Q16_Addr + (c.Address - p.EEPROM_Addr) ∧ c.PY_Addr < HOLE_ADDR ∧
    c.PY_Size ≤ p.Size - (c.Address - p.EEPROM_Addr) ∧
    c.AppendFlag = some (decide (c.PY_Size = p.Size - (c.Address - p.EEPROM_Addr)))

/-- The number of chunks of `cs` that cover byte `i` of the caller's buffer. -/
def coverCount (cs : List Chunk) (i : Nat) : Nat :=
  (cs.filter (fun c => decide (c.pBuffer ≤ i ∧ i < c.pBuffer + c.PY_Size))).length

/-- The state of the globals when the firmware starts: statics are zero, the send countdown
is initialised to 1 (aircopy.c:179). -/
def State_boot : State :=
  { gAircopyState := AIRCOPY_READY, gAirCopyBlockNumber := 0, gErrorsDuringAirCopy := 0,
    gAirCopyIsSendMode := 0, g_FSK_Buffer := List.replicate 36 0,
    gAircopyCurrentMapIndex := 0, gFSKWriteIndex := 0, gUpdateDisplay := false,
    gAircopyStep := 0, gInputBoxIndex := 0, gInputBox := List.replicate 8 0,
    gRequestDisplayScreen := GUI_DisplayType_t.DISPLAY_INVALID, lErrorsDuringAirCopy := 0,
    crc := List.replicate 15 0, gAircopySendCountdown := 1, CurrentOffset := 0,
    CurrentSegmentIndex := 0 }

/-- The state of `AIRCOPY_SendMessage` when it reaches the loop of aircopy.c:200, that is
after the countdown has been decremented (to zero), the current map fetched and the cursor
initialised when `gAirCopyBlockNumber` is 0 (aircopy.c:187-197). -/
def SendMessage_prepared (NUM_BANKS : Nat) (s : State) : State :=
  let s1 := { s with gAircopySendCountdown := (s.gAircopySendCountdown + 255) % 256 }
  let (map, s2) := AIRCOPY_GetCurrentMap NUM_BANKS s1
  if s2.gAirCopyBlockNumber = 0 then
    { s2 with CurrentSegmentIndex := 0, CurrentOffset := (segmentAt map 0).start_offset }
  else s2

/-- The 64 bytes that `EEPROM_ReadBuffer(offset, .., 64)` is expected to deliver. -/
def readBlock (flash : Nat → Nat) (offset : Nat) : List Nat :=
  (List.range 64).map (readSpec flash (offset % 65536))

/-- A checksum function for the worked examples: the 16-bit sum of the bytes. -/
def sample_CRC (bytes : List Nat) : Nat := bytes.foldl (fun acc b => (acc + b) % 65536) 0

/-- A storage content for the worked examples: the byte at physical address `a` is the low
byte of `a`. -/
def sample_flash (a : Nat) : Nat := a % 256

/-- The buffer of the sender right after start-send from the boot state. -/
def sample_sendBuffer : List Nat :=
  (AIRCOPY_Key_MENU 8 true false State_boot).g_FSK_Buffer

/-- The packet for `offset` with 64 zero payload bytes, as the send path builds it. -/
def sample_packet (offset : Nat) : List Nat :=
  AIRCOPY_SendMessage_frame sample_CRC (sample_sendBuffer.set 1 offset) (List.replicate 64 0)

/-- The scenario of the spec for the settings map (`total_blocks = 6`): four well-formed
packets for the blocks at 0xA000 .. 0xA0C0, then a packet with wrong markers and a packet
received with status bit 0x0010 set. -/
def sample_session : List (Nat × List Nat) :=
  [(0, sample_packet 0xA000), (0, sample_packet 0xA040), (0, sample_packet 0xA080),
   (0, sample_packet 0xA0C0), (0, List.replicate 36 0), (0x0010, sample_packet 0xA100)]

/-- A build for the worked examples: `KEY_UP` steps forward, the input box takes one more
digit per key, and no typed frequency is accepted. -/
def sample_KeyEnv : KeyEnv :=
  { ENABLE_NAVIG_LEFT_RIGHT := false
    INPUTBOX_Append := fun _ box => (box.1 + 1, box.2)
    frequencyInBand := fun _ => false }

/-- The state of the worked examples after a receive session on the settings map of a
two-bank build has ended with four blocks and two errors and has been rendered once; the
text of that rendering, `RCV:100.00% E:2`, fits (`State_afterErrors_rendered`). -/
def State_afterErrors : State :=
  UI_DisplayAircopy_effect 2 (receivePackets 2 sample_CRC
    (AIRCOPY_Key_EXIT true false { State_boot with gAircopyCurrentMapIndex := 2 }).1
    (sample_session.take 6))

/-- A packet of the worked examples that is rejected: 36 zero words, so neither marker, with
a clear status word. -/
def sample_badPacket : Nat × List Nat := (0, List.replicate 36 0)

/-- The state after `n` send ticks, with the driver calls of all of them in order. -/
def sendRun (NUM_BANKS : Nat) (CRC_Calculate : List Nat → Nat) (flash : Nat → Nat) :
    Nat → State → Option (State × List Event)
  | 0, s => some (s, [])
  | n + 1, s =>
    match AIRCOPY_SendMessage NUM_BANKS CRC_Calculate flash s with
    | none => none
    | some (_, s1, evs) =>
      match sendRun NUM_BANKS CRC_Calculate flash n s1 with
      | none => none
      | some (sn, rest) => some (sn, evs ++ rest)

/-- The packets handed to `BK4819_SendFSKData`, in order. -/
def sentPackets : List Event → List (List Nat)
  | [] => []
  | Event.BK4819_SendFSKData pkt :: rest => pkt :: sentPackets rest
  | _ :: rest => sentPackets rest

/-- The logical offset a packet carries: word 1 once the obfuscation is removed. -/
def packetOffset (pkt : List Nat) : Nat := (obfuscationLoop pkt).getD 1 0

/-- The block offsets of one segment: `start`, `start + 64`, ... below `end`; there are
`ceil ((end - start) / 64)` of them. -/
def segmentBlocks (seg : AIRCOPY_Segment_t) : List Nat :=
  (List.range ((seg.end_offset - seg.start_offset + 63) / 64)).map
    (fun i => seg.start_offset + 64 * i)

/-- The block offsets of a list of segments, segment by segment. -/
def blockOffsets : List AIRCOPY_Segment_t → List Nat
  | [] => []
  | seg :: rest => segmentBlocks seg ++ blockOffsets rest

/-- The block offsets of a map: those of its `num_segments` segments in their order. -/
def expectedOffsets (map : AIRCOPY_TransferMap_t) : List Nat :=
  blockOffsets (map.segments.take map.num_segments)

/-- The loop of aircopy.c:200-207 on the cursor `(CurrentSegmentIndex, CurrentOffset)`
alone. -/
def cursorAdvance (map : AIRCOPY_TransferMap_t) : Nat → Nat × Nat → Option (Nat × Nat)
  | fuel, c =>
    if c.1 < map.num_segments ∧ c.2 ≥ (segmentAt map c.1).end_offset then
      match fuel with
      | 0 => none
      | fuel1 + 1 =>
        cursorAdvance map fuel1
          ((c.1 + 1) % 65536,
           if (c.1 + 1) % 65536 < map.num_segments then
             (segmentAt map ((c.1 + 1) % 65536)).start_offset
           else c.2)
    else some c

/-- What lines 194-216 and 234 of `AIRCOPY_SendMessage` do to the cursor on a due tick with
block count `block`: the offset of the block that is transmitted (`none` when the transfer
completes instead) and the cursor afterwards. -/
def cursorDue (map : AIRCOPY_TransferMap_t) (block : Nat) (c : Nat × Nat) :
    Option (Option Nat × (Nat × Nat)) :=
  match cursorAdvance map map.num_segments
      (if block = 0 then (0, (segmentAt map 0).start_offset) else c) with
  | none => none
  | some c2 =>
    if c2.1 ≥ map.num_segments then some (none, c2)
    else some (some c2.2, (c2.1, (c2.2 + 64) % 65536))

/-- The cursor after the first `k` blocks of a session that started with block count 0. -/
def cursorAfter (map : AIRCOPY_TransferMap_t) : Nat → Nat × Nat
  | 0 => (0, 0)
  | k + 1 =>
    match cursorDue map k (cursorAfter map k) with
    | some (_, c) => c
    | none => (0, 0)

/-- The send path follows the block offsets of `map`: the `k`-th due tick of a session
transmits the `k`-th block offset, and the due tick after the last block completes the
transfer; the map has between 1 and 68 blocks, as many as it declares. -/
def followsPlan (map : AIRCOPY_TransferMap_t) : Prop :=
  (expectedOffsets map).length = map.total_blocks ∧
  1 ≤ map.total_blocks ∧ map.total_blocks ≤ 68 ∧
  (∀ k, k < map.total_blocks →
    cursorDue map k (cursorAfter map k) =
      some (some ((expectedOffsets map).getD k 0), cursorAfter map (k + 1))) ∧
  (cursorDue map map.total_blocks (cursorAfter map map.total_blocks)).map Prod.fst
    = some none

instance (map : AIRCOPY_TransferMap_t) : Decidable (followsPlan map) := by
  unfold followsPlan; infer_instance

/-- The tick of a session, counted from 1, at which the countdown `c` first reaches zero. -/
def firstDue (c : Nat) : Nat := if c % 256 = 0 then 256 else c % 256

/-- The number of due ticks among the first `n` ticks of a send session on a map of `T`
blocks whose countdown was `c` at the start: one at tick `firstDue c` and one every 30 ticks
after it, until the one that completes the transfer. -/
def dueTicks (c T n : Nat) : Nat :=
  if n < firstDue c then 0
  else if (n - firstDue c) / 30 + 1 ≤ T then (n - firstDue c) / 30 + 1
  else T + 1

/-- The number of due ticks among the first `n` ticks of the send session that starts in
state `s`. -/
def sessionDue (NUM_BANKS : Nat) (s : State) (n : Nat) : Nat :=
  dueTicks s.gAircopySendCountdown (AIRCOPY_GetCurrentMap NUM_BANKS s).1.total_blocks n

/-- The packet that the send path builds for the block at `offset` in a session whose buffer
was `buf` at the start. -/
def sessionPacket (CRC_Calculate : List Nat → Nat) (flash : Nat → Nat) (buf : List Nat)
    (offset : Nat) : List Nat :=
  AIRCOPY_SendMessage_frame CRC_Calculate (buf.set 1 offset) (readBlock flash offset)

/-- The physical address that `AddrTranslate` gives for the logical address `a`. -/
def physical (a : Nat) : Nat := (AddrTranslate a 1 false).PY25Q16_Addr_out

/-- Modelled from the spec: `PY25Q16_WriteBuffer` (driver/py25q16.c is not among the sources)
is the physical write of the storage device; the storage is a byte array, and a write stores
exactly the `PY_Size` given bytes from `PY_Addr` on. -/
def PY25Q16_WriteBuffer (flash : Nat → Nat) (c : PY25Q16_WriteBuffer_call) : Nat → Nat :=
  fun a => if c.PY_Addr ≤ a ∧ a < c.PY_Addr + c.PY_Size then c.data.getD (a - c.PY_Addr) 0
    else flash a

/-- The storage after `EEPROM_WriteBuffer(Address, mem)`. -/
def storeGranule (flash : Nat → Nat) (Address : Nat) (mem : List Nat) : Nat → Nat :=
  match EEPROM_WriteBuffer Address mem with
  | some (calls, _) => calls.foldl PY25Q16_WriteBuffer flash
  | none => flash

/-- The storage after a driver call of the receive path. -/
def storeEvent (flash : Nat → Nat) : Event → Nat → Nat
  | Event.EEPROM_WriteBuffer a data => storeGranule flash a data
  | _ => flash

/-- The storage after a sequence of driver calls. -/
def storeEvents (flash : Nat → Nat) (evs : List Event) : Nat → Nat :=
  evs.foldl storeEvent flash

/-- The state after a sequence of received packets, with the driver calls of all of them in
order. -/
def receiveRun (NUM_BANKS : Nat) (CRC_Calculate : List Nat → Nat) :
    State → List (Nat × List Nat) → State × List Event
  | s, [] => (s, [])
  | s, pkt :: rest =>
    ((receiveRun NUM_BANKS CRC_Calculate
        (receivePacket NUM_BANKS CRC_Calculate s pkt).1 rest).1,
     (receivePacket NUM_BANKS CRC_Calculate s pkt).2 ++
      (receiveRun NUM_BANKS CRC_Calculate
        (receivePacket NUM_BANKS CRC_Calculate s pkt).1 rest).2)

/-- The write of 8 bytes at logical address `a` reaches the logical address `y`: `y` is one
of the 8 addresses and every address from `a` to `y` is backed. -/
def granuleCovers (a y : Nat) : Prop :=
  a ≤ y ∧ y < a + 8 ∧ ∀ k, k ≤ y - a → mapped (a + k) = true

/-- The constant `AIRCOPY_BAR_WIDTH` of aircopy.h:33. -/
def AIRCOPY_BAR_WIDTH : Nat := 120

/-- The bit indices that one call of `UI_DisplayAircopy` passes to `set_bit` (first component,
ui/aircopy.c:124-132) and to `get_bit` (second component, one per column of the gauge whose
block is processed, ui/aircopy.c:134-148; `processed && get_bit(crc, b)` does not call
`get_bit` for an unprocessed block).  The computation of `doneBlocks` is the one of
`UI_DisplayAircopy`; `col * (uint32_t)total` is a 32-bit product and `b` a `uint16_t`. -/
def UI_DisplayAircopy_bitAccesses (NUM_BANKS : Nat) (s : State) : List Nat × List Nat :=
  let s1 :=
    if s.gAircopyState = AIRCOPY_READY then s
    else if s.gAircopyState = AIRCOPY_TRANSFER then s
    else { s with gAircopyState := AIRCOPY_READY }
  let (currentMap, s2) := AIRCOPY_GetCurrentMap NUM_BANKS s1
  let doneBlocks := (s2.gAirCopyBlockNumber + s2.gErrorsDuringAirCopy) % 65536
  let doneBlocks1 := if doneBlocks > currentMap.total_blocks then currentMap.total_blocks
    else doneBlocks
  let doneBlocks2 := if s2.gAircopyState = AIRCOPY_READY then 0 else doneBlocks1
  if doneBlocks2 > 0 then
    let written :=
      if s2.gErrorsDuringAirCopy ≠ s2.lErrorsDuringAirCopy then [doneBlocks2 - 1] else []
    let s3 :=
      if s2.gErrorsDuringAirCopy ≠ s2.lErrorsDuringAirCopy then
        { s2 with crc := set_bit s2.crc (doneBlocks2 - 1),
                  lErrorsDuringAirCopy := s2.gErrorsDuringAirCopy }
      else s2
    let (currentMap2, s4) := AIRCOPY_GetCurrentMap NUM_BANKS s3
    let total := currentMap2.total_blocks
    let done0 := (s4.gAirCopyBlockNumber + s4.gErrorsDuringAirCopy) % 65536
    let done := if done0 > total then total else done0
    (written,
      (List.range AIRCOPY_BAR_WIDTH).filterMap (fun col =>
        let b := ((col * total) % 4294967296 / AIRCOPY_BAR_WIDTH) % 65536
        if b < done then some b else none))
  else ([], [])

theorem list_ext_getD {a b : List Nat} (hl : a.length = b.length)
    (h : ∀ j, j < a.length → a.getD j 0 = b.getD j 0) : a = b := by
  apply List.ext_getElem hl
  intro j h1 h2
  have := h j h1
  simpa [List.getD_eq_getElem?_getD, List.getElem?_eq_getElem h1,
    List.getElem?_eq_getElem h2] using this

theorem getD_set_eq (l : List Nat) (i j v : Nat) :
    (l.set i v).getD j 0 = if i = j ∧ j < l.length then v else l.getD j 0 := by
  simp only [List.getD_eq_getElem?_getD, List.getElem?_set]
  by_cases h : i = j
  · subst h
    by_cases hl : i < l.length
    · simp [hl]
    · simp [hl, List.getElem?_eq_none (Nat.le_of_not_lt hl)]
  · simp [h]

theorem getD_of_le (l : List Nat) (j : Nat) (h : l.length ≤ j) : l.getD j 0 = 0 := by
  simp [List.getD_eq_getElem?_getD, List.getElem?_eq_none h]

theorem getD_take_drop (l : List Nat) (a n j : Nat) :
    ((l.drop a).take n).getD j 0 = if j < n then l.getD (a + j) 0 else 0 := by
  simp only [List.getD_eq_getElem?_getD, List.getElem?_take, List.getElem?_drop]
  split <;> simp

theorem getD_drop (l : List Nat) (a j : Nat) : (l.drop a).getD j 0 = l.getD (a + j) 0 := by
  simp [List.getD_eq_getElem?_getD, List.getElem?_drop]

theorem blit_length (mem : List Nat) (off n : Nat) (f : Nat → Nat) :
    (blit mem off n f).length = mem.length := by
  unfold blit
  induction n with
  | zero => simp
  | succ n ih => simp [List.range_succ, List.foldl_append, ih]

theorem blit_getD (mem : List Nat) (off n : Nat) (f : Nat → Nat) (j : Nat) :
    (blit mem off n f).getD j 0 =
      if off ≤ j ∧ j < off + n ∧ j < mem.length then f (j - off) else mem.getD j 0 := by
  unfold blit
  induction n with
  | zero =>
    have : ¬ (off ≤ j ∧ j < off + 0 ∧ j < mem.length) := by omega
    rw [if_neg this]; rfl
  | succ n ih =>
    simp only [List.range_succ, List.foldl_append, List.foldl_cons, List.foldl_nil]
    rw [getD_set_eq, ih]
    have hlen := blit_length mem off n f
    unfold blit at hlen
    rw [hlen]
    by_cases h1 : off + n = j ∧ j < mem.length
    · obtain ⟨h1, h2⟩ := h1
      subst h1
      have : off ≤ off + n ∧ off + n < off + (n + 1) ∧ off + n < mem.length := by omega
      simp [this, h2]
    · rw [if_neg h1]
      by_cases h2 : off ≤ j ∧ j < off + n ∧ j < mem.length
      · have : off ≤ j ∧ j < off + (n + 1) ∧ j < mem.length := by omega
        rw [if_pos h2, if_pos this]
      · have : ¬ (off ≤ j ∧ j < off + (n + 1) ∧ j < mem.length) := by omega
        rw [if_neg h2, if_neg this]

theorem bytesOfWords_length (ws : List Nat) : (bytesOfWords ws).length = 2 * ws.length := by
  induction ws with
  | nil => rfl
  | cons w ws ih => simp [bytesOfWords, wordBytes, ih]; omega

theorem bytesOfWords_getD (ws : List Nat) (j : Nat) :
    (bytesOfWords ws).getD j 0 =
      if j % 2 = 0 then ws.getD (j / 2) 0 % 256 else ws.getD (j / 2) 0 / 256 % 256 := by
  induction ws generalizing j with
  | nil => simp [bytesOfWords]
  | cons w ws ih =>
    match j with
    | 0 => simp [bytesOfWords, wordBytes]
    | 1 => simp [bytesOfWords, wordBytes]
    | j + 2 =>
      have h1 : (j + 2) % 2 = j % 2 := by omega
      have h2 : (j + 2) / 2 = j / 2 + 1 := by omega
      simp only [bytesOfWords, wordBytes, List.cons_append, List.nil_append,
        List.getD_cons_succ, h1, h2]
      exact ih j

theorem bytesOfWords_lt (ws : List Nat) : ∀ b ∈ bytesOfWords ws, b < 256 := by
  induction ws with
  | nil => simp [bytesOfWords]
  | cons w ws ih =>
    intro b hb
    simp only [bytesOfWords, wordBytes, List.cons_append, List.nil_append,
      List.mem_cons] at hb
    rcases hb with h | h | h
    · omega
    · omega
    · exact ih b h

/-! ## The obfuscation loop -/

theorem obfuscation_prefix_length (n : Nat) (buf : List Nat) :
    ((List.range n).foldl
      (fun buf i => buf.set (i + 1) (buf.getD (i + 1) 0 ^^^ Obfuscation.getD (i % 8) 0))
      buf).length = buf.length := by
  induction n with
  | zero => simp
  | succ n ih =>
    simp only [List.range_succ, List.foldl_append, List.foldl_cons, List.foldl_nil,
      List.length_set]
    exact ih

theorem obfuscation_prefix_getD (n : Nat) (buf : List Nat) (j : Nat) :
    ((List.range n).foldl
      (fun buf i => buf.set (i + 1) (buf.getD (i + 1) 0 ^^^ Obfuscation.getD (i % 8) 0))
      buf).getD j 0 =
      if 1 ≤ j ∧ j ≤ n ∧ j < buf.length then
        buf.getD j 0 ^^^ Obfuscation.getD ((j - 1) % 8) 0
      else buf.getD j 0 := by
  induction n with
  | zero =>
    have : ¬ (1 ≤ j ∧ j ≤ 0 ∧ j < buf.length) := by omega
    rw [if_neg this]; rfl
  | succ n ih =>
    simp only [List.range_succ, List.foldl_append, List.foldl_cons, List.foldl_nil]
    rw [getD_set_eq, obfuscation_prefix_length]
    by_cases h1 : n + 1 = j ∧ j < buf.length
    · obtain ⟨h1, h2⟩ := h1
      subst h1
      have ha : ¬ (1 ≤ n + 1 ∧ n + 1 ≤ n ∧ n + 1 < buf.length) := by omega
      have hb : 1 ≤ n + 1 ∧ n + 1 ≤ n + 1 ∧ n + 1 < buf.length := by omega
      have := ih
      rw [if_neg ha] at this
      rw [if_pos ⟨rfl, h2⟩, if_pos hb, this, Nat.add_sub_cancel]
    · rw [if_neg h1, ih]
      by_cases h2 : 1 ≤ j ∧ j ≤ n ∧ j < buf.length
      · have : 1 ≤ j ∧ j ≤ n + 1 ∧ j < buf.length := by omega
        rw [if_pos h2, if_pos this]
      · have : ¬ (1 ≤ j ∧ j ≤ n + 1 ∧ j < buf.length) := by omega
        rw [if_neg h2, if_neg this]

theorem obfuscationLoop_length (buf : List Nat) :
    (obfuscationLoop buf).length = buf.length :=
  obfuscation_prefix_length 34 buf

theorem obfuscationLoop_getD (buf : List Nat) (j : Nat) :
    (obfuscationLoop buf).getD j 0 =
      if 1 ≤ j ∧ j ≤ 34 ∧ j < buf.length then
        buf.getD j 0 ^^^ Obfuscation.getD ((j - 1) % 8) 0
      else buf.getD j 0 :=
  obfuscation_prefix_getD 34 buf j

theorem obfuscationLoop_twice (buf : List Nat) :
    obfuscationLoop (obfuscationLoop buf) = buf := by
  apply list_ext_getD (by simp [obfuscationLoop_length])
  intro j _
  rw [obfuscationLoop_getD, obfuscationLoop_getD, obfuscationLoop_length]
  split
  · rw [Nat.xor_assoc, Nat.xor_self, Nat.xor_zero]
  · rfl

/-- C1. Obfuscation is self-inverse: running the XOR loop of `AIRCOPY_SendMessage`
(word `i + 1` XOR `Obfuscation[i % 8]`, `i = 0..33`) and then the identical loop of
`AIRCOPY_StorePacket` leaves every buffer as it was; in particular the 34 words
`x = g_FSK_Buffer[1..34]` of any 36-word buffer come back unchanged, and so do the two
markers around them. -/
theorem C1_obfuscation_round_trip (m0 m35 : Nat) (x : List Nat) :
    obfuscationLoop (obfuscationLoop (m0 :: x ++ [m35])) = m0 :: x ++ [m35] ∧
    ∀ g_FSK_Buffer : List Nat, obfuscationLoop (obfuscationLoop g_FSK_Buffer) = g_FSK_Buffer :=
  ⟨obfuscationLoop_twice _, obfuscationLoop_twice⟩

/-! ## The current map and the completion check -/

theorem GetCurrentMap_snd (nb : Nat) (s : State) :
    (AIRCOPY_GetCurrentMap nb s).2 =
      { s with gAircopyCurrentMapIndex :=
          if s.gAircopyCurrentMapIndex ≥ AIRCOPY_NUM_MAPS nb then 0
          else s.gAircopyCurrentMapIndex } := by
  unfold AIRCOPY_GetCurrentMap
  by_cases h : s.gAircopyCurrentMapIndex ≥ AIRCOPY_NUM_MAPS nb
  · simp only [h, if_true]
  · simp only [h, if_false]

theorem GetCurrentMap_fst (nb : Nat) (s : State) :
    (AIRCOPY_GetCurrentMap nb s).1 =
      (AIRCOPY_AvailableMaps nb).getD
        (if s.gAircopyCurrentMapIndex ≥ AIRCOPY_NUM_MAPS nb then 0
          else s.gAircopyCurrentMapIndex) AIRCOPY_Map_Settings := by
  unfold AIRCOPY_GetCurrentMap
  by_cases h : s.gAircopyCurrentMapIndex ≥ AIRCOPY_NUM_MAPS nb
  · simp only [h, if_true]
  · simp only [h, if_false]

theorem CheckComplete_eq (nb : Nat) (s : State) :
    AIRCOPY_CheckComplete nb s =
      { s with
        gAircopyCurrentMapIndex := (AIRCOPY_GetCurrentMap nb s).2.gAircopyCurrentMapIndex,
        gAircopyState :=
          if (s.gAirCopyBlockNumber + s.gErrorsDuringAirCopy) % 65536 ≥
              (AIRCOPY_GetCurrentMap nb s).1.total_blocks then AIRCOPY_COMPLETE
          else s.gAircopyState } := by
  unfold AIRCOPY_CheckComplete
  simp only [GetCurrentMap_snd]
  split_ifs <;> rfl

/-! ## Packets: words and bytes -/

theorem wordAt_lo (mem : List Nat) (k : Nat) :
    wordAt mem k % 256 = mem.getD (2 * k) 0 % 256 := by
  unfold wordAt; omega

theorem wordAt_hi (mem : List Nat) (k : Nat) :
    wordAt mem k / 256 % 256 = mem.getD (2 * k + 1) 0 % 256 := by
  unfold wordAt; omega

theorem getD_lt_256 (mem : List Nat) (h : ∀ b ∈ mem, b < 256) (j : Nat) :
    mem.getD j 0 < 256 := by
  by_cases hj : j < mem.length
  · rw [List.getD_eq_getElem _ _ hj]
    exact h _ (List.getElem_mem hj)
  · rw [getD_of_le _ _ (Nat.le_of_not_lt hj)]; omega

theorem payloadBytes_length (buf : List Nat) (h : buf.length = 36) :
    (payloadBytes buf).length = 64 := by
  simp [payloadBytes, bytesOfWords_length, h]

theorem payloadBytes_getD (buf : List Nat) (j : Nat) :
    (payloadBytes buf).getD j 0 =
      if j % 2 = 0 then (if j / 2 < 32 then buf.getD (2 + j / 2) 0 else 0) % 256
      else (if j / 2 < 32 then buf.getD (2 + j / 2) 0 else 0) / 256 % 256 := by
  unfold payloadBytes
  rw [bytesOfWords_getD, getD_take_drop]

theorem crcInput_length (buf : List Nat) (h : buf.length = 36) :
    (crcInput buf).length = 66 := by
  simp [crcInput, bytesOfWords_length, h]

theorem crcInput_getD (buf : List Nat) (j : Nat) :
    (crcInput buf).getD j 0 =
      if j % 2 = 0 then (if j / 2 < 33 then buf.getD (1 + j / 2) 0 else 0) % 256
      else (if j / 2 < 33 then buf.getD (1 + j / 2) 0 else 0) / 256 % 256 := by
  unfold crcInput
  rw [bytesOfWords_getD, getD_take_drop]

theorem payloadBytes_congr (b1 b2 : List Nat) (h1 : b1.length = 36) (h2 : b2.length = 36)
    (h : ∀ j, 2 ≤ j → j ≤ 33 → b1.getD j 0 = b2.getD j 0) :
    payloadBytes b1 = payloadBytes b2 := by
  apply list_ext_getD (by rw [payloadBytes_length _ h1, payloadBytes_length _ h2])
  intro j _
  rw [payloadBytes_getD, payloadBytes_getD]
  by_cases hj : j / 2 < 32
  · rw [h (2 + j / 2) (by omega) (by omega)]
  · simp only [hj, if_false]

theorem crcInput_congr (b1 b2 : List Nat) (h1 : b1.length = 36) (h2 : b2.length = 36)
    (h : ∀ j, 1 ≤ j → j ≤ 33 → b1.getD j 0 = b2.getD j 0) :
    crcInput b1 = crcInput b2 := by
  apply list_ext_getD (by rw [crcInput_length _ h1, crcInput_length _ h2])
  intro j _
  rw [crcInput_getD, crcInput_getD]
  by_cases hj : j / 2 < 33
  · rw [h (1 + j / 2) (by omega) (by omega)]
  · simp only [hj, if_false]

theorem storePayload_length (buf mem : List Nat) :
    (storePayload buf mem).length = buf.length := blit_length _ _ _ _

theorem storePayload_getD (buf mem : List Nat) (h : buf.length = 36) (j : Nat) :
    (storePayload buf mem).getD j 0 =
      if 2 ≤ j ∧ j ≤ 33 then wordAt mem (j - 2) else buf.getD j 0 := by
  unfold storePayload
  rw [blit_getD, h]
  by_cases hj : 2 ≤ j ∧ j ≤ 33
  · rw [if_pos hj, if_pos (by omega)]
  · rw [if_neg hj, if_neg (by omega)]

theorem payloadBytes_storePayload (buf mem : List Nat) (hb : buf.length = 36)
    (hm : mem.length = 64) (hbytes : ∀ b ∈ mem, b < 256) :
    payloadBytes (storePayload buf mem) = mem := by
  apply list_ext_getD
    (by rw [payloadBytes_length _ (by rw [storePayload_length, hb]), hm])
  intro j hj
  rw [payloadBytes_length _ (by rw [storePayload_length, hb])] at hj
  rw [payloadBytes_getD, storePayload_getD _ _ hb]
  have h32 : j / 2 < 32 := by omega
  have hr : 2 ≤ 2 + j / 2 ∧ 2 + j / 2 ≤ 33 := by omega
  rw [if_pos h32, if_pos hr, Nat.add_sub_cancel_left]
  by_cases hpar : j % 2 = 0
  · rw [if_pos hpar, wordAt_lo]
    have : 2 * (j / 2) = j := by omega
    rw [this, Nat.mod_eq_of_lt (getD_lt_256 mem hbytes j)]
  · rw [if_neg hpar, wordAt_hi]
    have : 2 * (j / 2) + 1 = j := by omega
    rw [this, Nat.mod_eq_of_lt (getD_lt_256 mem hbytes j)]

theorem frame_plain_length (crc : List Nat → Nat) (buf mem : List Nat) :
    ((storePayload buf mem).set 34 (crc (crcInput (storePayload buf mem)) % 65536)).length
      = buf.length := by
  rw [List.length_set, storePayload_length]

theorem frame_deobfuscated (crc : List Nat → Nat) (buf mem : List Nat) :
    obfuscationLoop (AIRCOPY_SendMessage_frame crc buf mem) =
      (storePayload buf mem).set 34 (crc (crcInput (storePayload buf mem)) % 65536) := by
  unfold AIRCOPY_SendMessage_frame
  exact obfuscationLoop_twice _

theorem NUM_MAPS_pos (nb : Nat) : 0 < AIRCOPY_NUM_MAPS nb := by
  unfold AIRCOPY_NUM_MAPS AIRCOPY_AvailableMaps
  simp only [List.length_append, List.length_cons, List.length_nil]
  omega

theorem GetCurrentMap_congr (nb : Nat) (s t : State)
    (h : s.gAircopyCurrentMapIndex = t.gAircopyCurrentMapIndex) :
    (AIRCOPY_GetCurrentMap nb s).1 = (AIRCOPY_GetCurrentMap nb t).1 := by
  rw [GetCurrentMap_fst, GetCurrentMap_fst, h]

theorem GetCurrentMap_idem (nb : Nat) (s : State) :
    AIRCOPY_GetCurrentMap nb (AIRCOPY_GetCurrentMap nb s).2 =
      ((AIRCOPY_GetCurrentMap nb s).1, (AIRCOPY_GetCurrentMap nb s).2) := by
  have hpos := NUM_MAPS_pos nb
  apply Prod.ext
  · rw [GetCurrentMap_fst, GetCurrentMap_fst, GetCurrentMap_snd]
    by_cases h : s.gAircopyCurrentMapIndex ≥ AIRCOPY_NUM_MAPS nb
    · have h0 : ¬ (0 ≥ AIRCOPY_NUM_MAPS nb) := by omega
      simp only [h, if_true, h0, if_false]
    · simp only [h, if_false]
  · rw [GetCurrentMap_snd, GetCurrentMap_snd]
    by_cases h : s.gAircopyCurrentMapIndex ≥ AIRCOPY_NUM_MAPS nb
    · have h0 : ¬ (0 ≥ AIRCOPY_NUM_MAPS nb) := by omega
      simp only [h, if_true, h0, if_false]
    · simp only [h, if_false]

theorem FindSegment_eq (nb off : Nat) (s : State) :
    AIRCOPY_FindSegmentForOffset nb off s =
      ((List.range (AIRCOPY_GetCurrentMap nb s).1.num_segments).findSome? (fun i =>
        if off ≥ (segmentAt (AIRCOPY_GetCurrentMap nb s).1 i).start_offset ∧
            off < (segmentAt (AIRCOPY_GetCurrentMap nb s).1 i).end_offset
        then some (segmentAt (AIRCOPY_GetCurrentMap nb s).1 i) else none),
       (AIRCOPY_GetCurrentMap nb s).2) := by
  rfl

theorem findSome_of_any (n : Nat) (p : Nat → Prop) [DecidablePred p]
    (f : Nat → AIRCOPY_Segment_t)
    (h : (List.range n).any (fun i => decide (p i)) = true) :
    ∃ i, i < n ∧ p i ∧ (∀ j, j < i → ¬ p j) ∧
      (List.range n).findSome? (fun i => if p i then some (f i) else none) = some (f i) := by
  induction n with
  | zero => simp at h
  | succ n ih =>
    by_cases hprev : (List.range n).any (fun i => decide (p i)) = true
    · obtain ⟨i, hi, hp, hmin, hf⟩ := ih hprev
      refine ⟨i, by omega, hp, hmin, ?_⟩
      rw [List.range_succ, List.findSome?_append, hf]
      rfl
    · have hnone : ∀ j, j < n → ¬ p j := by
        intro j hj hpj
        apply hprev
        rw [List.any_eq_true]
        exact ⟨j, List.mem_range.mpr hj, by simpa using hpj⟩
      have hpn : p n := by
        rw [List.range_succ, List.any_append] at h
        simp only [hprev, Bool.false_or, List.any_cons, List.any_nil, Bool.or_false,
          decide_eq_true_eq] at h
        simpa using h
      refine ⟨n, by omega, hpn, hnone, ?_⟩
      have hf : (List.range n).findSome? (fun i => if p i then some (f i) else none) = none := by
        rw [List.findSome?_eq_none_iff]
        intro j hj
        rw [if_neg (hnone j (List.mem_range.mp hj))]
      rw [List.range_succ, List.findSome?_append, hf]
      simp [hpn]

/-! ### Field-by-field effect of `AIRCOPY_GetCurrentMap` and `AIRCOPY_CheckComplete` -/

@[simp]
theorem GetCurrentMap_gAircopyState (nb : Nat) (s : State) :
    (AIRCOPY_GetCurrentMap nb s).2.gAircopyState = s.gAircopyState := by
  rw [GetCurrentMap_snd]

@[simp]
theorem GetCurrentMap_gAirCopyBlockNumber (nb : Nat) (s : State) :
    (AIRCOPY_GetCurrentMap nb s).2.gAirCopyBlockNumber = s.gAirCopyBlockNumber := by
  rw [GetCurrentMap_snd]

@[simp]
theorem GetCurrentMap_gErrorsDuringAirCopy (nb : Nat) (s : State) :
    (AIRCOPY_GetCurrentMap nb s).2.gErrorsDuringAirCopy = s.gErrorsDuringAirCopy := by
  rw [GetCurrentMap_snd]

@[simp]
theorem GetCurrentMap_gAirCopyIsSendMode (nb : Nat) (s : State) :
    (AIRCOPY_GetCurrentMap nb s).2.gAirCopyIsSendMode = s.gAirCopyIsSendMode := by
  rw [GetCurrentMap_snd]

@[simp]
theorem GetCurrentMap_g_FSK_Buffer (nb : Nat) (s : State) :
    (AIRCOPY_GetCurrentMap nb s).2.g_FSK_Buffer = s.g_FSK_Buffer := by
  rw [GetCurrentMap_snd]

@[simp]
theorem GetCurrentMap_gFSKWriteIndex (nb : Nat) (s : State) :
    (AIRCOPY_GetCurrentMap nb s).2.gFSKWriteIndex = s.gFSKWriteIndex := by
  rw [GetCurrentMap_snd]

@[simp]
theorem GetCurrentMap_gUpdateDisplay (nb : Nat) (s : State) :
    (AIRCOPY_GetCurrentMap nb s).2.gUpdateDisplay = s.gUpdateDisplay := by
  rw [GetCurrentMap_snd]

@[simp]
theorem GetCurrentMap_gAircopyStep (nb : Nat) (s : State) :
    (AIRCOPY_GetCurrentMap nb s).2.gAircopyStep = s.gAircopyStep := by
  rw [GetCurrentMap_snd]

@[simp]
theorem GetCurrentMap_gInputBoxIndex (nb : Nat) (s : State) :
    (AIRCOPY_GetCurrentMap nb s).2.gInputBoxIndex = s.gInputBoxIndex := by
  rw [GetCurrentMap_snd]

@[simp]
theorem GetCurrentMap_gInputBox (nb : Nat) (s : State) :
    (AIRCOPY_GetCurrentMap nb s).2.gInputBox = s.gInputBox := by
  rw [GetCurrentMap_snd]

@[simp]
theorem GetCurrentMap_gRequestDisplayScreen (nb : Nat) (s : State) :
    (AIRCOPY_GetCurrentMap nb s).2.gRequestDisplayScreen = s.gRequestDisplayScreen := by
  rw [GetCurrentMap_snd]

@[simp]
theorem GetCurrentMap_lErrorsDuringAirCopy (nb : Nat) (s : State) :
    (AIRCOPY_GetCurrentMap nb s).2.lErrorsDuringAirCopy = s.lErrorsDuringAirCopy := by
  rw [GetCurrentMap_snd]

@[simp]
theorem GetCurrentMap_gAircopySendCountdown (nb : Nat) (s : State) :
    (AIRCOPY_GetCurrentMap nb s).2.gAircopySendCountdown = s.gAircopySendCountdown := by
  rw [GetCurrentMap_snd]

@[simp]
theorem GetCurrentMap_CurrentOffset (nb : Nat) (s : State) :
    (AIRCOPY_GetCurrentMap nb s).2.CurrentOffset = s.CurrentOffset := by
  rw [GetCurrentMap_snd]

@[simp]
theorem GetCurrentMap_CurrentSegmentIndex (nb : Nat) (s : State) :
    (AIRCOPY_GetCurrentMap nb s).2.CurrentSegmentIndex = s.CurrentSegmentIndex := by
  rw [GetCurrentMap_snd]

theorem GetCurrentMap_index (nb : Nat) (s : State) :
    (AIRCOPY_GetCurrentMap nb s).2.gAircopyCurrentMapIndex =
      if s.gAircopyCurrentMapIndex ≥ AIRCOPY_NUM_MAPS nb then 0
      else s.gAircopyCurrentMapIndex := by
  rw [GetCurrentMap_snd]

@[simp]
theorem CheckComplete_gAirCopyBlockNumber (nb : Nat) (s : State) :
    (AIRCOPY_CheckComplete nb s).gAirCopyBlockNumber = s.gAirCopyBlockNumber := by
  rw [CheckComplete_eq]

@[simp]
theorem CheckComplete_gErrorsDuringAirCopy (nb : Nat) (s : State) :
    (AIRCOPY_CheckComplete nb s).gErrorsDuringAirCopy = s.gErrorsDuringAirCopy := by
  rw [CheckComplete_eq]

@[simp]
theorem CheckComplete_gAirCopyIsSendMode (nb : Nat) (s : State) :
    (AIRCOPY_CheckComplete nb s).gAirCopyIsSendMode = s.gAirCopyIsSendMode := by
  rw [CheckComplete_eq]

@[simp]
theorem CheckComplete_g_FSK_Buffer (nb : Nat) (s : State) :
    (AIRCOPY_CheckComplete nb s).g_FSK_Buffer = s.g_FSK_Buffer := by
  rw [CheckComplete_eq]

@[simp]
theorem CheckComplete_gFSKWriteIndex (nb : Nat) (s : State) :
    (AIRCOPY_CheckComplete nb s).gFSKWriteIndex = s.gFSKWriteIndex := by
  rw [CheckComplete_eq]

@[simp]
theorem CheckComplete_gUpdateDisplay (nb : Nat) (s : State) :
    (AIRCOPY_CheckComplete nb s).gUpdateDisplay = s.gUpdateDisplay := by
  rw [CheckComplete_eq]

@[simp]
theorem CheckComplete_gAircopyStep (nb : Nat) (s : State) :
    (AIRCOPY_CheckComplete nb s).gAircopyStep = s.gAircopyStep := by
  rw [CheckComplete_eq]

@[simp]
theorem CheckComplete_gInputBoxIndex (nb : Nat) (s : State) :
    (AIRCOPY_CheckComplete nb s).gInputBoxIndex = s.gInputBoxIndex := by
  rw [CheckComplete_eq]

@[simp]
theorem CheckComplete_gInputBox (nb : Nat) (s : State) :
    (AIRCOPY_CheckComplete nb s).gInputBox = s.gInputBox := by
  rw [CheckComplete_eq]

@[simp]
theorem CheckComplete_gRequestDisplayScreen (nb : Nat) (s : State) :
    (AIRCOPY_CheckComplete nb s).gRequestDisplayScreen = s.gRequestDisplayScreen := by
  rw [CheckComplete_eq]

@[simp]
theorem CheckComplete_gAircopySendCountdown (nb : Nat) (s : State) :
    (AIRCOPY_CheckComplete nb s).gAircopySendCountdown = s.gAircopySendCountdown := by
  rw [CheckComplete_eq]

@[simp]
theorem CheckComplete_CurrentOffset (nb : Nat) (s : State) :
    (AIRCOPY_CheckComplete nb s).CurrentOffset = s.CurrentOffset := by
  rw [CheckComplete_eq]

@[simp]
theorem CheckComplete_CurrentSegmentIndex (nb : Nat) (s : State) :
    (AIRCOPY_CheckComplete nb s).CurrentSegmentIndex = s.CurrentSegmentIndex := by
  rw [CheckComplete_eq]

@[simp]
theorem CheckComplete_index (nb : Nat) (s : State) :
    (AIRCOPY_CheckComplete nb s).gAircopyCurrentMapIndex =
      (AIRCOPY_GetCurrentMap nb s).2.gAircopyCurrentMapIndex := by
  rw [CheckComplete_eq]

theorem CheckComplete_state (nb : Nat) (s : State) :
    (AIRCOPY_CheckComplete nb s).gAircopyState =
      if (s.gAirCopyBlockNumber + s.gErrorsDuringAirCopy) % 65536 ≥
          (AIRCOPY_GetCurrentMap nb s).1.total_blocks then AIRCOPY_COMPLETE
      else s.gAircopyState := by
  rw [CheckComplete_eq]

/-! From here on the loops and table look-ups are used through the lemmas above only. -/

section Sealed

attribute [local irreducible] obfuscationLoop AIRCOPY_GetCurrentMap AIRCOPY_CheckComplete
  AIRCOPY_NUM_MAPS AIRCOPY_AvailableMaps AIRCOPY_StorePacket_frameError
  AIRCOPY_StorePacket_crcError AIRCOPY_StorePacket_validOffset AIRCOPY_StorePacket_writeBytes
  AIRCOPY_StorePacket_writeStruct AIRCOPY_FindSegmentForOffset

theorem StorePacket_not_full (nb : Nat) (crc : List Nat → Nat) (Status : Nat) (s : State)
    (h : s.gFSKWriteIndex < 36) : AIRCOPY_StorePacket nb crc Status s = (s, []) := by
  unfold AIRCOPY_StorePacket
  rw [if_pos h]

theorem StorePacket_frame_error (nb : Nat) (crc : List Nat → Nat) (Status : Nat) (s : State)
    (hfull : 36 ≤ s.gFSKWriteIndex)
    (hf : AIRCOPY_StorePacket_frameError Status s.g_FSK_Buffer = true) :
    AIRCOPY_StorePacket nb crc Status s =
      (AIRCOPY_CheckComplete nb
        { s with gFSKWriteIndex := 0, gUpdateDisplay := true,
                 gErrorsDuringAirCopy := (s.gErrorsDuringAirCopy + 1) % 65536 },
       [Event.BK4819_PrepareFSKReceive, Event.BK4819_ResetFSK,
        Event.BK4819_PrepareFSKReceive]) := by
  unfold AIRCOPY_StorePacket
  rw [if_neg (by omega)]
  dsimp only
  rw [if_pos hf]

theorem StorePacket_crc_error (nb : Nat) (crc : List Nat → Nat) (Status : Nat) (s : State)
    (hfull : 36 ≤ s.gFSKWriteIndex)
    (hf : AIRCOPY_StorePacket_frameError Status s.g_FSK_Buffer = false)
    (hc : AIRCOPY_StorePacket_crcError crc (obfuscationLoop s.g_FSK_Buffer) = true) :
    AIRCOPY_StorePacket nb crc Status s =
      (AIRCOPY_CheckComplete nb
        { s with gFSKWriteIndex := 0, gUpdateDisplay := true,
                 g_FSK_Buffer := obfuscationLoop s.g_FSK_Buffer,
                 gErrorsDuringAirCopy := (s.gErrorsDuringAirCopy + 1) % 65536 },
       [Event.BK4819_PrepareFSKReceive]) := by
  unfold AIRCOPY_StorePacket
  rw [if_neg (by omega)]
  dsimp only
  rw [if_neg (by rw [hf]; decide), if_pos hc]

theorem StorePacket_range_error (nb : Nat) (crc : List Nat → Nat) (Status : Nat) (s : State)
    (hfull : 36 ≤ s.gFSKWriteIndex)
    (hf : AIRCOPY_StorePacket_frameError Status s.g_FSK_Buffer = false)
    (hc : AIRCOPY_StorePacket_crcError crc (obfuscationLoop s.g_FSK_Buffer) = false)
    (hv : AIRCOPY_StorePacket_validOffset (AIRCOPY_GetCurrentMap nb s).1
      ((obfuscationLoop s.g_FSK_Buffer).getD 1 0) = false) :
    AIRCOPY_StorePacket nb crc Status s =
      (AIRCOPY_CheckComplete nb
        { (AIRCOPY_GetCurrentMap nb
            { s with gFSKWriteIndex := 0, gUpdateDisplay := true,
                     g_FSK_Buffer := obfuscationLoop s.g_FSK_Buffer }).2 with
          gErrorsDuringAirCopy := (s.gErrorsDuringAirCopy + 1) % 65536 },
       [Event.BK4819_PrepareFSKReceive]) := by
  unfold AIRCOPY_StorePacket
  rw [if_neg (by omega)]
  dsimp only
  rw [if_neg (by rw [hf]; decide), if_neg (by rw [hc]; decide)]
  rw [GetCurrentMap_fst] at hv
  rw [GetCurrentMap_fst, GetCurrentMap_gErrorsDuringAirCopy]
  rw [if_pos (by rw [hv]; decide)]

theorem StorePacket_accept (nb : Nat) (crc : List Nat → Nat) (Status : Nat) (s : State)
    (hfull : 36 ≤ s.gFSKWriteIndex)
    (hf : AIRCOPY_StorePacket_frameError Status s.g_FSK_Buffer = false)
    (hc : AIRCOPY_StorePacket_crcError crc (obfuscationLoop s.g_FSK_Buffer) = false)
    (hv : AIRCOPY_StorePacket_validOffset (AIRCOPY_GetCurrentMap nb s).1
      ((obfuscationLoop s.g_FSK_Buffer).getD 1 0) = true) :
    ∃ seg : AIRCOPY_Segment_t,
    AIRCOPY_StorePacket nb crc Status s =
      (AIRCOPY_CheckComplete nb
        { (AIRCOPY_GetCurrentMap nb
            { s with gFSKWriteIndex := 0, gUpdateDisplay := true,
                     g_FSK_Buffer := obfuscationLoop s.g_FSK_Buffer }).2 with
          gAirCopyBlockNumber := (s.gAirCopyBlockNumber + 1) % 65536 },
       Event.BK4819_PrepareFSKReceive ::
         (if seg.write_mode = AIRCOPY_WRITE_BYTES then
            AIRCOPY_StorePacket_writeBytes (obfuscationLoop s.g_FSK_Buffer)
              ((obfuscationLoop s.g_FSK_Buffer).getD 1 0)
          else AIRCOPY_StorePacket_writeStruct (obfuscationLoop s.g_FSK_Buffer)
              ((obfuscationLoop s.g_FSK_Buffer).getD 1 0))) := by
  have hv2 := hv
  unfold AIRCOPY_StorePacket_validOffset at hv2
  obtain ⟨i, _, _, _, hfind⟩ :=
    findSome_of_any _ _ (segmentAt (AIRCOPY_GetCurrentMap nb s).1) hv2
  refine ⟨segmentAt (AIRCOPY_GetCurrentMap nb s).1 i, ?_⟩
  have hm : (AIRCOPY_GetCurrentMap nb
      { s with gFSKWriteIndex := 0, gUpdateDisplay := true,
               g_FSK_Buffer := obfuscationLoop s.g_FSK_Buffer }).1
      = (AIRCOPY_GetCurrentMap nb s).1 := GetCurrentMap_congr _ _ _ rfl
  unfold AIRCOPY_StorePacket
  rw [if_neg (by omega)]
  dsimp only
  rw [if_neg (by rw [hf]; decide), if_neg (by rw [hc]; decide)]
  rw [hm, if_neg (by rw [hv]; decide)]
  rw [FindSegment_eq, GetCurrentMap_idem]
  dsimp only
  rw [hm, hfind]
  dsimp only
  rw [GetCurrentMap_gAirCopyBlockNumber, GetCurrentMap_g_FSK_Buffer]


theorem GetCurrentMap_of_index (nb : Nat) (s t : State)
    (h : t.gAircopyCurrentMapIndex = s.gAircopyCurrentMapIndex ∨
      t.gAircopyCurrentMapIndex = (AIRCOPY_GetCurrentMap nb s).2.gAircopyCurrentMapIndex) :
    (AIRCOPY_GetCurrentMap nb t).1 = (AIRCOPY_GetCurrentMap nb s).1 ∧
    (AIRCOPY_GetCurrentMap nb t).2.gAircopyCurrentMapIndex =
      (AIRCOPY_GetCurrentMap nb s).2.gAircopyCurrentMapIndex := by
  rcases h with h | h
  · rw [GetCurrentMap_index, GetCurrentMap_index, h]
    exact ⟨GetCurrentMap_congr nb t s h, rfl⟩
  · have hi := GetCurrentMap_idem nb s
    constructor
    · rw [← GetCurrentMap_congr nb _ t h.symm, hi]
    · rw [GetCurrentMap_index nb t, h, ← GetCurrentMap_index nb, hi]

/-- The result of `AIRCOPY_CheckComplete` on a state `X` that differs from `s` in the
counters, and in the map index at most by the reset of `AIRCOPY_GetCurrentMap`. -/
theorem CheckComplete_summary (nb : Nat) (s X : State) (b e : Nat)
    (hidx : X.gAircopyCurrentMapIndex = s.gAircopyCurrentMapIndex ∨
      X.gAircopyCurrentMapIndex = (AIRCOPY_GetCurrentMap nb s).2.gAircopyCurrentMapIndex)
    (hb : X.gAirCopyBlockNumber = b) (he : X.gErrorsDuringAirCopy = e)
    (hs : X.gAircopyState = s.gAircopyState) :
    (AIRCOPY_CheckComplete nb X).gErrorsDuringAirCopy = e ∧
    (AIRCOPY_CheckComplete nb X).gAirCopyBlockNumber = b ∧
    (AIRCOPY_CheckComplete nb X).gAircopyCurrentMapIndex
      = (AIRCOPY_GetCurrentMap nb s).2.gAircopyCurrentMapIndex ∧
    (AIRCOPY_CheckComplete nb X).gAircopyState
      = (if (b + e) % 65536 ≥ (AIRCOPY_GetCurrentMap nb s).1.total_blocks then AIRCOPY_COMPLETE
         else s.gAircopyState) := by
  obtain ⟨h1, h2⟩ := GetCurrentMap_of_index nb s X hidx
  refine ⟨?_, ?_, ?_, ?_⟩
  · rw [CheckComplete_gErrorsDuringAirCopy, he]
  · rw [CheckComplete_gAirCopyBlockNumber, hb]
  · rw [CheckComplete_index, h2]
  · rw [CheckComplete_state, h1, hb, he, hs]

theorem packetAccepted_false_iff (nb : Nat) (crc : List Nat → Nat) (Status : Nat) (s : State) :
    packetAccepted nb crc Status s = false ↔
      (AIRCOPY_StorePacket_frameError Status s.g_FSK_Buffer = true ∨
       AIRCOPY_StorePacket_crcError crc (obfuscationLoop s.g_FSK_Buffer) = true ∨
       AIRCOPY_StorePacket_validOffset (AIRCOPY_GetCurrentMap nb s).1
         ((obfuscationLoop s.g_FSK_Buffer).getD 1 0) = false) := by
  unfold packetAccepted
  cases AIRCOPY_StorePacket_frameError Status s.g_FSK_Buffer <;>
  cases AIRCOPY_StorePacket_crcError crc (obfuscationLoop s.g_FSK_Buffer) <;>
  cases AIRCOPY_StorePacket_validOffset (AIRCOPY_GetCurrentMap nb s).1
         ((obfuscationLoop s.g_FSK_Buffer).getD 1 0) <;> simp

theorem packetAccepted_true_iff (nb : Nat) (crc : List Nat → Nat) (Status : Nat) (s : State) :
    packetAccepted nb crc Status s = true ↔
      (AIRCOPY_StorePacket_frameError Status s.g_FSK_Buffer = false ∧
       AIRCOPY_StorePacket_crcError crc (obfuscationLoop s.g_FSK_Buffer) = false ∧
       AIRCOPY_StorePacket_validOffset (AIRCOPY_GetCurrentMap nb s).1
         ((obfuscationLoop s.g_FSK_Buffer).getD 1 0) = true) := by
  unfold packetAccepted
  cases AIRCOPY_StorePacket_frameError Status s.g_FSK_Buffer <;>
  cases AIRCOPY_StorePacket_crcError crc (obfuscationLoop s.g_FSK_Buffer) <;>
  cases AIRCOPY_StorePacket_validOffset (AIRCOPY_GetCurrentMap nb s).1
         ((obfuscationLoop s.g_FSK_Buffer).getD 1 0) <;> simp

/-- What a rejected full packet does to the counters, the map index, the state and the
drivers. -/
theorem StorePacket_rejected (nb : Nat) (crc : List Nat → Nat) (Status : Nat) (s : State)
    (hfull : 36 ≤ s.gFSKWriteIndex) (hacc : packetAccepted nb crc Status s = false) :
    ((AIRCOPY_StorePacket nb crc Status s).1.gErrorsDuringAirCopy
      = (s.gErrorsDuringAirCopy + 1) % 65536 ∧
    (AIRCOPY_StorePacket nb crc Status s).1.gAirCopyBlockNumber = s.gAirCopyBlockNumber ∧
    (AIRCOPY_StorePacket nb crc Status s).1.gAircopyCurrentMapIndex
      = (AIRCOPY_GetCurrentMap nb s).2.gAircopyCurrentMapIndex ∧
    (AIRCOPY_StorePacket nb crc Status s).1.gAircopyState
      = (if (s.gAirCopyBlockNumber + (s.gErrorsDuringAirCopy + 1) % 65536) % 65536 ≥
            (AIRCOPY_GetCurrentMap nb s).1.total_blocks then AIRCOPY_COMPLETE
         else s.gAircopyState)) ∧
    ((AIRCOPY_StorePacket nb crc Status s).2 =
        [Event.BK4819_PrepareFSKReceive, Event.BK4819_ResetFSK,
         Event.BK4819_PrepareFSKReceive] ∨
     (AIRCOPY_StorePacket nb crc Status s).2 = [Event.BK4819_PrepareFSKReceive]) := by
  rw [packetAccepted_false_iff] at hacc
  by_cases hf : AIRCOPY_StorePacket_frameError Status s.g_FSK_Buffer = true
  · rw [StorePacket_frame_error nb crc Status s hfull hf]
    exact ⟨CheckComplete_summary nb s _ _ _ (Or.inl rfl) rfl rfl rfl, Or.inl rfl⟩
  · have hf0 : AIRCOPY_StorePacket_frameError Status s.g_FSK_Buffer = false := by
      simpa using hf
    by_cases hc : AIRCOPY_StorePacket_crcError crc (obfuscationLoop s.g_FSK_Buffer) = true
    · rw [StorePacket_crc_error nb crc Status s hfull hf0 hc]
      exact ⟨CheckComplete_summary nb s _ _ _ (Or.inl rfl) rfl rfl rfl, Or.inr rfl⟩
    · have hc0 : AIRCOPY_StorePacket_crcError crc (obfuscationLoop s.g_FSK_Buffer) = false := by
        simpa using hc
      have hv : AIRCOPY_StorePacket_validOffset (AIRCOPY_GetCurrentMap nb s).1
          ((obfuscationLoop s.g_FSK_Buffer).getD 1 0) = false := by
        rcases hacc with h | h | h
        · exact absurd h hf
        · exact absurd h hc
        · exact h
      rw [StorePacket_range_error nb crc Status s hfull hf0 hc0 hv]
      refine ⟨?_, Or.inr rfl⟩
      apply CheckComplete_summary
      · right
        dsimp only
        refine (GetCurrentMap_of_index nb s _ ?_).2
        exact Or.inl rfl
      · dsimp only
        rw [GetCurrentMap_gAirCopyBlockNumber]
      · rfl
      · dsimp only
        rw [GetCurrentMap_gAircopyState]

/-- What an accepted full packet does to the counters, the map index, the state and the
drivers. -/
theorem StorePacket_accepted (nb : Nat) (crc : List Nat → Nat) (Status : Nat) (s : State)
    (hfull : 36 ≤ s.gFSKWriteIndex) (hacc : packetAccepted nb crc Status s = true) :
    ((AIRCOPY_StorePacket nb crc Status s).1.gErrorsDuringAirCopy = s.gErrorsDuringAirCopy ∧
    (AIRCOPY_StorePacket nb crc Status s).1.gAirCopyBlockNumber
      = (s.gAirCopyBlockNumber + 1) % 65536 ∧
    (AIRCOPY_StorePacket nb crc Status s).1.gAircopyCurrentMapIndex
      = (AIRCOPY_GetCurrentMap nb s).2.gAircopyCurrentMapIndex ∧
    (AIRCOPY_StorePacket nb crc Status s).1.gAircopyState
      = (if ((s.gAirCopyBlockNumber + 1) % 65536 + s.gErrorsDuringAirCopy) % 65536 ≥
            (AIRCOPY_GetCurrentMap nb s).1.total_blocks then AIRCOPY_COMPLETE
         else s.gAircopyState)) ∧
    ∃ seg : AIRCOPY_Segment_t,
      (AIRCOPY_StorePacket nb crc Status s).2 =
        Event.BK4819_PrepareFSKReceive ::
          (if seg.write_mode = AIRCOPY_WRITE_BYTES then
            AIRCOPY_StorePacket_writeBytes (obfuscationLoop s.g_FSK_Buffer)
              ((obfuscationLoop s.g_FSK_Buffer).getD 1 0)
          else AIRCOPY_StorePacket_writeStruct (obfuscationLoop s.g_FSK_Buffer)
              ((obfuscationLoop s.g_FSK_Buffer).getD 1 0)) := by
  rw [packetAccepted_true_iff] at hacc
  obtain ⟨hf, hc, hv⟩ := hacc
  obtain ⟨seg, hseg⟩ := StorePacket_accept nb crc Status s hfull hf hc hv
  rw [hseg]
  refine ⟨?_, seg, rfl⟩
  apply CheckComplete_summary
  · right
    dsimp only
    refine (GetCurrentMap_of_index nb s _ ?_).2
    exact Or.inl rfl
  · rfl
  · dsimp only
    rw [GetCurrentMap_gErrorsDuringAirCopy]
  · dsimp only
    rw [GetCurrentMap_gAircopyState]

/-- The buffer after a full packet has been processed: de-obfuscated in place unless the
framing test failed. -/
theorem StorePacket_buffer (nb : Nat) (crc : List Nat → Nat) (Status : Nat) (s : State)
    (hfull : 36 ≤ s.gFSKWriteIndex) :
    (AIRCOPY_StorePacket nb crc Status s).1.g_FSK_Buffer =
      (if AIRCOPY_StorePacket_frameError Status s.g_FSK_Buffer = true then s.g_FSK_Buffer
       else obfuscationLoop s.g_FSK_Buffer) ∧
    (AIRCOPY_StorePacket nb crc Status s).1.gFSKWriteIndex = 0 := by
  by_cases hf : AIRCOPY_StorePacket_frameError Status s.g_FSK_Buffer = true
  · rw [StorePacket_frame_error nb crc Status s hfull hf, if_pos hf]
    dsimp only
    rw [CheckComplete_g_FSK_Buffer, CheckComplete_gFSKWriteIndex]
    exact ⟨rfl, rfl⟩
  · have hf0 : AIRCOPY_StorePacket_frameError Status s.g_FSK_Buffer = false := by
      simpa using hf
    rw [if_neg hf]
    by_cases hc : AIRCOPY_StorePacket_crcError crc (obfuscationLoop s.g_FSK_Buffer) = true
    · rw [StorePacket_crc_error nb crc Status s hfull hf0 hc]
      dsimp only
      rw [CheckComplete_g_FSK_Buffer, CheckComplete_gFSKWriteIndex]
      exact ⟨rfl, rfl⟩
    · have hc0 : AIRCOPY_StorePacket_crcError crc (obfuscationLoop s.g_FSK_Buffer) = false := by
        simpa using hc
      by_cases hv : AIRCOPY_StorePacket_validOffset (AIRCOPY_GetCurrentMap nb s).1
          ((obfuscationLoop s.g_FSK_Buffer).getD 1 0) = true
      · obtain ⟨seg, hseg⟩ := StorePacket_accept nb crc Status s hfull hf0 hc0 hv
        rw [hseg]
        dsimp only
        rw [CheckComplete_g_FSK_Buffer, CheckComplete_gFSKWriteIndex]
        dsimp only
        rw [GetCurrentMap_g_FSK_Buffer, GetCurrentMap_gFSKWriteIndex]
        exact ⟨rfl, rfl⟩
      · have hv0 : AIRCOPY_StorePacket_validOffset (AIRCOPY_GetCurrentMap nb s).1
            ((obfuscationLoop s.g_FSK_Buffer).getD 1 0) = false := by
          simpa using hv
        rw [StorePacket_range_error nb crc Status s hfull hf0 hc0 hv0]
        dsimp only
        rw [CheckComplete_g_FSK_Buffer, CheckComplete_gFSKWriteIndex]
        dsimp only
        rw [GetCurrentMap_g_FSK_Buffer, GetCurrentMap_gFSKWriteIndex]
        exact ⟨rfl, rfl⟩


/-! ## Start of a send session -/

theorem UI_DisplayAircopy_buffer (nb : Nat) (s : State) :
    (UI_DisplayAircopy_effect nb s).g_FSK_Buffer = s.g_FSK_Buffer := by
  unfold UI_DisplayAircopy_effect
  dsimp only
  split_ifs <;> simp

theorem Key_MENU_buffer (nb : Nat) (s : State) :
    (AIRCOPY_Key_MENU nb true false s).g_FSK_Buffer =
      ((s.g_FSK_Buffer.set 0 0xABCD).set 1 0).set 35 0xDCBA := by
  unfold AIRCOPY_Key_MENU GUI_DisplayScreen AIRCOPY_clear
  simp [UI_DisplayAircopy_buffer]

theorem Key_MENU_markers (nb : Nat) (s : State) (h : s.g_FSK_Buffer.length = 36) :
    (AIRCOPY_Key_MENU nb true false s).g_FSK_Buffer.length = 36 ∧
    (AIRCOPY_Key_MENU nb true false s).g_FSK_Buffer.getD 0 0 = 0xABCD ∧
    (AIRCOPY_Key_MENU nb true false s).g_FSK_Buffer.getD 35 0 = 0xDCBA := by
  rw [Key_MENU_buffer]
  refine ⟨by simp [h], ?_, ?_⟩
  · rw [getD_set_eq, getD_set_eq, getD_set_eq]
    simp [h]
  · rw [getD_set_eq]
    simp [h]


/-! ## The packet round trip -/

/-- The un-obfuscated packet built by lines 219-222 of `AIRCOPY_SendMessage`. -/
theorem frame_plain_getD (crc : List Nat → Nat) (buf mem : List Nat) (offset : Nat)
    (hbuf : buf.length = 36) (j : Nat) :
    ((storePayload (buf.set 1 offset) mem).set 34
        (crc (crcInput (storePayload (buf.set 1 offset) mem)) % 65536)).getD j 0 =
      if j = 1 then offset
      else if 2 ≤ j ∧ j ≤ 33 then wordAt mem (j - 2)
      else if j = 34 then crc (crcInput (storePayload (buf.set 1 offset) mem)) % 65536
      else buf.getD j 0 := by
  have hl : (buf.set 1 offset).length = 36 := by rw [List.length_set, hbuf]
  rw [getD_set_eq, storePayload_length, hl, storePayload_getD _ _ hl, getD_set_eq, hbuf]
  by_cases h1 : j = 1
  · subst h1; simp
  · by_cases h2 : 2 ≤ j ∧ j ≤ 33
    · have : ¬ (34 = j ∧ j < 36) := by omega
      have h3 : ¬ (1 = j ∧ j < 36) := by omega
      simp only [this, h1, h2, if_true, if_false, and_self]
    · by_cases h34 : j = 34
      · subst h34; simp
      · have : ¬ (34 = j ∧ j < 36) := by omega
        have h3 : ¬ (1 = j ∧ j < 36) := by omega
        simp only [this, h1, h2, h3, h34, if_false]

theorem frameError_false_iff (Status : Nat) (buf : List Nat) :
    AIRCOPY_StorePacket_frameError Status buf = false ↔
      (Status &&& 0x0010 = 0 ∧ buf.getD 0 0 = 0xABCD ∧ buf.getD 35 0 = 0xDCBA) := by
  unfold AIRCOPY_StorePacket_frameError
  rw [decide_eq_false_iff_not]
  constructor
  · intro h
    refine ⟨?_, ?_, ?_⟩
    · by_contra h1; exact h (Or.inl h1)
    · by_contra h1; exact h (Or.inr (Or.inl h1))
    · by_contra h1; exact h (Or.inr (Or.inr h1))
  · rintro ⟨h1, h2, h3⟩ h
    rcases h with h | h | h
    · exact h h1
    · exact h h2
    · exact h h3

theorem crcError_false_iff (crc : List Nat → Nat) (buf : List Nat) :
    AIRCOPY_StorePacket_crcError crc buf = false ↔
      buf.getD 34 0 = crc (crcInput buf) % 65536 := by
  unfold AIRCOPY_StorePacket_crcError
  simp

/-- C2. Packet round trip: for every offset, every 64-byte payload and every checksum
function, the packet the send path builds in a buffer that carries the two markers (which
`AIRCOPY_Key_MENU` puts there, see `Key_MENU_markers`) passes the framing test of the receive
path when status bit 0x0010 is clear, passes its checksum test after de-obfuscation, and
leaves in the receiver's buffer the same offset in word 1 and the same 64 payload bytes in
words 2..33; the receive path accepts it exactly when the offset lies in the active map. -/
theorem C2_packet_round_trip (nb : Nat) (crc : List Nat → Nat) (buf : List Nat)
    (offset : Nat) (payload : List Nat) (Status : Nat) (s : State)
    (hbuf : buf.length = 36) (hm0 : buf.getD 0 0 = 0xABCD) (hm35 : buf.getD 35 0 = 0xDCBA)
    (hlen : payload.length = 64) (hbytes : ∀ b ∈ payload, b < 256)
    (hst : Status &&& 0x0010 = 0) (hfull : 36 ≤ s.gFSKWriteIndex) :
    AIRCOPY_StorePacket_frameError Status
      (AIRCOPY_SendMessage_frame crc (buf.set 1 offset) payload) = false ∧
    AIRCOPY_StorePacket_crcError crc
      (obfuscationLoop (AIRCOPY_SendMessage_frame crc (buf.set 1 offset) payload)) = false ∧
    (AIRCOPY_StorePacket nb crc Status
      { s with g_FSK_Buffer := AIRCOPY_SendMessage_frame crc (buf.set 1 offset) payload }
      ).1.g_FSK_Buffer.getD 1 0 = offset ∧
    payloadBytes (AIRCOPY_StorePacket nb crc Status
      { s with g_FSK_Buffer := AIRCOPY_SendMessage_frame crc (buf.set 1 offset) payload }
      ).1.g_FSK_Buffer = payload ∧
    packetAccepted nb crc Status
      { s with g_FSK_Buffer := AIRCOPY_SendMessage_frame crc (buf.set 1 offset) payload } =
      AIRCOPY_StorePacket_validOffset (AIRCOPY_GetCurrentMap nb s).1 offset := by
  have hl : (buf.set 1 offset).length = 36 := by rw [List.length_set, hbuf]
  have hpl := frame_plain_length crc (buf.set 1 offset) payload
  rw [hl] at hpl
  have hdeob := frame_deobfuscated crc (buf.set 1 offset) payload
  have hfl : (AIRCOPY_SendMessage_frame crc (buf.set 1 offset) payload).length = 36 := by
    rw [← obfuscationLoop_length, hdeob, hpl]
  -- the framing test on the packet as transmitted
  have hframe : AIRCOPY_StorePacket_frameError Status
      (AIRCOPY_SendMessage_frame crc (buf.set 1 offset) payload) = false := by
    rw [frameError_false_iff]
    refine ⟨hst, ?_, ?_⟩
    · have h := obfuscationLoop_getD (AIRCOPY_SendMessage_frame crc (buf.set 1 offset) payload) 0
      rw [if_neg (by omega), hdeob, frame_plain_getD crc buf payload offset hbuf] at h
      rw [← h]; simpa using hm0
    · have h := obfuscationLoop_getD (AIRCOPY_SendMessage_frame crc (buf.set 1 offset) payload) 35
      rw [if_neg (by omega), hdeob, frame_plain_getD crc buf payload offset hbuf] at h
      rw [← h]; simpa using hm35
  -- the checksum test on the de-obfuscated packet
  have hcrcin : crcInput ((storePayload (buf.set 1 offset) payload).set 34
        (crc (crcInput (storePayload (buf.set 1 offset) payload)) % 65536))
      = crcInput (storePayload (buf.set 1 offset) payload) := by
    apply crcInput_congr _ _ hpl (by rw [storePayload_length, hl])
    intro j h1 h2
    rw [getD_set_eq, if_neg (by omega)]
  have hcrc : AIRCOPY_StorePacket_crcError crc
      (obfuscationLoop (AIRCOPY_SendMessage_frame crc (buf.set 1 offset) payload)) = false := by
    rw [crcError_false_iff, hdeob, hcrcin, frame_plain_getD crc buf payload offset hbuf]
    simp
  have hoff : (obfuscationLoop
      (AIRCOPY_SendMessage_frame crc (buf.set 1 offset) payload)).getD 1 0 = offset := by
    rw [hdeob, frame_plain_getD crc buf payload offset hbuf]
    simp
  have hpay : payloadBytes (obfuscationLoop
      (AIRCOPY_SendMessage_frame crc (buf.set 1 offset) payload)) = payload := by
    rw [hdeob]
    rw [payloadBytes_congr _ (storePayload (buf.set 1 offset) payload) hpl
      (by rw [storePayload_length, hl])]
    · exact payloadBytes_storePayload _ _ hl hlen hbytes
    · intro j h1 h2
      rw [getD_set_eq, if_neg (by omega)]
  have hb := (StorePacket_buffer nb crc Status
    { s with g_FSK_Buffer := AIRCOPY_SendMessage_frame crc (buf.set 1 offset) payload }
    hfull).1
  dsimp only at hb
  rw [if_neg (by rw [hframe]; decide)] at hb
  refine ⟨hframe, hcrc, ?_, ?_, ?_⟩
  · rw [hb, hoff]
  · rw [hb, hpay]
  · have hm : (AIRCOPY_GetCurrentMap nb
        { s with g_FSK_Buffer :=
            AIRCOPY_SendMessage_frame crc (buf.set 1 offset) payload }).1
        = (AIRCOPY_GetCurrentMap nb s).1 := GetCurrentMap_congr _ _ _ rfl
    unfold packetAccepted
    dsimp only
    rw [hframe, hcrc, hoff, hm]
    rfl


/-! ## The address translator -/

theorem scan_some (a : Nat) (l : List AddrMapping_t) (p : AddrMapping_t)
    (h : AddrTranslate_scan a l = some p) : p ∈ l ∧ inEntry p a := by
  induction l with
  | nil => simp [AddrTranslate_scan] at h
  | cons q rest ih =>
    unfold AddrTranslate_scan at h
    by_cases hq : q.EEPROM_Addr ≤ a ∧ a < q.EEPROM_Addr + q.Size
    · rw [if_pos hq] at h
      cases h
      exact ⟨List.mem_cons_self _ _, hq⟩
    · rw [if_neg hq] at h
      exact ⟨List.mem_cons_of_mem _ (ih h).1, (ih h).2⟩

theorem scan_none (a : Nat) (l : List AddrMapping_t)
    (h : AddrTranslate_scan a l = none) : ∀ p ∈ l, ¬ inEntry p a := by
  induction l with
  | nil => simp
  | cons q rest ih =>
    unfold AddrTranslate_scan at h
    by_cases hq : q.EEPROM_Addr ≤ a ∧ a < q.EEPROM_Addr + q.Size
    · rw [if_pos hq] at h; cases h
    · rw [if_neg hq] at h
      intro p hp
      rcases List.mem_cons.mp hp with rfl | hp
      · exact hq
      · exact ih h p hp

theorem scan_none_of (a : Nat) (l : List AddrMapping_t)
    (h : ∀ p ∈ l, ¬ inEntry p a) : AddrTranslate_scan a l = none := by
  cases hs : AddrTranslate_scan a l with
  | none => rfl
  | some p => exact absurd (scan_some a l p hs).2 (h p (scan_some a l p hs).1)

theorem scan_first (a : Nat) (l : List AddrMapping_t) (i : Fin l.length)
    (hin : inEntry (l.get i) a)
    (hmin : ∀ j : Fin l.length, j < i → ¬ inEntry (l.get j) a) :
    AddrTranslate_scan a l = some (l.get i) := by
  induction l with
  | nil => exact absurd i.2 (by simp)
  | cons q rest ih =>
    unfold AddrTranslate_scan
    obtain ⟨i, hi⟩ := i
    cases i with
    | zero =>
      have : q.EEPROM_Addr ≤ a ∧ a < q.EEPROM_Addr + q.Size := hin
      rw [if_pos this]; rfl
    | succ i =>
      have h0 := hmin ⟨0, by simp⟩ (by simp [Fin.lt_def])
      have : ¬ (q.EEPROM_Addr ≤ a ∧ a < q.EEPROM_Addr + q.Size) := h0
      rw [if_neg this]
      have hi2 : i < rest.length := by simpa using hi
      have := ih ⟨i, hi2⟩ hin (by
        intro j hj
        have := hmin ⟨j.1 + 1, by simp⟩ (by simpa [Fin.lt_def] using hj)
        simpa using this)
      simpa using this

/-- Facts about the entries of `ADDR_MAPPINGS`: sizes and ends fit in 16 bits, no entry is a
hole, and every physical range ends below `HOLE_ADDR`. -/
theorem table_entry (p : AddrMapping_t) (hp : p ∈ ADDR_MAPPINGS) :
    p.EEPROM_Addr + p.Size ≤ 0xB200 ∧ 0 < p.Size ∧ p.PY25Q16_Addr + p.Size ≤ 0x10200 := by
  have : ∀ q ∈ ADDR_MAPPINGS,
      q.EEPROM_Addr + q.Size ≤ 0xB200 ∧ 0 < q.Size ∧ q.PY25Q16_Addr + q.Size ≤ 0x10200 := by
    decide
  exact this p hp

/-- The logical ranges of two different entries of `ADDR_MAPPINGS` are disjoint. -/
theorem table_disjoint (p q : AddrMapping_t) (hp : p ∈ ADDR_MAPPINGS)
    (hq : q ∈ ADDR_MAPPINGS) (hne : p ≠ q) :
    p.EEPROM_Addr + p.Size ≤ q.EEPROM_Addr ∨ q.EEPROM_Addr + q.Size ≤ p.EEPROM_Addr := by
  have : ∀ x ∈ ADDR_MAPPINGS, ∀ y ∈ ADDR_MAPPINGS, x ≠ y →
      x.EEPROM_Addr + x.Size ≤ y.EEPROM_Addr ∨ y.EEPROM_Addr + y.Size ≤ x.EEPROM_Addr := by
    decide
  exact this p hp q hq hne

theorem scan_of_inEntry (a : Nat) (p : AddrMapping_t) (hp : p ∈ ADDR_MAPPINGS)
    (ha : inEntry p a) : AddrTranslate_scan a ADDR_MAPPINGS = some p := by
  cases hs : AddrTranslate_scan a ADDR_MAPPINGS with
  | none => exact absurd ha (scan_none a _ hs p hp)
  | some q =>
    obtain ⟨hq, hqa⟩ := scan_some a _ q hs
    by_cases hpq : p = q
    · rw [hpq]
    · have := table_disjoint p q hp hq hpq
      unfold inEntry at ha hqa
      omega

theorem AddrTranslate_hole (a n : Nat) (e : Bool)
    (h : AddrTranslate_scan a ADDR_MAPPINGS = none) :
    AddrTranslate a n e = { PY25Q16_Addr_out := HOLE_ADDR, Size_out := n, End_out := none } := by
  unfold AddrTranslate
  rw [h]

theorem AddrTranslate_hit (a n : Nat) (e : Bool) (p : AddrMapping_t)
    (h : AddrTranslate_scan a ADDR_MAPPINGS = some p) :
    AddrTranslate a n e =
      { PY25Q16_Addr_out := p.PY25Q16_Addr + (a - p.EEPROM_Addr),
        Size_out := min n (p.Size - (a - p.EEPROM_Addr)),
        End_out := if e = true then
            some (decide (min n (p.Size - (a - p.EEPROM_Addr)) = p.Size - (a - p.EEPROM_Addr)))
          else none } := by
  obtain ⟨hp, hin⟩ := scan_some a _ p h
  obtain ⟨h1, h2, h3⟩ := table_entry p hp
  unfold inEntry at hin
  unfold AddrTranslate
  rw [h]
  dsimp only
  have hOff : (a + 65536 - p.EEPROM_Addr) % 65536 = a - p.EEPROM_Addr := by omega
  rw [hOff]
  have hRem : (p.Size + 65536 - (a - p.EEPROM_Addr)) % 65536 = p.Size - (a - p.EEPROM_Addr) := by
    omega
  rw [hRem]
  have hne : HOLE_ADDR ≠ p.PY25Q16_Addr := by unfold HOLE_ADDR; omega
  have hsz : (if n > p.Size - (a - p.EEPROM_Addr) then p.Size - (a - p.EEPROM_Addr) else n)
      = min n (p.Size - (a - p.EEPROM_Addr)) := by
    split <;> omega
  rw [hsz, if_neg hne]
  have hpy : (p.PY25Q16_Addr + (a - p.EEPROM_Addr)) % 4294967296
      = p.PY25Q16_Addr + (a - p.EEPROM_Addr) := by omega
  rw [hpy]
  cases e <;> simp [hne]


/-- C4. Contract of `AddrTranslate`: when no entry of `ADDR_MAPPINGS` contains the logical
address `a` the result is `(HOLE_ADDR, n)` and no end flag is stored; otherwise, for the first
entry `(P, L, S)` with `L ≤ a < L + S`, the physical address is `P + (a - L)`, the size is
`min n (S - (a - L))`, and the end flag (stored when the caller asks for it) is true exactly
when that clipped size equals the `S - (a - L)` bytes remaining in the entry. -/
theorem C4_AddrTranslate_contract (a n : Nat) (End_requested : Bool) :
    ((∀ p ∈ ADDR_MAPPINGS, ¬ inEntry p a) →
      AddrTranslate a n End_requested =
        { PY25Q16_Addr_out := HOLE_ADDR, Size_out := n, End_out := none }) ∧
    (∀ i : Fin ADDR_MAPPINGS.length, inEntry (ADDR_MAPPINGS.get i) a →
      (∀ j : Fin ADDR_MAPPINGS.length, j < i → ¬ inEntry (ADDR_MAPPINGS.get j) a) →
      AddrTranslate a n End_requested =
        { PY25Q16_Addr_out :=
            (ADDR_MAPPINGS.get i).PY25Q16_Addr + (a - (ADDR_MAPPINGS.get i).EEPROM_Addr),
          Size_out := min n ((ADDR_MAPPINGS.get i).Size - (a - (ADDR_MAPPINGS.get i).EEPROM_Addr)),
          End_out :=
            if End_requested = true then
              some (decide
                (min n ((ADDR_MAPPINGS.get i).Size - (a - (ADDR_MAPPINGS.get i).EEPROM_Addr))
                  = (ADDR_MAPPINGS.get i).Size - (a - (ADDR_MAPPINGS.get i).EEPROM_Addr)))
            else none }) := by
  constructor
  · intro h
    exact AddrTranslate_hole a n End_requested (scan_none_of a _ h)
  · intro i hin hmin
    exact AddrTranslate_hit a n End_requested _ (scan_first a _ i hin hmin)


/-! ## The read and write loops -/

theorem mapped_true_iff (a : Nat) :
    mapped a = true ↔ ∃ p, AddrTranslate_scan a ADDR_MAPPINGS = some p := by
  unfold mapped
  rw [Option.isSome_iff_exists]

theorem mapped_false_iff (a : Nat) :
    mapped a = false ↔ AddrTranslate_scan a ADDR_MAPPINGS = none := by
  unfold mapped
  cases AddrTranslate_scan a ADDR_MAPPINGS <;> simp

theorem mapped_iff_inEntry (a : Nat) :
    mapped a = true ↔ ∃ p ∈ ADDR_MAPPINGS, inEntry p a := by
  rw [mapped_true_iff]
  constructor
  · rintro ⟨p, hp⟩
    exact ⟨p, scan_some a _ p hp⟩
  · rintro ⟨p, hp, hin⟩
    exact ⟨p, scan_of_inEntry a p hp hin⟩

theorem readSpec_hole (flash : Nat → Nat) (a i : Nat) (h : mapped a = false) :
    readSpec flash a i = 0xff := by
  unfold readSpec
  rw [if_neg]
  intro hall
  have := hall 0 (Nat.zero_le _)
  rw [Nat.add_zero, h] at this
  exact absurd this (by decide)

theorem readSpec_hit (flash : Nat → Nat) (a i : Nat) (p : AddrMapping_t)
    (h : AddrTranslate_scan a ADDR_MAPPINGS = some p)
    (hi : i < p.Size - (a - p.EEPROM_Addr)) :
    readSpec flash a i = flash (p.PY25Q16_Addr + (a - p.EEPROM_Addr) + i) % 256 := by
  obtain ⟨hp, hin⟩ := scan_some a _ p h
  unfold inEntry at hin
  have hk : ∀ k, k ≤ i → AddrTranslate_scan (a + k) ADDR_MAPPINGS = some p := by
    intro k hk
    apply scan_of_inEntry _ _ hp
    unfold inEntry
    omega
  unfold readSpec
  rw [if_pos]
  · rw [AddrTranslate_hit _ _ _ p (hk i (Nat.le_refl _))]
    dsimp only
    have : p.PY25Q16_Addr + (a + i - p.EEPROM_Addr) = p.PY25Q16_Addr + (a - p.EEPROM_Addr) + i := by
      omega
    rw [this]
  · intro k hki
    rw [mapped_true_iff]
    exact ⟨p, hk k hki⟩

theorem readSpec_shift (flash : Nat → Nat) (a i c : Nat) (p : AddrMapping_t)
    (h : AddrTranslate_scan a ADDR_MAPPINGS = some p)
    (hc : c ≤ p.Size - (a - p.EEPROM_Addr)) (hci : c ≤ i) :
    readSpec flash a i = readSpec flash (a + c) (i - c) := by
  obtain ⟨hp, hin⟩ := scan_some a _ p h
  unfold inEntry at hin
  have hk : ∀ k, k < c → mapped (a + k) = true := by
    intro k hk
    rw [mapped_true_iff]
    refine ⟨p, scan_of_inEntry _ _ hp ?_⟩
    unfold inEntry
    omega
  have hiff : (∀ k, k ≤ i → mapped (a + k) = true) ↔
      (∀ k, k ≤ i - c → mapped (a + c + k) = true) := by
    constructor
    · intro hall k hk2
      have := hall (c + k) (by omega)
      rwa [← Nat.add_assoc] at this
    · intro hall k hk2
      by_cases hkc : k < c
      · exact hk k hkc
      · have := hall (k - c) (by omega)
        have e : a + c + (k - c) = a + k := by omega
        rwa [e] at this
  unfold readSpec
  have e : a + c + (i - c) = a + i := by omega
  rw [e]
  by_cases hall : ∀ k, k ≤ i → mapped (a + k) = true
  · rw [if_pos hall, if_pos (hiff.mp hall)]
  · rw [if_neg hall, if_neg (fun h2 => hall (hiff.mpr h2))]

theorem AddrTranslate_size_bounds (a r : Nat) (e : Bool) (hr : 1 ≤ r) :
    1 ≤ (AddrTranslate a r e).Size_out ∧ (AddrTranslate a r e).Size_out ≤ r := by
  cases hs : AddrTranslate_scan a ADDR_MAPPINGS with
  | none =>
    rw [AddrTranslate_hole a r e hs]
    exact ⟨hr, Nat.le_refl _⟩
  | some p =>
    rw [AddrTranslate_hit a r e p hs]
    obtain ⟨hp, hin⟩ := scan_some a _ p hs
    unfold inEntry at hin
    dsimp only
    omega


theorem Tiles_zero (a off : Nat) : Tiles a off 0 [] := by
  unfold Tiles; rfl

theorem read_loop_zero (flash : Nat → Nat) (fuel Address pBuffer : Nat) (mem : List Nat) :
    EEPROM_ReadBuffer_loop flash fuel Address pBuffer 0 mem = some (mem, []) := by
  cases fuel <;> simp [EEPROM_ReadBuffer_loop]

/-- The read loop ends within its fuel, its chunks tile the request, and the region holds
`readSpec` in the requested cells and is untouched elsewhere. -/
theorem read_loop_spec (flash : Nat → Nat) :
    ∀ (fuel Address pBuffer Size : Nat) (mem : List Nat), Size ≤ fuel → Size < 256 →
    ∃ mem1 cs, EEPROM_ReadBuffer_loop flash fuel Address pBuffer Size mem = some (mem1, cs) ∧
      Tiles Address pBuffer Size cs ∧ mem1.length = mem.length ∧
      ∀ j, mem1.getD j 0 =
        if pBuffer ≤ j ∧ j < pBuffer + Size ∧ j < mem.length then
          readSpec flash Address (j - pBuffer)
        else mem.getD j 0 := by
  intro fuel
  induction fuel with
  | zero =>
    intro Address pBuffer Size mem hf _
    have : Size = 0 := by omega
    subst this
    refine ⟨mem, [], read_loop_zero _ _ _ _ _, Tiles_zero _ _, rfl, ?_⟩
    intro j
    rw [if_neg (by omega)]
  | succ fuel ih =>
    intro Address pBuffer Size mem hf hs
    by_cases h0 : Size = 0
    · subst h0
      refine ⟨mem, [], read_loop_zero _ _ _ _ _, Tiles_zero _ _, rfl, ?_⟩
      intro j
      rw [if_neg (by omega)]
    · unfold EEPROM_ReadBuffer_loop
      rw [if_neg h0]
      dsimp only
      cases hscan : AddrTranslate_scan Address ADDR_MAPPINGS with
      | none =>
        rw [AddrTranslate_hole Address Size false hscan]
        dsimp only
        rw [if_pos (Nat.le_refl _)]
        have hz : (Size + 65536 - Size) % 256 = 0 := by omega
        rw [hz, read_loop_zero]
        dsimp only
        refine ⟨_, _, rfl, ?_, ?_, ?_⟩
        · unfold Tiles
          dsimp only
          refine ⟨rfl, rfl, by omega, Nat.le_refl _, ?_⟩
          rw [Nat.sub_self]
          exact Tiles_zero _ _
        · unfold memset
          rw [blit_length]
        · intro j
          unfold memset
          rw [blit_getD, readSpec_hole flash Address _ ((mapped_false_iff _).mpr hscan)]
      | some p =>
        obtain ⟨hp, hin⟩ := scan_some Address _ p hscan
        obtain ⟨h1, h2, h3⟩ := table_entry p hp
        unfold inEntry at hin
        rw [AddrTranslate_hit Address Size false p hscan]
        dsimp only
        have hlt : ¬ (p.PY25Q16_Addr + (Address - p.EEPROM_Addr) ≥ HOLE_ADDR) := by
          unfold HOLE_ADDR; omega
        rw [if_neg hlt]
        have hA : (Address + min Size (p.Size - (Address - p.EEPROM_Addr))) % 65536
            = Address + min Size (p.Size - (Address - p.EEPROM_Addr)) := by omega
        have hS : (Size + 65536 - min Size (p.Size - (Address - p.EEPROM_Addr))) % 256
            = Size - min Size (p.Size - (Address - p.EEPROM_Addr)) := by omega
        rw [hA, hS]
        obtain ⟨mem2, cs, hloop, htiles, hlen, hget⟩ :=
          ih (Address + min Size (p.Size - (Address - p.EEPROM_Addr)))
            (pBuffer + min Size (p.Size - (Address - p.EEPROM_Addr)))
            (Size - min Size (p.Size - (Address - p.EEPROM_Addr)))
            (PY25Q16_ReadBuffer flash (p.PY25Q16_Addr + (Address - p.EEPROM_Addr)) mem pBuffer
              (min Size (p.Size - (Address - p.EEPROM_Addr))))
            (by omega) (by omega)
        rw [hloop]
        dsimp only
        refine ⟨_, _, rfl, ?_, ?_, ?_⟩
        · unfold Tiles
          dsimp only
          exact ⟨rfl, rfl, by omega, by omega, htiles⟩
        · rw [hlen]
          unfold PY25Q16_ReadBuffer
          rw [blit_length]
        · intro j
          rw [hget]
          unfold PY25Q16_ReadBuffer
          rw [blit_length, blit_getD]
          by_cases hj2 : pBuffer + min Size (p.Size - (Address - p.EEPROM_Addr)) ≤ j ∧
              j < pBuffer + min Size (p.Size - (Address - p.EEPROM_Addr)) +
                (Size - min Size (p.Size - (Address - p.EEPROM_Addr))) ∧ j < mem.length
          · rw [if_pos hj2, if_pos (by omega)]
            rw [readSpec_shift flash Address (j - pBuffer)
              (min Size (p.Size - (Address - p.EEPROM_Addr))) p hscan (by omega) (by omega)]
            congr 1
            omega
          · rw [if_neg hj2]
            by_cases hj1 : pBuffer ≤ j ∧
                j < pBuffer + min Size (p.Size - (Address - p.EEPROM_Addr)) ∧ j < mem.length
            · rw [if_pos hj1, if_pos (by omega)]
              rw [readSpec_hit flash Address (j - pBuffer) p hscan (by omega)]
            · rw [if_neg hj1, if_neg (by omega)]


theorem Tiles_coverCount : ∀ (cs : List Chunk) (a off n i : Nat), Tiles a off n cs →
    coverCount cs i = if off ≤ i ∧ i < off + n then 1 else 0 := by
  intro cs
  induction cs with
  | nil =>
    intro a off n i h
    unfold Tiles at h
    subst h
    rw [if_neg (by omega)]
    rfl
  | cons c cs ih =>
    intro a off n i h
    unfold Tiles at h
    obtain ⟨_, hoff, h1, h2, hrest⟩ := h
    have hrec := ih _ _ _ i hrest
    unfold coverCount at hrec ⊢
    rw [List.filter_cons]
    by_cases hc : c.pBuffer ≤ i ∧ i < c.pBuffer + c.PY_Size
    · rw [if_pos (by simpa using hc), List.length_cons, hrec]
      rw [if_neg (by omega), if_pos (by omega)]
    · rw [if_neg (by simpa using hc), hrec]
      by_cases hin : off ≤ i ∧ i < off + n
      · rw [if_pos hin, if_pos (by omega)]
      · rw [if_neg hin, if_neg (by omega)]

/-- C5. Read tiling: for every 16-bit logical address `a` and every size `n` in 0..255 the
loop of `EEPROM_ReadBuffer` terminates (each `AddrTranslate` call with remaining size
`r ≥ 1` returns a chunk size between 1 and `r`), the chunks it processes are contiguous,
start at `a` and at buffer offset 0 and their sizes sum to `n` (`Tiles`), every destination
byte `0..n-1` lies in exactly one chunk and no chunk touches a byte from `n` on, and the
destination keeps its length and its bytes from `n` on. -/
theorem C5_read_tiling (flash : Nat → Nat) (a n : Nat) (mem : List Nat)
    (ha : a < 65536) (hn : n ≤ 255) :
    (∀ a1 r : Nat, ∀ e : Bool, 1 ≤ r →
      1 ≤ (AddrTranslate a1 r e).Size_out ∧ (AddrTranslate a1 r e).Size_out ≤ r) ∧
    ∃ mem1 cs, EEPROM_ReadBuffer flash a mem n = some (mem1, cs) ∧
      Tiles a 0 n cs ∧
      (∀ i, i < n → coverCount cs i = 1) ∧ (∀ i, n ≤ i → coverCount cs i = 0) ∧
      mem1.length = mem.length ∧ ∀ j, n ≤ j → mem1.getD j 0 = mem.getD j 0 := by
  refine ⟨AddrTranslate_size_bounds, ?_⟩
  obtain ⟨mem1, cs, hloop, htiles, hlen, hget⟩ :=
    read_loop_spec flash 256 a 0 n mem (by omega) (by omega)
  refine ⟨mem1, cs, ?_, htiles, ?_, ?_, hlen, ?_⟩
  · unfold EEPROM_ReadBuffer
    rw [Nat.mod_eq_of_lt ha, Nat.mod_eq_of_lt (by omega : n < 256)]
    exact hloop
  · intro i hi
    rw [Tiles_coverCount cs a 0 n i htiles, if_pos (by omega)]
  · intro i hi
    rw [Tiles_coverCount cs a 0 n i htiles, if_neg (by omega)]
  · intro j hj
    rw [hget, if_neg (by omega)]

/-- C6. Holes read as fill: when the logical address `a + i` (or its 16-bit truncation) lies in
no entry of `ADDR_MAPPINGS`, byte `i` of the buffer produced by `EEPROM_ReadBuffer(a, buf, n)`
is 0xFF, whatever the storage `flash` and the earlier content of the buffer are. -/
theorem C6_holes_read_fill (flash : Nat → Nat) (a n i : Nat) (mem : List Nat)
    (ha : a < 65536) (hn : n ≤ 255) (hi : i < n) (hroom : n ≤ mem.length)
    (hhole : (∀ p ∈ ADDR_MAPPINGS, ¬ inEntry p (a + i)) ∨
      (∀ p ∈ ADDR_MAPPINGS, ¬ inEntry p ((a + i) % 65536))) :
    ∃ mem1 cs, EEPROM_ReadBuffer flash a mem n = some (mem1, cs) ∧ mem1.getD i 0 = 0xFF := by
  obtain ⟨mem1, cs, hloop, _, _, hget⟩ :=
    read_loop_spec flash 256 a 0 n mem (by omega) (by omega)
  refine ⟨mem1, cs, ?_, ?_⟩
  · unfold EEPROM_ReadBuffer
    rw [Nat.mod_eq_of_lt ha, Nat.mod_eq_of_lt (by omega : n < 256)]
    exact hloop
  · have hplain : ∀ p ∈ ADDR_MAPPINGS, ¬ inEntry p (a + i) := by
      rcases hhole with h | h
      · exact h
      · by_cases hlt : a + i < 65536
        · rwa [Nat.mod_eq_of_lt hlt] at h
        · intro p hp hin
          obtain ⟨h1, _, _⟩ := table_entry p hp
          unfold inEntry at hin
          omega
    rw [hget, if_pos (by omega), Nat.sub_zero]
    unfold readSpec
    rw [if_neg]
    intro hall
    have hm := hall i (Nat.le_refl _)
    rw [mapped_iff_inEntry] at hm
    obtain ⟨p, hp, hin⟩ := hm
    exact hplain p hp hin


theorem write_loop_zero (mem : List Nat) (fuel Address pBuffer : Nat) :
    EEPROM_WriteBuffer_loop mem fuel Address pBuffer 0 = some ([], []) := by
  cases fuel <;> simp [EEPROM_WriteBuffer_loop]

/-- The write loop ends within its fuel, its chunks tile the request, it issues exactly the
driver calls of the chunks that start at a backed address, and every chunk carries what the
translator yields for its start address. -/
theorem write_loop_spec (mem : List Nat) :
    ∀ (fuel Address pBuffer Size : Nat), Size ≤ fuel → Size < 65536 →
    ∃ calls cs, EEPROM_WriteBuffer_loop mem fuel Address pBuffer Size = some (calls, cs) ∧
      Tiles Address pBuffer Size cs ∧ calls = cs.filterMap (writeCallOf mem) ∧
      ∀ c ∈ cs, chunkTranslated c := by
  intro fuel
  induction fuel with
  | zero =>
    intro Address pBuffer Size hf _
    have : Size = 0 := by omega
    subst this
    exact ⟨[], [], write_loop_zero _ _ _ _, Tiles_zero _ _, rfl, by simp⟩
  | succ fuel ih =>
    intro Address pBuffer Size hf hs
    by_cases h0 : Size = 0
    · subst h0
      exact ⟨[], [], write_loop_zero _ _ _ _, Tiles_zero _ _, rfl, by simp⟩
    · unfold EEPROM_WriteBuffer_loop
      rw [if_neg h0]
      dsimp only
      cases hscan : AddrTranslate_scan Address ADDR_MAPPINGS with
      | none =>
        rw [AddrTranslate_hole Address Size true hscan]
        dsimp only
        rw [if_neg (Nat.lt_irrefl _)]
        have hz : (Size + 65536 - Size) % 65536 = 0 := by omega
        rw [hz, write_loop_zero]
        dsimp only
        have hm : mapped Address = false := (mapped_false_iff _).mpr hscan
        refine ⟨_, _, rfl, ?_, ?_, ?_⟩
        · unfold Tiles
          dsimp only
          refine ⟨rfl, rfl, by omega, Nat.le_refl _, ?_⟩
          rw [Nat.sub_self]
          exact Tiles_zero _ _
        · rw [List.filterMap_cons]
          unfold writeCallOf
          dsimp only
          rw [if_neg (by rw [hm]; decide)]
          rfl
        · intro c hc
          rw [List.mem_singleton] at hc
          subst hc
          unfold chunkTranslated
          dsimp only
          refine ⟨fun _ => rfl, ?_⟩
          intro q hq hin
          exact absurd hin (scan_none _ _ hscan q hq)
      | some p =>
        obtain ⟨hp, hin⟩ := scan_some Address _ p hscan
        obtain ⟨h1, h2, h3⟩ := table_entry p hp
        have hin2 := hin
        unfold inEntry at hin
        rw [AddrTranslate_hit Address Size true p hscan]
        dsimp only
        have hlt : p.PY25Q16_Addr + (Address - p.EEPROM_Addr) < HOLE_ADDR := by
          unfold HOLE_ADDR; omega
        rw [if_pos hlt]
        have hA : (Address + min Size (p.Size - (Address - p.EEPROM_Addr))) % 65536
            = Address + min Size (p.Size - (Address - p.EEPROM_Addr)) := by omega
        have hS : (Size + 65536 - min Size (p.Size - (Address - p.EEPROM_Addr))) % 65536
            = Size - min Size (p.Size - (Address - p.EEPROM_Addr)) := by omega
        rw [hA, hS]
        obtain ⟨ws, cs, hloop, htiles, hcalls, hchunks⟩ :=
          ih (Address + min Size (p.Size - (Address - p.EEPROM_Addr)))
            (pBuffer + min Size (p.Size - (Address - p.EEPROM_Addr)))
            (Size - min Size (p.Size - (Address - p.EEPROM_Addr)))
            (by omega) (by omega)
        rw [hloop]
        dsimp only
        have hm : mapped Address = true := (mapped_true_iff _).mpr ⟨p, hscan⟩
        refine ⟨_, _, rfl, ?_, ?_, ?_⟩
        · unfold Tiles
          dsimp only
          exact ⟨rfl, rfl, by omega, by omega, htiles⟩
        · rw [List.filterMap_cons]
          unfold writeCallOf
          dsimp only
          rw [if_pos hm]
          dsimp only
          rw [hcalls]
          rfl
        · intro c hc
          rcases List.mem_cons.mp hc with rfl | hc
          · unfold chunkTranslated
            dsimp only
            refine ⟨fun h => absurd hm (by rw [h]; decide), ?_⟩
            intro q hq hqin
            have hqp : AddrTranslate_scan Address ADDR_MAPPINGS = some q :=
              scan_of_inEntry _ _ hq hqin
            rw [hscan] at hqp
            cases hqp
            refine ⟨rfl, hlt, Nat.min_le_right _ _, ?_⟩
            simp
          · exact hchunks c hc

theorem Tiles_bounds : ∀ (cs : List Chunk) (a off n : Nat), Tiles a off n cs →
    ∀ c ∈ cs, off ≤ c.pBuffer ∧ c.pBuffer + c.PY_Size ≤ off + n ∧
      a ≤ c.Address ∧ c.Address + c.PY_Size ≤ a + n ∧ 1 ≤ c.PY_Size := by
  intro cs
  induction cs with
  | nil => intro a off n _ c hc; simp at hc
  | cons d cs ih =>
    intro a off n h c hc
    unfold Tiles at h
    obtain ⟨hA, hoff, h1, h2, hrest⟩ := h
    rcases List.mem_cons.mp hc with rfl | hc
    · omega
    · have := ih _ _ _ hrest c hc
      omega

/-- C7. Write granule: `EEPROM_WriteBuffer(a, b)` terminates; its chunks tile exactly the 8
logical bytes from `a` (and the 8 bytes of `b`), each byte of `b` lying in exactly one chunk;
the driver calls it issues are, in order, those of the chunks whose start address lies in a
mapping, each with the chunk's translated physical address, the matching slice of `b` and the
translator's end flag; chunks that start in a hole issue no call. -/
theorem C7_write_granule (a : Nat) (b : List Nat) (ha : a < 65536) (hb : b.length = 8) :
    ∃ calls cs, EEPROM_WriteBuffer a b = some (calls, cs) ∧
      Tiles a 0 8 cs ∧ (∀ i, i < 8 → coverCount cs i = 1) ∧
      calls = cs.filterMap (writeCallOf b) ∧
      (∀ c ∈ cs, chunkTranslated c) ∧
      (∀ c ∈ cs, (writeCallOf b c).isSome = mapped c.Address) ∧
      (∀ c ∈ cs, ∀ w, writeCallOf b c = some w →
        w.PY_Addr = c.PY_Addr ∧ w.data = (b.drop c.pBuffer).take c.PY_Size ∧
        w.data.length = c.PY_Size ∧ w.PY_Size = c.PY_Size ∧ w.AppendFlag = c.AppendFlag) := by
  obtain ⟨calls, cs, hloop, htiles, hcalls, hchunks⟩ :=
    write_loop_spec b 8 a 0 8 (Nat.le_refl _) (by omega)
  refine ⟨calls, cs, ?_, htiles, ?_, hcalls, hchunks, ?_, ?_⟩
  · unfold EEPROM_WriteBuffer
    rw [Nat.mod_eq_of_lt ha]
    exact hloop
  · intro i hi
    rw [Tiles_coverCount cs a 0 8 i htiles, if_pos (by omega)]
  · intro c _
    unfold writeCallOf
    cases mapped c.Address <;> simp
  · intro c hc w hw
    have hbd := Tiles_bounds cs a 0 8 htiles c hc
    unfold writeCallOf at hw
    by_cases hm : mapped c.Address = true
    · rw [if_pos hm] at hw
      cases hw
      refine ⟨rfl, rfl, ?_, rfl, rfl⟩
      dsimp only
      rw [List.length_take, List.length_drop, hb]
      omega
    · rw [if_neg hm] at hw
      cases hw


/-! ## The catalog -/

theorem catalog_maps (nb : Nat) (m : AIRCOPY_TransferMap_t)
    (hm : m ∈ AIRCOPY_AvailableMaps nb) :
    m = AIRCOPY_Map_Settings ∨ ∃ n, n < 8 ∧ m = AIRCOPY_Map_Bank n := by
  unfold AIRCOPY_AvailableMaps at hm
  simp only [List.mem_append, List.mem_cons, List.mem_singleton, List.not_mem_nil,
    or_false] at hm
  rcases hm with (((h | h) | h) | h) | h
  · rcases h with h | h
    · exact Or.inr ⟨0, by omega, h⟩
    · exact Or.inr ⟨1, by omega, h⟩
  · split at h
    · simp only [List.mem_cons, List.mem_singleton, List.not_mem_nil, or_false] at h
      rcases h with h | h
      · exact Or.inr ⟨2, by omega, h⟩
      · exact Or.inr ⟨3, by omega, h⟩
    · simp at h
  · split at h
    · simp only [List.mem_cons, List.mem_singleton, List.not_mem_nil, or_false] at h
      rcases h with h | h
      · exact Or.inr ⟨4, by omega, h⟩
      · exact Or.inr ⟨5, by omega, h⟩
    · simp at h
  · split at h
    · simp only [List.mem_cons, List.mem_singleton, List.not_mem_nil, or_false] at h
      rcases h with h | h
      · exact Or.inr ⟨6, by omega, h⟩
      · exact Or.inr ⟨7, by omega, h⟩
    · simp at h
  · exact Or.inl h

theorem catalog_map_facts (nb : Nat) (m : AIRCOPY_TransferMap_t)
    (hm : m ∈ AIRCOPY_AvailableMaps nb) :
    m.num_segments = m.segments.length ∧ 0 < m.total_blocks ∧ m.total_blocks ≤ 68 := by
  rcases catalog_maps nb m hm with h | ⟨n, _, h⟩
  · subst h; decide
  · subst h
    simp [AIRCOPY_Map_Bank, AIRCOPY_STD_MAP, AIRCOPY_BANK_SEGMENTS]

theorem GetCurrentMap_mem (nb : Nat) (s : State) :
    (AIRCOPY_GetCurrentMap nb s).1 ∈ AIRCOPY_AvailableMaps nb := by
  rw [GetCurrentMap_fst]
  have hpos := NUM_MAPS_pos nb
  have hlt : (if s.gAircopyCurrentMapIndex ≥ AIRCOPY_NUM_MAPS nb then 0
      else s.gAircopyCurrentMapIndex) < (AIRCOPY_AvailableMaps nb).length := by
    have e : (AIRCOPY_AvailableMaps nb).length = AIRCOPY_NUM_MAPS nb := by
      unfold AIRCOPY_NUM_MAPS; rfl
    rw [e]
    split <;> omega
  rw [List.getD_eq_getElem _ _ hlt]
  exact List.getElem_mem _

theorem segmentAt_mem (m : AIRCOPY_TransferMap_t) (i : Nat) (hi : i < m.segments.length) :
    segmentAt m i ∈ m.segments := by
  unfold segmentAt
  rw [List.getD_eq_getElem _ _ hi]
  exact List.getElem_mem _

theorem validOffset_false_of (m : AIRCOPY_TransferMap_t) (off : Nat)
    (hn : m.num_segments = m.segments.length)
    (h : ∀ seg ∈ m.segments, ¬ (seg.start_offset ≤ off ∧ off < seg.end_offset)) :
    AIRCOPY_StorePacket_validOffset m off = false := by
  unfold AIRCOPY_StorePacket_validOffset
  rw [List.any_eq_false]
  intro i hi
  rw [List.mem_range, hn] at hi
  have := h _ (segmentAt_mem m i hi)
  simpa using this

theorem validOffset_true_iff (m : AIRCOPY_TransferMap_t) (off : Nat)
    (hn : m.num_segments = m.segments.length) :
    AIRCOPY_StorePacket_validOffset m off = true ↔
      ∃ seg ∈ m.segments, seg.start_offset ≤ off ∧ off < seg.end_offset := by
  constructor
  · intro h
    unfold AIRCOPY_StorePacket_validOffset at h
    rw [List.any_eq_true] at h
    obtain ⟨i, hi, hp⟩ := h
    rw [List.mem_range, hn] at hi
    exact ⟨_, segmentAt_mem m i hi, by simpa using hp⟩
  · intro h
    by_contra hv
    obtain ⟨seg, hs, hc⟩ := h
    have hf : AIRCOPY_StorePacket_validOffset m off = false := by simpa using hv
    unfold AIRCOPY_StorePacket_validOffset at hf
    rw [List.any_eq_false] at hf
    obtain ⟨i, hi, he⟩ := List.getElem_of_mem hs
    have := hf i (by rw [List.mem_range, hn]; exact hi)
    unfold segmentAt at this
    rw [List.getD_eq_getElem _ _ hi, he] at this
    simp at this
    omega

/-- C8. Rejected packets are counted and never stored: when `AIRCOPY_StorePacket` processes a
full buffer that has status bit 0x0010 set, or a wrong word 0 or word 35, or a checksum
mismatch after de-obfuscation, or a decoded offset in no segment of the active map, then
`gErrorsDuringAirCopy` is incremented once (a 16-bit increment: `+ 1` below 65535),
`gAirCopyBlockNumber` is unchanged, and no `EEPROM_WriteBuffer` call is issued. -/
theorem C8_rejected_counted_not_stored (nb : Nat) (crc : List Nat → Nat) (Status : Nat)
    (s : State) (hfull : 36 ≤ s.gFSKWriteIndex)
    (hrej : Status &&& 0x0010 ≠ 0 ∨ s.g_FSK_Buffer.getD 0 0 ≠ 0xABCD ∨
      s.g_FSK_Buffer.getD 35 0 ≠ 0xDCBA ∨
      (obfuscationLoop s.g_FSK_Buffer).getD 34 0 ≠
        crc (crcInput (obfuscationLoop s.g_FSK_Buffer)) % 65536 ∨
      (∀ seg ∈ (AIRCOPY_GetCurrentMap nb s).1.segments,
        ¬ (seg.start_offset ≤ (obfuscationLoop s.g_FSK_Buffer).getD 1 0 ∧
           (obfuscationLoop s.g_FSK_Buffer).getD 1 0 < seg.end_offset))) :
    (AIRCOPY_StorePacket nb crc Status s).1.gErrorsDuringAirCopy
      = (s.gErrorsDuringAirCopy + 1) % 65536 ∧
    (s.gErrorsDuringAirCopy < 65535 →
      (AIRCOPY_StorePacket nb crc Status s).1.gErrorsDuringAirCopy
        = s.gErrorsDuringAirCopy + 1) ∧
    (AIRCOPY_StorePacket nb crc Status s).1.gAirCopyBlockNumber = s.gAirCopyBlockNumber ∧
    ∀ Address data,
      Event.EEPROM_WriteBuffer Address data ∉ (AIRCOPY_StorePacket nb crc Status s).2 := by
  have hacc : packetAccepted nb crc Status s = false := by
    rw [packetAccepted_false_iff]
    by_cases hf : AIRCOPY_StorePacket_frameError Status s.g_FSK_Buffer = true
    · exact Or.inl hf
    · have hf0 : AIRCOPY_StorePacket_frameError Status s.g_FSK_Buffer = false := by
        simpa using hf
      obtain ⟨h1, h2, h3⟩ := (frameError_false_iff _ _).mp hf0
      by_cases hc : AIRCOPY_StorePacket_crcError crc (obfuscationLoop s.g_FSK_Buffer) = true
      · exact Or.inr (Or.inl hc)
      · have hc0 : AIRCOPY_StorePacket_crcError crc (obfuscationLoop s.g_FSK_Buffer) = false := by
          simpa using hc
        have h4 := (crcError_false_iff _ _).mp hc0
        rcases hrej with h | h | h | h | h
        · exact absurd h1 h
        · exact absurd h2 h
        · exact absurd h3 h
        · exact absurd h4 h
        · exact Or.inr (Or.inr (validOffset_false_of _ _
            (catalog_map_facts nb _ (GetCurrentMap_mem nb s)).1 h))
  obtain ⟨⟨he, hb, _, _⟩, hev⟩ := StorePacket_rejected nb crc Status s hfull hacc
  refine ⟨he, ?_, hb, ?_⟩
  · intro hlt
    rw [he, Nat.mod_eq_of_lt (by omega)]
  · intro Address data hmem
    rcases hev with h | h <;> rw [h] at hmem <;> simp at hmem


/-! ## The two write loops of the receive path -/

theorem getD_take (l : List Nat) (n j : Nat) :
    (l.take n).getD j 0 = if j < n then l.getD j 0 else 0 := by
  have := getD_take_drop l 0 n j
  rwa [List.drop_zero, Nat.zero_add] at this

theorem payload_slice_getD (buf : List Nat) (i j : Nat) (hi : i < 8) (hj : j < 8) :
    (((payloadBytes buf).drop (8 * i)).take 8).getD j 0 =
      if (8 * i + j) % 2 = 0 then buf.getD (2 + (8 * i + j) / 2) 0 % 256
      else buf.getD (2 + (8 * i + j) / 2) 0 / 256 % 256 := by
  rw [getD_take_drop, if_pos hj, payloadBytes_getD]
  have : (8 * i + j) / 2 < 32 := by omega
  simp only [this, if_true]

theorem payload_slice_length (buf : List Nat) (hl : buf.length = 36) (i : Nat) (hi : i < 8) :
    (((payloadBytes buf).drop (8 * i)).take 8).length = 8 := by
  rw [List.length_take, List.length_drop, payloadBytes_length _ hl]
  omega

theorem writeBytes_slice (buf : List Nat) (hl : buf.length = 36) (i : Nat) (hi : i < 8) :
    ((bytesOfWords (buf.drop 2)).drop (i * 8)).take 8 =
      ((payloadBytes buf).drop (8 * i)).take 8 := by
  apply list_ext_getD
  · rw [payload_slice_length buf hl i hi, List.length_take, List.length_drop,
      bytesOfWords_length, List.length_drop, hl]
    omega
  · intro j hj
    rw [List.length_take, List.length_drop, bytesOfWords_length, List.length_drop, hl] at hj
    have hj8 : j < 8 := by omega
    rw [payload_slice_getD buf i j hi hj8, getD_take_drop, if_pos hj8, bytesOfWords_getD,
      getD_drop, Nat.mul_comm i 8]

theorem writeStruct_slice (buf : List Nat) (hl : buf.length = 36) (i : Nat) (hi : i < 8) :
    (bytesOfWords (buf.drop (2 + 4 * i))).take 8 =
      ((payloadBytes buf).drop (8 * i)).take 8 := by
  apply list_ext_getD
  · rw [payload_slice_length buf hl i hi, List.length_take, bytesOfWords_length,
      List.length_drop, hl]
    omega
  · intro j hj
    rw [List.length_take, bytesOfWords_length, List.length_drop, hl] at hj
    have hj8 : j < 8 := by omega
    rw [payload_slice_getD buf i j hi hj8, getD_take, if_pos hj8, bytesOfWords_getD, getD_drop]
    have e1 : (8 * i + j) % 2 = j % 2 := by omega
    have e2 : 2 + 4 * i + j / 2 = 2 + (8 * i + j) / 2 := by omega
    rw [e1, e2]

/-- The eight calls both write loops are expected to make. -/
theorem writeBytes_eq (buf : List Nat) (Offset : Nat) (hl : buf.length = 36) :
    AIRCOPY_StorePacket_writeBytes buf Offset =
      (List.range 8).map (fun i =>
        Event.EEPROM_WriteBuffer ((Offset + 8 * i) % 65536)
          (((payloadBytes buf).drop (8 * i)).take 8)) := by
  unfold AIRCOPY_StorePacket_writeBytes
  dsimp only
  apply List.map_congr_left
  intro i hi
  rw [List.mem_range] at hi
  rw [writeBytes_slice buf hl i hi, Nat.mul_comm i 8]

theorem writeStruct_upto (buf : List Nat) (Offset : Nat) (hoff : Offset < 65536) (k : Nat) :
    (List.range k).foldl
      (fun (acc : List Event × Nat × Nat) _ =>
        let (calls, pData, Offset) := acc
        (calls ++ [Event.EEPROM_WriteBuffer Offset
            ((bytesOfWords (buf.drop pData)).take 8)],
          pData + 4, (Offset + 8) % 65536))
      ([], 2, Offset) =
    ((List.range k).map (fun i =>
        Event.EEPROM_WriteBuffer ((Offset + 8 * i) % 65536)
          ((bytesOfWords (buf.drop (2 + 4 * i))).take 8)),
      2 + 4 * k, (Offset + 8 * k) % 65536) := by
  induction k with
  | zero =>
    simp only [List.range_zero, List.foldl_nil, List.map_nil, Nat.mul_zero, Nat.add_zero]
    rw [Nat.mod_eq_of_lt hoff]
  | succ k ih =>
    rw [List.range_succ, List.foldl_append, ih]
    simp only [List.foldl_cons, List.foldl_nil, List.map_append, List.map_cons, List.map_nil]
    refine Prod.ext rfl (Prod.ext ?_ ?_)
    · dsimp only; omega
    · dsimp only; omega

theorem writeStruct_eq (buf : List Nat) (Offset : Nat) (hl : buf.length = 36)
    (hoff : Offset < 65536) :
    AIRCOPY_StorePacket_writeStruct buf Offset =
      (List.range 8).map (fun i =>
        Event.EEPROM_WriteBuffer ((Offset + 8 * i) % 65536)
          (((payloadBytes buf).drop (8 * i)).take 8)) := by
  unfold AIRCOPY_StorePacket_writeStruct
  rw [writeStruct_upto buf Offset hoff 8]
  dsimp only
  apply List.map_congr_left
  intro i hi
  rw [List.mem_range] at hi
  rw [writeStruct_slice buf hl i hi]

theorem getD_lt_65536 (l : List Nat) (h : ∀ w ∈ l, w < 65536) (j : Nat) :
    l.getD j 0 < 65536 := by
  by_cases hj : j < l.length
  · rw [List.getD_eq_getElem _ _ hj]
    exact h _ (List.getElem_mem hj)
  · rw [getD_of_le _ _ (Nat.le_of_not_lt hj)]; omega

theorem Obfuscation_lt (j : Nat) : Obfuscation.getD j 0 < 65536 := by
  apply getD_lt_65536
  decide

theorem obfuscationLoop_lt (buf : List Nat) (h : ∀ w ∈ buf, w < 65536) (j : Nat) :
    (obfuscationLoop buf).getD j 0 < 65536 := by
  rw [obfuscationLoop_getD]
  split
  · exact Nat.xor_lt_two_pow (n := 16) (getD_lt_65536 buf h j) (Obfuscation_lt _)
  · exact getD_lt_65536 buf h j


/-- C9. Accepted packet write sequence, independent of the write mode: for a full buffer of
16-bit words that passes the framing test, the checksum test and the offset validation, the
`AIRCOPY_WRITE_BYTES` loop and the `AIRCOPY_WRITE_STRUCT` loop both issue the same eight
`EEPROM_WriteBuffer` calls, the `i`-th at logical address `(Offset + 8 * i) mod 2^16` with
payload bytes `8 * i .. 8 * i + 7`; `AIRCOPY_StorePacket` issues exactly these calls after
re-arming the receiver, `gAirCopyBlockNumber` is incremented once (a 16-bit increment: `+ 1`
below 65535) and `gErrorsDuringAirCopy` is unchanged. -/
theorem C9_accepted_write_sequence (nb : Nat) (crc : List Nat → Nat) (Status : Nat)
    (s : State) (hfull : 36 ≤ s.gFSKWriteIndex) (hlen : s.g_FSK_Buffer.length = 36)
    (hwords : ∀ w ∈ s.g_FSK_Buffer, w < 65536)
    (hacc : packetAccepted nb crc Status s = true) :
    AIRCOPY_StorePacket_writeBytes (obfuscationLoop s.g_FSK_Buffer)
        ((obfuscationLoop s.g_FSK_Buffer).getD 1 0) =
      (List.range 8).map (fun i =>
        Event.EEPROM_WriteBuffer (((obfuscationLoop s.g_FSK_Buffer).getD 1 0 + 8 * i) % 65536)
          (((payloadBytes (obfuscationLoop s.g_FSK_Buffer)).drop (8 * i)).take 8)) ∧
    AIRCOPY_StorePacket_writeStruct (obfuscationLoop s.g_FSK_Buffer)
        ((obfuscationLoop s.g_FSK_Buffer).getD 1 0) =
      (List.range 8).map (fun i =>
        Event.EEPROM_WriteBuffer (((obfuscationLoop s.g_FSK_Buffer).getD 1 0 + 8 * i) % 65536)
          (((payloadBytes (obfuscationLoop s.g_FSK_Buffer)).drop (8 * i)).take 8)) ∧
    (AIRCOPY_StorePacket nb crc Status s).2 =
      Event.BK4819_PrepareFSKReceive ::
        (List.range 8).map (fun i =>
          Event.EEPROM_WriteBuffer
            (((obfuscationLoop s.g_FSK_Buffer).getD 1 0 + 8 * i) % 65536)
            (((payloadBytes (obfuscationLoop s.g_FSK_Buffer)).drop (8 * i)).take 8)) ∧
    (AIRCOPY_StorePacket nb crc Status s).1.gAirCopyBlockNumber
      = (s.gAirCopyBlockNumber + 1) % 65536 ∧
    (s.gAirCopyBlockNumber < 65535 →
      (AIRCOPY_StorePacket nb crc Status s).1.gAirCopyBlockNumber
        = s.gAirCopyBlockNumber + 1) ∧
    (AIRCOPY_StorePacket nb crc Status s).1.gErrorsDuringAirCopy = s.gErrorsDuringAirCopy := by
  have hl : (obfuscationLoop s.g_FSK_Buffer).length = 36 := by
    rw [obfuscationLoop_length, hlen]
  have hoff := obfuscationLoop_lt s.g_FSK_Buffer hwords 1
  have hB := writeBytes_eq (obfuscationLoop s.g_FSK_Buffer)
    ((obfuscationLoop s.g_FSK_Buffer).getD 1 0) hl
  have hS := writeStruct_eq (obfuscationLoop s.g_FSK_Buffer) _ hl hoff
  obtain ⟨⟨he, hb, _, _⟩, seg, hev⟩ := StorePacket_accepted nb crc Status s hfull hacc
  refine ⟨hB, hS, ?_, hb, ?_, he⟩
  · rw [hev]
    by_cases hm : seg.write_mode = AIRCOPY_WRITE_BYTES
    · rw [if_pos hm, hB]
    · rw [if_neg hm, hS]
  · intro hlt
    rw [hb, Nat.mod_eq_of_lt (by omega)]


/-! ## A receive session -/

theorem Key_EXIT_start (s : State) (hbox : s.gInputBoxIndex = 0) :
    (AIRCOPY_Key_EXIT true false s).1.gAircopyState = AIRCOPY_TRANSFER ∧
    (AIRCOPY_Key_EXIT true false s).1.gAirCopyBlockNumber = 0 ∧
    (AIRCOPY_Key_EXIT true false s).1.gErrorsDuringAirCopy = 0 ∧
    (AIRCOPY_Key_EXIT true false s).1.gFSKWriteIndex = 0 ∧
    (AIRCOPY_Key_EXIT true false s).1.gAirCopyIsSendMode = 0 ∧
    (AIRCOPY_Key_EXIT true false s).1.gAircopyCurrentMapIndex = s.gAircopyCurrentMapIndex := by
  unfold AIRCOPY_Key_EXIT AIRCOPY_clear
  rw [if_neg (by simp), if_pos hbox]
  exact ⟨rfl, rfl, rfl, rfl, rfl, rfl⟩

theorem receiveAccepts_congr (nb : Nat) (crc : List Nat → Nat) (s t : State)
    (pkt : Nat × List Nat) (h : s.gAircopyCurrentMapIndex = t.gAircopyCurrentMapIndex) :
    receiveAccepts nb crc s pkt = receiveAccepts nb crc t pkt := by
  unfold receiveAccepts packetAccepted
  dsimp only
  have e : (AIRCOPY_GetCurrentMap nb
      { s with g_FSK_Buffer := pkt.2, gFSKWriteIndex := 36 }).1 =
      (AIRCOPY_GetCurrentMap nb
      { t with g_FSK_Buffer := pkt.2, gFSKWriteIndex := 36 }).1 :=
    GetCurrentMap_congr _ _ _ h
  rw [e]

theorem GetCurrentMap_index_of_lt (nb : Nat) (s : State)
    (h : s.gAircopyCurrentMapIndex < AIRCOPY_NUM_MAPS nb) :
    (AIRCOPY_GetCurrentMap nb s).2.gAircopyCurrentMapIndex = s.gAircopyCurrentMapIndex := by
  rw [GetCurrentMap_index, if_neg (by omega)]

/-- One received packet, in terms of the state before it. -/
theorem receivePacket_step (nb : Nat) (crc : List Nat → Nat) (t : State)
    (pkt : Nat × List Nat) (h : t.gAircopyCurrentMapIndex < AIRCOPY_NUM_MAPS nb) :
    (receivePacket nb crc t pkt).1.gAircopyCurrentMapIndex = t.gAircopyCurrentMapIndex ∧
    (receivePacket nb crc t pkt).1.gAirCopyBlockNumber =
      (if receiveAccepts nb crc t pkt = true then (t.gAirCopyBlockNumber + 1) % 65536
       else t.gAirCopyBlockNumber) ∧
    (receivePacket nb crc t pkt).1.gErrorsDuringAirCopy =
      (if receiveAccepts nb crc t pkt = true then t.gErrorsDuringAirCopy
       else (t.gErrorsDuringAirCopy + 1) % 65536) ∧
    (receivePacket nb crc t pkt).1.gAircopyState =
      (if ((receivePacket nb crc t pkt).1.gAirCopyBlockNumber +
            (receivePacket nb crc t pkt).1.gErrorsDuringAirCopy) % 65536 ≥
          (AIRCOPY_GetCurrentMap nb t).1.total_blocks then AIRCOPY_COMPLETE
       else t.gAircopyState) := by
  have hm : (AIRCOPY_GetCurrentMap nb
      { t with g_FSK_Buffer := pkt.2, gFSKWriteIndex := 36 }).1 =
      (AIRCOPY_GetCurrentMap nb t).1 := GetCurrentMap_congr _ _ _ rfl
  have hi : (AIRCOPY_GetCurrentMap nb
      { t with g_FSK_Buffer := pkt.2, gFSKWriteIndex := 36 }).2.gAircopyCurrentMapIndex =
      t.gAircopyCurrentMapIndex :=
    GetCurrentMap_index_of_lt nb { t with g_FSK_Buffer := pkt.2, gFSKWriteIndex := 36 } h
  by_cases hacc : receiveAccepts nb crc t pkt = true
  · have hacc2 := hacc
    unfold receiveAccepts at hacc2
    obtain ⟨⟨he, hb, hidx, hst⟩, _⟩ :=
      StorePacket_accepted nb crc pkt.1
        { t with g_FSK_Buffer := pkt.2, gFSKWriteIndex := 36 } (Nat.le_refl 36) hacc2
    rw [hm] at hst
    rw [hi] at hidx
    unfold receivePacket
    rw [if_pos hacc, if_pos hacc]
    refine ⟨hidx, hb, he, ?_⟩
    rw [hst, hb, he]
  · have hacc0 : receiveAccepts nb crc t pkt = false := by simpa using hacc
    have hacc2 := hacc0
    unfold receiveAccepts at hacc2
    obtain ⟨⟨he, hb, hidx, hst⟩, _⟩ :=
      StorePacket_rejected nb crc pkt.1
        { t with g_FSK_Buffer := pkt.2, gFSKWriteIndex := 36 } (Nat.le_refl 36) hacc2
    rw [hm] at hst
    rw [hi] at hidx
    unfold receivePacket
    rw [if_neg hacc, if_neg hacc]
    refine ⟨hidx, hb, he, ?_⟩
    rw [hst, hb, he]

/-- The counters and the state after a run of received packets that does not exceed the
`T` block slots of the active map. -/
theorem receivePackets_run (nb : Nat) (crc : List Nat → Nat) (ref : State) (T : Nat)
    (hT : T ≤ 68) :
    ∀ (pkts : List (Nat × List Nat)) (t : State) (m : Nat),
      t.gAircopyCurrentMapIndex = ref.gAircopyCurrentMapIndex →
      ref.gAircopyCurrentMapIndex < AIRCOPY_NUM_MAPS nb →
      (AIRCOPY_GetCurrentMap nb ref).1.total_blocks = T →
      t.gAirCopyBlockNumber + t.gErrorsDuringAirCopy = m →
      t.gAircopyState = (if m ≥ T then AIRCOPY_COMPLETE else AIRCOPY_TRANSFER) →
      m + pkts.length ≤ T →
      (receivePackets nb crc t pkts).gAircopyCurrentMapIndex = ref.gAircopyCurrentMapIndex ∧
      (receivePackets nb crc t pkts).gAirCopyBlockNumber =
        t.gAirCopyBlockNumber + (pkts.filter (receiveAccepts nb crc ref)).length ∧
      (receivePackets nb crc t pkts).gErrorsDuringAirCopy =
        t.gErrorsDuringAirCopy + (pkts.length - (pkts.filter (receiveAccepts nb crc ref)).length) ∧
      (receivePackets nb crc t pkts).gAircopyState =
        (if m + pkts.length ≥ T then AIRCOPY_COMPLETE else AIRCOPY_TRANSFER) := by
  intro pkts
  induction pkts with
  | nil =>
    intro t m hidx _ _ _ hst _
    unfold receivePackets
    exact ⟨hidx, rfl, rfl, hst⟩
  | cons p rest ih =>
    intro t m hidx hlt hmap hm hst hlen
    rw [List.length_cons] at hlen
    have hlt2 : t.gAircopyCurrentMapIndex < AIRCOPY_NUM_MAPS nb := by rw [hidx]; exact hlt
    obtain ⟨s1, s2, s3, s4⟩ := receivePacket_step nb crc t p hlt2
    rw [GetCurrentMap_congr nb t ref hidx, hmap] at s4
    rw [receiveAccepts_congr nb crc t ref p hidx] at s2 s3
    have hfl := List.length_filter_le (receiveAccepts nb crc ref) rest
    unfold receivePackets
    by_cases hacc : receiveAccepts nb crc ref p = true
    · rw [if_pos hacc] at s2 s3
      have hb : (receivePacket nb crc t p).1.gAirCopyBlockNumber = t.gAirCopyBlockNumber + 1 := by
        rw [s2]; omega
      rw [hb, s3] at s4
      have hsum : t.gAirCopyBlockNumber + 1 + t.gErrorsDuringAirCopy = m + 1 := by omega
      have hst2 : (receivePacket nb crc t p).1.gAircopyState =
          (if m + 1 ≥ T then AIRCOPY_COMPLETE else AIRCOPY_TRANSFER) := by
        rw [s4, hst, hsum, Nat.mod_eq_of_lt (by omega)]
        by_cases h1 : m + 1 ≥ T
        · rw [if_pos h1, if_pos h1]
        · rw [if_neg h1, if_neg h1, if_neg (by omega)]
      obtain ⟨r1, r2, r3, r4⟩ := ih (receivePacket nb crc t p).1 (m + 1) (by rw [s1, hidx]) hlt hmap
        (by rw [hb, s3]; omega) hst2 (by omega)
      rw [List.filter_cons, if_pos hacc, List.length_cons, List.length_cons]
      refine ⟨r1, ?_, ?_, ?_⟩
      · rw [r2, hb]; omega
      · rw [r3, s3]; omega
      · rw [r4]
        have : m + 1 + rest.length = m + (rest.length + 1) := by omega
        rw [this]
    · rw [if_neg hacc] at s2 s3
      have he : (receivePacket nb crc t p).1.gErrorsDuringAirCopy = t.gErrorsDuringAirCopy + 1 := by
        rw [s3]; omega
      rw [s2, he] at s4
      have hsum : t.gAirCopyBlockNumber + (t.gErrorsDuringAirCopy + 1) = m + 1 := by omega
      have hst2 : (receivePacket nb crc t p).1.gAircopyState =
          (if m + 1 ≥ T then AIRCOPY_COMPLETE else AIRCOPY_TRANSFER) := by
        rw [s4, hst, hsum, Nat.mod_eq_of_lt (by omega)]
        by_cases h1 : m + 1 ≥ T
        · rw [if_pos h1, if_pos h1]
        · rw [if_neg h1, if_neg h1, if_neg (by omega)]
      obtain ⟨r1, r2, r3, r4⟩ := ih (receivePacket nb crc t p).1 (m + 1) (by rw [s1, hidx]) hlt hmap
        (by rw [s2, he]; omega) hst2 (by omega)
      rw [List.filter_cons, if_neg hacc, List.length_cons]
      refine ⟨r1, ?_, ?_, ?_⟩
      · rw [r2, s2]
      · rw [r3, he]; omega
      · rw [r4]
        have : m + 1 + rest.length = m + (rest.length + 1) := by omega
        rw [this]


/-- C10. A receive session ends after exactly `total_blocks` attempts: after start-receive
(`AIRCOPY_Key_EXIT` pressed with an empty input box) on a map of the catalog with
`total_blocks = T`, and for every sequence of full packets, the state after the first `j`
packets (`j ≤ T`) is `AIRCOPY_TRANSFER` when `j < T` and `AIRCOPY_COMPLETE` when `j = T`,
whatever the mix of accepted and rejected packets; `gAirCopyBlockNumber` is the number of
accepted packets among them, `gErrorsDuringAirCopy` the number of rejected ones, and the map
selection is unchanged.  (With `T = 6`, four accepted and two rejected packets give
`AIRCOPY_COMPLETE`, 4 and 2.) -/
theorem C10_receive_session_length (nb : Nat) (crc : List Nat → Nat) (s0 : State)
    (pkts : List (Nat × List Nat)) (j : Nat)
    (hbox : s0.gInputBoxIndex = 0)
    (hidx : s0.gAircopyCurrentMapIndex < AIRCOPY_NUM_MAPS nb)
    (hj : j ≤ pkts.length)
    (hjT : j ≤ ((AIRCOPY_AvailableMaps nb).getD s0.gAircopyCurrentMapIndex
      AIRCOPY_Map_Settings).total_blocks) :
    (receivePackets nb crc (AIRCOPY_Key_EXIT true false s0).1 (pkts.take j)).gAircopyState =
      (if j = ((AIRCOPY_AvailableMaps nb).getD s0.gAircopyCurrentMapIndex
          AIRCOPY_Map_Settings).total_blocks then AIRCOPY_COMPLETE else AIRCOPY_TRANSFER) ∧
    (receivePackets nb crc (AIRCOPY_Key_EXIT true false s0).1 (pkts.take j)).gAirCopyBlockNumber =
      ((pkts.take j).filter
        (receiveAccepts nb crc (AIRCOPY_Key_EXIT true false s0).1)).length ∧
    (receivePackets nb crc (AIRCOPY_Key_EXIT true false s0).1 (pkts.take j)).gErrorsDuringAirCopy =
      j - ((pkts.take j).filter
        (receiveAccepts nb crc (AIRCOPY_Key_EXIT true false s0).1)).length ∧
    (receivePackets nb crc (AIRCOPY_Key_EXIT true false s0).1
      (pkts.take j)).gAircopyCurrentMapIndex = s0.gAircopyCurrentMapIndex := by
  obtain ⟨k1, k2, k3, _, _, k6⟩ := Key_EXIT_start s0 hbox
  have hmapeq : (AIRCOPY_GetCurrentMap nb (AIRCOPY_Key_EXIT true false s0).1).1 =
      (AIRCOPY_AvailableMaps nb).getD s0.gAircopyCurrentMapIndex AIRCOPY_Map_Settings := by
    rw [GetCurrentMap_fst, k6, if_neg (by omega)]
  have hfacts := catalog_map_facts nb _ (GetCurrentMap_mem nb (AIRCOPY_Key_EXIT true false s0).1)
  rw [hmapeq] at hfacts
  obtain ⟨_, hpos, h68⟩ := hfacts
  have hlen : (pkts.take j).length = j := by
    rw [List.length_take]; omega
  obtain ⟨r1, r2, r3, r4⟩ := receivePackets_run nb crc (AIRCOPY_Key_EXIT true false s0).1
    ((AIRCOPY_AvailableMaps nb).getD s0.gAircopyCurrentMapIndex AIRCOPY_Map_Settings).total_blocks
    h68 (pkts.take j) (AIRCOPY_Key_EXIT true false s0).1 0 rfl (by rw [k6]; exact hidx)
    (by rw [hmapeq]) (by rw [k2, k3]) (by rw [k1, if_neg (by omega)]) (by rw [hlen]; omega)
  rw [hlen] at r3 r4
  rw [k2, Nat.zero_add] at r2
  rw [k3, Nat.zero_add] at r3
  rw [Nat.zero_add] at r4
  refine ⟨?_, r2, r3, by rw [r1, k6]⟩
  rw [r4]
  by_cases h : j = ((AIRCOPY_AvailableMaps nb).getD s0.gAircopyCurrentMapIndex
      AIRCOPY_Map_Settings).total_blocks
  · rw [if_pos h, if_pos (by omega)]
  · rw [if_neg h, if_neg (by omega)]


/-! ## The send path -/

theorem getD_map_range (n : Nat) (f : Nat → Nat) (j : Nat) :
    ((List.range n).map f).getD j 0 = if j < n then f j else 0 := by
  by_cases h : j < n
  · rw [if_pos h, List.getD_eq_getElem _ _ (by simpa using h)]
    simp
  · rw [if_neg h, getD_of_le _ _ (by simpa using h)]

theorem readSpec_lt (flash : Nat → Nat) (a i : Nat) : readSpec flash a i < 256 := by
  unfold readSpec
  split
  · exact Nat.mod_lt _ (by omega)
  · omega

/-- The result of `EEPROM_ReadBuffer` on a destination of exactly `n` bytes. -/
theorem read_result (flash : Nat → Nat) (a n : Nat) (region : List Nat)
    (hn : n ≤ 255) (hr : region.length = n) :
    ∃ cs, EEPROM_ReadBuffer flash a region n =
      some ((List.range n).map (readSpec flash (a % 65536)), cs) := by
  obtain ⟨mem1, cs, hloop, _, hlen, hget⟩ :=
    read_loop_spec flash 256 (a % 65536) 0 n region (by omega) (by omega)
  refine ⟨cs, ?_⟩
  unfold EEPROM_ReadBuffer
  rw [Nat.mod_eq_of_lt (by omega : n < 256), hloop]
  have : mem1 = (List.range n).map (readSpec flash (a % 65536)) := by
    apply list_ext_getD
    · rw [hlen, hr]; simp
    · intro j hj
      rw [hlen, hr] at hj
      rw [hget, if_pos (by omega), getD_map_range, if_pos hj, Nat.sub_zero]
  rw [this]

theorem readBlock_length (flash : Nat → Nat) (offset : Nat) :
    (readBlock flash offset).length = 64 := by
  unfold readBlock; simp

theorem readBlock_lt (flash : Nat → Nat) (offset : Nat) :
    ∀ b ∈ readBlock flash offset, b < 256 := by
  intro b hb
  unfold readBlock at hb
  rw [List.mem_map] at hb
  obtain ⟨i, _, rfl⟩ := hb
  exact readSpec_lt _ _ _

theorem read_block (flash : Nat → Nat) (offset : Nat) (region : List Nat)
    (hr : region.length = 64) :
    ∃ cs, EEPROM_ReadBuffer flash offset region 64 = some (readBlock flash offset, cs) :=
  read_result flash offset 64 region (by omega) hr

/-- The segment loop only moves the cursor. -/
theorem advance_frame (map : AIRCOPY_TransferMap_t) :
    ∀ (fuel : Nat) (s s4 : State), AIRCOPY_SendMessage_advance map fuel s = some s4 →
      s4 = { s with CurrentSegmentIndex := s4.CurrentSegmentIndex,
                    CurrentOffset := s4.CurrentOffset } := by
  intro fuel
  induction fuel with
  | zero =>
    intro s s4 h
    unfold AIRCOPY_SendMessage_advance at h
    split at h
    · cases h
    · cases h; rfl
  | succ fuel ih =>
    intro s s4 h
    unfold AIRCOPY_SendMessage_advance at h
    split at h
    · dsimp only at h
      have := ih _ _ h
      rw [this]
      split <;> rfl
    · cases h; rfl

/-- The segment loop ends within `num_segments` iterations. -/
theorem advance_total (map : AIRCOPY_TransferMap_t) (hn : map.num_segments < 65536) :
    ∀ (fuel : Nat) (s : State), map.num_segments ≤ fuel + s.CurrentSegmentIndex →
      ∃ s4, AIRCOPY_SendMessage_advance map fuel s = some s4 := by
  intro fuel
  induction fuel with
  | zero =>
    intro s h
    unfold AIRCOPY_SendMessage_advance
    rw [if_neg (by omega)]
    exact ⟨s, rfl⟩
  | succ fuel ih =>
    intro s h
    unfold AIRCOPY_SendMessage_advance
    split
    · rename_i hc
      dsimp only
      apply ih
      have e : (s.CurrentSegmentIndex + 1) % 65536 = s.CurrentSegmentIndex + 1 := by omega
      split
      · dsimp only; omega
      · dsimp only; omega
    · exact ⟨s, rfl⟩


theorem SendMessage_not_transfer (nb : Nat) (crc : List Nat → Nat) (flash : Nat → Nat)
    (s : State) (h : s.gAircopyState ≠ AIRCOPY_TRANSFER) :
    AIRCOPY_SendMessage nb crc flash s = some (true, s, []) := by
  unfold AIRCOPY_SendMessage
  rw [if_pos h]

theorem SendMessage_throttled (nb : Nat) (crc : List Nat → Nat) (flash : Nat → Nat)
    (s : State) (h : s.gAircopyState = AIRCOPY_TRANSFER)
    (hcd : (s.gAircopySendCountdown + 255) % 256 ≠ 0) :
    AIRCOPY_SendMessage nb crc flash s =
      some (true,
        { s with gAircopySendCountdown := (s.gAircopySendCountdown + 255) % 256 }, []) := by
  unfold AIRCOPY_SendMessage
  rw [if_neg (by rw [h]; exact fun h2 => h2 rfl)]
  dsimp only
  rw [if_pos hcd]

theorem prepared_buffer (nb : Nat) (s : State) :
    (SendMessage_prepared nb s).g_FSK_Buffer = s.g_FSK_Buffer := by
  unfold SendMessage_prepared
  dsimp only
  split
  · dsimp only
    rw [GetCurrentMap_g_FSK_Buffer]
  · rw [GetCurrentMap_g_FSK_Buffer]

theorem prepared_map (nb : Nat) (s : State) :
    (AIRCOPY_GetCurrentMap nb
      { s with gAircopySendCountdown := (s.gAircopySendCountdown + 255) % 256 }).1 =
      (AIRCOPY_GetCurrentMap nb s).1 := GetCurrentMap_congr _ _ _ rfl

/-- A due tick of `AIRCOPY_SendMessage`: the transfer completes when the cursor has left the
last segment, otherwise one block is read, framed and transmitted. -/
theorem SendMessage_due (nb : Nat) (crc : List Nat → Nat) (flash : Nat → Nat)
    (s s4 : State) (h : s.gAircopyState = AIRCOPY_TRANSFER)
    (hcd : (s.gAircopySendCountdown + 255) % 256 = 0)
    (hlen : s.g_FSK_Buffer.length = 36)
    (hadv : AIRCOPY_SendMessage_advance (AIRCOPY_GetCurrentMap nb s).1
      (AIRCOPY_GetCurrentMap nb s).1.num_segments (SendMessage_prepared nb s) = some s4) :
    AIRCOPY_SendMessage nb crc flash s =
      if s4.CurrentSegmentIndex ≥ (AIRCOPY_GetCurrentMap nb s).1.num_segments then
        some (false, { s4 with gAircopyState := AIRCOPY_COMPLETE }, [])
      else
        some (false,
          { s4 with
            g_FSK_Buffer := AIRCOPY_SendMessage_frame crc
              (s4.g_FSK_Buffer.set 1 s4.CurrentOffset) (readBlock flash s4.CurrentOffset),
            CurrentOffset := (s4.CurrentOffset + 64) % 65536,
            gAirCopyBlockNumber := (s4.gAirCopyBlockNumber + 1) % 65536,
            gAircopySendCountdown := 30 },
          [Event.EEPROM_ReadBuffer s4.CurrentOffset 64,
           Event.RADIO_SetTxParameters,
           Event.BK4819_SendFSKData (AIRCOPY_SendMessage_frame crc
              (s4.g_FSK_Buffer.set 1 s4.CurrentOffset) (readBlock flash s4.CurrentOffset)),
           Event.BK4819_SetupPowerAmplifier 0 0,
           Event.BK4819_ToggleGpioOut_PA_ENABLE false]) := by
  have hbuf : s4.g_FSK_Buffer.length = 36 := by
    rw [advance_frame _ _ _ _ hadv]
    dsimp only
    rw [prepared_buffer, hlen]
  have hreg : (payloadBytes (s4.g_FSK_Buffer.set 1 s4.CurrentOffset)).length = 64 :=
    payloadBytes_length _ (by rw [List.length_set, hbuf])
  obtain ⟨cs, hread⟩ := read_block flash s4.CurrentOffset _ hreg
  unfold SendMessage_prepared at hadv
  dsimp only at hadv
  rw [prepared_map] at hadv
  unfold AIRCOPY_SendMessage
  rw [if_neg (by rw [h]; exact fun h2 => h2 rfl)]
  dsimp only
  rw [if_neg (by rw [hcd]; exact fun h2 => h2 rfl)]
  rw [prepared_map, hadv]
  dsimp only
  by_cases hc : s4.CurrentSegmentIndex ≥ (AIRCOPY_GetCurrentMap nb s).1.num_segments
  · rw [if_pos hc, if_pos hc]
  · rw [if_neg hc, if_neg hc, hread]


theorem catalog_num_segments (nb : Nat) (m : AIRCOPY_TransferMap_t)
    (hm : m ∈ AIRCOPY_AvailableMaps nb) : 0 < m.num_segments ∧ m.num_segments ≤ 3 := by
  rcases catalog_maps nb m hm with h | ⟨n, _, h⟩
  · subst h; decide
  · subst h
    simp [AIRCOPY_Map_Bank, AIRCOPY_STD_MAP]

theorem crcInput_storePayload (buf mem : List Nat) (offset : Nat) (hb : buf.length = 36)
    (hm : mem.length = 64) (hbytes : ∀ b ∈ mem, b < 256) :
    crcInput (storePayload (buf.set 1 offset) mem) = wordBytes offset ++ mem := by
  have hl : (buf.set 1 offset).length = 36 := by rw [List.length_set, hb]
  apply list_ext_getD
  · rw [crcInput_length _ (by rw [storePayload_length, hl])]
    simp [wordBytes, hm]
  · intro j hj
    rw [crcInput_length _ (by rw [storePayload_length, hl])] at hj
    rw [crcInput_getD, storePayload_getD _ _ hl, if_pos (by omega : j / 2 < 33)]
    match j, hj with
    | 0, _ => simp [wordBytes, getD_set_eq, hb]
    | 1, _ => simp [wordBytes, getD_set_eq, hb]
    | j + 2, hj =>
      have hr : 2 ≤ 1 + (j + 2) / 2 ∧ 1 + (j + 2) / 2 ≤ 33 := by omega
      rw [if_pos hr]
      have e : (wordBytes offset ++ mem).getD (j + 2) 0 = mem.getD j 0 := by
        simp [wordBytes]
      rw [e]
      have e2 : 1 + (j + 2) / 2 - 2 = j / 2 := by omega
      have e3 : (j + 2) % 2 = j % 2 := by omega
      rw [e2, e3]
      by_cases hpar : j % 2 = 0
      · rw [if_pos hpar, wordAt_lo]
        have : 2 * (j / 2) = j := by omega
        rw [this, Nat.mod_eq_of_lt (getD_lt_256 mem hbytes j)]
      · rw [if_neg hpar, wordAt_hi]
        have : 2 * (j / 2) + 1 = j := by omega
        rw [this, Nat.mod_eq_of_lt (getD_lt_256 mem hbytes j)]

/-- The packet that lines 219-226 of `AIRCOPY_SendMessage` leave in the buffer. -/
theorem frame_layout (crc : List Nat → Nat) (buf mem : List Nat) (offset : Nat)
    (hb : buf.length = 36) (hm0 : buf.getD 0 0 = 0xABCD) (hm35 : buf.getD 35 0 = 0xDCBA)
    (hm : mem.length = 64) (hbytes : ∀ b ∈ mem, b < 256) :
    (AIRCOPY_SendMessage_frame crc (buf.set 1 offset) mem).length = 36 ∧
    (AIRCOPY_SendMessage_frame crc (buf.set 1 offset) mem).getD 0 0 = 0xABCD ∧
    (AIRCOPY_SendMessage_frame crc (buf.set 1 offset) mem).getD 35 0 = 0xDCBA ∧
    ∀ i, i < 34 →
      (AIRCOPY_SendMessage_frame crc (buf.set 1 offset) mem).getD (i + 1) 0 =
        plainWord crc offset mem (i + 1) ^^^ Obfuscation.getD (i % 8) 0 := by
  have hl : (buf.set 1 offset).length = 36 := by rw [List.length_set, hb]
  have hpl := frame_plain_length crc (buf.set 1 offset) mem
  rw [hl] at hpl
  have hg := frame_plain_getD crc buf mem offset hb
  unfold AIRCOPY_SendMessage_frame
  dsimp only
  refine ⟨by rw [obfuscationLoop_length, hpl], ?_, ?_, ?_⟩
  · rw [obfuscationLoop_getD, if_neg (by omega), hg]
    simpa using hm0
  · rw [obfuscationLoop_getD, if_neg (by omega), hg]
    simpa using hm35
  · intro i hi
    have hw : (if i + 1 = 1 then offset
        else if 2 ≤ i + 1 ∧ i + 1 ≤ 33 then wordAt mem (i + 1 - 2)
        else if i + 1 = 34 then crc (crcInput (storePayload (buf.set 1 offset) mem)) % 65536
        else buf.getD (i + 1) 0) = plainWord crc offset mem (i + 1) := by
      unfold plainWord
      by_cases h1 : i + 1 = 1
      · rw [if_pos h1, if_pos h1]
      · rw [if_neg h1, if_neg h1]
        by_cases h2 : i + 1 ≤ 33
        · rw [if_pos (by omega), if_pos h2]
        · rw [if_neg (by omega), if_neg h2, if_pos (by omega),
            crcInput_storePayload buf mem offset hb hm hbytes]
    rw [obfuscationLoop_getD, hpl, if_pos (by omega), Nat.add_sub_cancel, hg, hw]


/-- One call of `AIRCOPY_SendMessage` on a buffer that carries the markers: it returns, the
buffer still carries the markers, and a transmitted packet has the wire layout. -/
theorem SendMessage_step_layout (nb : Nat) (crc : List Nat → Nat) (flash : Nat → Nat)
    (s : State) (hlen : s.g_FSK_Buffer.length = 36)
    (hm0 : s.g_FSK_Buffer.getD 0 0 = 0xABCD) (hm35 : s.g_FSK_Buffer.getD 35 0 = 0xDCBA) :
    ∃ ret s1 evs, AIRCOPY_SendMessage nb crc flash s = some (ret, s1, evs) ∧
      (s1.g_FSK_Buffer.length = 36 ∧ s1.g_FSK_Buffer.getD 0 0 = 0xABCD ∧
        s1.g_FSK_Buffer.getD 35 0 = 0xDCBA) ∧
      ∀ pkt, Event.BK4819_SendFSKData pkt ∈ evs →
        ∃ off,
          evs = [Event.EEPROM_ReadBuffer off 64, Event.RADIO_SetTxParameters,
                 Event.BK4819_SendFSKData pkt, Event.BK4819_SetupPowerAmplifier 0 0,
                 Event.BK4819_ToggleGpioOut_PA_ENABLE false] ∧
          s1.CurrentOffset = (off + 64) % 65536 ∧
          pkt.length = 36 ∧ pkt.getD 0 0 = 0xABCD ∧ pkt.getD 35 0 = 0xDCBA ∧
          ∀ i, i < 34 → pkt.getD (i + 1) 0 =
            plainWord crc off (readBlock flash off) (i + 1) ^^^ Obfuscation.getD (i % 8) 0 := by
  by_cases ht : s.gAircopyState = AIRCOPY_TRANSFER
  · by_cases hcd : (s.gAircopySendCountdown + 255) % 256 = 0
    · have hn := (catalog_num_segments nb _ (GetCurrentMap_mem nb s)).2
      obtain ⟨s4, hadv⟩ := advance_total (AIRCOPY_GetCurrentMap nb s).1 (by omega)
        (AIRCOPY_GetCurrentMap nb s).1.num_segments (SendMessage_prepared nb s) (by omega)
      have hb4 : s4.g_FSK_Buffer = s.g_FSK_Buffer := by
        rw [advance_frame _ _ _ _ hadv]
        dsimp only
        rw [prepared_buffer]
      rw [SendMessage_due nb crc flash s s4 ht hcd hlen hadv]
      by_cases hc : s4.CurrentSegmentIndex ≥ (AIRCOPY_GetCurrentMap nb s).1.num_segments
      · rw [if_pos hc]
        refine ⟨_, _, _, rfl, ?_, ?_⟩
        · dsimp only
          rw [hb4]
          exact ⟨hlen, hm0, hm35⟩
        · intro pkt hp
          simp at hp
      · rw [if_neg hc]
        obtain ⟨f1, f2, f3, f4⟩ := frame_layout crc s.g_FSK_Buffer
          (readBlock flash s4.CurrentOffset) s4.CurrentOffset hlen hm0 hm35
          (readBlock_length _ _) (readBlock_lt _ _)
        refine ⟨_, _, _, rfl, ?_, ?_⟩
        · dsimp only
          rw [hb4]
          exact ⟨f1, f2, f3⟩
        · intro pkt hp
          simp only [List.mem_cons, List.mem_singleton, List.not_mem_nil, or_false] at hp
          rcases hp with hp | hp | hp | hp | hp
          · cases hp
          · cases hp
          · cases hp
            refine ⟨s4.CurrentOffset, rfl, rfl, ?_⟩
            rw [hb4]
            exact ⟨f1, f2, f3, f4⟩
          · cases hp
          · cases hp
    · rw [SendMessage_throttled nb crc flash s ht hcd]
      refine ⟨_, _, _, rfl, ⟨hlen, hm0, hm35⟩, ?_⟩
      intro pkt hp
      simp at hp
  · rw [SendMessage_not_transfer nb crc flash s ht]
    refine ⟨_, _, _, rfl, ⟨hlen, hm0, hm35⟩, ?_⟩
    intro pkt hp
    simp at hp

theorem sendTicks_markers (nb : Nat) (crc : List Nat → Nat) (flash : Nat → Nat) :
    ∀ (n : Nat) (s : State), s.g_FSK_Buffer.length = 36 →
      s.g_FSK_Buffer.getD 0 0 = 0xABCD → s.g_FSK_Buffer.getD 35 0 = 0xDCBA →
      ∃ sn, sendTicks nb crc flash n s = some sn ∧ sn.g_FSK_Buffer.length = 36 ∧
        sn.g_FSK_Buffer.getD 0 0 = 0xABCD ∧ sn.g_FSK_Buffer.getD 35 0 = 0xDCBA := by
  intro n
  induction n with
  | zero =>
    intro s h1 h2 h3
    exact ⟨s, rfl, h1, h2, h3⟩
  | succ n ih =>
    intro s h1 h2 h3
    obtain ⟨ret, s1, evs, hs, ⟨g1, g2, g3⟩, _⟩ := SendMessage_step_layout nb crc flash s h1 h2 h3
    unfold sendTicks
    rw [hs]
    exact ih s1 g1 g2 g3

/-- C3. Bit-exact wire layout: in a send session started by start-send (`AIRCOPY_Key_MENU`
on a key press, then any number `n` of send ticks) every further call of
`AIRCOPY_SendMessage` returns, and every packet it hands to `BK4819_SendFSKData` has 36
words, word 0 = 0xABCD and word 35 = 0xDCBA, and for every `i` in 0..33 word `i + 1` equals
`plain[i + 1] XOR Obfuscation[i mod 8]`, where `plain[1]` is the logical offset `off` that the
same call passed to `EEPROM_ReadBuffer`, `plain[2..33]` are the 64 bytes read from storage at
`off`, and `plain[34]` is the checksum of the 66 un-obfuscated bytes of words 1..33. -/
theorem C3_wire_layout (nb : Nat) (crc : List Nat → Nat) (flash : Nat → Nat)
    (s0 : State) (n : Nat) (hlen : s0.g_FSK_Buffer.length = 36) :
    ∃ sn ret s1 evs,
      sendTicks nb crc flash n (AIRCOPY_Key_MENU nb true false s0) = some sn ∧
      AIRCOPY_SendMessage nb crc flash sn = some (ret, s1, evs) ∧
      ∀ pkt, Event.BK4819_SendFSKData pkt ∈ evs →
        ∃ off,
          evs = [Event.EEPROM_ReadBuffer off 64, Event.RADIO_SetTxParameters,
                 Event.BK4819_SendFSKData pkt, Event.BK4819_SetupPowerAmplifier 0 0,
                 Event.BK4819_ToggleGpioOut_PA_ENABLE false] ∧
          (∀ region : List Nat, region.length = 64 →
            ∃ cs, EEPROM_ReadBuffer flash off region 64 = some (readBlock flash off, cs)) ∧
          pkt.length = 36 ∧ pkt.getD 0 0 = 0xABCD ∧ pkt.getD 35 0 = 0xDCBA ∧
          ∀ i, i < 34 → pkt.getD (i + 1) 0 =
            plainWord crc off (readBlock flash off) (i + 1) ^^^ Obfuscation.getD (i % 8) 0 := by
  obtain ⟨k1, k2, k3⟩ := Key_MENU_markers nb s0 hlen
  obtain ⟨sn, hsn, g1, g2, g3⟩ := sendTicks_markers nb crc flash n _ k1 k2 k3
  obtain ⟨ret, s1, evs, hs, _, hl⟩ := SendMessage_step_layout nb crc flash sn g1 g2 g3
  refine ⟨sn, ret, s1, evs, hsn, hs, ?_⟩
  intro pkt hp
  obtain ⟨off, e1, _, e3, e4, e5, e6⟩ := hl pkt hp
  exact ⟨off, e1, fun region hr => read_block flash off region hr, e3, e4, e5, e6⟩


/-! ## Map navigation -/

theorem Key_UP_DOWN_up (nb : Nat) (s : State) :
    (AIRCOPY_Key_UP_DOWN nb true false 1 s).gAircopyCurrentMapIndex
      = (s.gAircopyCurrentMapIndex + 1) % AIRCOPY_NUM_MAPS nb := by
  unfold AIRCOPY_Key_UP_DOWN
  rw [if_neg (by simp), if_pos rfl]

theorem Key_UP_DOWN_down (nb : Nat) (s : State) :
    (AIRCOPY_Key_UP_DOWN nb true false (-1) s).gAircopyCurrentMapIndex
      = (s.gAircopyCurrentMapIndex + AIRCOPY_NUM_MAPS nb - 1) % AIRCOPY_NUM_MAPS nb := by
  unfold AIRCOPY_Key_UP_DOWN
  rw [if_neg (by simp), if_neg (by decide), if_pos rfl]

theorem Key_UP_DOWN_other (nb : Nat) (pressed held : Bool) (d : Int) (s : State)
    (h : held = true ∨ pressed = false ∨ (d ≠ 1 ∧ d ≠ -1)) :
    (AIRCOPY_Key_UP_DOWN nb pressed held d s).gAircopyCurrentMapIndex
      = s.gAircopyCurrentMapIndex := by
  unfold AIRCOPY_Key_UP_DOWN
  by_cases hg : held = true ∨ ¬ pressed = true
  · rw [if_pos hg]
  · rw [if_neg hg]
    have hd : d ≠ 1 ∧ d ≠ -1 := by
      rcases h with h | h | h
      · exact absurd (Or.inl h) hg
      · exact absurd (Or.inr (by simp [h])) hg
      · exact h
    rw [if_neg hd.1, if_neg hd.2]

theorem succ_mod_pred (M k : Nat) (hk : k < M) : ((k + 1) % M + M - 1) % M = k := by
  by_cases h : k + 1 < M
  · rw [Nat.mod_eq_of_lt h]
    have : k + 1 + M - 1 = k + M := by omega
    rw [this, Nat.add_mod_right, Nat.mod_eq_of_lt hk]
  · have hM : k + 1 = M := by omega
    have h1 : M - 1 < M := by omega
    rw [hM, Nat.mod_self, Nat.zero_add, Nat.mod_eq_of_lt h1]
    omega

theorem pred_mod_succ (M k : Nat) (hk : k < M) : ((k + M - 1) % M + 1) % M = k := by
  by_cases h : k = 0
  · subst h
    have h1 : M - 1 < M := by omega
    have h2 : M - 1 + 1 = M := by omega
    rw [Nat.zero_add, Nat.mod_eq_of_lt h1, h2, Nat.mod_self]
  · have h0 : k + M - 1 = (k - 1) + M := by omega
    have h1 : k - 1 < M := by omega
    have h2 : k - 1 + 1 = k := by omega
    rw [h0, Nat.add_mod_right, Nat.mod_eq_of_lt h1, h2, Nat.mod_eq_of_lt hk]

theorem Key_UP_DOWN_iterate_up (nb : Nat) :
    ∀ (j : Nat) (s : State), s.gAircopyCurrentMapIndex < AIRCOPY_NUM_MAPS nb →
      ((AIRCOPY_Key_UP_DOWN nb true false 1)^[j] s).gAircopyCurrentMapIndex
        = (s.gAircopyCurrentMapIndex + j) % AIRCOPY_NUM_MAPS nb := by
  intro j
  induction j with
  | zero =>
    intro s hs
    rw [Function.iterate_zero, id, Nat.add_zero, Nat.mod_eq_of_lt hs]
  | succ j ih =>
    intro s hs
    rw [Function.iterate_succ_apply, ih _ (by
      rw [Key_UP_DOWN_up]; exact Nat.mod_lt _ (NUM_MAPS_pos nb)), Key_UP_DOWN_up,
      Nat.mod_add_mod, Nat.add_assoc, Nat.add_comm 1 j]

theorem Key_UP_DOWN_iterate_down (nb : Nat) :
    ∀ (j : Nat) (s : State), s.gAircopyCurrentMapIndex < AIRCOPY_NUM_MAPS nb →
      ((AIRCOPY_Key_UP_DOWN nb true false (-1))^[j] s).gAircopyCurrentMapIndex
        < AIRCOPY_NUM_MAPS nb := by
  intro j
  induction j with
  | zero =>
    intro s hs
    exact hs
  | succ j ih =>
    intro s hs
    rw [Function.iterate_succ_apply]
    apply ih
    rw [Key_UP_DOWN_down]
    exact Nat.mod_lt _ (NUM_MAPS_pos nb)

/-- C13 (catalog wraparound): from an index `k` of the catalog (`k < M`, `M` the number of
maps), `M` presses of the `+1` step of `AIRCOPY_Key_UP_DOWN` lead back to `k`; the `-1` step
after the `+1` step and the `+1` step after the `-1` step both give `k` again; and after any
number of `+1` steps or of `-1` steps the index is below `M`. -/
theorem C13_catalog_wraparound (nb : Nat) (s : State)
    (hk : s.gAircopyCurrentMapIndex < AIRCOPY_NUM_MAPS nb) :
    ((AIRCOPY_Key_UP_DOWN nb true false 1)^[AIRCOPY_NUM_MAPS nb] s).gAircopyCurrentMapIndex
        = s.gAircopyCurrentMapIndex ∧
      (AIRCOPY_Key_UP_DOWN nb true false (-1)
          (AIRCOPY_Key_UP_DOWN nb true false 1 s)).gAircopyCurrentMapIndex
        = s.gAircopyCurrentMapIndex ∧
      (AIRCOPY_Key_UP_DOWN nb true false 1
          (AIRCOPY_Key_UP_DOWN nb true false (-1) s)).gAircopyCurrentMapIndex
        = s.gAircopyCurrentMapIndex ∧
      (∀ j, ((AIRCOPY_Key_UP_DOWN nb true false 1)^[j] s).gAircopyCurrentMapIndex
        < AIRCOPY_NUM_MAPS nb) ∧
      (∀ j, ((AIRCOPY_Key_UP_DOWN nb true false (-1))^[j] s).gAircopyCurrentMapIndex
        < AIRCOPY_NUM_MAPS nb) := by
  refine ⟨?_, ?_, ?_, ?_, ?_⟩
  · rw [Key_UP_DOWN_iterate_up nb _ s hk, Nat.add_mod_right, Nat.mod_eq_of_lt hk]
  · rw [Key_UP_DOWN_down, Key_UP_DOWN_up]
    exact succ_mod_pred _ _ hk
  · rw [Key_UP_DOWN_up, Key_UP_DOWN_down]
    exact pred_mod_succ _ _ hk
  · intro j
    rw [Key_UP_DOWN_iterate_up nb j s hk]
    exact Nat.mod_lt _ (NUM_MAPS_pos nb)
  · intro j
    exact Key_UP_DOWN_iterate_down nb j s hk

/-! ## What rendering and the start keys leave alone -/

theorem UI_DisplayAircopy_counters (nb : Nat) (s : State) :
    (UI_DisplayAircopy_effect nb s).gAirCopyBlockNumber = s.gAirCopyBlockNumber ∧
    (UI_DisplayAircopy_effect nb s).gErrorsDuringAirCopy = s.gErrorsDuringAirCopy ∧
    (UI_DisplayAircopy_effect nb s).gFSKWriteIndex = s.gFSKWriteIndex ∧
    (UI_DisplayAircopy_effect nb s).gAirCopyIsSendMode = s.gAirCopyIsSendMode := by
  unfold UI_DisplayAircopy_effect
  dsimp only
  split_ifs <;> simp

theorem UI_DisplayAircopy_cursor (nb : Nat) (s : State) :
    (UI_DisplayAircopy_effect nb s).gAircopySendCountdown = s.gAircopySendCountdown ∧
    (UI_DisplayAircopy_effect nb s).CurrentOffset = s.CurrentOffset ∧
    (UI_DisplayAircopy_effect nb s).CurrentSegmentIndex = s.CurrentSegmentIndex := by
  unfold UI_DisplayAircopy_effect
  dsimp only
  split_ifs <;> simp

theorem UI_DisplayAircopy_index (nb : Nat) (s : State) :
    (UI_DisplayAircopy_effect nb s).gAircopyCurrentMapIndex =
      if s.gAircopyCurrentMapIndex ≥ AIRCOPY_NUM_MAPS nb then 0
      else s.gAircopyCurrentMapIndex := by
  have hpos := NUM_MAPS_pos nb
  unfold UI_DisplayAircopy_effect
  dsimp only
  split_ifs <;> simp only [GetCurrentMap_index, GetCurrentMap_gAircopyState] <;>
    split_ifs <;> omega

theorem Key_MENU_summary (nb : Nat) (s : State) :
    (AIRCOPY_Key_MENU nb true false s).gAircopyState = AIRCOPY_TRANSFER ∧
    (AIRCOPY_Key_MENU nb true false s).gAirCopyBlockNumber = 0 ∧
    (AIRCOPY_Key_MENU nb true false s).gErrorsDuringAirCopy = s.gErrorsDuringAirCopy ∧
    (AIRCOPY_Key_MENU nb true false s).gFSKWriteIndex = 0 ∧
    (AIRCOPY_Key_MENU nb true false s).gAirCopyIsSendMode = 1 ∧
    (AIRCOPY_Key_MENU nb true false s).gAircopySendCountdown = s.gAircopySendCountdown ∧
    (AIRCOPY_Key_MENU nb true false s).gAircopyCurrentMapIndex =
      (if s.gAircopyCurrentMapIndex ≥ AIRCOPY_NUM_MAPS nb then 0
       else s.gAircopyCurrentMapIndex) := by
  unfold AIRCOPY_Key_MENU GUI_DisplayScreen AIRCOPY_clear
  rw [if_neg (by simp)]
  dsimp only
  refine ⟨rfl, ?_, ?_, ?_, ?_, ?_, ?_⟩
  · rw [(UI_DisplayAircopy_counters nb _).1]
  · rw [(UI_DisplayAircopy_counters nb _).2.1]
  · rw [(UI_DisplayAircopy_counters nb _).2.2.1]
  · rw [(UI_DisplayAircopy_counters nb _).2.2.2]
  · rw [(UI_DisplayAircopy_cursor nb _).1]
  · rw [UI_DisplayAircopy_index]

theorem Key_MENU_idle (nb : Nat) (pressed held : Bool) (s : State)
    (h : held = true ∨ pressed = false) : AIRCOPY_Key_MENU nb pressed held s = s := by
  unfold AIRCOPY_Key_MENU
  rw [if_pos (by rcases h with h | h <;> simp [h])]

theorem Key_EXIT_index (pressed held : Bool) (s : State) :
    (AIRCOPY_Key_EXIT pressed held s).1.gAircopyCurrentMapIndex
      = s.gAircopyCurrentMapIndex := by
  unfold AIRCOPY_Key_EXIT AIRCOPY_clear
  split_ifs <;> rfl

theorem Key_DIGITS_index (env : KeyEnv) (Key : KEY_Code_t) (pressed held : Bool) (s : State) :
    (AIRCOPY_Key_DIGITS env Key pressed held s).1.gAircopyCurrentMapIndex
      = s.gAircopyCurrentMapIndex := by
  unfold AIRCOPY_Key_DIGITS
  dsimp only
  split_ifs <;> rfl

theorem Key_MENU_index (nb : Nat) (pressed held : Bool) (s : State)
    (hk : s.gAircopyCurrentMapIndex < AIRCOPY_NUM_MAPS nb) :
    (AIRCOPY_Key_MENU nb pressed held s).gAircopyCurrentMapIndex
      = s.gAircopyCurrentMapIndex := by
  by_cases h : held = true ∨ pressed = false
  · rw [Key_MENU_idle nb pressed held s h]
  · have hp : pressed = true := by
      cases pressed
      · exact absurd (Or.inr rfl) h
      · rfl
    have hh : held = false := by
      cases held
      · rfl
      · exact absurd (Or.inl rfl) h
    subst hp; subst hh
    rw [(Key_MENU_summary nb s).2.2.2.2.2.2, if_neg (by omega)]

/-! ## Receive sessions of any length below the width of the counters -/

/-- The counters and the state after a run of received packets that keeps both counters
below their 16-bit limit: once the block slots are used up the state stays complete. -/
theorem receivePackets_long (nb : Nat) (crc : List Nat → Nat) (ref : State) (T : Nat) :
    ∀ (pkts : List (Nat × List Nat)) (t : State) (m : Nat),
      t.gAircopyCurrentMapIndex = ref.gAircopyCurrentMapIndex →
      ref.gAircopyCurrentMapIndex < AIRCOPY_NUM_MAPS nb →
      (AIRCOPY_GetCurrentMap nb ref).1.total_blocks = T →
      t.gAirCopyBlockNumber + t.gErrorsDuringAirCopy = m →
      t.gAircopyState = (if m ≥ T then AIRCOPY_COMPLETE else AIRCOPY_TRANSFER) →
      m + pkts.length ≤ 65535 →
      (receivePackets nb crc t pkts).gAircopyCurrentMapIndex = ref.gAircopyCurrentMapIndex ∧
      (receivePackets nb crc t pkts).gAirCopyBlockNumber =
        t.gAirCopyBlockNumber + (pkts.filter (receiveAccepts nb crc ref)).length ∧
      (receivePackets nb crc t pkts).gErrorsDuringAirCopy =
        t.gErrorsDuringAirCopy + (pkts.length - (pkts.filter (receiveAccepts nb crc ref)).length) ∧
      (receivePackets nb crc t pkts).gAircopyState =
        (if m + pkts.length ≥ T then AIRCOPY_COMPLETE else AIRCOPY_TRANSFER) := by
  intro pkts
  induction pkts with
  | nil =>
    intro t m hidx _ _ _ hst _
    unfold receivePackets
    exact ⟨hidx, rfl, rfl, hst⟩
  | cons p rest ih =>
    intro t m hidx hlt hmap hm hst hlen
    rw [List.length_cons] at hlen
    have hlt2 : t.gAircopyCurrentMapIndex < AIRCOPY_NUM_MAPS nb := by rw [hidx]; exact hlt
    obtain ⟨s1, s2, s3, s4⟩ := receivePacket_step nb crc t p hlt2
    rw [GetCurrentMap_congr nb t ref hidx, hmap] at s4
    rw [receiveAccepts_congr nb crc t ref p hidx] at s2 s3
    have hfl := List.length_filter_le (receiveAccepts nb crc ref) rest
    unfold receivePackets
    by_cases hacc : receiveAccepts nb crc ref p = true
    · rw [if_pos hacc] at s2 s3
      have hb : (receivePacket nb crc t p).1.gAirCopyBlockNumber = t.gAirCopyBlockNumber + 1 := by
        rw [s2]; omega
      rw [hb, s3] at s4
      have hsum : t.gAirCopyBlockNumber + 1 + t.gErrorsDuringAirCopy = m + 1 := by omega
      have hst2 : (receivePacket nb crc t p).1.gAircopyState =
          (if m + 1 ≥ T then AIRCOPY_COMPLETE else AIRCOPY_TRANSFER) := by
        rw [s4, hst, hsum, Nat.mod_eq_of_lt (by omega)]
        by_cases h1 : m + 1 ≥ T
        · rw [if_pos h1, if_pos h1]
        · rw [if_neg h1, if_neg h1, if_neg (by omega)]
      obtain ⟨r1, r2, r3, r4⟩ := ih (receivePacket nb crc t p).1 (m + 1) (by rw [s1, hidx]) hlt hmap
        (by rw [hb, s3]; omega) hst2 (by omega)
      rw [List.filter_cons, if_pos hacc, List.length_cons, List.length_cons]
      refine ⟨r1, ?_, ?_, ?_⟩
      · rw [r2, hb]; omega
      · rw [r3, s3]; omega
      · rw [r4]
        have : m + 1 + rest.length = m + (rest.length + 1) := by omega
        rw [this]
    · rw [if_neg hacc] at s2 s3
      have he : (receivePacket nb crc t p).1.gErrorsDuringAirCopy = t.gErrorsDuringAirCopy + 1 := by
        rw [s3]; omega
      rw [s2, he] at s4
      have hsum : t.gAirCopyBlockNumber + (t.gErrorsDuringAirCopy + 1) = m + 1 := by omega
      have hst2 : (receivePacket nb crc t p).1.gAircopyState =
          (if m + 1 ≥ T then AIRCOPY_COMPLETE else AIRCOPY_TRANSFER) := by
        rw [s4, hst, hsum, Nat.mod_eq_of_lt (by omega)]
        by_cases h1 : m + 1 ≥ T
        · rw [if_pos h1, if_pos h1]
        · rw [if_neg h1, if_neg h1, if_neg (by omega)]
      obtain ⟨r1, r2, r3, r4⟩ := ih (receivePacket nb crc t p).1 (m + 1) (by rw [s1, hidx]) hlt hmap
        (by rw [s2, he]; omega) hst2 (by omega)
      rw [List.filter_cons, if_neg hacc, List.length_cons]
      refine ⟨r1, ?_, ?_, ?_⟩
      · rw [r2, s2]
      · rw [r3, he]; omega
      · rw [r4]
        have : m + 1 + rest.length = m + (rest.length + 1) := by omega
        rw [this]

/-! ## Keys -/

theorem NUM_MAPS_cases (nb : Nat) :
    AIRCOPY_NUM_MAPS nb = 3 ∨ AIRCOPY_NUM_MAPS nb = 5 ∨ AIRCOPY_NUM_MAPS nb = 7 ∨
      AIRCOPY_NUM_MAPS nb = 9 := by
  unfold AIRCOPY_NUM_MAPS AIRCOPY_AvailableMaps
  split_ifs <;> simp

theorem ProcessKeys_index (nb : Nat) (env : KeyEnv) (Key : KEY_Code_t)
    (pressed held : Bool) (s : State)
    (hk : s.gAircopyCurrentMapIndex < AIRCOPY_NUM_MAPS nb)
    (h : Key ≠ KEY_UP ∧ Key ≠ KEY_DOWN) :
    (AIRCOPY_ProcessKeys nb env Key pressed held s).1.gAircopyCurrentMapIndex
      = s.gAircopyCurrentMapIndex := by
  obtain ⟨h1, h2⟩ := h
  cases Key <;> first
    | exact absurd rfl h1
    | exact absurd rfl h2
    | exact Key_DIGITS_index env _ pressed held s
    | exact Key_MENU_index nb pressed held s hk
    | exact Key_EXIT_index pressed held s
    | rfl

/-- C14, as the code has it: `AIRCOPY_ProcessKeys` never looks at `gAircopyState`.  For an
index `k` of the catalog and every key event, in the state `AIRCOPY_READY`, `AIRCOPY_TRANSFER`
or `AIRCOPY_COMPLETE` alike: a press (pressed, not held) of the key that steps forward
(`KEY_UP`, or `KEY_DOWN` in a build with `ENABLE_NAVIG_LEFT_RIGHT`) makes the index
`(k + 1) % M`, a press of the other one of the two makes it `(k + M - 1) % M`, both
different from `k`; every other key event leaves the index `k`. -/
theorem C14_navigation_in_every_state (nb : Nat) (env : KeyEnv) (Key : KEY_Code_t)
    (bKeyPressed bKeyHeld : Bool) (s : State)
    (hk : s.gAircopyCurrentMapIndex < AIRCOPY_NUM_MAPS nb) :
    (AIRCOPY_ProcessKeys nb env Key bKeyPressed bKeyHeld s).1.gAircopyCurrentMapIndex =
      (if bKeyPressed = true ∧ bKeyHeld = false ∧
          ((Key = KEY_UP ∧ env.ENABLE_NAVIG_LEFT_RIGHT = false) ∨
           (Key = KEY_DOWN ∧ env.ENABLE_NAVIG_LEFT_RIGHT = true)) then
        (s.gAircopyCurrentMapIndex + 1) % AIRCOPY_NUM_MAPS nb
      else if bKeyPressed = true ∧ bKeyHeld = false ∧
          ((Key = KEY_UP ∧ env.ENABLE_NAVIG_LEFT_RIGHT = true) ∨
           (Key = KEY_DOWN ∧ env.ENABLE_NAVIG_LEFT_RIGHT = false)) then
        (s.gAircopyCurrentMapIndex + AIRCOPY_NUM_MAPS nb - 1) % AIRCOPY_NUM_MAPS nb
      else s.gAircopyCurrentMapIndex) ∧
    (s.gAircopyCurrentMapIndex + 1) % AIRCOPY_NUM_MAPS nb ≠ s.gAircopyCurrentMapIndex ∧
    (s.gAircopyCurrentMapIndex + AIRCOPY_NUM_MAPS nb - 1) % AIRCOPY_NUM_MAPS nb
      ≠ s.gAircopyCurrentMapIndex := by
  have hM := NUM_MAPS_cases nb
  refine ⟨?_, ?_, ?_⟩
  · by_cases hud : Key ≠ KEY_UP ∧ Key ≠ KEY_DOWN
    · rw [ProcessKeys_index nb env Key bKeyPressed bKeyHeld s hk hud,
        if_neg (by rintro ⟨_, _, (⟨h, _⟩ | ⟨h, _⟩)⟩ <;> simp [h] at hud),
        if_neg (by rintro ⟨_, _, (⟨h, _⟩ | ⟨h, _⟩)⟩ <;> simp [h] at hud)]
    · by_cases hp : bKeyPressed = true ∧ bKeyHeld = false
      · obtain ⟨hp1, hp2⟩ := hp
        subst hp1; subst hp2
        have hkey : Key = KEY_UP ∨ Key = KEY_DOWN := by
          by_contra hc
          exact hud ⟨fun h => hc (Or.inl h), fun h => hc (Or.inr h)⟩
        cases hf : env.ENABLE_NAVIG_LEFT_RIGHT <;> rcases hkey with hkey | hkey <;>
          subst hkey <;>
          simp [AIRCOPY_ProcessKeys, hf, Key_UP_DOWN_up, Key_UP_DOWN_down]
      · have hidle : bKeyHeld = true ∨ bKeyPressed = false ∨ ((1 : Int) ≠ 1 ∧ (1 : Int) ≠ -1) := by
          cases bKeyPressed <;> cases bKeyHeld <;> simp at hp ⊢
        have hidle2 : bKeyHeld = true ∨ bKeyPressed = false ∨
            ((-1 : Int) ≠ 1 ∧ (-1 : Int) ≠ -1) := by
          cases bKeyPressed <;> cases bKeyHeld <;> simp at hp ⊢
        rw [if_neg (by rintro ⟨h1, h2, _⟩; exact hp ⟨h1, h2⟩),
          if_neg (by rintro ⟨h1, h2, _⟩; exact hp ⟨h1, h2⟩)]
        have hkey : Key = KEY_UP ∨ Key = KEY_DOWN := by
          by_contra hc
          exact hud ⟨fun h => hc (Or.inl h), fun h => hc (Or.inr h)⟩
        cases hf : env.ENABLE_NAVIG_LEFT_RIGHT <;> rcases hkey with hkey | hkey <;>
          subst hkey <;>
          simp only [AIRCOPY_ProcessKeys, hf, if_true, if_false, Bool.false_eq_true] <;>
          first
            | exact Key_UP_DOWN_other nb _ _ 1 s hidle
            | exact Key_UP_DOWN_other nb _ _ (-1) s hidle2
  · intro h
    rcases hM with hM | hM | hM | hM <;> rw [hM] at h hk <;> omega
  · intro h
    rcases hM with hM | hM | hM | hM <;> rw [hM] at h hk <;> omega

/-! ## Error counts that outlive their session -/

theorem advance_cursor (map : AIRCOPY_TransferMap_t) :
    ∀ (fuel : Nat) (s : State),
      AIRCOPY_SendMessage_advance map fuel s =
        (cursorAdvance map fuel (s.CurrentSegmentIndex, s.CurrentOffset)).map
          (fun c => { s with CurrentSegmentIndex := c.1, CurrentOffset := c.2 }) := by
  intro fuel
  induction fuel with
  | zero =>
    intro s
    unfold AIRCOPY_SendMessage_advance cursorAdvance
    by_cases hc : s.CurrentSegmentIndex < map.num_segments ∧
        s.CurrentOffset ≥ (segmentAt map s.CurrentSegmentIndex).end_offset
    · rw [if_pos hc, if_pos hc]; rfl
    · rw [if_neg hc, if_neg hc]; rfl
  | succ fuel ih =>
    intro s
    unfold AIRCOPY_SendMessage_advance cursorAdvance
    by_cases hc : s.CurrentSegmentIndex < map.num_segments ∧
        s.CurrentOffset ≥ (segmentAt map s.CurrentSegmentIndex).end_offset
    · rw [if_pos hc, if_pos hc]
      dsimp only
      rw [ih]
      by_cases h2 : (s.CurrentSegmentIndex + 1) % 65536 < map.num_segments
      · rw [if_pos h2, if_pos h2]
      · rw [if_neg h2, if_neg h2]
    · rw [if_neg hc, if_neg hc]; rfl

theorem prepared_fields (nb : Nat) (s : State) :
    (SendMessage_prepared nb s).gAircopyState = s.gAircopyState ∧
    (SendMessage_prepared nb s).gAirCopyBlockNumber = s.gAirCopyBlockNumber ∧
    (SendMessage_prepared nb s).gErrorsDuringAirCopy = s.gErrorsDuringAirCopy ∧
    (SendMessage_prepared nb s).gAircopySendCountdown
      = (s.gAircopySendCountdown + 255) % 256 ∧
    (SendMessage_prepared nb s).gAircopyCurrentMapIndex
      = (AIRCOPY_GetCurrentMap nb s).2.gAircopyCurrentMapIndex ∧
    (SendMessage_prepared nb s).gAirCopyIsSendMode = s.gAirCopyIsSendMode ∧
    ((SendMessage_prepared nb s).CurrentSegmentIndex, (SendMessage_prepared nb s).CurrentOffset)
      = (if s.gAirCopyBlockNumber = 0 then
          (0, (segmentAt (AIRCOPY_GetCurrentMap nb s).1 0).start_offset)
         else (s.CurrentSegmentIndex, s.CurrentOffset)) := by
  unfold SendMessage_prepared
  dsimp only
  rw [prepared_map, GetCurrentMap_gAirCopyBlockNumber]
  by_cases hb : s.gAirCopyBlockNumber = 0
  · rw [if_pos hb, if_pos hb]
    dsimp only
    simp only [GetCurrentMap_gAircopyState, GetCurrentMap_gAirCopyBlockNumber,
      GetCurrentMap_gErrorsDuringAirCopy, GetCurrentMap_gAircopySendCountdown,
      GetCurrentMap_gAirCopyIsSendMode, GetCurrentMap_index, true_and, and_true]
  · rw [if_neg hb, if_neg hb]
    simp only [GetCurrentMap_gAircopyState, GetCurrentMap_gAirCopyBlockNumber,
      GetCurrentMap_gErrorsDuringAirCopy, GetCurrentMap_gAircopySendCountdown,
      GetCurrentMap_gAirCopyIsSendMode, GetCurrentMap_index, GetCurrentMap_CurrentOffset,
      GetCurrentMap_CurrentSegmentIndex, true_and, and_true]

theorem frame_congr (crc : List Nat → Nat) (b1 b2 mem : List Nat) (offset : Nat)
    (h1 : b1.length = 36) (h2 : b2.length = 36) (h0 : b1.getD 0 0 = b2.getD 0 0)
    (h35 : b1.getD 35 0 = b2.getD 35 0) (hm : mem.length = 64) (hbytes : ∀ b ∈ mem, b < 256) :
    AIRCOPY_SendMessage_frame crc (b1.set 1 offset) mem =
      AIRCOPY_SendMessage_frame crc (b2.set 1 offset) mem := by
  have hl1 : (b1.set 1 offset).length = 36 := by rw [List.length_set, h1]
  have hl2 : (b2.set 1 offset).length = 36 := by rw [List.length_set, h2]
  have hp1 := frame_plain_length crc (b1.set 1 offset) mem
  have hp2 := frame_plain_length crc (b2.set 1 offset) mem
  have e : (storePayload (b1.set 1 offset) mem).set 34
        (crc (crcInput (storePayload (b1.set 1 offset) mem)) % 65536) =
      (storePayload (b2.set 1 offset) mem).set 34
        (crc (crcInput (storePayload (b2.set 1 offset) mem)) % 65536) := by
    apply list_ext_getD
    · rw [hp1, hp2, hl1, hl2]
    · intro j hj
      rw [hp1, hl1] at hj
      rw [frame_plain_getD crc b1 mem offset h1, frame_plain_getD crc b2 mem offset h2,
        crcInput_storePayload b1 mem offset h1 hm hbytes,
        crcInput_storePayload b2 mem offset h2 hm hbytes]
      by_cases j1 : j = 1
      · rw [if_pos j1, if_pos j1]
      · rw [if_neg j1, if_neg j1]
        by_cases j2 : 2 ≤ j ∧ j ≤ 33
        · rw [if_pos j2, if_pos j2]
        · rw [if_neg j2, if_neg j2]
          by_cases j3 : j = 34
          · rw [if_pos j3, if_pos j3]
          · rw [if_neg j3, if_neg j3]
            have hj' : j = 0 ∨ j = 35 := by omega
            rcases hj' with hj' | hj' <;> subst hj'
            · exact h0
            · exact h35
  unfold AIRCOPY_SendMessage_frame
  dsimp only
  rw [e]

theorem frame_markers (crc : List Nat → Nat) (buf mem : List Nat) (offset : Nat)
    (hb : buf.length = 36) :
    (AIRCOPY_SendMessage_frame crc (buf.set 1 offset) mem).length = 36 ∧
    (AIRCOPY_SendMessage_frame crc (buf.set 1 offset) mem).getD 0 0 = buf.getD 0 0 ∧
    (AIRCOPY_SendMessage_frame crc (buf.set 1 offset) mem).getD 35 0 = buf.getD 35 0 := by
  have hl : (buf.set 1 offset).length = 36 := by rw [List.length_set, hb]
  have hpl := frame_plain_length crc (buf.set 1 offset) mem
  rw [hl] at hpl
  have hg := frame_plain_getD crc buf mem offset hb
  unfold AIRCOPY_SendMessage_frame
  dsimp only
  refine ⟨by rw [obfuscationLoop_length, hpl], ?_, ?_⟩
  · rw [obfuscationLoop_getD, if_neg (by omega), hg]
    simp
  · rw [obfuscationLoop_getD, if_neg (by omega), hg]
    simp

/-- A due tick in terms of the cursor: what is transmitted and what the state becomes. -/
theorem SendMessage_due_cursor (nb : Nat) (crc : List Nat → Nat) (flash : Nat → Nat)
    (s : State) (r : Option Nat) (c : Nat × Nat)
    (h : s.gAircopyState = AIRCOPY_TRANSFER)
    (hcd : (s.gAircopySendCountdown + 255) % 256 = 0)
    (hlen : s.g_FSK_Buffer.length = 36)
    (hdue : cursorDue (AIRCOPY_GetCurrentMap nb s).1 s.gAirCopyBlockNumber
      (s.CurrentSegmentIndex, s.CurrentOffset) = some (r, c)) :
    ∃ s1 evs, AIRCOPY_SendMessage nb crc flash s = some (false, s1, evs) ∧
      s1.CurrentSegmentIndex = c.1 ∧ s1.CurrentOffset = c.2 ∧
      s1.gErrorsDuringAirCopy = s.gErrorsDuringAirCopy ∧
      s1.gAirCopyIsSendMode = s.gAirCopyIsSendMode ∧
      (AIRCOPY_GetCurrentMap nb s1).1 = (AIRCOPY_GetCurrentMap nb s).1 ∧
      s1.g_FSK_Buffer.length = 36 ∧
      s1.g_FSK_Buffer.getD 0 0 = s.g_FSK_Buffer.getD 0 0 ∧
      s1.g_FSK_Buffer.getD 35 0 = s.g_FSK_Buffer.getD 35 0 ∧
      (r = none → s1.gAircopyState = AIRCOPY_COMPLETE ∧ evs = [] ∧
        s1.gAirCopyBlockNumber = s.gAirCopyBlockNumber ∧ s1.gAircopySendCountdown = 0) ∧
      (∀ o, r = some o → s1.gAircopyState = AIRCOPY_TRANSFER ∧
        s1.gAirCopyBlockNumber = (s.gAirCopyBlockNumber + 1) % 65536 ∧
        s1.gAircopySendCountdown = 30 ∧
        evs = [Event.EEPROM_ReadBuffer o 64, Event.RADIO_SetTxParameters,
          Event.BK4819_SendFSKData
            (AIRCOPY_SendMessage_frame crc (s.g_FSK_Buffer.set 1 o) (readBlock flash o)),
          Event.BK4819_SetupPowerAmplifier 0 0,
          Event.BK4819_ToggleGpioOut_PA_ENABLE false]) := by
  obtain ⟨p1, p2, p3, p4, p5, p6, p7⟩ := prepared_fields nb s
  have pb := prepared_buffer nb s
  have hadv := advance_cursor (AIRCOPY_GetCurrentMap nb s).1
    (AIRCOPY_GetCurrentMap nb s).1.num_segments (SendMessage_prepared nb s)
  rw [p7] at hadv
  unfold cursorDue at hdue
  cases hca : cursorAdvance (AIRCOPY_GetCurrentMap nb s).1
      (AIRCOPY_GetCurrentMap nb s).1.num_segments
      (if s.gAirCopyBlockNumber = 0 then
        (0, (segmentAt (AIRCOPY_GetCurrentMap nb s).1 0).start_offset)
       else (s.CurrentSegmentIndex, s.CurrentOffset)) with
  | none =>
    rw [hca] at hdue
    cases hdue
  | some c2 =>
    rw [hca] at hdue hadv
    dsimp only at hdue
    rw [Option.map_some'] at hadv
    have hS := SendMessage_due nb crc flash s _ h hcd hlen hadv
    dsimp only at hS
    have hmap : ∀ t : State, t.gAircopyCurrentMapIndex
        = (SendMessage_prepared nb s).gAircopyCurrentMapIndex →
        (AIRCOPY_GetCurrentMap nb t).1 = (AIRCOPY_GetCurrentMap nb s).1 := by
      intro t ht
      refine (GetCurrentMap_of_index nb s t ?_).1
      exact Or.inr (ht.trans p5)
    by_cases hc : c2.1 ≥ (AIRCOPY_GetCurrentMap nb s).1.num_segments
    · rw [if_pos hc] at hdue hS
      cases hdue
      refine ⟨_, _, hS, rfl, rfl, p3, p6, hmap _ rfl, ?_, ?_, ?_, ?_, ?_⟩
      · exact pb.symm ▸ hlen
      · exact congrArg (fun b => b.getD 0 0) pb
      · exact congrArg (fun b => b.getD 35 0) pb
      · intro _
        exact ⟨rfl, rfl, p2, p4.trans hcd⟩
      · intro o ho
        cases ho
    · rw [if_neg hc] at hdue hS
      cases hdue
      have hfm := frame_markers crc (SendMessage_prepared nb s).g_FSK_Buffer
        (readBlock flash c2.2) c2.2 (pb.symm ▸ hlen)
      refine ⟨_, _, hS, rfl, rfl, p3, p6, hmap _ rfl, hfm.1, ?_, ?_, ?_, ?_⟩
      · exact hfm.2.1.trans (congrArg (fun b => b.getD 0 0) pb)
      · exact hfm.2.2.trans (congrArg (fun b => b.getD 35 0) pb)
      · intro hn
        cases hn
      · intro o ho
        cases ho
        refine ⟨p1.trans h, ?_, rfl, ?_⟩
        · show ((SendMessage_prepared nb s).gAirCopyBlockNumber + 1) % 65536 = _
          rw [p2]
        · show [Event.EEPROM_ReadBuffer c2.2 64, Event.RADIO_SetTxParameters,
            Event.BK4819_SendFSKData (AIRCOPY_SendMessage_frame crc
              ((SendMessage_prepared nb s).g_FSK_Buffer.set 1 c2.2) (readBlock flash c2.2)),
            Event.BK4819_SetupPowerAmplifier 0 0,
            Event.BK4819_ToggleGpioOut_PA_ENABLE false] = _
          rw [pb]

theorem sendRun_succ (nb : Nat) (crc : List Nat → Nat) (flash : Nat → Nat) :
    ∀ (n : Nat) (s : State),
      sendRun nb crc flash (n + 1) s =
        match sendRun nb crc flash n s with
        | none => none
        | some (sn, evs) =>
          match AIRCOPY_SendMessage nb crc flash sn with
          | none => none
          | some (_, s1, e) => some (s1, evs ++ e) := by
  intro n
  induction n with
  | zero =>
    intro s
    unfold sendRun
    cases hS : AIRCOPY_SendMessage nb crc flash s with
    | none => simp [sendRun, hS]
    | some r =>
      obtain ⟨b, s1, e⟩ := r
      simp [sendRun, hS]
  | succ n ih =>
    intro s
    rw [sendRun]
    cases hS : AIRCOPY_SendMessage nb crc flash s with
    | none => simp [sendRun, hS]
    | some r =>
      obtain ⟨b, s1, e⟩ := r
      dsimp only
      rw [ih s1]
      conv_rhs => rw [sendRun]
      rw [hS]
      dsimp only
      cases hR : sendRun nb crc flash n s1 with
      | none => rfl
      | some q =>
        obtain ⟨sn, evs⟩ := q
        dsimp only
        cases hS2 : AIRCOPY_SendMessage nb crc flash sn with
        | none => rfl
        | some r2 =>
          obtain ⟨b2, s2, e2⟩ := r2
          simp

theorem sentPackets_append (a b : List Event) :
    sentPackets (a ++ b) = sentPackets a ++ sentPackets b := by
  induction a with
  | nil => rfl
  | cons x rest ih =>
    cases x <;> simp [sentPackets, ih]

theorem take_succ_getD (l : List Nat) (k : Nat) (h : k < l.length) :
    l.take (k + 1) = l.take k ++ [l.getD k 0] := by
  rw [List.take_succ, List.getD_eq_getElem _ _ h, List.getElem?_eq_getElem h]
  rfl

theorem cursorDue_zero (map : AIRCOPY_TransferMap_t) (c1 c2 : Nat × Nat) :
    cursorDue map 0 c1 = cursorDue map 0 c2 := by
  unfold cursorDue
  rw [if_pos rfl, if_pos rfl]

theorem dueTicks_zero (c T : Nat) : dueTicks c T 0 = 0 := by
  unfold dueTicks firstDue
  split_ifs <;> omega

theorem dueTicks_le (c T n : Nat) : dueTicks c T n ≤ T + 1 := by
  unfold dueTicks
  split_ifs <;> omega

theorem dueTicks_done (c T n : Nat) (h : dueTicks c T n = T + 1) :
    dueTicks c T (n + 1) = T + 1 := by
  unfold dueTicks at h ⊢
  split_ifs at h ⊢ <;> omega

theorem dueTicks_step (c T n x : Nat) (hk : dueTicks c T n ≤ T)
    (hx : x % 256 = if dueTicks c T n = 0 then (c + 255 * n) % 256
      else 30 - (n - firstDue c) % 30) :
    ((x + 255) % 256 ≠ 0 →
      dueTicks c T (n + 1) = dueTicks c T n ∧
      (x + 255) % 256 = (if dueTicks c T n = 0 then (c + 255 * (n + 1)) % 256
        else 30 - (n + 1 - firstDue c) % 30)) ∧
    ((x + 255) % 256 = 0 →
      dueTicks c T (n + 1) = dueTicks c T n + 1 ∧ (n + 1 - firstDue c) % 30 = 0 ∧
      firstDue c ≤ n + 1) := by
  unfold dueTicks firstDue at *
  split_ifs at * <;> omega
set_option maxHeartbeats 1000000 in
/-- The state and the transmitted packets after `n` ticks of a send session. -/
theorem send_session (nb : Nat) (crc : List Nat → Nat) (flash : Nat → Nat) (s : State)
    (hs : s.gAircopyState = AIRCOPY_TRANSFER) (hb : s.gAirCopyBlockNumber = 0)
    (hlen : s.g_FSK_Buffer.length = 36)
    (hplan : followsPlan (AIRCOPY_GetCurrentMap nb s).1) :
    ∀ n, ∃ sn evs, sendRun nb crc flash n s = some (sn, evs) ∧
      sn.gAircopyState =
        (if sessionDue nb s n ≤ (AIRCOPY_GetCurrentMap nb s).1.total_blocks
          then AIRCOPY_TRANSFER else AIRCOPY_COMPLETE) ∧
      sn.gAirCopyBlockNumber =
        (if sessionDue nb s n ≤ (AIRCOPY_GetCurrentMap nb s).1.total_blocks
          then sessionDue nb s n else (AIRCOPY_GetCurrentMap nb s).1.total_blocks) ∧
      (1 ≤ sessionDue nb s n →
        sessionDue nb s n ≤ (AIRCOPY_GetCurrentMap nb s).1.total_blocks →
        (sn.CurrentSegmentIndex, sn.CurrentOffset)
          = cursorAfter (AIRCOPY_GetCurrentMap nb s).1 (sessionDue nb s n)) ∧
      sn.gAircopySendCountdown % 256 =
        (if sessionDue nb s n = 0 then (s.gAircopySendCountdown + 255 * n) % 256
         else if sessionDue nb s n ≤ (AIRCOPY_GetCurrentMap nb s).1.total_blocks
          then 30 - (n - firstDue s.gAircopySendCountdown) % 30
         else 0) ∧
      (AIRCOPY_GetCurrentMap nb sn).1 = (AIRCOPY_GetCurrentMap nb s).1 ∧
      sn.g_FSK_Buffer.length = 36 ∧
      sn.g_FSK_Buffer.getD 0 0 = s.g_FSK_Buffer.getD 0 0 ∧
      sn.g_FSK_Buffer.getD 35 0 = s.g_FSK_Buffer.getD 35 0 ∧
      sn.gErrorsDuringAirCopy = s.gErrorsDuringAirCopy ∧
      sn.gAirCopyIsSendMode = s.gAirCopyIsSendMode ∧
      sentPackets evs =
        ((expectedOffsets (AIRCOPY_GetCurrentMap nb s).1).take (sessionDue nb s n)).map
          (sessionPacket crc flash s.g_FSK_Buffer) := by
  obtain ⟨pl, pT1, pT68, pstep, pend⟩ := hplan
  intro n
  induction n with
  | zero =>
    have h0 : sessionDue nb s 0 = 0 := dueTicks_zero _ _
    refine ⟨s, [], rfl, ?_, ?_, ?_, ?_, rfl, hlen, rfl, rfl, rfl, rfl, ?_⟩
    · rw [h0, if_pos (Nat.zero_le _)]; exact hs
    · rw [h0, if_pos (Nat.zero_le _)]; exact hb
    · rw [h0]; intro h; omega
    · rw [h0, if_pos rfl]; simp
    · rw [h0]; rfl
  | succ n ih =>
    obtain ⟨sn, evs, hrun, i1, i2, i3, i4, i5, i6, i7, i8, i9, i10, i11⟩ := ih
    rw [sendRun_succ, hrun]
    dsimp only
    obtain ⟨k, hk⟩ : ∃ k, sessionDue nb s n = k := ⟨_, rfl⟩
    obtain ⟨k1, hk1⟩ : ∃ k1, sessionDue nb s (n + 1) = k1 := ⟨_, rfl⟩
    have hk' : dueTicks s.gAircopySendCountdown
      (AIRCOPY_GetCurrentMap nb s).1.total_blocks n = k := hk
    have hk1' : dueTicks s.gAircopySendCountdown
      (AIRCOPY_GetCurrentMap nb s).1.total_blocks (n + 1) = k1 := hk1
    have hstep := dueTicks_step s.gAircopySendCountdown
      (AIRCOPY_GetCurrentMap nb s).1.total_blocks n sn.gAircopySendCountdown
    have hdone := dueTicks_done s.gAircopySendCountdown
      (AIRCOPY_GetCurrentMap nb s).1.total_blocks n
    have hle := dueTicks_le s.gAircopySendCountdown
      (AIRCOPY_GetCurrentMap nb s).1.total_blocks n
    rw [hk] at i1 i2 i3 i4 i11
    rw [hk'] at hstep hdone hle
    rw [hk1'] at hstep hdone
    rw [hk1]
    by_cases hkT : k ≤ (AIRCOPY_GetCurrentMap nb s).1.total_blocks
    · rw [if_pos hkT] at i1 i2
      have hx : sn.gAircopySendCountdown % 256 =
          if k = 0 then (s.gAircopySendCountdown + 255 * n) % 256
          else 30 - (n - firstDue s.gAircopySendCountdown) % 30 := by
        rw [i4]
        by_cases h0 : k = 0
        · rw [if_pos h0, if_pos h0]
        · rw [if_neg h0, if_neg h0, if_pos hkT]
      obtain ⟨hthr, hdue⟩ := hstep hkT hx
      by_cases hcd : (sn.gAircopySendCountdown + 255) % 256 = 0
      · obtain ⟨e1, e2, e3⟩ := hdue hcd
        have hcur : cursorDue (AIRCOPY_GetCurrentMap nb s).1 sn.gAirCopyBlockNumber
            (sn.CurrentSegmentIndex, sn.CurrentOffset) =
            cursorDue (AIRCOPY_GetCurrentMap nb s).1 k
              (cursorAfter (AIRCOPY_GetCurrentMap nb s).1 k) := by
          rw [i2]
          by_cases h0 : k = 0
          · rw [h0]; exact cursorDue_zero _ _ _
          · rw [i3 (by omega) hkT]
        by_cases hlt : k < (AIRCOPY_GetCurrentMap nb s).1.total_blocks
        · obtain ⟨s1, e, hS, c1, c2, c3, c4, c5, c6, c7, c8, _, c10⟩ :=
            SendMessage_due_cursor nb crc flash sn _ _ i1 hcd i6
              (by rw [i5, hcur]; exact pstep k hlt)
          obtain ⟨d1, d2, d3, d4⟩ := c10 _ rfl
          rw [hS]
          dsimp only
          have hk1T : k1 ≤ (AIRCOPY_GetCurrentMap nb s).1.total_blocks := by omega
          refine ⟨s1, evs ++ e, rfl, ?_, ?_, ?_, ?_, c5.trans i5, c6, c7.trans i7,
            c8.trans i8, c3.trans i9, c4.trans i10, ?_⟩
          · rw [if_pos hk1T]; exact d1
          · rw [if_pos hk1T, d2, i2]; omega
          · intro _ _
            rw [e1]
            exact Prod.ext c1 c2
          · rw [if_neg (by omega), if_pos hk1T, d3, e2]
          · have hsp : sentPackets e = [sessionPacket crc flash s.g_FSK_Buffer
                ((expectedOffsets (AIRCOPY_GetCurrentMap nb s).1).getD k 0)] := by
              rw [d4]
              simp only [sentPackets]
              unfold sessionPacket
              rw [frame_congr crc sn.g_FSK_Buffer s.g_FSK_Buffer _ _ i6 hlen i7 i8
                (readBlock_length _ _) (readBlock_lt _ _)]
            rw [sentPackets_append, i11, hsp, e1, take_succ_getD _ _ (by rw [pl]; exact hlt),
              List.map_append, List.map_cons, List.map_nil]
        · have hkeq : k = (AIRCOPY_GetCurrentMap nb s).1.total_blocks := by omega
          cases hce : cursorDue (AIRCOPY_GetCurrentMap nb s).1
              (AIRCOPY_GetCurrentMap nb s).1.total_blocks
              (cursorAfter (AIRCOPY_GetCurrentMap nb s).1
                (AIRCOPY_GetCurrentMap nb s).1.total_blocks) with
          | none => rw [hce] at pend; cases pend
          | some rc =>
            obtain ⟨r, cc⟩ := rc
            rw [hce] at pend
            have hr : r = none := by simpa using pend
            subst hr
            obtain ⟨s1, e, hS, c1, c2, c3, c4, c5, c6, c7, c8, c9, _⟩ :=
              SendMessage_due_cursor nb crc flash sn none cc i1 hcd i6
                (by rw [i5, hcur, hkeq]; exact hce)
            obtain ⟨d1, d2, d3, d4⟩ := c9 rfl
            rw [hS]
            dsimp only
            have hk1T : ¬ k1 ≤ (AIRCOPY_GetCurrentMap nb s).1.total_blocks := by omega
            refine ⟨s1, evs ++ e, rfl, ?_, ?_, ?_, ?_, c5.trans i5, c6, c7.trans i7,
              c8.trans i8, c3.trans i9, c4.trans i10, ?_⟩
            · rw [if_neg hk1T]; exact d1
            · rw [if_neg hk1T, d3, i2]; exact hkeq
            · intro _ h2
              exact absurd h2 hk1T
            · rw [if_neg (by omega), if_neg hk1T, d4]
            · rw [d2, List.append_nil, i11, e1, List.take_of_length_le (by rw [pl]; omega),
                List.take_of_length_le (by rw [pl]; omega)]
      · obtain ⟨e1, e2⟩ := hthr hcd
        rw [SendMessage_throttled nb crc flash sn i1 hcd]
        dsimp only
        refine ⟨_, evs ++ [], rfl, ?_, ?_, ?_, ?_, ?_, i6, i7, i8, i9, i10, ?_⟩
        · rw [e1, if_pos hkT]; exact i1
        · rw [e1, if_pos hkT]; exact i2
        · rw [e1]; exact i3
        · show (sn.gAircopySendCountdown + 255) % 256 % 256 = _
          rw [Nat.mod_mod, e2, e1]
          by_cases h0 : k = 0
          · rw [if_pos h0, if_pos h0]
          · rw [if_neg h0, if_neg h0, if_pos hkT]
        · exact (prepared_map nb sn).trans i5
        · rw [List.append_nil, e1]; exact i11
    · rw [if_neg hkT] at i1 i2
      have hkeq : k = (AIRCOPY_GetCurrentMap nb s).1.total_blocks + 1 := by omega
      have e1 : k1 = k := by rw [hdone hkeq, hkeq]
      rw [SendMessage_not_transfer nb crc flash sn (by rw [i1]; decide)]
      dsimp only
      refine ⟨sn, evs ++ [], rfl, ?_, ?_, ?_, ?_, i5, i6, i7, i8, i9, i10, ?_⟩
      · rw [e1, if_neg hkT]; exact i1
      · rw [e1, if_neg hkT]; exact i2
      · rw [e1]; exact i3
      · rw [e1, if_neg (by omega), if_neg hkT]
        rw [i4, if_neg (by omega), if_neg hkT]
      · rw [List.append_nil, e1]; exact i11
theorem catalog_followsPlan (nb : Nat) (m : AIRCOPY_TransferMap_t)
    (hm : m ∈ AIRCOPY_AvailableMaps nb) : followsPlan m := by
  rcases catalog_maps nb m hm with h | ⟨n, hn, h⟩
  · subst h; decide
  · subst h
    have hall : ∀ n, n < 8 → followsPlan (AIRCOPY_Map_Bank n) := by decide
    exact hall n hn

/-- Ticks that only count down: from a transferring state with countdown `c ≤ 255`, fewer
than `c` ticks transmit nothing and change the countdown only. -/
theorem throttled_run (nb : Nat) (crc : List Nat → Nat) (flash : Nat → Nat) (s : State)
    (hs : s.gAircopyState = AIRCOPY_TRANSFER) (hc : s.gAircopySendCountdown ≤ 255) :
    ∀ j, j < s.gAircopySendCountdown →
      sendRun nb crc flash j s =
        some ({ s with gAircopySendCountdown := s.gAircopySendCountdown - j }, []) := by
  intro j
  induction j with
  | zero =>
    intro _
    rfl
  | succ j ih =>
    intro hj
    rw [sendRun_succ, ih (by omega)]
    dsimp only
    have hthr := SendMessage_throttled nb crc flash
      { s with gAircopySendCountdown := s.gAircopySendCountdown - j } hs
      (by show (s.gAircopySendCountdown - j + 255) % 256 ≠ 0; omega)
    rw [hthr]
    dsimp only
    have e : (s.gAircopySendCountdown - j + 255) % 256 = s.gAircopySendCountdown - (j + 1) := by
      omega
    rw [e]
    rfl

/-- The four outcomes of a call of `AIRCOPY_SendMessage` in a catalog of maps. -/
theorem SendMessage_cases (nb : Nat) (crc : List Nat → Nat) (flash : Nat → Nat) (s : State)
    (hlen : s.g_FSK_Buffer.length = 36) :
    ∃ ret s1 evs, AIRCOPY_SendMessage nb crc flash s = some (ret, s1, evs) ∧
      (evs = [] ∨
       (s1.gAircopyState = AIRCOPY_TRANSFER ∧ s1.gAircopySendCountdown = 30 ∧
        ∃ o pkt, evs = [Event.EEPROM_ReadBuffer o 64, Event.RADIO_SetTxParameters,
          Event.BK4819_SendFSKData pkt, Event.BK4819_SetupPowerAmplifier 0 0,
          Event.BK4819_ToggleGpioOut_PA_ENABLE false])) := by
  by_cases ht : s.gAircopyState = AIRCOPY_TRANSFER
  · by_cases hcd : (s.gAircopySendCountdown + 255) % 256 = 0
    · have hn := (catalog_num_segments nb _ (GetCurrentMap_mem nb s)).2
      obtain ⟨s4, hadv⟩ := advance_total (AIRCOPY_GetCurrentMap nb s).1 (by omega)
        (AIRCOPY_GetCurrentMap nb s).1.num_segments (SendMessage_prepared nb s) (by omega)
      have h4 : s4.gAircopyState = AIRCOPY_TRANSFER := by
        rw [advance_frame _ _ _ _ hadv]
        dsimp only
        rw [(prepared_fields nb s).1, ht]
      rw [SendMessage_due nb crc flash s s4 ht hcd hlen hadv]
      by_cases hc : s4.CurrentSegmentIndex ≥ (AIRCOPY_GetCurrentMap nb s).1.num_segments
      · rw [if_pos hc]
        exact ⟨_, _, _, rfl, Or.inl rfl⟩
      · rw [if_neg hc]
        exact ⟨_, _, _, rfl, Or.inr ⟨h4, rfl, _, _, rfl⟩⟩
    · rw [SendMessage_throttled nb crc flash s ht hcd]
      exact ⟨_, _, _, rfl, Or.inl rfl⟩
  · rw [SendMessage_not_transfer nb crc flash s ht]
    exact ⟨_, _, _, rfl, Or.inl rfl⟩

/-- C20 (a send tick is a no-op unless due).  A call of `AIRCOPY_SendMessage` in a state other
than `AIRCOPY_TRANSFER` returns the state as it was, with no driver call; a call in
`AIRCOPY_TRANSFER` whose decremented 8-bit countdown is not zero changes the countdown only,
with no driver call; every call returns, hands at most one packet to the modem, and when it
hands one over the countdown is 30 afterwards and each of the next 29 ticks only counts down
(after `j ≤ 29` of them the countdown is `30 - j` and nothing else has changed or been
transmitted). -/
theorem C20_send_tick_noop_unless_due (nb : Nat) (crc : List Nat → Nat) (flash : Nat → Nat)
    (s : State) (hlen : s.g_FSK_Buffer.length = 36) :
    (s.gAircopyState ≠ AIRCOPY_TRANSFER →
      AIRCOPY_SendMessage nb crc flash s = some (true, s, [])) ∧
    (s.gAircopyState = AIRCOPY_TRANSFER → (s.gAircopySendCountdown + 255) % 256 ≠ 0 →
      AIRCOPY_SendMessage nb crc flash s =
        some (true,
          { s with gAircopySendCountdown := (s.gAircopySendCountdown + 255) % 256 }, [])) ∧
    ∃ ret s1 evs, AIRCOPY_SendMessage nb crc flash s = some (ret, s1, evs) ∧
      (sentPackets evs).length ≤ 1 ∧
      (sentPackets evs ≠ [] →
        s1.gAircopySendCountdown = 30 ∧
        ∀ j, j ≤ 29 → sendRun nb crc flash j s1 =
          some ({ s1 with gAircopySendCountdown := 30 - j }, [])) := by
  refine ⟨SendMessage_not_transfer nb crc flash s, SendMessage_throttled nb crc flash s, ?_⟩
  obtain ⟨ret, s1, evs, hS, hev⟩ := SendMessage_cases nb crc flash s hlen
  refine ⟨ret, s1, evs, hS, ?_, ?_⟩
  · rcases hev with h | ⟨_, _, o, pkt, h⟩
    · rw [h]; simp [sentPackets]
    · rw [h]; simp [sentPackets]
  · intro hne
    rcases hev with h | ⟨h1, h2, _⟩
    · rw [h] at hne
      exact absurd rfl hne
    · refine ⟨h2, ?_⟩
      intro j hj
      have := throttled_run nb crc flash s1 h1 (by omega) j (by omega)
      rw [h2] at this
      exact this

/-! ## Send sessions -/

theorem Key_MENU_map (nb : Nat) (s0 : State) :
    (AIRCOPY_GetCurrentMap nb (AIRCOPY_Key_MENU nb true false s0)).1
      = (AIRCOPY_GetCurrentMap nb s0).1 := by
  refine (GetCurrentMap_of_index nb s0 (AIRCOPY_Key_MENU nb true false s0) ?_).1
  right
  rw [(Key_MENU_summary nb s0).2.2.2.2.2.2, GetCurrentMap_index]

theorem packetOffset_sessionPacket (crc : List Nat → Nat) (flash : Nat → Nat) (buf : List Nat)
    (hb : buf.length = 36) (o : Nat) :
    packetOffset (sessionPacket crc flash buf o) = o := by
  unfold packetOffset sessionPacket
  rw [frame_deobfuscated, frame_plain_getD crc buf _ o hb, if_pos rfl]

theorem map_packetOffset (crc : List Nat → Nat) (flash : Nat → Nat) (buf : List Nat)
    (hb : buf.length = 36) (l : List Nat) :
    (l.map (sessionPacket crc flash buf)).map packetOffset = l := by
  induction l with
  | nil => rfl
  | cons o rest ih =>
    rw [List.map_cons, List.map_cons, ih, packetOffset_sessionPacket crc flash buf hb]

theorem dueTicks_at (c T k : Nat) (hk : k < T) : dueTicks c T (firstDue c + 30 * k) = k + 1 := by
  unfold dueTicks
  rw [if_neg (by omega), if_pos (by omega)]
  omega

theorem dueTicks_before (c T n : Nat) (hn : n < firstDue c) : dueTicks c T n = 0 := by
  unfold dueTicks
  rw [if_pos hn]

theorem dueTicks_last (c T : Nat) (hT : 1 ≤ T) : dueTicks c T (firstDue c + 30 * T - 1) = T := by
  unfold dueTicks
  rw [if_neg (by omega), if_pos (by omega)]
  omega

theorem dueTicks_le_iff (c T n : Nat) : dueTicks c T n ≤ T ↔ n < firstDue c + 30 * T := by
  unfold dueTicks
  split_ifs <;> omega

theorem dueTicks_complete (c T n : Nat) (hn : firstDue c + 30 * T ≤ n) :
    dueTicks c T n = T + 1 := by
  unfold dueTicks
  rw [if_neg (by omega), if_neg (by omega)]

theorem firstDue_bounds (c : Nat) : 1 ≤ firstDue c ∧ firstDue c ≤ 256 := by
  unfold firstDue
  split_ifs <;> omega

theorem mem_segmentBlocks (seg : AIRCOPY_Segment_t) (o : Nat) :
    o ∈ segmentBlocks seg ↔ ∃ i, o = seg.start_offset + 64 * i ∧ o < seg.end_offset := by
  unfold segmentBlocks
  rw [List.mem_map]
  constructor
  · rintro ⟨i, hi, rfl⟩
    rw [List.mem_range] at hi
    exact ⟨i, rfl, by omega⟩
  · rintro ⟨i, rfl, hlt⟩
    exact ⟨i, by rw [List.mem_range]; omega, rfl⟩

theorem blockOffsets_length (segs : List AIRCOPY_Segment_t) :
    (blockOffsets segs).length =
      (segs.map (fun seg => (seg.end_offset - seg.start_offset + 63) / 64)).sum := by
  induction segs with
  | nil => rfl
  | cons seg rest ih =>
    rw [blockOffsets, List.length_append, ih, List.map_cons, List.sum_cons]
    unfold segmentBlocks
    rw [List.length_map, List.length_range]

theorem catalog_first_offset (nb : Nat) (m : AIRCOPY_TransferMap_t)
    (hm : m ∈ AIRCOPY_AvailableMaps nb) :
    (expectedOffsets m).head? = some (segmentAt m 0).start_offset := by
  rcases catalog_maps nb m hm with h | ⟨n, hn, h⟩
  · subst h; decide
  · subst h
    have hall : ∀ n, n < 8 → (expectedOffsets (AIRCOPY_Map_Bank n)).head?
        = some (segmentAt (AIRCOPY_Map_Bank n) 0).start_offset := by decide
    exact hall n hn

/-- A send session from start-send: the run of `n` ticks returns, and the state and the
transmitted packets are those of `send_session`. -/
theorem send_session_start (nb : Nat) (crc : List Nat → Nat) (flash : Nat → Nat) (s0 : State)
    (hlen : s0.g_FSK_Buffer.length = 36) (n : Nat) :
    ∃ sn evs, sendRun nb crc flash n (AIRCOPY_Key_MENU nb true false s0) = some (sn, evs) ∧
      sn.gAircopyState =
        (if dueTicks s0.gAircopySendCountdown (AIRCOPY_GetCurrentMap nb s0).1.total_blocks n
            ≤ (AIRCOPY_GetCurrentMap nb s0).1.total_blocks
          then AIRCOPY_TRANSFER else AIRCOPY_COMPLETE) ∧
      sn.gAirCopyBlockNumber =
        (if dueTicks s0.gAircopySendCountdown (AIRCOPY_GetCurrentMap nb s0).1.total_blocks n
            ≤ (AIRCOPY_GetCurrentMap nb s0).1.total_blocks
          then dueTicks s0.gAircopySendCountdown
            (AIRCOPY_GetCurrentMap nb s0).1.total_blocks n
          else (AIRCOPY_GetCurrentMap nb s0).1.total_blocks) ∧
      sn.gErrorsDuringAirCopy = s0.gErrorsDuringAirCopy ∧
      (AIRCOPY_GetCurrentMap nb sn).1 = (AIRCOPY_GetCurrentMap nb s0).1 ∧
      sentPackets evs =
        ((expectedOffsets (AIRCOPY_GetCurrentMap nb s0).1).take
          (dueTicks s0.gAircopySendCountdown
            (AIRCOPY_GetCurrentMap nb s0).1.total_blocks n)).map
          (sessionPacket crc flash (AIRCOPY_Key_MENU nb true false s0).g_FSK_Buffer) := by
  obtain ⟨k1, k2, k3, _, _, k6, _⟩ := Key_MENU_summary nb s0
  have kmap := Key_MENU_map nb s0
  have kmark := Key_MENU_markers nb s0 hlen
  have hplan := catalog_followsPlan nb _ (GetCurrentMap_mem nb s0)
  obtain ⟨sn, evs, hrun, i1, i2, _, _, i5, _, _, _, i9, _, i11⟩ :=
    send_session nb crc flash (AIRCOPY_Key_MENU nb true false s0) k1 k2 kmark.1
      (by rw [kmap]; exact hplan) n
  have hd : sessionDue nb (AIRCOPY_Key_MENU nb true false s0) n =
      dueTicks s0.gAircopySendCountdown (AIRCOPY_GetCurrentMap nb s0).1.total_blocks n := by
    unfold sessionDue
    rw [k6, kmap]
  rw [hd, kmap] at i1 i2 i11
  exact ⟨sn, evs, hrun, i1, i2, i9.trans k3, i5.trans kmap, i11⟩

/-- C16 (send offset sequence).  After start-send (`AIRCOPY_Key_MENU` pressed) in any state,
with `m` the active map, `T` its `total_blocks`, `c` the countdown and `d = firstDue c` the
tick at which the countdown first reaches zero: every run of `n` ticks returns, and the
offsets carried by the packets transmitted so far are the first `dueTicks c T n` block offsets
of `m` (its segments in catalog order, each giving `start, start + 64, ...` while below its
`end`); the state is `AIRCOPY_COMPLETE` exactly from tick `d + 30 * T` on.  Block `k + 1` goes
out at tick `d + 30 * k`, nothing before tick `d`; by tick `d + 30 * T - 1` all `T` offsets
have gone out, so the tick `d + 30 * T`, the first due one after the last block, transmits
nothing and completes the transfer.  The first offset is the first segment's start. -/
theorem C16_send_offset_sequence (nb : Nat) (crc : List Nat → Nat) (flash : Nat → Nat)
    (s0 : State) (hlen : s0.g_FSK_Buffer.length = 36) :
    (∀ n, ∃ sn evs,
      sendRun nb crc flash n (AIRCOPY_Key_MENU nb true false s0) = some (sn, evs) ∧
      (sentPackets evs).map packetOffset =
        (expectedOffsets (AIRCOPY_GetCurrentMap nb s0).1).take
          (dueTicks s0.gAircopySendCountdown
            (AIRCOPY_GetCurrentMap nb s0).1.total_blocks n) ∧
      (sn.gAircopyState = AIRCOPY_COMPLETE ↔
        firstDue s0.gAircopySendCountdown
          + 30 * (AIRCOPY_GetCurrentMap nb s0).1.total_blocks ≤ n) ∧
      (firstDue s0.gAircopySendCountdown
          + 30 * (AIRCOPY_GetCurrentMap nb s0).1.total_blocks ≤ n + 1 →
        (sentPackets evs).map packetOffset = expectedOffsets (AIRCOPY_GetCurrentMap nb s0).1)) ∧
    (∀ k, k < (AIRCOPY_GetCurrentMap nb s0).1.total_blocks →
      dueTicks s0.gAircopySendCountdown (AIRCOPY_GetCurrentMap nb s0).1.total_blocks
        (firstDue s0.gAircopySendCountdown + 30 * k) = k + 1) ∧
    (∀ n, n < firstDue s0.gAircopySendCountdown →
      dueTicks s0.gAircopySendCountdown (AIRCOPY_GetCurrentMap nb s0).1.total_blocks n = 0) ∧
    (expectedOffsets (AIRCOPY_GetCurrentMap nb s0).1).length
      = (AIRCOPY_GetCurrentMap nb s0).1.total_blocks ∧
    (expectedOffsets (AIRCOPY_GetCurrentMap nb s0).1).head?
      = some (segmentAt (AIRCOPY_GetCurrentMap nb s0).1 0).start_offset ∧
    (∀ seg o, o ∈ segmentBlocks seg ↔
      ∃ i, o = seg.start_offset + 64 * i ∧ o < seg.end_offset) := by
  have hplan := catalog_followsPlan nb _ (GetCurrentMap_mem nb s0)
  have kmark := Key_MENU_markers nb s0 hlen
  refine ⟨?_, fun k hk => dueTicks_at _ _ k hk, fun n hn => dueTicks_before _ _ n hn,
    hplan.1, catalog_first_offset nb _ (GetCurrentMap_mem nb s0), mem_segmentBlocks⟩
  intro n
  obtain ⟨sn, evs, hrun, i1, _, _, _, i11⟩ := send_session_start nb crc flash s0 hlen n
  have hoffs : (sentPackets evs).map packetOffset =
      (expectedOffsets (AIRCOPY_GetCurrentMap nb s0).1).take
        (dueTicks s0.gAircopySendCountdown
          (AIRCOPY_GetCurrentMap nb s0).1.total_blocks n) := by
    rw [i11, map_packetOffset crc flash _ kmark.1]
  refine ⟨sn, evs, hrun, hoffs, ?_, ?_⟩
  · rw [i1]
    have hiff := dueTicks_le_iff s0.gAircopySendCountdown
      (AIRCOPY_GetCurrentMap nb s0).1.total_blocks n
    by_cases hle : dueTicks s0.gAircopySendCountdown
        (AIRCOPY_GetCurrentMap nb s0).1.total_blocks n
        ≤ (AIRCOPY_GetCurrentMap nb s0).1.total_blocks
    · rw [if_pos hle]
      have := hiff.1 hle
      constructor
      · intro h; cases h
      · intro h; omega
    · rw [if_neg hle]
      constructor
      · intro _
        by_contra hc
        exact hle (hiff.2 (by omega))
      · intro _; rfl
  · intro hn
    rw [hoffs]
    apply List.take_of_length_le
    rw [hplan.1]
    by_cases hc : firstDue s0.gAircopySendCountdown
        + 30 * (AIRCOPY_GetCurrentMap nb s0).1.total_blocks ≤ n
    · rw [dueTicks_complete _ _ n hc]; omega
    · have e : n = firstDue s0.gAircopySendCountdown
          + 30 * (AIRCOPY_GetCurrentMap nb s0).1.total_blocks - 1 := by omega
      rw [e, dueTicks_last _ _ hplan.2.1]

/-- C17 (declared block counts).  For the active map `m` of any state (every map of the
catalog is one): `total_blocks` is the sum over its segments of
`ceil ((end - start) / 64)`; it is 68 for every bank map and 6 for the settings map; and in
a send session started by `AIRCOPY_Key_MENU` the state is `AIRCOPY_TRANSFER` before tick
`firstDue c + 30 * total_blocks` and `AIRCOPY_COMPLETE` from that tick on, at which point the
block count is `total_blocks` and exactly `total_blocks` packets have been transmitted. -/
theorem C17_declared_block_counts (nb : Nat) (crc : List Nat → Nat) (flash : Nat → Nat)
    (s0 : State) (hlen : s0.g_FSK_Buffer.length = 36) :
    (AIRCOPY_GetCurrentMap nb s0).1.total_blocks =
      (((AIRCOPY_GetCurrentMap nb s0).1.segments.take
          (AIRCOPY_GetCurrentMap nb s0).1.num_segments).map
        (fun seg => (seg.end_offset - seg.start_offset + 63) / 64)).sum ∧
    ((AIRCOPY_GetCurrentMap nb s0).1 = AIRCOPY_Map_Settings ∨
      ∃ b, b < 8 ∧ (AIRCOPY_GetCurrentMap nb s0).1 = AIRCOPY_Map_Bank b) ∧
    (∀ b, (AIRCOPY_Map_Bank b).total_blocks = 68) ∧
    AIRCOPY_Map_Settings.total_blocks = 6 ∧
    ∀ n, ∃ sn evs,
      sendRun nb crc flash n (AIRCOPY_Key_MENU nb true false s0) = some (sn, evs) ∧
      (n < firstDue s0.gAircopySendCountdown
          + 30 * (AIRCOPY_GetCurrentMap nb s0).1.total_blocks →
        sn.gAircopyState = AIRCOPY_TRANSFER ∧
        (sentPackets evs).length = sn.gAirCopyBlockNumber ∧
        sn.gAirCopyBlockNumber ≤ (AIRCOPY_GetCurrentMap nb s0).1.total_blocks) ∧
      (firstDue s0.gAircopySendCountdown
          + 30 * (AIRCOPY_GetCurrentMap nb s0).1.total_blocks ≤ n →
        sn.gAircopyState = AIRCOPY_COMPLETE ∧
        sn.gAirCopyBlockNumber = (AIRCOPY_GetCurrentMap nb s0).1.total_blocks ∧
        (sentPackets evs).length = (AIRCOPY_GetCurrentMap nb s0).1.total_blocks) := by
  have hplan := catalog_followsPlan nb _ (GetCurrentMap_mem nb s0)
  refine ⟨?_, catalog_maps nb _ (GetCurrentMap_mem nb s0), fun b => rfl, rfl, ?_⟩
  · rw [← hplan.1]
    exact blockOffsets_length _
  · intro n
    obtain ⟨sn, evs, hrun, i1, i2, _, _, i11⟩ := send_session_start nb crc flash s0 hlen n
    have hiff := dueTicks_le_iff s0.gAircopySendCountdown
      (AIRCOPY_GetCurrentMap nb s0).1.total_blocks n
    refine ⟨sn, evs, hrun, ?_, ?_⟩
    · intro hn
      have hle := hiff.2 hn
      rw [if_pos hle] at i1 i2
      refine ⟨i1, ?_, by rw [i2]; exact hle⟩
      rw [i11, List.length_map, List.length_take, hplan.1, i2]
      omega
    · intro hn
      have hc := dueTicks_complete s0.gAircopySendCountdown
        (AIRCOPY_GetCurrentMap nb s0).1.total_blocks n hn
      rw [hc, if_neg (by omega)] at i1 i2
      refine ⟨i1, i2, ?_⟩
      rw [i11, hc, List.length_map, List.length_take, hplan.1]
      omega

/-- C11, as the code has it.  In a receive session (start-receive, then any sequence of at
most 65535 processed packets) the state is `AIRCOPY_COMPLETE` exactly when
`gAirCopyBlockNumber + gErrorsDuringAirCopy` has reached `total_blocks` of the active map.
In a send session (start-send, then any number `n` of ticks) the send path does not look at
the counters: the state becomes `AIRCOPY_COMPLETE` at tick `firstDue c + 30 * total_blocks`,
the first due tick after the last block, and not before; when it is complete the block count
equals `total_blocks` (so the sum of the counters has reached it), while the block count
already equals `total_blocks` during the 30 ticks before. -/
theorem C11_completion (nb : Nat) (crc : List Nat → Nat) (flash : Nat → Nat)
    (r0 s0 : State) (pkts : List (Nat × List Nat)) (n : Nat)
    (hbox : r0.gInputBoxIndex = 0)
    (hidx : r0.gAircopyCurrentMapIndex < AIRCOPY_NUM_MAPS nb)
    (hpk : pkts.length ≤ 65535)
    (hlen : s0.g_FSK_Buffer.length = 36) :
    ((receivePackets nb crc (AIRCOPY_Key_EXIT true false r0).1 pkts).gAircopyState
        = AIRCOPY_COMPLETE ↔
      (receivePackets nb crc (AIRCOPY_Key_EXIT true false r0).1 pkts).gAirCopyBlockNumber +
        (receivePackets nb crc (AIRCOPY_Key_EXIT true false r0).1 pkts).gErrorsDuringAirCopy
        ≥ (AIRCOPY_GetCurrentMap nb
            (receivePackets nb crc (AIRCOPY_Key_EXIT true false r0).1 pkts)).1.total_blocks) ∧
    ∃ sn evs,
      sendRun nb crc flash n (AIRCOPY_Key_MENU nb true false s0) = some (sn, evs) ∧
      (sn.gAircopyState = AIRCOPY_COMPLETE ↔
        firstDue s0.gAircopySendCountdown
          + 30 * (AIRCOPY_GetCurrentMap nb sn).1.total_blocks ≤ n) ∧
      (sn.gAircopyState = AIRCOPY_COMPLETE →
        sn.gAirCopyBlockNumber = (AIRCOPY_GetCurrentMap nb sn).1.total_blocks ∧
        sn.gAirCopyBlockNumber + sn.gErrorsDuringAirCopy
          ≥ (AIRCOPY_GetCurrentMap nb sn).1.total_blocks) ∧
      (sn.gAirCopyBlockNumber = (AIRCOPY_GetCurrentMap nb sn).1.total_blocks ↔
        firstDue s0.gAircopySendCountdown
          + 30 * ((AIRCOPY_GetCurrentMap nb sn).1.total_blocks - 1) ≤ n) := by
  constructor
  · obtain ⟨k1, k2, k3, _, _, k6⟩ := Key_EXIT_start r0 hbox
    have hpos := (catalog_map_facts nb _
      (GetCurrentMap_mem nb (AIRCOPY_Key_EXIT true false r0).1)).2.1
    obtain ⟨r1, r2, r3, r4⟩ := receivePackets_long nb crc (AIRCOPY_Key_EXIT true false r0).1 _
      pkts (AIRCOPY_Key_EXIT true false r0).1 0 rfl (by rw [k6]; exact hidx) rfl
      (by rw [k2, k3]) (by rw [k1, if_neg (by omega)]) (by omega)
    have hfl := List.length_filter_le
      (receiveAccepts nb crc (AIRCOPY_Key_EXIT true false r0).1) pkts
    rw [GetCurrentMap_congr nb _ (AIRCOPY_Key_EXIT true false r0).1 r1, r4, r2, r3, k2, k3]
    by_cases hc : 0 + pkts.length
        ≥ (AIRCOPY_GetCurrentMap nb (AIRCOPY_Key_EXIT true false r0).1).1.total_blocks
    · rw [if_pos hc]
      constructor
      · intro _; omega
      · intro _; rfl
    · rw [if_neg hc]
      constructor
      · intro h; cases h
      · intro h; omega
  · have hplan := catalog_followsPlan nb _ (GetCurrentMap_mem nb s0)
    obtain ⟨sn, evs, hrun, i1, i2, _, i5, _⟩ := send_session_start nb crc flash s0 hlen n
    have hiff := dueTicks_le_iff s0.gAircopySendCountdown
      (AIRCOPY_GetCurrentMap nb s0).1.total_blocks n
    have hT1 := hplan.2.1
    refine ⟨sn, evs, hrun, ?_⟩
    rw [i5]
    by_cases hle : dueTicks s0.gAircopySendCountdown
        (AIRCOPY_GetCurrentMap nb s0).1.total_blocks n
        ≤ (AIRCOPY_GetCurrentMap nb s0).1.total_blocks
    · rw [if_pos hle] at i1 i2
      have hlt := hiff.1 hle
      refine ⟨?_, ?_, ?_⟩
      · rw [i1]
        constructor
        · intro h; cases h
        · intro h; omega
      · intro h
        rw [i1] at h
        cases h
      · rw [i2]
        unfold dueTicks at hle ⊢
        split_ifs at hle ⊢ <;> omega
    · rw [if_neg hle] at i1 i2
      have hge : firstDue s0.gAircopySendCountdown
          + 30 * (AIRCOPY_GetCurrentMap nb s0).1.total_blocks ≤ n := by
        by_contra hc
        exact hle (hiff.2 (by omega))
      refine ⟨?_, ?_, ?_⟩
      · rw [i1]
        exact ⟨fun _ => hge, fun _ => rfl⟩
      · intro _
        exact ⟨i2, by omega⟩
      · rw [i2]
        exact ⟨fun _ => by omega, fun _ => rfl⟩

/-! ## A transfer without errors -/

/-- The packet of a send session, seen by the tests of the receive path. -/
theorem sessionPacket_checks (crc : List Nat → Nat) (flash : Nat → Nat) (buf : List Nat)
    (o Status : Nat) (hbuf : buf.length = 36) (hm0 : buf.getD 0 0 = 0xABCD)
    (hm35 : buf.getD 35 0 = 0xDCBA) (hst : Status &&& 0x0010 = 0) :
    AIRCOPY_StorePacket_frameError Status (sessionPacket crc flash buf o) = false ∧
    AIRCOPY_StorePacket_crcError crc (obfuscationLoop (sessionPacket crc flash buf o))
      = false ∧
    (obfuscationLoop (sessionPacket crc flash buf o)).getD 1 0 = o ∧
    payloadBytes (obfuscationLoop (sessionPacket crc flash buf o)) = readBlock flash o := by
  have hl : (buf.set 1 o).length = 36 := by rw [List.length_set, hbuf]
  have hpl := frame_plain_length crc (buf.set 1 o) (readBlock flash o)
  rw [hl] at hpl
  have hdeob := frame_deobfuscated crc (buf.set 1 o) (readBlock flash o)
  obtain ⟨f1, f2, f3, _⟩ := frame_layout crc buf (readBlock flash o) o hbuf hm0 hm35
    (readBlock_length _ _) (readBlock_lt _ _)
  have hcrcin : crcInput ((storePayload (buf.set 1 o) (readBlock flash o)).set 34
        (crc (crcInput (storePayload (buf.set 1 o) (readBlock flash o))) % 65536))
      = crcInput (storePayload (buf.set 1 o) (readBlock flash o)) := by
    apply crcInput_congr _ _ hpl (by rw [storePayload_length, hl])
    intro j h1 h2
    rw [getD_set_eq, if_neg (by omega)]
  unfold sessionPacket
  refine ⟨?_, ?_, ?_, ?_⟩
  · rw [frameError_false_iff]
    exact ⟨hst, f2, f3⟩
  · rw [crcError_false_iff, hdeob, hcrcin, frame_plain_getD crc buf _ o hbuf]
    simp
  · rw [hdeob, frame_plain_getD crc buf _ o hbuf, if_pos rfl]
  · rw [hdeob, payloadBytes_congr _ (storePayload (buf.set 1 o) (readBlock flash o)) hpl
      (by rw [storePayload_length, hl])]
    · exact payloadBytes_storePayload _ _ hl (readBlock_length _ _) (readBlock_lt _ _)
    · intro j h1 h2
      rw [getD_set_eq, if_neg (by omega)]

theorem mem_blockOffsets (segs : List AIRCOPY_Segment_t) (o : Nat) :
    o ∈ blockOffsets segs ↔ ∃ seg ∈ segs, o ∈ segmentBlocks seg := by
  induction segs with
  | nil => simp [blockOffsets]
  | cons seg rest ih =>
    rw [blockOffsets, List.mem_append, ih]
    simp

/-- Every block offset of a map lies in one of its segments. -/
theorem expectedOffsets_valid (m : AIRCOPY_TransferMap_t)
    (hn : m.num_segments = m.segments.length) (o : Nat) (ho : o ∈ expectedOffsets m) :
    AIRCOPY_StorePacket_validOffset m o = true := by
  rw [validOffset_true_iff m o hn]
  unfold expectedOffsets at ho
  rw [mem_blockOffsets] at ho
  obtain ⟨seg, hseg, hmem⟩ := ho
  rw [mem_segmentBlocks] at hmem
  obtain ⟨i, hi, hlt⟩ := hmem
  exact ⟨seg, List.mem_of_mem_take hseg, by omega, hlt⟩

/-- A packet of a send session on the map the receiver has selected is accepted. -/
theorem sessionPacket_accepted (nb : Nat) (crc : List Nat → Nat) (flash : Nat → Nat)
    (buf : List Nat) (r : State) (p : Nat × List Nat) (o : Nat)
    (hbuf : buf.length = 36) (hm0 : buf.getD 0 0 = 0xABCD) (hm35 : buf.getD 35 0 = 0xDCBA)
    (hst : p.1 &&& 0x0010 = 0) (hp : p.2 = sessionPacket crc flash buf o)
    (ho : o ∈ expectedOffsets (AIRCOPY_GetCurrentMap nb r).1) :
    receiveAccepts nb crc r p = true := by
  obtain ⟨c1, c2, c3, _⟩ := sessionPacket_checks crc flash buf o p.1 hbuf hm0 hm35 hst
  have hn := (catalog_map_facts nb _ (GetCurrentMap_mem nb r)).1
  have hm : (AIRCOPY_GetCurrentMap nb
      { r with g_FSK_Buffer := p.2, gFSKWriteIndex := 36 }).1 =
      (AIRCOPY_GetCurrentMap nb r).1 := GetCurrentMap_congr _ _ _ rfl
  unfold receiveAccepts
  rw [packetAccepted_true_iff]
  dsimp only
  rw [hm, hp, c3]
  exact ⟨c1, c2, expectedOffsets_valid _ hn o ho⟩

/-- C18 (an error-free transfer is fully accepted).  A send session started by
`AIRCOPY_Key_MENU` and run to completion (`n` ticks, `n` at least the completing tick) has
transmitted the packets `sentPackets evs`; when these are delivered in order, each with a
status word whose bit 0x0010 is clear, to a receive session started by `AIRCOPY_Key_EXIT` on
the same map of the catalog, every one of them is accepted, and the receive session ends in
`AIRCOPY_COMPLETE` with `gAirCopyBlockNumber = total_blocks` and
`gErrorsDuringAirCopy = 0`; for every storage content `flash` and checksum function `crc`. -/
theorem C18_error_free_transfer_accepted (nb : Nat) (crc : List Nat → Nat)
    (flash : Nat → Nat) (s0 r0 : State) (n : Nat)
    (hlen : s0.g_FSK_Buffer.length = 36)
    (hbox : r0.gInputBoxIndex = 0)
    (hidx : r0.gAircopyCurrentMapIndex < AIRCOPY_NUM_MAPS nb)
    (hmap : (AIRCOPY_GetCurrentMap nb r0).1 = (AIRCOPY_GetCurrentMap nb s0).1)
    (hn : firstDue s0.gAircopySendCountdown
      + 30 * (AIRCOPY_GetCurrentMap nb s0).1.total_blocks ≤ n) :
    ∃ sn evs,
      sendRun nb crc flash n (AIRCOPY_Key_MENU nb true false s0) = some (sn, evs) ∧
      sn.gAircopyState = AIRCOPY_COMPLETE ∧
      (sentPackets evs).length = (AIRCOPY_GetCurrentMap nb s0).1.total_blocks ∧
      ∀ delivered : List (Nat × List Nat),
        delivered.map Prod.snd = sentPackets evs →
        (∀ p ∈ delivered, p.1 &&& 0x0010 = 0) →
        (∀ p ∈ delivered,
          receiveAccepts nb crc (AIRCOPY_Key_EXIT true false r0).1 p = true) ∧
        (receivePackets nb crc (AIRCOPY_Key_EXIT true false r0).1 delivered).gAircopyState
          = AIRCOPY_COMPLETE ∧
        (receivePackets nb crc (AIRCOPY_Key_EXIT true false r0).1
          delivered).gAirCopyBlockNumber = (AIRCOPY_GetCurrentMap nb s0).1.total_blocks ∧
        (receivePackets nb crc (AIRCOPY_Key_EXIT true false r0).1
          delivered).gErrorsDuringAirCopy = 0 := by
  have hplan := catalog_followsPlan nb _ (GetCurrentMap_mem nb s0)
  have kmark := Key_MENU_markers nb s0 hlen
  obtain ⟨k1, k2, k3, _, _, k6⟩ := Key_EXIT_start r0 hbox
  have hrmap : (AIRCOPY_GetCurrentMap nb (AIRCOPY_Key_EXIT true false r0).1).1
      = (AIRCOPY_GetCurrentMap nb s0).1 :=
    (GetCurrentMap_congr nb _ r0 k6).trans hmap
  obtain ⟨sn, evs, hrun, i1, _, _, _, i11⟩ := send_session_start nb crc flash s0 hlen n
  have hc := dueTicks_complete s0.gAircopySendCountdown
    (AIRCOPY_GetCurrentMap nb s0).1.total_blocks n hn
  rw [hc, if_neg (by omega)] at i1
  rw [hc, List.take_of_length_le (by rw [hplan.1]; omega)] at i11
  have hcount : (sentPackets evs).length = (AIRCOPY_GetCurrentMap nb s0).1.total_blocks := by
    rw [i11, List.length_map, hplan.1]
  refine ⟨sn, evs, hrun, i1, hcount, ?_⟩
  intro delivered hdel hst
  have hacc : ∀ p ∈ delivered,
      receiveAccepts nb crc (AIRCOPY_Key_EXIT true false r0).1 p = true := by
    intro p hp
    have hp2 : p.2 ∈ sentPackets evs := by
      rw [← hdel]
      exact List.mem_map_of_mem _ hp
    rw [i11, List.mem_map] at hp2
    obtain ⟨o, ho, hpo⟩ := hp2
    exact sessionPacket_accepted nb crc flash _ _ p o kmark.1 kmark.2.1 kmark.2.2
      (hst p hp) hpo.symm (by rw [hrmap]; exact ho)
  have hdl : delivered.length = (AIRCOPY_GetCurrentMap nb s0).1.total_blocks := by
    rw [← hcount, ← hdel, List.length_map]
  obtain ⟨_, r2, r3, r4⟩ := receivePackets_run nb crc (AIRCOPY_Key_EXIT true false r0).1
    (AIRCOPY_GetCurrentMap nb s0).1.total_blocks hplan.2.2.1 delivered
    (AIRCOPY_Key_EXIT true false r0).1 0 rfl (by rw [k6]; exact hidx) (by rw [hrmap])
    (by rw [k2, k3]) (by rw [k1, if_neg (by have := hplan.2.1; omega)]) (by omega)
  have hfilter : delivered.filter (receiveAccepts nb crc (AIRCOPY_Key_EXIT true false r0).1)
      = delivered := List.filter_eq_self.2 hacc
  rw [hfilter] at r2 r3
  refine ⟨hacc, ?_, ?_, ?_⟩
  · rw [r4, if_pos (by omega)]
  · rw [r2, k2, hdl]; omega
  · rw [r3, k3]; omega

/-! ## Writing to the storage -/

theorem table_physical_disjoint (p q : AddrMapping_t) (hp : p ∈ ADDR_MAPPINGS)
    (hq : q ∈ ADDR_MAPPINGS) (hne : p ≠ q) :
    p.PY25Q16_Addr + p.Size ≤ q.PY25Q16_Addr ∨ q.PY25Q16_Addr + q.Size ≤ p.PY25Q16_Addr := by
  have : ∀ x ∈ ADDR_MAPPINGS, ∀ y ∈ ADDR_MAPPINGS, x ≠ y →
      x.PY25Q16_Addr + x.Size ≤ y.PY25Q16_Addr ∨ y.PY25Q16_Addr + y.Size ≤ x.PY25Q16_Addr := by
    decide
  exact this p hp q hq hne

theorem translate_of_inEntry (a n : Nat) (e : Bool) (p : AddrMapping_t)
    (hp : p ∈ ADDR_MAPPINGS) (ha : inEntry p a) :
    (AddrTranslate a n e).PY25Q16_Addr_out = p.PY25Q16_Addr + (a - p.EEPROM_Addr) := by
  rw [AddrTranslate_hit a n e p (scan_of_inEntry a p hp ha)]

theorem physical_of_inEntry (a : Nat) (p : AddrMapping_t)
    (hp : p ∈ ADDR_MAPPINGS) (ha : inEntry p a) :
    physical a = p.PY25Q16_Addr + (a - p.EEPROM_Addr) :=
  translate_of_inEntry a 1 false p hp ha

/-- Two backed logical addresses with the same physical address are the same address. -/
theorem physical_injective (a b : Nat) (ha : mapped a = true) (hb : mapped b = true)
    (h : physical a = physical b) : a = b := by
  obtain ⟨p, hp, hpa⟩ := (mapped_iff_inEntry a).1 ha
  obtain ⟨q, hq, hqb⟩ := (mapped_iff_inEntry b).1 hb
  rw [physical_of_inEntry a p hp hpa, physical_of_inEntry b q hq hqb] at h
  unfold inEntry at hpa hqb
  by_cases hpq : p = q
  · subst hpq
    omega
  · rcases table_physical_disjoint p q hp hq hpq with hd | hd <;> omega

theorem physical_lt_hole (a : Nat) (ha : mapped a = true) : physical a < HOLE_ADDR := by
  obtain ⟨p, hp, hpa⟩ := (mapped_iff_inEntry a).1 ha
  rw [physical_of_inEntry a p hp hpa]
  have := (table_entry p hp).2.2
  unfold inEntry at hpa
  unfold HOLE_ADDR
  omega

/-- What the driver calls of the write loop do to the storage: byte `j` of the request goes
to the physical address of `Address + j` when every address from `Address` to `Address + j`
is backed, and no other physical address changes. -/
theorem write_loop_store (mem : List Nat) :
    ∀ (fuel Address pBuffer Size : Nat), Size ≤ fuel → Address + Size ≤ 65536 →
    ∃ calls cs, EEPROM_WriteBuffer_loop mem fuel Address pBuffer Size = some (calls, cs) ∧
      ∀ flash : Nat → Nat,
        (∀ j, j < Size → (∀ k, k ≤ j → mapped (Address + k) = true) →
          calls.foldl PY25Q16_WriteBuffer flash (physical (Address + j))
            = mem.getD (pBuffer + j) 0) ∧
        (∀ P, (∀ j, j < Size → (∀ k, k ≤ j → mapped (Address + k) = true) →
            physical (Address + j) ≠ P) →
          calls.foldl PY25Q16_WriteBuffer flash P = flash P) := by
  intro fuel
  induction fuel with
  | zero =>
    intro Address pBuffer Size hf _
    have : Size = 0 := by omega
    subst this
    refine ⟨[], [], write_loop_zero _ _ _ _, ?_⟩
    intro flash
    exact ⟨fun j hj => absurd hj (by omega), fun P _ => rfl⟩
  | succ fuel ih =>
    intro Address pBuffer Size hf hs
    by_cases h0 : Size = 0
    · subst h0
      refine ⟨[], [], write_loop_zero _ _ _ _, ?_⟩
      intro flash
      exact ⟨fun j hj => absurd hj (by omega), fun P _ => rfl⟩
    · unfold EEPROM_WriteBuffer_loop
      rw [if_neg h0]
      dsimp only
      cases hscan : AddrTranslate_scan Address ADDR_MAPPINGS with
      | none =>
        rw [AddrTranslate_hole Address Size true hscan]
        dsimp only
        have hz : (Size + 65536 - Size) % 65536 = 0 := by omega
        rw [hz, write_loop_zero, if_neg (by unfold HOLE_ADDR; omega)]
        dsimp only
        refine ⟨_, _, rfl, ?_⟩
        intro flash
        have hm : mapped Address = false := (mapped_false_iff _).mpr hscan
        constructor
        · intro j _ hall
          have := hall 0 (Nat.zero_le _)
          rw [Nat.add_zero, hm] at this
          cases this
        · intro P _
          rfl
      | some p =>
        obtain ⟨hp, hin⟩ := scan_some Address _ p hscan
        obtain ⟨h1, h2, h3⟩ := table_entry p hp
        have hin' := hin
        unfold inEntry at hin
        rw [AddrTranslate_hit Address Size true p hscan]
        dsimp only
        rw [if_pos (rfl : true = true)]
        have hlt : p.PY25Q16_Addr + (Address - p.EEPROM_Addr) < HOLE_ADDR := by
          unfold HOLE_ADDR; omega
        rw [if_pos hlt]
        obtain ⟨sz, hsz⟩ : ∃ sz, min Size (p.Size - (Address - p.EEPROM_Addr)) = sz :=
          ⟨_, rfl⟩
        rw [hsz]
        have hsz1 : 1 ≤ sz ∧ sz ≤ Size ∧ sz ≤ p.Size - (Address - p.EEPROM_Addr) := by omega
        have hS : (Size + 65536 - sz) % 65536 = Size - sz := by omega
        rw [hS]
        obtain ⟨ws, cs, hloop, hspec⟩ :=
          ih ((Address + sz) % 65536) (pBuffer + sz) (Size - sz) (by omega) (by omega)
        rw [hloop]
        dsimp only
        refine ⟨_, _, rfl, ?_⟩
        intro flash
        rw [List.singleton_append, List.foldl_cons]
        obtain ⟨hi1, hi2⟩ := hspec (PY25Q16_WriteBuffer flash
          { PY_Addr := p.PY25Q16_Addr + (Address - p.EEPROM_Addr),
            data := (mem.drop pBuffer).take sz, PY_Size := sz,
            AppendFlag := some (decide (sz = p.Size - (Address - p.EEPROM_Addr))) })
        -- the addresses of this chunk
        have hchunk : ∀ j, j < sz → mapped (Address + j) = true ∧
            physical (Address + j) = p.PY25Q16_Addr + (Address - p.EEPROM_Addr) + j := by
          intro j hj
          have hje : inEntry p (Address + j) := by unfold inEntry; omega
          refine ⟨(mapped_iff_inEntry _).2 ⟨p, hp, hje⟩, ?_⟩
          rw [physical_of_inEntry _ p hp hje]
          omega
        by_cases hrest : Size - sz = 0
        · -- the chunk is the whole request
          have hws : ws = [] := by
            rw [hrest, write_loop_zero] at hloop
            cases hloop
            rfl
          rw [hws, List.foldl_nil]
          constructor
          · intro j hj _
            rw [(hchunk j (by omega)).2]
            unfold PY25Q16_WriteBuffer
            dsimp only
            rw [if_pos (by omega), getD_take_drop, if_pos (by omega)]
            congr 1
            omega
          · intro P hP
            unfold PY25Q16_WriteBuffer
            dsimp only
            rw [if_neg]
            intro hc
            have hj : P - (p.PY25Q16_Addr + (Address - p.EEPROM_Addr)) < Size := by omega
            refine hP _ hj ?_ ?_
            · intro k hk
              exact (hchunk k (by omega)).1
            · rw [(hchunk _ (by omega)).2]
              omega
        · have hA : (Address + sz) % 65536 = Address + sz := by omega
          rw [hA] at hi1 hi2
          constructor
          · intro j hj hall
            by_cases hjs : j < sz
            · rw [hi2]
              · rw [(hchunk j hjs).2]
                unfold PY25Q16_WriteBuffer
                dsimp only
                rw [if_pos (by omega), getD_take_drop, if_pos (by omega)]
                congr 1
                omega
              · intro j2 hj2 hall2 heq
                have := physical_injective _ _ (by
                  have := hall2 j2 (Nat.le_refl _)
                  exact this) (hchunk j hjs).1 heq
                omega
            · have e : Address + j = Address + sz + (j - sz) := by omega
              rw [e, hi1 (j - sz) (by omega)]
              · congr 1
                omega
              · intro k hk
                have := hall (sz + k) (by omega)
                rwa [← Nat.add_assoc] at this
          · intro P hP
            rw [hi2]
            · unfold PY25Q16_WriteBuffer
              dsimp only
              rw [if_neg]
              intro hc
              have hj : P - (p.PY25Q16_Addr + (Address - p.EEPROM_Addr)) < sz := by omega
              refine hP _ (Nat.lt_of_lt_of_le hj hsz1.2.1) ?_ ?_
              · intro k hk
                exact (hchunk k (by omega)).1
              · rw [(hchunk _ hj).2]
                omega
            · intro j2 hj2 hall2
              have e : Address + sz + j2 = Address + (sz + j2) := by omega
              rw [e]
              apply hP (sz + j2) (by omega)
              intro k hk
              by_cases hks : k < sz
              · exact (hchunk k hks).1
              · have := hall2 (k - sz) (by omega)
                have e2 : Address + sz + (k - sz) = Address + k := by omega
                rwa [e2] at this

theorem mapped_low (a : Nat) (ha : a < 0x880E) : mapped a = true := by
  rw [mapped_iff_inEntry]
  have hcases : a / 0x1000 < 9 := by omega
  have key : ∀ q, q < 9 → ∃ p ∈ ADDR_MAPPINGS, p.EEPROM_Addr = q * 0x1000 ∧
      (q < 8 → p.Size = 0x1000) ∧ (q = 8 → p.Size = 0x80E) := by decide
  obtain ⟨p, hp, h1, h2, h3⟩ := key (a / 0x1000) hcases
  refine ⟨p, hp, ?_⟩
  unfold inEntry
  by_cases h8 : a / 0x1000 < 8
  · rw [h1, h2 h8]; omega
  · have : a / 0x1000 = 8 := by omega
    rw [h1, h3 this]; omega

theorem mapped_settings (a : Nat) (h1 : 0xA000 ≤ a) (h2 : a < 0xA160) : mapped a = true := by
  rw [mapped_iff_inEntry]
  have key : ∃ p ∈ ADDR_MAPPINGS, p.EEPROM_Addr = 0xA000 ∧ p.Size = 0x160 := by decide
  obtain ⟨p, hp, e1, e2⟩ := key
  refine ⟨p, hp, ?_⟩
  unfold inEntry
  rw [e1, e2]; omega

theorem unmapped_gap (a : Nat) (h1 : 0xA160 ≤ a) (h2 : a < 0xB000) : mapped a = false := by
  cases hm : mapped a with
  | false => rfl
  | true =>
    exfalso
    obtain ⟨p, hp, hin⟩ := (mapped_iff_inEntry a).1 hm
    have key : ∀ q ∈ ADDR_MAPPINGS, q.EEPROM_Addr + q.Size ≤ 0xA160 ∨ 0xB000 ≤ q.EEPROM_Addr := by
      decide
    have := key p hp
    unfold inEntry at hin
    omega
/-- The blocks of the catalog: each ends within the 16-bit address space, and the backed
addresses among its 64 are an initial run of it. -/
theorem catalog_block_run (nb : Nat) (m : AIRCOPY_TransferMap_t)
    (hm : m ∈ AIRCOPY_AvailableMaps nb) (o : Nat) (ho : o ∈ expectedOffsets m) :
    o + 64 ≤ 65536 ∧
    ∀ j, j < 64 → mapped (o + j) = true → ∀ k, k ≤ j → mapped (o + k) = true := by
  unfold expectedOffsets at ho
  rw [mem_blockOffsets] at ho
  obtain ⟨seg, hseg, hmem⟩ := ho
  rw [mem_segmentBlocks] at hmem
  obtain ⟨i, hi, hlt⟩ := hmem
  have hseg2 := List.mem_of_mem_take hseg
  rcases catalog_maps nb m hm with h | ⟨n, hn, h⟩
  · subst h
    have hs : seg.start_offset = 0xA000 ∧ seg.end_offset = 0xA160 := by
      simp [AIRCOPY_Map_Settings, AIRCOPY_Segments_Settings] at hseg2
      rw [hseg2]
      exact ⟨rfl, rfl⟩
    refine ⟨by omega, ?_⟩
    intro j hj hmj k hk
    by_cases hin : o + j < 0xA160
    · exact mapped_settings _ (by omega) (by omega)
    · rw [unmapped_gap (o + j) (by omega) (by omega)] at hmj
      cases hmj
  · subst h
    have hs : seg.end_offset ≤ 0x8800 ∧ (seg.end_offset - seg.start_offset) % 64 = 0 ∧
        seg.start_offset ≤ seg.end_offset := by
      simp [AIRCOPY_Map_Bank, AIRCOPY_STD_MAP, AIRCOPY_BANK_SEGMENTS] at hseg2
      rcases hseg2 with h | h | h <;> rw [h] <;> dsimp only <;> omega
    refine ⟨by omega, ?_⟩
    intro j hj _ k hk
    exact mapped_low _ (by omega)

theorem storeGranule_spec (flash : Nat → Nat) (a : Nat) (data : List Nat)
    (ha : a + 8 ≤ 65536) :
    (∀ y, granuleCovers a y → storeGranule flash a data (physical y) = data.getD (y - a) 0) ∧
    (∀ y, mapped y = true → ¬ granuleCovers a y →
      storeGranule flash a data (physical y) = flash (physical y)) := by
  obtain ⟨calls, cs, hloop, hspec⟩ := write_loop_store data 8 a 0 8 (Nat.le_refl _) ha
  obtain ⟨h1, h2⟩ := hspec flash
  have hmod : a % 65536 = a := by omega
  unfold storeGranule EEPROM_WriteBuffer
  rw [hmod, hloop]
  dsimp only
  constructor
  · intro y hy
    obtain ⟨c1, c2, c3⟩ := hy
    have e : y = a + (y - a) := by omega
    have := h1 (y - a) (by omega) c3
    rw [← e, Nat.zero_add] at this
    exact this
  · intro y hy hnc
    apply h2
    intro j hj hall heq
    have hmj : mapped (a + j) = true := hall j (Nat.le_refl _)
    have e := physical_injective _ _ hmj hy heq
    apply hnc
    refine ⟨by omega, by omega, ?_⟩
    intro k hk
    exact hall k (by omega)

theorem storeEvent_other (flash : Nat → Nat) (e : Event)
    (h : ∀ a d, e ≠ Event.EEPROM_WriteBuffer a d) : storeEvent flash e = flash := by
  cases e <;> first
    | rfl
    | exact absurd rfl (h _ _)

/-- The storage after a sequence of driver calls all of whose writes carry, at every logical
address they reach, the value `t` of that address: a backed address reached by some write
holds `t`, every other backed address holds what it held. -/
theorem storeEvents_spec (t : Nat → Nat) :
    ∀ (evs : List Event) (flash : Nat → Nat),
      (∀ a d, Event.EEPROM_WriteBuffer a d ∈ evs →
        a + 8 ≤ 65536 ∧ ∀ y, granuleCovers a y → d.getD (y - a) 0 = t y) →
      ∀ y, mapped y = true →
        ((∃ a d, Event.EEPROM_WriteBuffer a d ∈ evs ∧ granuleCovers a y) →
          storeEvents flash evs (physical y) = t y) ∧
        ((¬ ∃ a d, Event.EEPROM_WriteBuffer a d ∈ evs ∧ granuleCovers a y) →
          storeEvents flash evs (physical y) = flash (physical y)) := by
  intro evs
  induction evs with
  | nil =>
    intro flash _ y _
    constructor
    · rintro ⟨a, d, hmem, _⟩
      simp at hmem
    · intro _
      rfl
  | cons e rest ih =>
    intro flash hall y hy
    have hstep : storeEvents flash (e :: rest) = storeEvents (storeEvent flash e) rest := rfl
    rw [hstep]
    obtain ⟨ih1, ih2⟩ := ih (storeEvent flash e)
      (fun a d hmem => hall a d (List.mem_cons_of_mem _ hmem)) y hy
    by_cases hr : ∃ a d, Event.EEPROM_WriteBuffer a d ∈ rest ∧ granuleCovers a y
    · constructor
      · intro _
        exact ih1 hr
      · intro hno
        exfalso
        obtain ⟨a, d, hmem, hc⟩ := hr
        exact hno ⟨a, d, List.mem_cons_of_mem _ hmem, hc⟩
    · rw [ih2 hr]
      by_cases hw : ∃ a d, e = Event.EEPROM_WriteBuffer a d
      · obtain ⟨a, d, he⟩ := hw
        subst he
        obtain ⟨hb, hv⟩ := hall a d (List.mem_cons_self _ _)
        obtain ⟨g1, g2⟩ := storeGranule_spec flash a d hb
        by_cases hc : granuleCovers a y
        · constructor
          · intro _
            show storeGranule flash a d (physical y) = t y
            rw [g1 y hc, hv y hc]
          · intro hno
            exact absurd ⟨a, d, List.mem_cons_self _ _, hc⟩ hno
        · constructor
          · rintro ⟨a2, d2, hmem, hc2⟩
            rcases List.mem_cons.1 hmem with h | h
            · cases h
              exact absurd hc2 hc
            · exact absurd ⟨a2, d2, h, hc2⟩ hr
          · intro _
            exact g2 y hy hc
      · have hne : ∀ a d, e ≠ Event.EEPROM_WriteBuffer a d := by
          intro a d he
          exact hw ⟨a, d, he⟩
        rw [storeEvent_other flash e hne]
        constructor
        · rintro ⟨a2, d2, hmem, hc2⟩
          rcases List.mem_cons.1 hmem with h | h
          · exact absurd h.symm (hne a2 d2)
          · exact absurd ⟨a2, d2, h, hc2⟩ hr
        · intro _
          rfl

/-- The driver calls of an accepted packet: the re-arm, then the eight 8-byte writes. -/
theorem accepted_events (nb : Nat) (crc : List Nat → Nat) (t : State) (p : Nat × List Nat)
    (hacc : receiveAccepts nb crc t p = true) (hlen : p.2.length = 36)
    (hoff : (obfuscationLoop p.2).getD 1 0 < 65536) :
    (receivePacket nb crc t p).2 =
      Event.BK4819_PrepareFSKReceive ::
        (List.range 8).map (fun i =>
          Event.EEPROM_WriteBuffer (((obfuscationLoop p.2).getD 1 0 + 8 * i) % 65536)
            (((payloadBytes (obfuscationLoop p.2)).drop (8 * i)).take 8)) := by
  unfold receiveAccepts at hacc
  obtain ⟨_, seg, hev⟩ := StorePacket_accepted nb crc p.1
    { t with g_FSK_Buffer := p.2, gFSKWriteIndex := 36 } (Nat.le_refl 36) hacc
  have hl : (obfuscationLoop p.2).length = 36 := by rw [obfuscationLoop_length, hlen]
  unfold receivePacket
  rw [hev]
  dsimp only
  by_cases hmode : seg.write_mode = AIRCOPY_WRITE_BYTES
  · rw [if_pos hmode, writeBytes_eq _ _ hl]
  · rw [if_neg hmode, writeStruct_eq _ _ hl hoff]

theorem receiveRun_state (nb : Nat) (crc : List Nat → Nat) :
    ∀ (pkts : List (Nat × List Nat)) (t : State),
      (receiveRun nb crc t pkts).1 = receivePackets nb crc t pkts := by
  intro pkts
  induction pkts with
  | nil => intro t; rfl
  | cons p rest ih =>
    intro t
    unfold receiveRun receivePackets
    exact ih _

/-- The writes of a receive session that is fed accepted packets of a send session. -/
theorem receiveRun_writes (nb : Nat) (crc : List Nat → Nat) (flash : Nat → Nat)
    (buf : List Nat) (ref : State) (hbuf : buf.length = 36)
    (href : ref.gAircopyCurrentMapIndex < AIRCOPY_NUM_MAPS nb) :
    ∀ (pkts : List (Nat × List Nat)) (t : State),
      t.gAircopyCurrentMapIndex = ref.gAircopyCurrentMapIndex →
      (∀ p ∈ pkts, receiveAccepts nb crc ref p = true) →
      (∀ p ∈ pkts, ∃ o, o < 65536 ∧ p.2 = sessionPacket crc flash buf o) →
      ∀ a d, Event.EEPROM_WriteBuffer a d ∈ (receiveRun nb crc t pkts).2 ↔
        ∃ p ∈ pkts, ∃ o i, p.2 = sessionPacket crc flash buf o ∧ i < 8 ∧
          a = (o + 8 * i) % 65536 ∧ d = ((readBlock flash o).drop (8 * i)).take 8 := by
  intro pkts
  induction pkts with
  | nil =>
    intro t _ _ _ a d
    constructor
    · intro h
      simp [receiveRun] at h
    · rintro ⟨p, hp, _⟩
      simp at hp
  | cons p rest ih =>
    intro t hidx hacc hform a d
    have hlt : t.gAircopyCurrentMapIndex < AIRCOPY_NUM_MAPS nb := by rw [hidx]; exact href
    obtain ⟨o, ho, hpo⟩ := hform p (List.mem_cons_self _ _)
    have hlen : p.2.length = 36 := by
      rw [hpo]
      exact (frame_markers crc buf (readBlock flash o) o hbuf).1
    have hoffv : (obfuscationLoop p.2).getD 1 0 = o := by
      rw [hpo]
      exact packetOffset_sessionPacket crc flash buf hbuf o
    have hpay : payloadBytes (obfuscationLoop p.2) = readBlock flash o := by
      rw [hpo]
      unfold sessionPacket
      have hl : (buf.set 1 o).length = 36 := by rw [List.length_set, hbuf]
      have hpl := frame_plain_length crc (buf.set 1 o) (readBlock flash o)
      rw [hl] at hpl
      rw [frame_deobfuscated, payloadBytes_congr _ (storePayload (buf.set 1 o) (readBlock flash o))
        hpl (by rw [storePayload_length, hl])]
      · exact payloadBytes_storePayload _ _ hl (readBlock_length _ _) (readBlock_lt _ _)
      · intro j h1 h2
        rw [getD_set_eq, if_neg (by omega)]
    have hev := accepted_events nb crc t p
      (by rw [receiveAccepts_congr nb crc t ref p hidx]; exact hacc p (List.mem_cons_self _ _))
      hlen (by rw [hoffv]; exact ho)
    rw [hoffv, hpay] at hev
    have hnext := (receivePacket_step nb crc t p hlt).1
    have hih := ih (receivePacket nb crc t p).1 (hnext.trans hidx)
      (fun q hq => hacc q (List.mem_cons_of_mem _ hq))
      (fun q hq => hform q (List.mem_cons_of_mem _ hq)) a d
    unfold receiveRun
    dsimp only
    rw [List.mem_append, hih, hev]
    constructor
    · rintro (h | ⟨q, hq, hrest⟩)
      · rcases List.mem_cons.1 h with h | h
        · cases h
        · rw [List.mem_map] at h
          obtain ⟨i, hi, he⟩ := h
          rw [List.mem_range] at hi
          cases he
          exact ⟨p, List.mem_cons_self _ _, o, i, hpo, hi, rfl, rfl⟩
      · exact ⟨q, List.mem_cons_of_mem _ hq, hrest⟩
    · rintro ⟨q, hq, o2, i, hq2, hi, ha, hd⟩
      rcases List.mem_cons.1 hq with h | h
      · left
        subst h
        have ho2 : o2 = o := by
          have h1 := packetOffset_sessionPacket crc flash buf hbuf o2
          rw [← hq2, hpo, packetOffset_sessionPacket crc flash buf hbuf o] at h1
          exact h1.symm
        subst ho2
        apply List.mem_cons_of_mem
        rw [List.mem_map]
        exact ⟨i, List.mem_range.2 hi, by rw [ha, hd]⟩
      · right
        exact ⟨q, h, o2, i, hq2, hi, ha, hd⟩

theorem readSpec_zero (flash : Nat → Nat) (x : Nat) :
    readSpec flash x 0 = if mapped x = true then flash (physical x) % 256 else 0xff := by
  unfold readSpec physical
  by_cases hm : mapped x = true
  · rw [if_pos hm, if_pos]
    · rfl
    · intro k hk
      have : k = 0 := by omega
      subst this
      exact hm
  · rw [if_neg hm, if_neg]
    intro hall
    exact hm (hall 0 (Nat.le_refl _))

theorem readBlock_getD (flash : Nat → Nat) (o j : Nat) (ho : o < 65536) (hj : j < 64)
    (hall : ∀ k, k ≤ j → mapped (o + k) = true) :
    (readBlock flash o).getD j 0 = flash (physical (o + j)) % 256 := by
  unfold readBlock
  rw [getD_map_range, if_pos hj, Nat.mod_eq_of_lt ho]
  unfold readSpec physical
  rw [if_pos hall]

/-- The address `x` of a segment lies in one of the blocks of the map. -/
theorem segment_block (m : AIRCOPY_TransferMap_t) (x : Nat)
    (hx : ∃ seg ∈ m.segments.take m.num_segments,
      seg.start_offset ≤ x ∧ x < seg.end_offset) :
    ∃ o ∈ expectedOffsets m, o ≤ x ∧ x < o + 64 := by
  obtain ⟨seg, hseg, h1, h2⟩ := hx
  refine ⟨seg.start_offset + 64 * ((x - seg.start_offset) / 64), ?_, by omega, by omega⟩
  unfold expectedOffsets
  rw [mem_blockOffsets]
  refine ⟨seg, hseg, ?_⟩
  rw [mem_segmentBlocks]
  exact ⟨_, rfl, by omega⟩

/-- The storage of the receiver after a receive session that is fed, in order, the accepted
packets of a send session on a map of the catalog: every backed address of a block of the map
holds the byte the sender has there. -/
theorem transfer_storage (nb : Nat) (crc : List Nat → Nat) (flashS flashR : Nat → Nat)
    (buf : List Nat) (r : State) (delivered : List (Nat × List Nat))
    (hbuf : buf.length = 36) (hm0 : buf.getD 0 0 = 0xABCD) (hm35 : buf.getD 35 0 = 0xDCBA)
    (hidx : r.gAircopyCurrentMapIndex < AIRCOPY_NUM_MAPS nb)
    (hdel : delivered.map Prod.snd =
      (expectedOffsets (AIRCOPY_GetCurrentMap nb r).1).map (sessionPacket crc flashS buf))
    (hst : ∀ p ∈ delivered, p.1 &&& 0x0010 = 0)
    (x : Nat) (hmx : mapped x = true)
    (hx : ∃ o ∈ expectedOffsets (AIRCOPY_GetCurrentMap nb r).1, o ≤ x ∧ x < o + 64) :
    storeEvents flashR (receiveRun nb crc r delivered).2 (physical x)
      = flashS (physical x) % 256 := by
  have hcat := GetCurrentMap_mem nb r
  have hform : ∀ p ∈ delivered, ∃ o ∈ expectedOffsets (AIRCOPY_GetCurrentMap nb r).1,
      p.2 = sessionPacket crc flashS buf o := by
    intro p hp
    have hp2 : p.2 ∈ delivered.map Prod.snd := List.mem_map_of_mem _ hp
    rw [hdel, List.mem_map] at hp2
    obtain ⟨o, ho, hpo⟩ := hp2
    exact ⟨o, ho, hpo.symm⟩
  have hacc : ∀ p ∈ delivered, receiveAccepts nb crc r p = true := by
    intro p hp
    obtain ⟨o, ho, hpo⟩ := hform p hp
    exact sessionPacket_accepted nb crc flashS buf r p o hbuf hm0 hm35 (hst p hp) hpo ho
  have hform2 : ∀ p ∈ delivered, ∃ o, o < 65536 ∧ p.2 = sessionPacket crc flashS buf o := by
    intro p hp
    obtain ⟨o, ho, hpo⟩ := hform p hp
    exact ⟨o, by have := (catalog_block_run nb _ hcat o ho).1; omega, hpo⟩
  have hw := receiveRun_writes nb crc flashS buf r hbuf hidx delivered r rfl hacc hform2
  apply (storeEvents_spec (fun y => flashS (physical y) % 256)
    (receiveRun nb crc r delivered).2 flashR ?_ x hmx).1
  · -- some write reaches `x`
    obtain ⟨o, ho, h1, h2⟩ := hx
    obtain ⟨hb, hrun⟩ := catalog_block_run nb _ hcat o ho
    have hp : sessionPacket crc flashS buf o ∈ delivered.map Prod.snd := by
      rw [hdel]
      exact List.mem_map_of_mem _ ho
    rw [List.mem_map] at hp
    obtain ⟨p, hp, hpo⟩ := hp
    refine ⟨o + 8 * ((x - o) / 8), ((readBlock flashS o).drop (8 * ((x - o) / 8))).take 8,
      ?_, ?_⟩
    · rw [hw]
      exact ⟨p, hp, o, (x - o) / 8, hpo, by omega, by omega, rfl⟩
    · refine ⟨by omega, by omega, ?_⟩
      intro k hk
      have e : o + 8 * ((x - o) / 8) + k = o + (8 * ((x - o) / 8) + k) := by omega
      rw [e]
      apply hrun (x - o) (by omega) _ _ (by omega)
      have e2 : o + (x - o) = x := by omega
      rw [e2]
      exact hmx
  · -- every write carries the sender's bytes
    intro a d hmem
    rw [hw] at hmem
    obtain ⟨p, hp, o, i, hpo, hi, ha, hd⟩ := hmem
    obtain ⟨o2, ho2, hpo2⟩ := hform p hp
    have hoo : o = o2 := by
      have h1 := packetOffset_sessionPacket crc flashS buf hbuf o
      rw [← hpo, hpo2, packetOffset_sessionPacket crc flashS buf hbuf o2] at h1
      exact h1.symm
    subst hoo
    obtain ⟨hb, hrun⟩ := catalog_block_run nb _ hcat o ho2
    have ha2 : a = o + 8 * i := by omega
    refine ⟨by omega, ?_⟩
    intro y hy
    obtain ⟨c1, c2, c3⟩ := hy
    have hmy : mapped y = true := by
      have := c3 (y - a) (Nat.le_refl _)
      have e : a + (y - a) = y := by omega
      rwa [e] at this
    rw [hd, getD_take_drop, if_pos (by omega),
      readBlock_getD flashS o (8 * i + (y - a)) (by omega) (by omega)]
    · have e : o + (8 * i + (y - a)) = y := by omega
      rw [e]
    · intro k hk
      apply hrun (y - o) (by omega) _ k (by omega)
      have e : o + (y - o) = y := by omega
      rw [e]
      exact hmy

/-- C19 (an error-free transfer copies the data).  With the storage of the device a byte
array in which a physical write stores exactly the given bytes: a send session started by
`AIRCOPY_Key_MENU` on the sender (storage `flashS`) and run to completion has transmitted the
packets `sentPackets evs`; when these are delivered in order, each with status bit 0x0010
clear, to a receive session started by `AIRCOPY_Key_EXIT` on the same map of the catalog on
the receiver (storage `flashR` before the session), then for every logical address `x` inside
a segment of the map, a one-byte `EEPROM_ReadBuffer` at `x` returns on the receiver's storage
after the session the byte it returns on the sender's storage. -/
theorem C19_error_free_transfer_copies (nb : Nat) (crc : List Nat → Nat)
    (flashS flashR : Nat → Nat) (s0 r0 : State) (n : Nat)
    (hlen : s0.g_FSK_Buffer.length = 36)
    (hbox : r0.gInputBoxIndex = 0)
    (hidx : r0.gAircopyCurrentMapIndex < AIRCOPY_NUM_MAPS nb)
    (hmap : (AIRCOPY_GetCurrentMap nb r0).1 = (AIRCOPY_GetCurrentMap nb s0).1)
    (hn : firstDue s0.gAircopySendCountdown
      + 30 * (AIRCOPY_GetCurrentMap nb s0).1.total_blocks ≤ n) :
    ∃ sn evs,
      sendRun nb crc flashS n (AIRCOPY_Key_MENU nb true false s0) = some (sn, evs) ∧
      sn.gAircopyState = AIRCOPY_COMPLETE ∧
      ∀ delivered : List (Nat × List Nat),
        delivered.map Prod.snd = sentPackets evs →
        (∀ p ∈ delivered, p.1 &&& 0x0010 = 0) →
        ∀ x, (∃ seg ∈ (AIRCOPY_GetCurrentMap nb s0).1.segments.take
                (AIRCOPY_GetCurrentMap nb s0).1.num_segments,
              seg.start_offset ≤ x ∧ x < seg.end_offset) →
          ∀ region : List Nat, region.length = 1 →
            ∃ b cs1 cs2,
              EEPROM_ReadBuffer
                (storeEvents flashR
                  (receiveRun nb crc (AIRCOPY_Key_EXIT true false r0).1 delivered).2)
                x region 1 = some ([b], cs1) ∧
              EEPROM_ReadBuffer flashS x region 1 = some ([b], cs2) := by
  have hplan := catalog_followsPlan nb _ (GetCurrentMap_mem nb s0)
  have kmark := Key_MENU_markers nb s0 hlen
  obtain ⟨k1, k2, k3, _, _, k6⟩ := Key_EXIT_start r0 hbox
  have hrmap : (AIRCOPY_GetCurrentMap nb (AIRCOPY_Key_EXIT true false r0).1).1
      = (AIRCOPY_GetCurrentMap nb s0).1 :=
    (GetCurrentMap_congr nb _ r0 k6).trans hmap
  obtain ⟨sn, evs, hrun, i1, _, _, _, i11⟩ := send_session_start nb crc flashS s0 hlen n
  have hc := dueTicks_complete s0.gAircopySendCountdown
    (AIRCOPY_GetCurrentMap nb s0).1.total_blocks n hn
  rw [hc, if_neg (by omega)] at i1
  rw [hc, List.take_of_length_le (by rw [hplan.1]; omega)] at i11
  refine ⟨sn, evs, hrun, i1, ?_⟩
  intro delivered hdel hst x hx region hreg
  obtain ⟨o, ho, h1, h2⟩ := segment_block _ x hx
  have hx16 : x % 65536 = x := by
    have := (catalog_block_run nb _ (GetCurrentMap_mem nb s0) o ho).1
    omega
  obtain ⟨cs1, hr1⟩ := read_result
    (storeEvents flashR (receiveRun nb crc (AIRCOPY_Key_EXIT true false r0).1 delivered).2)
    x 1 region (by omega) hreg
  obtain ⟨cs2, hr2⟩ := read_result flashS x 1 region (by omega) hreg
  rw [hx16] at hr1 hr2
  have hone : ∀ f : Nat → Nat, (List.range 1).map f = [f 0] := fun f => rfl
  rw [hone] at hr1 hr2
  refine ⟨readSpec flashS x 0, cs1, cs2, ?_, hr2⟩
  rw [hr1, readSpec_zero, readSpec_zero flashS]
  by_cases hmx : mapped x = true
  · rw [if_pos hmx, if_pos hmx,
      transfer_storage nb crc flashS flashR _ (AIRCOPY_Key_EXIT true false r0).1 delivered
        kmark.1 kmark.2.1 kmark.2.2 (by rw [k6]; exact hidx)
        (by rw [hdel, i11, hrmap]) hst x hmx (by rw [hrmap]; exact ⟨o, ho, h1, h2⟩),
      Nat.mod_mod]
  · rw [if_neg hmx, if_neg hmx]

/-! ## The receive path: driver calls and look-ups -/

theorem writeBytes_only_writes (buf : List Nat) (off : Nat) :
    ∀ e ∈ AIRCOPY_StorePacket_writeBytes buf off, ∃ a d, e = Event.EEPROM_WriteBuffer a d := by
  intro e he
  unfold AIRCOPY_StorePacket_writeBytes at he
  dsimp only at he
  rw [List.mem_map] at he
  obtain ⟨i, _, rfl⟩ := he
  exact ⟨_, _, rfl⟩

theorem writeStruct_fold_only_writes (buf : List Nat) :
    ∀ (l : List Nat) (acc : List Event × Nat × Nat),
      (∀ e ∈ acc.1, ∃ a d, e = Event.EEPROM_WriteBuffer a d) →
      ∀ e ∈ (l.foldl
        (fun (acc : List Event × Nat × Nat) _ =>
          let (calls, pData, Offset) := acc
          (calls ++ [Event.EEPROM_WriteBuffer Offset
              ((bytesOfWords (buf.drop pData)).take 8)],
            pData + 4, (Offset + 8) % 65536)) acc).1,
        ∃ a d, e = Event.EEPROM_WriteBuffer a d := by
  intro l
  induction l with
  | nil =>
    intro acc h
    exact h
  | cons x rest ih =>
    intro acc h
    rw [List.foldl_cons]
    apply ih
    obtain ⟨calls, pData, Offset⟩ := acc
    intro e he
    dsimp only at he
    rcases List.mem_append.1 he with h1 | h1
    · exact h e h1
    · rw [List.mem_singleton] at h1
      exact ⟨_, _, h1⟩

theorem writeStruct_only_writes (buf : List Nat) (off : Nat) :
    ∀ e ∈ AIRCOPY_StorePacket_writeStruct buf off, ∃ a d, e = Event.EEPROM_WriteBuffer a d := by
  unfold AIRCOPY_StorePacket_writeStruct
  apply writeStruct_fold_only_writes
  intro e he
  simp at he

/-- C21 (the receiver is always re-armed; hard reset only on framing errors).  A call of
`AIRCOPY_StorePacket` with write index below 36 does nothing.  With a full buffer it resets
the write index to 0 and its first driver call is `BK4819_PrepareFSKReceive`, whatever the
packet; when status bit 0x0010 is set or a marker is wrong the driver calls are exactly the
re-arm, `BK4819_ResetFSK` and a second `BK4819_PrepareFSKReceive`; otherwise (checksum
mismatch, offset out of range or accepted packet) the re-arm is followed by storage writes
only, so there is no `BK4819_ResetFSK` and no second re-arm. -/
theorem C21_receiver_rearmed (nb : Nat) (crc : List Nat → Nat) (Status : Nat) (s : State) :
    (s.gFSKWriteIndex < 36 → AIRCOPY_StorePacket nb crc Status s = (s, [])) ∧
    (36 ≤ s.gFSKWriteIndex →
      (AIRCOPY_StorePacket nb crc Status s).1.gFSKWriteIndex = 0 ∧
      (AIRCOPY_StorePacket nb crc Status s).2.head? = some Event.BK4819_PrepareFSKReceive ∧
      ((Status &&& 0x0010 ≠ 0 ∨ s.g_FSK_Buffer.getD 0 0 ≠ 0xABCD ∨
          s.g_FSK_Buffer.getD 35 0 ≠ 0xDCBA) →
        (AIRCOPY_StorePacket nb crc Status s).2 =
          [Event.BK4819_PrepareFSKReceive, Event.BK4819_ResetFSK,
           Event.BK4819_PrepareFSKReceive]) ∧
      (¬ (Status &&& 0x0010 ≠ 0 ∨ s.g_FSK_Buffer.getD 0 0 ≠ 0xABCD ∨
          s.g_FSK_Buffer.getD 35 0 ≠ 0xDCBA) →
        ∃ ws, (AIRCOPY_StorePacket nb crc Status s).2 = Event.BK4819_PrepareFSKReceive :: ws ∧
          (∀ e ∈ ws, ∃ a d, e = Event.EEPROM_WriteBuffer a d) ∧
          Event.BK4819_ResetFSK ∉ (AIRCOPY_StorePacket nb crc Status s).2)) := by
  refine ⟨StorePacket_not_full nb crc Status s, ?_⟩
  intro hfull
  have hwidx := (StorePacket_buffer nb crc Status s hfull).2
  have hcases : (Status &&& 0x0010 ≠ 0 ∨ s.g_FSK_Buffer.getD 0 0 ≠ 0xABCD ∨
      s.g_FSK_Buffer.getD 35 0 ≠ 0xDCBA) ↔
      AIRCOPY_StorePacket_frameError Status s.g_FSK_Buffer = true := by
    unfold AIRCOPY_StorePacket_frameError
    rw [decide_eq_true_iff]
  have hshape : (AIRCOPY_StorePacket_frameError Status s.g_FSK_Buffer = true →
        (AIRCOPY_StorePacket nb crc Status s).2 =
          [Event.BK4819_PrepareFSKReceive, Event.BK4819_ResetFSK,
           Event.BK4819_PrepareFSKReceive]) ∧
      (AIRCOPY_StorePacket_frameError Status s.g_FSK_Buffer = false →
        ∃ ws, (AIRCOPY_StorePacket nb crc Status s).2 = Event.BK4819_PrepareFSKReceive :: ws ∧
          (∀ e ∈ ws, ∃ a d, e = Event.EEPROM_WriteBuffer a d)) := by
    constructor
    · intro hf
      rw [StorePacket_frame_error nb crc Status s hfull hf]
    · intro hf
      by_cases hc : AIRCOPY_StorePacket_crcError crc (obfuscationLoop s.g_FSK_Buffer) = true
      · rw [StorePacket_crc_error nb crc Status s hfull hf hc]
        exact ⟨[], rfl, fun e he => absurd he (List.not_mem_nil e)⟩
      · have hc0 : AIRCOPY_StorePacket_crcError crc (obfuscationLoop s.g_FSK_Buffer) = false := by
          simpa using hc
        by_cases hv : AIRCOPY_StorePacket_validOffset (AIRCOPY_GetCurrentMap nb s).1
            ((obfuscationLoop s.g_FSK_Buffer).getD 1 0) = true
        · obtain ⟨seg, hev⟩ := StorePacket_accept nb crc Status s hfull hf hc0 hv
          rw [hev]
          refine ⟨_, rfl, ?_⟩
          intro e he
          by_cases hmode : seg.write_mode = AIRCOPY_WRITE_BYTES
          · rw [if_pos hmode] at he
            exact writeBytes_only_writes _ _ e he
          · rw [if_neg hmode] at he
            exact writeStruct_only_writes _ _ e he
        · have hv0 : AIRCOPY_StorePacket_validOffset (AIRCOPY_GetCurrentMap nb s).1
              ((obfuscationLoop s.g_FSK_Buffer).getD 1 0) = false := by simpa using hv
          rw [StorePacket_range_error nb crc Status s hfull hf hc0 hv0]
          exact ⟨[], rfl, fun e he => absurd he (List.not_mem_nil e)⟩
  refine ⟨hwidx, ?_, ?_, ?_⟩
  · by_cases hf : AIRCOPY_StorePacket_frameError Status s.g_FSK_Buffer = true
    · rw [hshape.1 hf]
      rfl
    · obtain ⟨ws, hws, _⟩ := hshape.2 (by simpa using hf)
      rw [hws]
      rfl
  · intro h
    exact hshape.1 (hcases.1 h)
  · intro h
    have hf : AIRCOPY_StorePacket_frameError Status s.g_FSK_Buffer = false := by
      cases hfe : AIRCOPY_StorePacket_frameError Status s.g_FSK_Buffer with
      | false => rfl
      | true => exact absurd (hcases.2 hfe) h
    obtain ⟨ws, hws, hall⟩ := hshape.2 hf
    refine ⟨ws, hws, hall, ?_⟩
    rw [hws]
    intro hmem
    rcases List.mem_cons.1 hmem with h1 | h1
    · cases h1
    · obtain ⟨a, d, he⟩ := hall _ h1
      cases he

/-- C22 (the segment look-up cannot fail after validation).  When the range validation of
`AIRCOPY_StorePacket` finds the offset in a segment of the active map, the function
`AIRCOPY_FindSegmentForOffset` returns a segment of that map that contains the offset, not
`NULL`; and a full packet that passes the framing test, the checksum test and the range
validation is counted as a block, not as an error. -/
theorem C22_segment_lookup_succeeds (nb : Nat) (crc : List Nat → Nat) (Status off : Nat)
    (s : State) :
    (AIRCOPY_StorePacket_validOffset (AIRCOPY_GetCurrentMap nb s).1 off = true →
      ∃ seg, (AIRCOPY_FindSegmentForOffset nb off s).1 = some seg ∧
        seg ∈ (AIRCOPY_GetCurrentMap nb s).1.segments ∧
        seg.start_offset ≤ off ∧ off < seg.end_offset) ∧
    (36 ≤ s.gFSKWriteIndex → packetAccepted nb crc Status s = true →
      (AIRCOPY_StorePacket nb crc Status s).1.gErrorsDuringAirCopy = s.gErrorsDuringAirCopy ∧
      (AIRCOPY_StorePacket nb crc Status s).1.gAirCopyBlockNumber
        = (s.gAirCopyBlockNumber + 1) % 65536) := by
  constructor
  · intro hv
    have hn := (catalog_map_facts nb _ (GetCurrentMap_mem nb s)).1
    unfold AIRCOPY_StorePacket_validOffset at hv
    obtain ⟨i, hi, hp, _, hfind⟩ := findSome_of_any (AIRCOPY_GetCurrentMap nb s).1.num_segments
      (fun i => off ≥ (segmentAt (AIRCOPY_GetCurrentMap nb s).1 i).start_offset ∧
        off < (segmentAt (AIRCOPY_GetCurrentMap nb s).1 i).end_offset)
      (segmentAt (AIRCOPY_GetCurrentMap nb s).1) hv
    rw [FindSegment_eq]
    exact ⟨_, hfind, segmentAt_mem _ i (by rw [← hn]; exact hi), hp.1, hp.2⟩
  · intro hfull hacc
    obtain ⟨⟨he, hb, _, _⟩, _⟩ := StorePacket_accepted nb crc Status s hfull hacc
    exact ⟨he, hb⟩

/-- C23 (the current-map look-up is always in bounds).  For every value of the map index,
`AIRCOPY_GetCurrentMap` returns an element of `AIRCOPY_AvailableMaps` and leaves an index
below the number `M` of maps; an index below `M` is unchanged and selects the map at that
index, an index of `M` or more is reset to 0 and selects the first map. -/
theorem C23_current_map_in_bounds (nb : Nat) (s : State) :
    (AIRCOPY_GetCurrentMap nb s).1 ∈ AIRCOPY_AvailableMaps nb ∧
    (AIRCOPY_GetCurrentMap nb s).2.gAircopyCurrentMapIndex < AIRCOPY_NUM_MAPS nb ∧
    (AIRCOPY_AvailableMaps nb)[(AIRCOPY_GetCurrentMap nb s).2.gAircopyCurrentMapIndex]?
      = some (AIRCOPY_GetCurrentMap nb s).1 ∧
    (s.gAircopyCurrentMapIndex < AIRCOPY_NUM_MAPS nb →
      (AIRCOPY_GetCurrentMap nb s).2 = s) ∧
    (AIRCOPY_NUM_MAPS nb ≤ s.gAircopyCurrentMapIndex →
      (AIRCOPY_GetCurrentMap nb s).2 = { s with gAircopyCurrentMapIndex := 0 }) := by
  have hpos := NUM_MAPS_pos nb
  have hlen : (AIRCOPY_AvailableMaps nb).length = AIRCOPY_NUM_MAPS nb := by
    unfold AIRCOPY_NUM_MAPS; rfl
  have hi := GetCurrentMap_index nb s
  have hlt : (AIRCOPY_GetCurrentMap nb s).2.gAircopyCurrentMapIndex < AIRCOPY_NUM_MAPS nb := by
    rw [hi]
    split <;> omega
  refine ⟨GetCurrentMap_mem nb s, hlt, ?_, ?_, ?_⟩
  · rw [GetCurrentMap_fst, hi]
    rw [hi] at hlt
    rw [List.getD_eq_getElem _ _ (by rw [hlen]; exact hlt),
      List.getElem?_eq_getElem (by rw [hlen]; exact hlt)]
  · intro h
    rw [GetCurrentMap_snd, if_neg (by omega)]
  · intro h
    rw [GetCurrentMap_snd, if_pos h]

/-- C26 (the translation is injective on backed addresses).  For two distinct logical
addresses that each lie in an entry of `ADDR_MAPPINGS` (such addresses are below 65536),
`AddrTranslate` gives two distinct physical addresses, whatever the sizes and end-flag
requests, both below `HOLE_ADDR`. -/
theorem C26_translation_injective (a b na nb : Nat) (ea eb : Bool)
    (ha : ∃ p ∈ ADDR_MAPPINGS, inEntry p a) (hb : ∃ p ∈ ADDR_MAPPINGS, inEntry p b)
    (hne : a ≠ b) :
    (AddrTranslate a na ea).PY25Q16_Addr_out ≠ (AddrTranslate b nb eb).PY25Q16_Addr_out ∧
    (AddrTranslate a na ea).PY25Q16_Addr_out < HOLE_ADDR ∧
    (AddrTranslate b nb eb).PY25Q16_Addr_out < HOLE_ADDR ∧
    a < 65536 ∧ b < 65536 := by
  have hma := (mapped_iff_inEntry a).2 ha
  have hmb := (mapped_iff_inEntry b).2 hb
  obtain ⟨p, hp, hpa⟩ := ha
  obtain ⟨q, hq, hqb⟩ := hb
  have e1 : (AddrTranslate a na ea).PY25Q16_Addr_out = physical a := by
    rw [translate_of_inEntry a na ea p hp hpa, physical_of_inEntry a p hp hpa]
  have e2 : (AddrTranslate b nb eb).PY25Q16_Addr_out = physical b := by
    rw [translate_of_inEntry b nb eb q hq hqb, physical_of_inEntry b q hq hqb]
  rw [e1, e2]
  have t1 := (table_entry p hp).1
  have t2 := (table_entry q hq).1
  unfold inEntry at hpa hqb
  refine ⟨?_, physical_lt_hole a hma, physical_lt_hole b hmb, by omega, by omega⟩
  intro h
  exact hne (physical_injective a b hma hmb h)

/-- C27, as the code has it.  For a read of `n ≤ 255` bytes at the 16-bit address `a` and an
index `i < n` whose address `a + i` lies in the entry `(P, L, S)` of `ADDR_MAPPINGS`: byte `i`
of the buffer is the storage byte at `P + (a + i - L)` when every address from `a` to `a + i`
is backed; when some address from `a` to `a + i` is not backed, byte `i` is the fill byte
0xFF, because a hole covers the rest of the request. -/
theorem C27_backed_bytes_read_back (flash : Nat → Nat) (a n : Nat) (region : List Nat)
    (hn : n ≤ 255) (ha : a < 65536) (hr : region.length = n) :
    ∃ buf cs, EEPROM_ReadBuffer flash a region n = some (buf, cs) ∧ buf.length = n ∧
      ∀ i, i < n → ∀ p ∈ ADDR_MAPPINGS, inEntry p (a + i) →
        ((∀ k, k ≤ i → ∃ q ∈ ADDR_MAPPINGS, inEntry q (a + k)) →
          buf.getD i 0 = flash (p.PY25Q16_Addr + (a + i - p.EEPROM_Addr)) % 256) ∧
        ((∃ k, k ≤ i ∧ ∀ q ∈ ADDR_MAPPINGS, ¬ inEntry q (a + k)) →
          buf.getD i 0 = 0xFF) := by
  obtain ⟨cs, hread⟩ := read_result flash a n region hn hr
  rw [Nat.mod_eq_of_lt ha] at hread
  refine ⟨_, cs, hread, by simp, ?_⟩
  intro i hi p hp hpin
  rw [getD_map_range, if_pos hi]
  unfold readSpec
  constructor
  · intro hall
    rw [if_pos (fun k hk => (mapped_iff_inEntry _).2 (hall k hk)),
      translate_of_inEntry (a + i) 1 false p hp hpin]
  · rintro ⟨k, hk, hnone⟩
    rw [if_neg]
    intro hall
    obtain ⟨q, hq, hqin⟩ := (mapped_iff_inEntry _).1 (hall k hk)
    exact hnone q hq hqin

/-! ## Where received data goes -/

theorem storeGranule_frame (flash : Nat → Nat) (a : Nat) (data : List Nat) (P : Nat)
    (ha : a + 8 ≤ 65536)
    (h : ∀ j, j < 8 → (∀ k, k ≤ j → mapped (a + k) = true) → physical (a + j) ≠ P) :
    storeGranule flash a data P = flash P := by
  obtain ⟨calls, cs, hloop, hspec⟩ := write_loop_store data 8 a 0 8 (Nat.le_refl _) ha
  have hmod : a % 65536 = a := by omega
  unfold storeGranule EEPROM_WriteBuffer
  rw [hmod, hloop]
  exact (hspec flash).2 P h

theorem storeEvents_frame (P : Nat) :
    ∀ (evs : List Event) (flash : Nat → Nat),
      (∀ a d, Event.EEPROM_WriteBuffer a d ∈ evs → a + 8 ≤ 65536 ∧
        ∀ j, j < 8 → (∀ k, k ≤ j → mapped (a + k) = true) → physical (a + j) ≠ P) →
      storeEvents flash evs P = flash P := by
  intro evs
  induction evs with
  | nil =>
    intro flash _
    rfl
  | cons e rest ih =>
    intro flash hall
    have hstep : storeEvents flash (e :: rest) = storeEvents (storeEvent flash e) rest := rfl
    rw [hstep, ih _ (fun a d hmem => hall a d (List.mem_cons_of_mem _ hmem))]
    by_cases hw : ∃ a d, e = Event.EEPROM_WriteBuffer a d
    · obtain ⟨a, d, he⟩ := hw
      subst he
      obtain ⟨hb, hv⟩ := hall a d (List.mem_cons_self _ _)
      exact storeGranule_frame flash a d P hb hv
    · rw [storeEvent_other flash e (fun a d he => hw ⟨a, d, he⟩)]

theorem catalog_segment_end (nb : Nat) (m : AIRCOPY_TransferMap_t)
    (hm : m ∈ AIRCOPY_AvailableMaps nb) (seg : AIRCOPY_Segment_t) (hseg : seg ∈ m.segments) :
    seg.end_offset ≤ 0xA160 := by
  rcases catalog_maps nb m hm with h | ⟨n, hn, h⟩
  · subst h
    simp [AIRCOPY_Map_Settings, AIRCOPY_Segments_Settings] at hseg
    rw [hseg]
  · subst h
    simp [AIRCOPY_Map_Bank, AIRCOPY_STD_MAP, AIRCOPY_BANK_SEGMENTS] at hseg
    rcases hseg with h | h | h <;> rw [h] <;> dsimp only <;> omega

/-- A backed address of a block of a map of the catalog lies in a segment of the map. -/
theorem catalog_block_inside (nb : Nat) (m : AIRCOPY_TransferMap_t)
    (hm : m ∈ AIRCOPY_AvailableMaps nb) (o : Nat) (ho : o ∈ expectedOffsets m)
    (y : Nat) (h1 : o ≤ y) (h2 : y < o + 64) (hmy : mapped y = true) :
    ∃ seg ∈ m.segments, seg.start_offset ≤ y ∧ y < seg.end_offset := by
  unfold expectedOffsets at ho
  rw [mem_blockOffsets] at ho
  obtain ⟨seg, hseg, hmem⟩ := ho
  rw [mem_segmentBlocks] at hmem
  obtain ⟨i, hi, hlt⟩ := hmem
  have hseg2 := List.mem_of_mem_take hseg
  refine ⟨seg, hseg2, by omega, ?_⟩
  rcases catalog_maps nb m hm with h | ⟨n, hn, h⟩
  · subst h
    have hs : seg.start_offset = 0xA000 ∧ seg.end_offset = 0xA160 := by
      simp [AIRCOPY_Map_Settings, AIRCOPY_Segments_Settings] at hseg2
      rw [hseg2]
      exact ⟨rfl, rfl⟩
    by_contra hge
    rw [unmapped_gap y (by omega) (by omega)] at hmy
    cases hmy
  · subst h
    have hs : (seg.end_offset - seg.start_offset) % 64 = 0 ∧
        seg.start_offset ≤ seg.end_offset := by
      simp [AIRCOPY_Map_Bank, AIRCOPY_STD_MAP, AIRCOPY_BANK_SEGMENTS] at hseg2
      rcases hseg2 with h | h | h <;> rw [h] <;> dsimp only <;> omega
    omega

/-- The driver calls of `AIRCOPY_StorePacket` for an accepted packet. -/
theorem accepted_events_state (nb : Nat) (crc : List Nat → Nat) (Status : Nat) (s : State)
    (hfull : 36 ≤ s.gFSKWriteIndex) (hlen : s.g_FSK_Buffer.length = 36)
    (hacc : packetAccepted nb crc Status s = true) :
    (∃ seg ∈ (AIRCOPY_GetCurrentMap nb s).1.segments,
      seg.start_offset ≤ (obfuscationLoop s.g_FSK_Buffer).getD 1 0 ∧
      (obfuscationLoop s.g_FSK_Buffer).getD 1 0 < seg.end_offset) ∧
    (obfuscationLoop s.g_FSK_Buffer).getD 1 0 + 64 ≤ 65536 ∧
    (AIRCOPY_StorePacket nb crc Status s).2 =
      Event.BK4819_PrepareFSKReceive ::
        (List.range 8).map (fun i =>
          Event.EEPROM_WriteBuffer ((obfuscationLoop s.g_FSK_Buffer).getD 1 0 + 8 * i)
            (((payloadBytes (obfuscationLoop s.g_FSK_Buffer)).drop (8 * i)).take 8)) := by
  have hn := (catalog_map_facts nb _ (GetCurrentMap_mem nb s)).1
  obtain ⟨_, _, hv⟩ := (packetAccepted_true_iff nb crc Status s).1 hacc
  obtain ⟨seg, hseg, h1, h2⟩ := (validOffset_true_iff _ _ hn).1 hv
  have hend := catalog_segment_end nb _ (GetCurrentMap_mem nb s) seg hseg
  obtain ⟨_, seg2, hev⟩ := StorePacket_accepted nb crc Status s hfull hacc
  have hl : (obfuscationLoop s.g_FSK_Buffer).length = 36 := by rw [obfuscationLoop_length, hlen]
  refine ⟨⟨seg, hseg, h1, h2⟩, by omega, ?_⟩
  have hmap : (List.range 8).map (fun i =>
        Event.EEPROM_WriteBuffer (((obfuscationLoop s.g_FSK_Buffer).getD 1 0 + 8 * i) % 65536)
          (((payloadBytes (obfuscationLoop s.g_FSK_Buffer)).drop (8 * i)).take 8)) =
      (List.range 8).map (fun i =>
        Event.EEPROM_WriteBuffer ((obfuscationLoop s.g_FSK_Buffer).getD 1 0 + 8 * i)
          (((payloadBytes (obfuscationLoop s.g_FSK_Buffer)).drop (8 * i)).take 8)) := by
    apply List.map_congr_left
    intro i hi
    rw [List.mem_range] at hi
    rw [Nat.mod_eq_of_lt (by omega)]
  rw [hev]
  by_cases hmode : seg2.write_mode = AIRCOPY_WRITE_BYTES
  · rw [if_pos hmode, writeBytes_eq _ _ hl, hmap]
  · rw [if_neg hmode, writeStruct_eq _ _ hl (by omega), hmap]

/-- C28, as the code has it.  For a full packet that `AIRCOPY_StorePacket` accepts, with `o`
the decoded offset: `o` lies in a segment of the active map; on a storage that a physical
write changes at the written addresses only, the content changes only at physical addresses
that are the translation of a backed logical address in `o .. o + 63`; and when `o` is a
block offset of the map (the start of a segment plus a multiple of 64, as a sender
transmits), only at the translation of addresses inside a segment of the map. -/
theorem C28_received_data_location (nb : Nat) (crc : List Nat → Nat) (Status : Nat)
    (s : State) (flash : Nat → Nat) (P : Nat)
    (hfull : 36 ≤ s.gFSKWriteIndex) (hlen : s.g_FSK_Buffer.length = 36)
    (hacc : packetAccepted nb crc Status s = true) :
    (∃ seg ∈ (AIRCOPY_GetCurrentMap nb s).1.segments,
      seg.start_offset ≤ (obfuscationLoop s.g_FSK_Buffer).getD 1 0 ∧
      (obfuscationLoop s.g_FSK_Buffer).getD 1 0 < seg.end_offset) ∧
    ((∀ y, (obfuscationLoop s.g_FSK_Buffer).getD 1 0 ≤ y →
        y < (obfuscationLoop s.g_FSK_Buffer).getD 1 0 + 64 → mapped y = true →
        physical y ≠ P) →
      storeEvents flash (AIRCOPY_StorePacket nb crc Status s).2 P = flash P) ∧
    ((obfuscationLoop s.g_FSK_Buffer).getD 1 0 ∈ expectedOffsets (AIRCOPY_GetCurrentMap nb s).1 →
      (∀ y, (∃ seg ∈ (AIRCOPY_GetCurrentMap nb s).1.segments,
          seg.start_offset ≤ y ∧ y < seg.end_offset) → physical y ≠ P) →
      storeEvents flash (AIRCOPY_StorePacket nb crc Status s).2 P = flash P) := by
  obtain ⟨hseg, hb, hev⟩ := accepted_events_state nb crc Status s hfull hlen hacc
  have hframe : (∀ y, (obfuscationLoop s.g_FSK_Buffer).getD 1 0 ≤ y →
        y < (obfuscationLoop s.g_FSK_Buffer).getD 1 0 + 64 → mapped y = true →
        physical y ≠ P) →
      storeEvents flash (AIRCOPY_StorePacket nb crc Status s).2 P = flash P := by
    intro hP
    apply storeEvents_frame
    intro a d hmem
    rw [hev] at hmem
    rcases List.mem_cons.1 hmem with h | h
    · cases h
    · rw [List.mem_map] at h
      obtain ⟨i, hi, he⟩ := h
      rw [List.mem_range] at hi
      cases he
      refine ⟨by omega, ?_⟩
      intro j hj hall
      exact hP _ (by omega) (by omega) (hall j (Nat.le_refl _))
  refine ⟨hseg, hframe, ?_⟩
  intro ho hP
  apply hframe
  intro y h1 h2 hmy
  exact hP y (catalog_block_inside nb _ (GetCurrentMap_mem nb s) _ ho y h1 h2 hmy)

/-! ## The countdown across send sessions -/

/-- A send tick keeps the countdown an 8-bit value. -/
theorem SendMessage_countdown_range (nb : Nat) (crc : List Nat → Nat) (flash : Nat → Nat)
    (s : State) (hlen : s.g_FSK_Buffer.length = 36) (hc : s.gAircopySendCountdown < 256) :
    ∃ ret s1 evs, AIRCOPY_SendMessage nb crc flash s = some (ret, s1, evs) ∧
      s1.gAircopySendCountdown < 256 ∧ s1.g_FSK_Buffer.length = 36 := by
  by_cases ht : s.gAircopyState = AIRCOPY_TRANSFER
  · by_cases hcd : (s.gAircopySendCountdown + 255) % 256 = 0
    · have hn := (catalog_num_segments nb _ (GetCurrentMap_mem nb s)).2
      obtain ⟨s4, hadv⟩ := advance_total (AIRCOPY_GetCurrentMap nb s).1 (by omega)
        (AIRCOPY_GetCurrentMap nb s).1.num_segments (SendMessage_prepared nb s) (by omega)
      have h4 : s4.gAircopySendCountdown = (s.gAircopySendCountdown + 255) % 256 := by
        rw [advance_frame _ _ _ _ hadv]
        dsimp only
        rw [(prepared_fields nb s).2.2.2.1]
      have h5 : s4.g_FSK_Buffer.length = 36 := by
        rw [advance_frame _ _ _ _ hadv]
        dsimp only
        rw [prepared_buffer, hlen]
      rw [SendMessage_due nb crc flash s s4 ht hcd hlen hadv]
      by_cases hcur : s4.CurrentSegmentIndex ≥ (AIRCOPY_GetCurrentMap nb s).1.num_segments
      · rw [if_pos hcur]
        refine ⟨_, _, _, rfl, ?_, ?_⟩
        · dsimp only
          omega
        · dsimp only
          exact h5
      · rw [if_neg hcur]
        refine ⟨_, _, _, rfl, ?_, ?_⟩
        · dsimp only
          omega
        · dsimp only
          exact (frame_markers crc s4.g_FSK_Buffer _ s4.CurrentOffset h5).1
    · rw [SendMessage_throttled nb crc flash s ht hcd]
      refine ⟨_, _, _, rfl, ?_, ?_⟩
      · dsimp only
        omega
      · dsimp only
        exact hlen
  · rw [SendMessage_not_transfer nb crc flash s ht]
    exact ⟨_, _, _, rfl, hc, hlen⟩

theorem sendRun_countdown_range (nb : Nat) (crc : List Nat → Nat) (flash : Nat → Nat) :
    ∀ (n : Nat) (s sn : State) (evs : List Event), s.g_FSK_Buffer.length = 36 →
      s.gAircopySendCountdown < 256 → sendRun nb crc flash n s = some (sn, evs) →
      sn.gAircopySendCountdown < 256 := by
  intro n
  induction n with
  | zero =>
    intro s sn evs _ hc h
    have h0 : sendRun nb crc flash 0 s = some (s, []) := rfl
    rw [h0] at h
    cases h
    exact hc
  | succ n ih =>
    intro s sn evs hlen hc h
    obtain ⟨ret, s1, e, hS, hc1, hl1⟩ := SendMessage_countdown_range nb crc flash s hlen hc
    have hstep : sendRun nb crc flash (n + 1) s =
        match sendRun nb crc flash n s1 with
        | none => none
        | some (sn, rest) => some (sn, e ++ rest) := by
      show (match AIRCOPY_SendMessage nb crc flash s with
        | none => none
        | some (_, s1, evs) =>
          match sendRun nb crc flash n s1 with
          | none => none
          | some (sn, rest) => some (sn, evs ++ rest)) = _
      rw [hS]
    rw [hstep] at h
    cases hr : sendRun nb crc flash n s1 with
    | none => rw [hr] at h; cases h
    | some r =>
      rw [hr] at h
      cases h
      exact ih s1 _ _ hl1 hc1 hr

/-- C29 (the countdown across send sessions), as the code has it.  Start-send in a state with
an 8-bit countdown, then `n` ticks with `n` at least `firstDue c + 30 * T` (the tick at which
the session completes): the state is `AIRCOPY_COMPLETE` and the countdown is 0, left there by
the completing tick.  `AIRCOPY_Key_MENU` does not set the countdown, so the send session
started next enters `AIRCOPY_SendMessage` in `AIRCOPY_TRANSFER` with countdown 0, outside
1..30: its first decrement wraps to 255, no packet goes out during the first 255 ticks, and
the first block goes out at tick 256. -/
theorem C29_countdown_zero_at_restart (nb : Nat) (crc : List Nat → Nat) (flash : Nat → Nat)
    (s0 : State) (hlen : s0.g_FSK_Buffer.length = 36) (hc : s0.gAircopySendCountdown < 256)
    (n : Nat)
    (hn : firstDue s0.gAircopySendCountdown
      + 30 * (AIRCOPY_GetCurrentMap nb s0).1.total_blocks ≤ n) :
    ∃ sn evs, sendRun nb crc flash n (AIRCOPY_Key_MENU nb true false s0) = some (sn, evs) ∧
      sn.gAircopyState = AIRCOPY_COMPLETE ∧ sn.gAircopySendCountdown = 0 ∧
      (AIRCOPY_Key_MENU nb true false sn).gAircopyState = AIRCOPY_TRANSFER ∧
      (AIRCOPY_Key_MENU nb true false sn).gAircopySendCountdown = 0 ∧
      AIRCOPY_SendMessage nb crc flash (AIRCOPY_Key_MENU nb true false sn) =
        some (true, { AIRCOPY_Key_MENU nb true false sn with gAircopySendCountdown := 255 },
          []) ∧
      ∀ j, ∃ sj ej,
        sendRun nb crc flash j (AIRCOPY_Key_MENU nb true false sn) = some (sj, ej) ∧
        (j ≤ 255 → sentPackets ej = []) ∧
        (256 ≤ j → sentPackets ej ≠ []) := by
  obtain ⟨k1, k2, _, _, _, k6, _⟩ := Key_MENU_summary nb s0
  have kmap := Key_MENU_map nb s0
  have kmark := Key_MENU_markers nb s0 hlen
  have hplan := catalog_followsPlan nb _ (GetCurrentMap_mem nb s0)
  obtain ⟨sn, evs, hrun, i1, _, _, i4, _, i6, _⟩ :=
    send_session nb crc flash (AIRCOPY_Key_MENU nb true false s0) k1 k2 kmark.1
      (by rw [kmap]; exact hplan) n
  have hd : sessionDue nb (AIRCOPY_Key_MENU nb true false s0) n =
      (AIRCOPY_GetCurrentMap nb s0).1.total_blocks + 1 := by
    unfold sessionDue
    rw [k6, kmap]
    exact dueTicks_complete _ _ _ hn
  rw [hd, kmap] at i1 i4
  rw [if_neg (by omega)] at i1
  rw [if_neg (by omega), if_neg (by omega)] at i4
  have hlt := sendRun_countdown_range nb crc flash n _ sn evs kmark.1 (by rw [k6]; exact hc) hrun
  have hz : sn.gAircopySendCountdown = 0 := by omega
  obtain ⟨m1, _, _, _, _, m6, _⟩ := Key_MENU_summary nb sn
  have hthr := SendMessage_throttled nb crc flash (AIRCOPY_Key_MENU nb true false sn) m1
    (by rw [m6, hz]; decide)
  rw [m6, hz] at hthr
  refine ⟨sn, evs, hrun, i1, hz, m1, by rw [m6, hz], hthr, ?_⟩
  intro j
  obtain ⟨sj, ej, hj, _, _, _, _, j6⟩ := send_session_start nb crc flash sn i6 j
  have hT := catalog_map_facts nb _ (GetCurrentMap_mem nb sn)
  have hplan2 := catalog_followsPlan nb _ (GetCurrentMap_mem nb sn)
  refine ⟨sj, ej, hj, ?_, ?_⟩
  · intro hle
    rw [j6, hz, dueTicks_before 0 _ j (by unfold firstDue; simp; omega)]
    rfl
  · intro hge
    have hd1 : 1 ≤ dueTicks 0 (AIRCOPY_GetCurrentMap nb sn).1.total_blocks j := by
      unfold dueTicks firstDue
      simp only [Nat.zero_mod, if_true]
      split_ifs <;> omega
    intro hnil
    have hlen2 := congrArg List.length hnil
    rw [j6, hz, List.length_map, List.length_take, hplan2.1] at hlen2
    simp only [List.length_nil] at hlen2
    omega
/-! ## The error bitmap -/

theorem bitAccesses_eq (nb : Nat) (s : State) :
    UI_DisplayAircopy_bitAccesses nb s =
      if s.gAircopyState = AIRCOPY_TRANSFER ∧
          0 < (if (s.gAirCopyBlockNumber + s.gErrorsDuringAirCopy) % 65536
                > (AIRCOPY_GetCurrentMap nb s).1.total_blocks
              then (AIRCOPY_GetCurrentMap nb s).1.total_blocks
              else (s.gAirCopyBlockNumber + s.gErrorsDuringAirCopy) % 65536) then
        (if s.gErrorsDuringAirCopy ≠ s.lErrorsDuringAirCopy then
            [(if (s.gAirCopyBlockNumber + s.gErrorsDuringAirCopy) % 65536
                > (AIRCOPY_GetCurrentMap nb s).1.total_blocks
              then (AIRCOPY_GetCurrentMap nb s).1.total_blocks
              else (s.gAirCopyBlockNumber + s.gErrorsDuringAirCopy) % 65536) - 1]
          else [],
         (List.range AIRCOPY_BAR_WIDTH).filterMap (fun col =>
            if ((col * (AIRCOPY_GetCurrentMap nb s).1.total_blocks) % 4294967296
                  / AIRCOPY_BAR_WIDTH) % 65536
                < (if (s.gAirCopyBlockNumber + s.gErrorsDuringAirCopy) % 65536
                    > (AIRCOPY_GetCurrentMap nb s).1.total_blocks
                  then (AIRCOPY_GetCurrentMap nb s).1.total_blocks
                  else (s.gAirCopyBlockNumber + s.gErrorsDuringAirCopy) % 65536)
            then some (((col * (AIRCOPY_GetCurrentMap nb s).1.total_blocks) % 4294967296
                  / AIRCOPY_BAR_WIDTH) % 65536)
            else none))
      else ([], []) := by
  have hmap2 : ∀ t : State, t.gAircopyCurrentMapIndex =
      (AIRCOPY_GetCurrentMap nb s).2.gAircopyCurrentMapIndex →
      (AIRCOPY_GetCurrentMap nb t).1 = (AIRCOPY_GetCurrentMap nb s).1 := by
    intro t ht
    rw [GetCurrentMap_congr nb t _ ht, GetCurrentMap_idem]
  unfold UI_DisplayAircopy_bitAccesses
  dsimp only
  by_cases hst : s.gAircopyState = AIRCOPY_TRANSFER
  · have hne : ¬ s.gAircopyState = AIRCOPY_READY := by rw [hst]; decide
    have hTR : ¬ (AIRCOPY_TRANSFER = AIRCOPY_READY) := by decide
    rw [if_neg hne, if_pos hst]
    by_cases he : s.gErrorsDuringAirCopy ≠ s.lErrorsDuringAirCopy
    · simp only [GetCurrentMap_gAircopyState, GetCurrentMap_gAirCopyBlockNumber,
        GetCurrentMap_gErrorsDuringAirCopy, GetCurrentMap_lErrorsDuringAirCopy,
        if_neg hne, hst, true_and, if_pos he, hmap2, if_neg hTR, gt_iff_lt]
    · simp only [GetCurrentMap_gAircopyState, GetCurrentMap_gAirCopyBlockNumber,
        GetCurrentMap_gErrorsDuringAirCopy, GetCurrentMap_lErrorsDuringAirCopy,
        if_neg hne, hst, true_and, if_neg he, hmap2, if_neg hTR, gt_iff_lt]
  · have h2 : ¬ (s.gAircopyState = AIRCOPY_TRANSFER ∧
          0 < (if (s.gAirCopyBlockNumber + s.gErrorsDuringAirCopy) % 65536
                > (AIRCOPY_GetCurrentMap nb s).1.total_blocks
              then (AIRCOPY_GetCurrentMap nb s).1.total_blocks
              else (s.gAirCopyBlockNumber + s.gErrorsDuringAirCopy) % 65536)) :=
      fun h => hst h.1
    rw [if_neg h2]
    by_cases hr : s.gAircopyState = AIRCOPY_READY
    · simp only [hr, if_true, GetCurrentMap_gAircopyState, gt_iff_lt, Nat.lt_irrefl, if_false]
    · simp only [hr, hst, if_false, if_true, GetCurrentMap_gAircopyState, gt_iff_lt,
        Nat.lt_irrefl]

theorem clear_loop (n : Nat) (c : List Nat) :
    ((List.range n).foldl (fun c i => c.set i 0) c).length = c.length ∧
    ∀ i, ((List.range n).foldl (fun c i => c.set i 0) c).getD i 0
      = if i < n then 0 else c.getD i 0 := by
  induction n with
  | zero =>
    refine ⟨rfl, ?_⟩
    intro i
    simp
  | succ n ih =>
    rw [List.range_succ, List.foldl_append]
    simp only [List.foldl_cons, List.foldl_nil]
    refine ⟨by rw [List.length_set, ih.1], ?_⟩
    intro i
    rw [getD_set_eq, ih.2 i, ih.1]
    by_cases hl : i < c.length
    · split_ifs <;> first | rfl | omega
    · rw [List.getD_eq_default _ _ (by omega)]
      split_ifs <;> rfl

theorem clear_crc (s : State) :
    (AIRCOPY_clear s).crc.length = s.crc.length ∧
    (∀ i, i < 15 → (AIRCOPY_clear s).crc.getD i 0 = 0) ∧
    ∀ b, b < 120 → get_bit (AIRCOPY_clear s).crc b = 0 := by
  have h := clear_loop 15 s.crc
  have he : (AIRCOPY_clear s).crc = (List.range 15).foldl (fun c i => c.set i 0) s.crc := by
    unfold AIRCOPY_clear
    dsimp only
  have h2 : ∀ i, i < 15 → (AIRCOPY_clear s).crc.getD i 0 = 0 := by
    intro i hi
    rw [he, h.2 i, if_pos hi]
  refine ⟨by rw [he]; exact h.1, h2, ?_⟩
  intro b hb
  unfold get_bit
  rw [h2 (b / 8) (by omega)]
  simp

/-- C25 (accesses to the error bitmap stay inside it).  Every bit index that a call of
`UI_DisplayAircopy` writes with `set_bit` or reads with `get_bit` is smaller than the
`total_blocks` of the active map, hence smaller than 120, and its byte index is below 15;
the index written is `doneBlocks - 1` with `doneBlocks ≥ 1`.  `AIRCOPY_clear` zeroes the bytes
0..14 of `crc`, that is the bits 0..119. -/
theorem C25_bitmap_accesses_in_range (nb : Nat) (s : State) :
    (∀ i, i ∈ (UI_DisplayAircopy_bitAccesses nb s).1 ∨
          i ∈ (UI_DisplayAircopy_bitAccesses nb s).2 →
      i < (AIRCOPY_GetCurrentMap nb s).1.total_blocks ∧ i < 120 ∧ i / 8 < 15) ∧
    (AIRCOPY_GetCurrentMap nb s).1.total_blocks ≤ 68 ∧
    (∀ i, i < 15 → (AIRCOPY_clear s).crc.getD i 0 = 0) ∧
    (∀ b, b < 120 → get_bit (AIRCOPY_clear s).crc b = 0) ∧
    (AIRCOPY_clear s).crc.length = s.crc.length := by
  have hT := catalog_map_facts nb _ (GetCurrentMap_mem nb s)
  obtain ⟨c1, c2, c3⟩ := clear_crc s
  refine ⟨?_, hT.2.2, c2, c3, c1⟩
  have key : ∀ i, i ∈ (UI_DisplayAircopy_bitAccesses nb s).1 ∨
      i ∈ (UI_DisplayAircopy_bitAccesses nb s).2 →
      i < (AIRCOPY_GetCurrentMap nb s).1.total_blocks := by
    intro i hi
    have hD : (if (s.gAirCopyBlockNumber + s.gErrorsDuringAirCopy) % 65536
          > (AIRCOPY_GetCurrentMap nb s).1.total_blocks
        then (AIRCOPY_GetCurrentMap nb s).1.total_blocks
        else (s.gAirCopyBlockNumber + s.gErrorsDuringAirCopy) % 65536)
        ≤ (AIRCOPY_GetCurrentMap nb s).1.total_blocks := by
      split_ifs <;> omega
    rw [bitAccesses_eq] at hi
    obtain ⟨D, hDdef⟩ : ∃ D, D = (if (s.gAirCopyBlockNumber + s.gErrorsDuringAirCopy) % 65536
          > (AIRCOPY_GetCurrentMap nb s).1.total_blocks
        then (AIRCOPY_GetCurrentMap nb s).1.total_blocks
        else (s.gAirCopyBlockNumber + s.gErrorsDuringAirCopy) % 65536) := ⟨_, rfl⟩
    rw [← hDdef] at hi hD
    by_cases hcond : s.gAircopyState = AIRCOPY_TRANSFER ∧ 0 < D
    · rw [if_pos hcond] at hi
      rcases hi with h | h
      · by_cases he : s.gErrorsDuringAirCopy ≠ s.lErrorsDuringAirCopy
        · rw [if_pos he, List.mem_singleton] at h
          omega
        · rw [if_neg he] at h
          cases h
      · rw [List.mem_filterMap] at h
        obtain ⟨col, _, hc⟩ := h
        by_cases hb : ((col * (AIRCOPY_GetCurrentMap nb s).1.total_blocks) % 4294967296
            / AIRCOPY_BAR_WIDTH) % 65536 < D
        · rw [if_pos hb] at hc
          cases hc
          omega
        · rw [if_neg hb] at hc
          cases hc
    · rw [if_neg hcond] at hi
      rcases hi with h | h <;> cases h
  intro i hi
  have := key i hi
  omega
/-- The number of bytes of the progress text, in terms of the state the renderer is called
in. -/
theorem sprintf_eq (nb : Nat) (s : State) :
    UI_DisplayAircopy_sprintf nb s =
      (if s.gAirCopyIsSendMode = 0 then
        4 + max 2 (decimalWidth
            (((if (s.gAirCopyBlockNumber + s.gErrorsDuringAirCopy) % 65536
                  > (AIRCOPY_GetCurrentMap nb s).1.total_blocks
                then (AIRCOPY_GetCurrentMap nb s).1.total_blocks
                else (s.gAirCopyBlockNumber + s.gErrorsDuringAirCopy) % 65536) * 10000
              / (AIRCOPY_GetCurrentMap nb s).1.total_blocks) % 65536 / 100)) + 1
          + max 2 (decimalWidth
            (((if (s.gAirCopyBlockNumber + s.gErrorsDuringAirCopy) % 65536
                  > (AIRCOPY_GetCurrentMap nb s).1.total_blocks
                then (AIRCOPY_GetCurrentMap nb s).1.total_blocks
                else (s.gAirCopyBlockNumber + s.gErrorsDuringAirCopy) % 65536) * 10000
              / (AIRCOPY_GetCurrentMap nb s).1.total_blocks) % 65536 % 100)) + 1
          + 3 + decimalWidth s.gErrorsDuringAirCopy + 1
      else if s.gAirCopyIsSendMode = 1 then
        4 + max 2 (decimalWidth
            (((if (s.gAirCopyBlockNumber + s.gErrorsDuringAirCopy) % 65536
                  > (AIRCOPY_GetCurrentMap nb s).1.total_blocks
                then (AIRCOPY_GetCurrentMap nb s).1.total_blocks
                else (s.gAirCopyBlockNumber + s.gErrorsDuringAirCopy) % 65536) * 10000
              / (AIRCOPY_GetCurrentMap nb s).1.total_blocks) % 65536 / 100)) + 1
          + max 2 (decimalWidth
            (((if (s.gAirCopyBlockNumber + s.gErrorsDuringAirCopy) % 65536
                  > (AIRCOPY_GetCurrentMap nb s).1.total_blocks
                then (AIRCOPY_GetCurrentMap nb s).1.total_blocks
                else (s.gAirCopyBlockNumber + s.gErrorsDuringAirCopy) % 65536) * 10000
              / (AIRCOPY_GetCurrentMap nb s).1.total_blocks) % 65536 % 100)) + 1 + 1
      else 0) := by
  have hmap : ∀ t : State, t.gAircopyCurrentMapIndex = s.gAircopyCurrentMapIndex →
      (AIRCOPY_GetCurrentMap nb t).1 = (AIRCOPY_GetCurrentMap nb s).1 :=
    fun t ht => GetCurrentMap_congr nb t s ht
  unfold UI_DisplayAircopy_sprintf
  dsimp only
  by_cases hr : s.gAircopyState = AIRCOPY_READY
  · simp only [hr, if_true, GetCurrentMap_gAirCopyBlockNumber,
      GetCurrentMap_gErrorsDuringAirCopy, GetCurrentMap_gAirCopyIsSendMode, gt_iff_lt]
  · by_cases ht : s.gAircopyState = AIRCOPY_TRANSFER
    · rw [if_neg hr, if_pos ht]
      simp only [GetCurrentMap_gAirCopyBlockNumber,
        GetCurrentMap_gErrorsDuringAirCopy, GetCurrentMap_gAirCopyIsSendMode, gt_iff_lt]
    · rw [if_neg hr, if_neg ht]
      simp only [GetCurrentMap_gAirCopyBlockNumber,
        GetCurrentMap_gErrorsDuringAirCopy, GetCurrentMap_gAirCopyIsSendMode, gt_iff_lt, hmap]

theorem decimalWidth_bounds (n : Nat) :
    1 ≤ decimalWidth n ∧ decimalWidth n ≤ 5 ∧
    (n < 10 → decimalWidth n = 1) ∧ (n < 100 → decimalWidth n ≤ 2) ∧
    (n < 1000 → decimalWidth n ≤ 3) ∧ (10 ≤ n → 2 ≤ decimalWidth n) ∧
    (100 ≤ n → 3 ≤ decimalWidth n) := by
  unfold decimalWidth
  split_ifs <;> omega

/-- In send mode, and when no text is written, the call of `UI_DisplayAircopy` is defined. -/
theorem UI_DisplayAircopy_send_mode (nb : Nat) (s : State) (h : s.gAirCopyIsSendMode ≠ 0) :
    UI_DisplayAircopy nb s = some (UI_DisplayAircopy_effect nb s) := by
  unfold UI_DisplayAircopy
  rw [sprintf_eq, if_neg h]
  obtain ⟨P, hP⟩ : ∃ P, P = ((if (s.gAirCopyBlockNumber + s.gErrorsDuringAirCopy) % 65536
        > (AIRCOPY_GetCurrentMap nb s).1.total_blocks
      then (AIRCOPY_GetCurrentMap nb s).1.total_blocks
      else (s.gAirCopyBlockNumber + s.gErrorsDuringAirCopy) % 65536) * 10000
      / (AIRCOPY_GetCurrentMap nb s).1.total_blocks) % 65536 := ⟨_, rfl⟩
  rw [← hP]
  have hlt : P < 65536 := by rw [hP]; exact Nat.mod_lt _ (by omega)
  have w1 := (decimalWidth_bounds (P / 100)).2.2.2.2.1 (by omega)
  have w2 := (decimalWidth_bounds (P % 100)).2.2.2.1 (by omega)
  rw [if_neg]
  split_ifs <;> omega

/-- The call of `UI_DisplayAircopy` is undefined in receive mode at full progress with 10 or
more errors, and with 100 or more errors. -/
theorem UI_DisplayAircopy_overflows (nb : Nat) (s : State) (hm : s.gAirCopyIsSendMode = 0)
    (h : (10 ≤ s.gErrorsDuringAirCopy ∧
        (AIRCOPY_GetCurrentMap nb s).1.total_blocks
          ≤ (s.gAirCopyBlockNumber + s.gErrorsDuringAirCopy) % 65536) ∨
      100 ≤ s.gErrorsDuringAirCopy) :
    UI_DisplayAircopy nb s = none := by
  unfold UI_DisplayAircopy
  rw [sprintf_eq, if_pos hm]
  have hT := (catalog_map_facts nb _ (GetCurrentMap_mem nb s)).2
  obtain ⟨P, hP⟩ : ∃ P, P = ((if (s.gAirCopyBlockNumber + s.gErrorsDuringAirCopy) % 65536
        > (AIRCOPY_GetCurrentMap nb s).1.total_blocks
      then (AIRCOPY_GetCurrentMap nb s).1.total_blocks
      else (s.gAirCopyBlockNumber + s.gErrorsDuringAirCopy) % 65536) * 10000
      / (AIRCOPY_GetCurrentMap nb s).1.total_blocks) % 65536 := ⟨_, rfl⟩
  rw [← hP]
  have w1 := (decimalWidth_bounds (P / 100)).1
  have w2 := (decimalWidth_bounds (P % 100)).1
  rw [if_pos]
  rcases h with ⟨h1, h2⟩ | h
  · have w3 := (decimalWidth_bounds s.gErrorsDuringAirCopy).2.2.2.2.2.1 h1
    have hP2 : P = 10000 := by
      have hD : (if (s.gAirCopyBlockNumber + s.gErrorsDuringAirCopy) % 65536
            > (AIRCOPY_GetCurrentMap nb s).1.total_blocks
          then (AIRCOPY_GetCurrentMap nb s).1.total_blocks
          else (s.gAirCopyBlockNumber + s.gErrorsDuringAirCopy) % 65536)
          = (AIRCOPY_GetCurrentMap nb s).1.total_blocks := by
        split_ifs <;> omega
      rw [hP, hD, Nat.mul_div_cancel_left _ hT.1]
    have w4 := (decimalWidth_bounds (P / 100)).2.2.2.2.2.2 (by omega)
    omega
  · have w3 := (decimalWidth_bounds s.gErrorsDuringAirCopy).2.2.2.2.2.2 h
    omega

/-- What a call of `AIRCOPY_StorePacket` does to the two counters. -/
theorem StorePacket_counters (nb : Nat) (crc : List Nat → Nat) (Status : Nat) (s : State) :
    ((AIRCOPY_StorePacket nb crc Status s).1.gAirCopyBlockNumber = s.gAirCopyBlockNumber ∧
      (AIRCOPY_StorePacket nb crc Status s).1.gErrorsDuringAirCopy = s.gErrorsDuringAirCopy) ∨
    ((AIRCOPY_StorePacket nb crc Status s).1.gAirCopyBlockNumber
        = (s.gAirCopyBlockNumber + 1) % 65536 ∧
      (AIRCOPY_StorePacket nb crc Status s).1.gErrorsDuringAirCopy = s.gErrorsDuringAirCopy) ∨
    ((AIRCOPY_StorePacket nb crc Status s).1.gAirCopyBlockNumber = s.gAirCopyBlockNumber ∧
      (AIRCOPY_StorePacket nb crc Status s).1.gErrorsDuringAirCopy
        = (s.gErrorsDuringAirCopy + 1) % 65536) := by
  by_cases hfull : s.gFSKWriteIndex < 36
  · rw [StorePacket_not_full nb crc Status s hfull]
    exact Or.inl ⟨rfl, rfl⟩
  · cases hacc : packetAccepted nb crc Status s with
    | true =>
      obtain ⟨⟨a1, a2, _, _⟩, _⟩ := StorePacket_accepted nb crc Status s (by omega) hacc
      exact Or.inr (Or.inl ⟨a2, a1⟩)
    | false =>
      obtain ⟨⟨a1, a2, _, _⟩, _⟩ := StorePacket_rejected nb crc Status s (by omega) hacc
      exact Or.inr (Or.inr ⟨a2, a1⟩)

/-- What a call of `AIRCOPY_SendMessage` does to the two counters. -/
theorem SendMessage_counters (nb : Nat) (crc : List Nat → Nat) (flash : Nat → Nat)
    (s : State) (hlen : s.g_FSK_Buffer.length = 36) :
    ∃ ret s1 evs, AIRCOPY_SendMessage nb crc flash s = some (ret, s1, evs) ∧
      s1.gErrorsDuringAirCopy = s.gErrorsDuringAirCopy ∧
      (s1.gAirCopyBlockNumber = s.gAirCopyBlockNumber ∨
        s1.gAirCopyBlockNumber = (s.gAirCopyBlockNumber + 1) % 65536) := by
  by_cases ht : s.gAircopyState = AIRCOPY_TRANSFER
  · by_cases hcd : (s.gAircopySendCountdown + 255) % 256 = 0
    · have hn := (catalog_num_segments nb _ (GetCurrentMap_mem nb s)).2
      obtain ⟨s4, hadv⟩ := advance_total (AIRCOPY_GetCurrentMap nb s).1 (by omega)
        (AIRCOPY_GetCurrentMap nb s).1.num_segments (SendMessage_prepared nb s) (by omega)
      have h4 : s4.gAirCopyBlockNumber = s.gAirCopyBlockNumber := by
        rw [advance_frame _ _ _ _ hadv]
        dsimp only
        rw [(prepared_fields nb s).2.1]
      have h5 : s4.gErrorsDuringAirCopy = s.gErrorsDuringAirCopy := by
        rw [advance_frame _ _ _ _ hadv]
        dsimp only
        rw [(prepared_fields nb s).2.2.1]
      rw [SendMessage_due nb crc flash s s4 ht hcd hlen hadv]
      by_cases hcur : s4.CurrentSegmentIndex ≥ (AIRCOPY_GetCurrentMap nb s).1.num_segments
      · rw [if_pos hcur]
        refine ⟨_, _, _, rfl, ?_, ?_⟩
        · dsimp only
          exact h5
        · left
          dsimp only
          exact h4
      · rw [if_neg hcur]
        refine ⟨_, _, _, rfl, ?_, ?_⟩
        · dsimp only
          exact h5
        · right
          dsimp only
          rw [h4]
    · rw [SendMessage_throttled nb crc flash s ht hcd]
      refine ⟨_, _, _, rfl, ?_, ?_⟩
      · dsimp only
      · left
        dsimp only
  · rw [SendMessage_not_transfer nb crc flash s ht]
    exact ⟨_, _, _, rfl, rfl, Or.inl rfl⟩

theorem dueTicks_mono (c T n : Nat) : dueTicks c T n ≤ dueTicks c T (n + 1) := by
  unfold dueTicks
  split_ifs <;> omega

/-- C12 (counter monotonicity).  In a receive session (start-receive, then fewer packets
than the map has blocks, which are the states of the session that are still transferring)
the counters add up to the number of packets processed, so both are far below 65535, and
the next call of `AIRCOPY_StorePacket`, whatever the status word, the buffer and the write
index, lowers neither counter.  In a send session (start-send, then any number of ticks)
every run returns, the next call of `AIRCOPY_SendMessage` returns and lowers neither
counter, and leaves the error count as it is.  In any state at all whose counters are below
65535, a call of either function lowers neither counter. -/
theorem C12_counters_monotone (nb : Nat) (crc : List Nat → Nat) (flash : Nat → Nat)
    (s0 : State) (pkts : List (Nat × List Nat)) (Status : Nat) (buf : List Nat) (w n : Nat)
    (hbox : s0.gInputBoxIndex = 0)
    (hidx : s0.gAircopyCurrentMapIndex < AIRCOPY_NUM_MAPS nb)
    (hlen : s0.g_FSK_Buffer.length = 36)
    (hp : pkts.length
      < (AIRCOPY_GetCurrentMap nb (AIRCOPY_Key_EXIT true false s0).1).1.total_blocks) :
    ((receivePackets nb crc (AIRCOPY_Key_EXIT true false s0).1 pkts).gAircopyState
        = AIRCOPY_TRANSFER ∧
      (receivePackets nb crc (AIRCOPY_Key_EXIT true false s0).1 pkts).gAirCopyBlockNumber +
        (receivePackets nb crc (AIRCOPY_Key_EXIT true false s0).1 pkts).gErrorsDuringAirCopy
          = pkts.length ∧
      (receivePackets nb crc (AIRCOPY_Key_EXIT true false s0).1 pkts).gAirCopyBlockNumber ≤
        (AIRCOPY_StorePacket nb crc Status
          { receivePackets nb crc (AIRCOPY_Key_EXIT true false s0).1 pkts with
            g_FSK_Buffer := buf, gFSKWriteIndex := w }).1.gAirCopyBlockNumber ∧
      (receivePackets nb crc (AIRCOPY_Key_EXIT true false s0).1 pkts).gErrorsDuringAirCopy ≤
        (AIRCOPY_StorePacket nb crc Status
          { receivePackets nb crc (AIRCOPY_Key_EXIT true false s0).1 pkts with
            g_FSK_Buffer := buf, gFSKWriteIndex := w }).1.gErrorsDuringAirCopy) ∧
    (∃ sn evs ret s1 e,
      sendRun nb crc flash n (AIRCOPY_Key_MENU nb true false s0) = some (sn, evs) ∧
      AIRCOPY_SendMessage nb crc flash sn = some (ret, s1, e) ∧
      sn.gAirCopyBlockNumber ≤ s1.gAirCopyBlockNumber ∧
      s1.gErrorsDuringAirCopy = sn.gErrorsDuringAirCopy) ∧
    ∀ s : State, s.gAirCopyBlockNumber < 65535 → s.gErrorsDuringAirCopy < 65535 →
      (∀ St : Nat,
        s.gAirCopyBlockNumber ≤ (AIRCOPY_StorePacket nb crc St s).1.gAirCopyBlockNumber ∧
        s.gErrorsDuringAirCopy ≤ (AIRCOPY_StorePacket nb crc St s).1.gErrorsDuringAirCopy) ∧
      (s.g_FSK_Buffer.length = 36 →
        ∃ ret s1 e, AIRCOPY_SendMessage nb crc flash s = some (ret, s1, e) ∧
          s.gAirCopyBlockNumber ≤ s1.gAirCopyBlockNumber ∧
          s.gErrorsDuringAirCopy ≤ s1.gErrorsDuringAirCopy) := by
  refine ⟨?_, ?_, ?_⟩
  · obtain ⟨e1, e2, e3, _, _, e6⟩ := Key_EXIT_start s0 hbox
    have hT := catalog_map_facts nb _
      (GetCurrentMap_mem nb (AIRCOPY_Key_EXIT true false s0).1)
    obtain ⟨_, r2, r3, r4⟩ := receivePackets_run nb crc (AIRCOPY_Key_EXIT true false s0).1 _
      hT.2.2 pkts (AIRCOPY_Key_EXIT true false s0).1 0 rfl (by rw [e6]; exact hidx) rfl
      (by rw [e2, e3]) (by rw [e1, if_neg (by omega)]) (by omega)
    rw [e2] at r2
    rw [e3] at r3
    have hfl := List.length_filter_le
      (receiveAccepts nb crc (AIRCOPY_Key_EXIT true false s0).1) pkts
    have hsum : (receivePackets nb crc (AIRCOPY_Key_EXIT true false s0).1
          pkts).gAirCopyBlockNumber +
        (receivePackets nb crc (AIRCOPY_Key_EXIT true false s0).1
          pkts).gErrorsDuringAirCopy = pkts.length := by
      rw [r2, r3]
      omega
    refine ⟨by rw [r4, if_neg (by omega)], hsum, ?_⟩
    have hc := StorePacket_counters nb crc Status
      { receivePackets nb crc (AIRCOPY_Key_EXIT true false s0).1 pkts with
        g_FSK_Buffer := buf, gFSKWriteIndex := w }
    dsimp only at hc
    rcases hc with ⟨h1, h2⟩ | ⟨h1, h2⟩ | ⟨h1, h2⟩ <;> rw [h1, h2] <;> constructor <;> omega
  · obtain ⟨sn, evs, hrun, _, i2, i3, _⟩ := send_session_start nb crc flash s0 hlen n
    obtain ⟨s1, evs1, hrun1, _, k2, k3, _⟩ := send_session_start nb crc flash s0 hlen (n + 1)
    have hmono := dueTicks_mono s0.gAircopySendCountdown
      (AIRCOPY_GetCurrentMap nb s0).1.total_blocks n
    rw [sendRun_succ, hrun] at hrun1
    dsimp only at hrun1
    cases hS : AIRCOPY_SendMessage nb crc flash sn with
    | none =>
      rw [hS] at hrun1
      cases hrun1
    | some r =>
      obtain ⟨ret, s1x, e⟩ := r
      rw [hS] at hrun1
      dsimp only at hrun1
      have hs1 : s1x = s1 := by
        injection hrun1 with h
        exact (Prod.mk.inj h).1
      refine ⟨sn, evs, ret, s1x, e, hrun, hS, ?_, ?_⟩
      · rw [hs1, i2, k2]
        split_ifs <;> omega
      · rw [hs1, i3, k3]
  · intro s hb he
    constructor
    · intro St
      rcases StorePacket_counters nb crc St s with ⟨h1, h2⟩ | ⟨h1, h2⟩ | ⟨h1, h2⟩ <;>
        rw [h1, h2] <;> constructor <;> omega
    · intro hl
      obtain ⟨ret, s1, e, hS, h1, h2⟩ := SendMessage_counters nb crc flash s hl
      refine ⟨ret, s1, e, hS, ?_, by rw [h1]⟩
      rcases h2 with h | h
      · rw [h]
      · rw [h]
        omega

/-- The rendering inside `AIRCOPY_Key_MENU` is a defined call of `UI_DisplayAircopy`: the
handler has set the send mode before it. -/
theorem Key_MENU_refresh_defined (nb : Nat) (s : State) :
    UI_DisplayAircopy nb
      (AIRCOPY_clear
        { s with gAircopyStep := 1, gFSKWriteIndex := 0, gAirCopyBlockNumber := 0,
                 gInputBoxIndex := 0, gAirCopyIsSendMode := 1,
                 g_FSK_Buffer := ((s.g_FSK_Buffer.set 0 0xABCD).set 1 0).set 35 0xDCBA }) =
      some (GUI_DisplayScreen nb
        (AIRCOPY_clear
          { s with gAircopyStep := 1, gFSKWriteIndex := 0, gAirCopyBlockNumber := 0,
                   gInputBoxIndex := 0, gAirCopyIsSendMode := 1,
                   g_FSK_Buffer := ((s.g_FSK_Buffer.set 0 0xABCD).set 1 0).set 35 0xDCBA })) := by
  unfold GUI_DisplayScreen
  apply UI_DisplayAircopy_send_mode
  unfold AIRCOPY_clear
  dsimp only
  decide
end Sealed

/-! ## Worked examples -/

set_option maxRecDepth 100000 in
/-- C2 at the clean block of the spec: offset 0 and 64 zero bytes, framed in the buffer that
start-send leaves, are recovered by the receive path with no framing or checksum error. -/
theorem C2_packet_round_trip_witness :
    (sample_sendBuffer.length = 36 ∧ sample_sendBuffer.getD 0 0 = 0xABCD ∧
      sample_sendBuffer.getD 35 0 = 0xDCBA ∧ (List.replicate 64 0).length = 64 ∧
      (∀ b ∈ List.replicate 64 0, b < 256) ∧ 0 &&& 0x0010 = 0 ∧
      36 ≤ ({ State_boot with gFSKWriteIndex := 36 } : State).gFSKWriteIndex) ∧
    AIRCOPY_StorePacket_frameError 0 (sample_packet 0) = false ∧
    AIRCOPY_StorePacket_crcError sample_CRC (obfuscationLoop (sample_packet 0)) = false ∧
    (AIRCOPY_StorePacket 8 sample_CRC 0
      { ({ State_boot with gFSKWriteIndex := 36 } : State) with
        g_FSK_Buffer := sample_packet 0 }).1.g_FSK_Buffer.getD 1 0 = 0 ∧
    payloadBytes (AIRCOPY_StorePacket 8 sample_CRC 0
      { ({ State_boot with gFSKWriteIndex := 36 } : State) with
        g_FSK_Buffer := sample_packet 0 }).1.g_FSK_Buffer = List.replicate 64 0 :=
  have h := C2_packet_round_trip 8 sample_CRC sample_sendBuffer 0 (List.replicate 64 0) 0
    { State_boot with gFSKWriteIndex := 36 }
    (by decide) (by decide) (by decide) (by decide) (by decide) (by decide) (by decide)
  ⟨⟨by decide, by decide, by decide, by decide, by decide, by decide, by decide⟩,
    h.1, h.2.1, h.2.2.1, h.2.2.2.1⟩


set_option maxRecDepth 100000 in
/-- C3 at the first tick after start-send from the boot state: the call returns and what it
transmits has the wire layout. -/
theorem C3_wire_layout_witness :
    State_boot.g_FSK_Buffer.length = 36 ∧
    ∃ sn ret s1 evs,
      sendTicks 8 sample_CRC sample_flash 0 (AIRCOPY_Key_MENU 8 true false State_boot)
        = some sn ∧
      AIRCOPY_SendMessage 8 sample_CRC sample_flash sn = some (ret, s1, evs) ∧
      ∀ pkt, Event.BK4819_SendFSKData pkt ∈ evs →
        ∃ off,
          evs = [Event.EEPROM_ReadBuffer off 64, Event.RADIO_SetTxParameters,
                 Event.BK4819_SendFSKData pkt, Event.BK4819_SetupPowerAmplifier 0 0,
                 Event.BK4819_ToggleGpioOut_PA_ENABLE false] ∧
          (∀ region : List Nat, region.length = 64 →
            ∃ cs, EEPROM_ReadBuffer sample_flash off region 64
              = some (readBlock sample_flash off, cs)) ∧
          pkt.length = 36 ∧ pkt.getD 0 0 = 0xABCD ∧ pkt.getD 35 0 = 0xDCBA ∧
          ∀ i, i < 34 → pkt.getD (i + 1) 0 =
            plainWord sample_CRC off (readBlock sample_flash off) (i + 1)
              ^^^ Obfuscation.getD (i % 8) 0 :=
  ⟨by decide, C3_wire_layout 8 sample_CRC sample_flash State_boot 0 (by decide)⟩

set_option maxRecDepth 100000 in
/-- C4 at the last 14 bytes of the attribute mapping (entry 8) and at the hole behind it. -/
theorem C4_AddrTranslate_contract_witness :
    AddrTranslate 0x8800 64 true =
      { PY25Q16_Addr_out := 0x8800, Size_out := 14, End_out := some true } ∧
    AddrTranslate 0x880E 64 true =
      { PY25Q16_Addr_out := HOLE_ADDR, Size_out := 64, End_out := none } :=
  ⟨((C4_AddrTranslate_contract 0x8800 64 true).2 ⟨8, by decide⟩ (by decide) (by decide)).trans
      (by decide),
    (C4_AddrTranslate_contract 0x880E 64 true).1 (by decide)⟩

set_option maxRecDepth 100000 in
/-- C5 at a read of 8 bytes that starts 6 bytes before the end of the attribute mapping. -/
theorem C5_read_tiling_witness :
    (0x8808 < 65536 ∧ 8 ≤ 255) ∧
    (∃ mem1 cs, EEPROM_ReadBuffer sample_flash 0x8808 (List.replicate 10 7) 8 = some (mem1, cs) ∧
      Tiles 0x8808 0 8 cs ∧ (∀ i, i < 8 → coverCount cs i = 1)) ∧
    EEPROM_ReadBuffer sample_flash 0x8808 (List.replicate 10 7) 8 =
      some ([8, 9, 10, 11, 12, 13, 255, 255, 7, 7],
        [{ Address := 0x8808, pBuffer := 0, PY_Addr := 0x8808, PY_Size := 6, AppendFlag := none },
         { Address := 0x880E, pBuffer := 6, PY_Addr := HOLE_ADDR, PY_Size := 2,
           AppendFlag := none }]) :=
  ⟨⟨by decide, by decide⟩,
    (C5_read_tiling sample_flash 0x8808 8 (List.replicate 10 7) (by decide) (by decide)).2.elim
      (fun mem1 h => h.elim (fun cs hc => ⟨mem1, cs, hc.1, hc.2.1, hc.2.2.1⟩)),
    by decide⟩

set_option maxRecDepth 100000 in
/-- C6 at byte 6 of the same read, whose address 0x880E is in no mapping. -/
theorem C6_holes_read_fill_witness :
    (0x8808 < 65536 ∧ 8 ≤ 255 ∧ 6 < 8 ∧ 8 ≤ (List.replicate 10 7).length ∧
      ∀ p ∈ ADDR_MAPPINGS, ¬ inEntry p (0x8808 + 6)) ∧
    ∃ mem1 cs, EEPROM_ReadBuffer sample_flash 0x8808 (List.replicate 10 7) 8 = some (mem1, cs) ∧
      mem1.getD 6 0 = 0xFF :=
  ⟨⟨by decide, by decide, by decide, by decide, by decide⟩,
    C6_holes_read_fill sample_flash 0x8808 8 6 (List.replicate 10 7) (by decide) (by decide)
      (by decide) (by decide) (Or.inl (by decide))⟩

set_option maxRecDepth 100000 in
/-- C7 at a write that starts 6 bytes before the end of the attribute mapping: one driver
call for the 6 backed bytes, with the end flag set, and none for the 2 bytes in the hole. -/
theorem C7_write_granule_witness :
    (0x8808 < 65536 ∧ [1, 2, 3, 4, 5, 6, 7, 8].length = 8) ∧
    (∃ calls cs, EEPROM_WriteBuffer 0x8808 [1, 2, 3, 4, 5, 6, 7, 8] = some (calls, cs) ∧
      Tiles 0x8808 0 8 cs ∧ calls = cs.filterMap (writeCallOf [1, 2, 3, 4, 5, 6, 7, 8])) ∧
    EEPROM_WriteBuffer 0x8808 [1, 2, 3, 4, 5, 6, 7, 8] =
      some ([{ PY_Addr := 0x8808, data := [1, 2, 3, 4, 5, 6], PY_Size := 6,
               AppendFlag := some true }],
        [{ Address := 0x8808, pBuffer := 0, PY_Addr := 0x8808, PY_Size := 6,
           AppendFlag := some true },
         { Address := 0x880E, pBuffer := 6, PY_Addr := HOLE_ADDR, PY_Size := 2,
           AppendFlag := none }]) :=
  ⟨⟨by decide, by decide⟩,
    (C7_write_granule 0x8808 [1, 2, 3, 4, 5, 6, 7, 8] (by decide) (by decide)).elim
      (fun calls h => h.elim (fun cs hc => ⟨calls, cs, hc.1, hc.2.1, hc.2.2.2.1⟩)),
    by decide⟩

set_option maxRecDepth 100000 in
/-- C8 at the out-of-range offset of the spec: a well-formed packet for offset 0xFFFF,
received on bank 0, is counted as an error and nothing is written. -/
theorem C8_rejected_counted_not_stored_witness :
    (36 ≤ ({ State_boot with g_FSK_Buffer := sample_packet 0xFFFF,
                              gFSKWriteIndex := 36 } : State).gFSKWriteIndex ∧
      AIRCOPY_StorePacket_frameError 0 (sample_packet 0xFFFF) = false ∧
      AIRCOPY_StorePacket_crcError sample_CRC (obfuscationLoop (sample_packet 0xFFFF)) = false ∧
      (obfuscationLoop (sample_packet 0xFFFF)).getD 1 0 = 0xFFFF) ∧
    (AIRCOPY_StorePacket 8 sample_CRC 0
      { State_boot with g_FSK_Buffer := sample_packet 0xFFFF,
                        gFSKWriteIndex := 36 }).1.gErrorsDuringAirCopy = 1 ∧
    (AIRCOPY_StorePacket 8 sample_CRC 0
      { State_boot with g_FSK_Buffer := sample_packet 0xFFFF,
                        gFSKWriteIndex := 36 }).1.gAirCopyBlockNumber = 0 ∧
    ∀ Address data, Event.EEPROM_WriteBuffer Address data ∉
      (AIRCOPY_StorePacket 8 sample_CRC 0
        { State_boot with g_FSK_Buffer := sample_packet 0xFFFF, gFSKWriteIndex := 36 }).2 :=
  have h := C8_rejected_counted_not_stored 8 sample_CRC 0
    { State_boot with g_FSK_Buffer := sample_packet 0xFFFF, gFSKWriteIndex := 36 }
    (by decide) (Or.inr (Or.inr (Or.inr (Or.inr (by decide)))))
  ⟨⟨by decide, by decide, by decide, by decide⟩, h.2.1 (by decide), h.2.2.1, h.2.2.2⟩

set_option maxRecDepth 100000 in
/-- C9 at a well-formed packet for offset 0x0040 received on bank 0. -/
theorem C9_accepted_write_sequence_witness :
    (36 ≤ ({ State_boot with g_FSK_Buffer := sample_packet 0x0040,
                              gFSKWriteIndex := 36 } : State).gFSKWriteIndex ∧
      (sample_packet 0x0040).length = 36 ∧ (∀ w ∈ sample_packet 0x0040, w < 65536) ∧
      packetAccepted 8 sample_CRC 0
        { State_boot with g_FSK_Buffer := sample_packet 0x0040, gFSKWriteIndex := 36 } = true) ∧
    (AIRCOPY_StorePacket 8 sample_CRC 0
      { State_boot with g_FSK_Buffer := sample_packet 0x0040, gFSKWriteIndex := 36 }).2 =
      Event.BK4819_PrepareFSKReceive ::
        (List.range 8).map (fun i =>
          Event.EEPROM_WriteBuffer (0x0040 + 8 * i) (List.replicate 8 0)) ∧
    (AIRCOPY_StorePacket 8 sample_CRC 0
      { State_boot with g_FSK_Buffer := sample_packet 0x0040,
                        gFSKWriteIndex := 36 }).1.gAirCopyBlockNumber = 1 ∧
    (AIRCOPY_StorePacket 8 sample_CRC 0
      { State_boot with g_FSK_Buffer := sample_packet 0x0040,
                        gFSKWriteIndex := 36 }).1.gErrorsDuringAirCopy = 0 :=
  have h := C9_accepted_write_sequence 8 sample_CRC 0
    { State_boot with g_FSK_Buffer := sample_packet 0x0040, gFSKWriteIndex := 36 }
    (by decide) (by decide) (by decide) (by decide)
  ⟨⟨by decide, by decide, by decide, by decide⟩,
    h.2.2.1.trans (by decide), h.2.2.2.2.1 (by decide), h.2.2.2.2.2⟩


set_option maxRecDepth 100000 in
/-- C10 at the scenario of the spec: with two banks the settings map is map 2; four accepted
and two rejected packets end the session with 4 blocks and 2 errors. -/
theorem C10_receive_session_length_witness :
    (({ State_boot with gAircopyCurrentMapIndex := 2 } : State).gInputBoxIndex = 0 ∧
      ({ State_boot with gAircopyCurrentMapIndex := 2 } : State).gAircopyCurrentMapIndex
        < AIRCOPY_NUM_MAPS 2 ∧
      6 ≤ sample_session.length ∧
      ((AIRCOPY_AvailableMaps 2).getD 2 AIRCOPY_Map_Settings).total_blocks = 6) ∧
    (receivePackets 2 sample_CRC
      (AIRCOPY_Key_EXIT true false { State_boot with gAircopyCurrentMapIndex := 2 }).1
      (sample_session.take 6)).gAircopyState = AIRCOPY_COMPLETE ∧
    (receivePackets 2 sample_CRC
      (AIRCOPY_Key_EXIT true false { State_boot with gAircopyCurrentMapIndex := 2 }).1
      (sample_session.take 6)).gAirCopyBlockNumber = 4 ∧
    (receivePackets 2 sample_CRC
      (AIRCOPY_Key_EXIT true false { State_boot with gAircopyCurrentMapIndex := 2 }).1
      (sample_session.take 6)).gErrorsDuringAirCopy = 2 ∧
    (receivePackets 2 sample_CRC
      (AIRCOPY_Key_EXIT true false { State_boot with gAircopyCurrentMapIndex := 2 }).1
      (sample_session.take 5)).gAircopyState = AIRCOPY_TRANSFER :=
  have h := C10_receive_session_length 2 sample_CRC
    { State_boot with gAircopyCurrentMapIndex := 2 } sample_session 6
    (by decide) (by decide) (by decide) (by decide)
  have h5 := C10_receive_session_length 2 sample_CRC
    { State_boot with gAircopyCurrentMapIndex := 2 } sample_session 5
    (by decide) (by decide) (by decide) (by decide)
  ⟨⟨by decide, by decide, by decide, by decide⟩,
    h.1.trans (by decide), h.2.1.trans (by decide), h.2.2.1.trans (by decide),
    h5.1.trans (by decide)⟩

set_option maxRecDepth 100000 in
/-- The settings map is the last of the three maps of a two-bank build: three presses of
the `+1` key lead back to it. -/
theorem C13_catalog_wraparound_witness :
    ((AIRCOPY_Key_UP_DOWN 2 true false 1)^[AIRCOPY_NUM_MAPS 2]
        { State_boot with gAircopyCurrentMapIndex := 2 }).gAircopyCurrentMapIndex = 2 :=
  (C13_catalog_wraparound 2 { State_boot with gAircopyCurrentMapIndex := 2 }
    (by decide)).1

set_option maxRecDepth 100000 in
/-- C14 as stated fails: in a receive session just started (state `AIRCOPY_TRANSFER`) and in
the state `AIRCOPY_COMPLETE`, a press of `KEY_UP` handled by `AIRCOPY_ProcessKeys` moves the
map index from 0 to 1 and leaves the state as it is. -/
theorem C14_navigation_while_transferring :
    (AIRCOPY_Key_EXIT true false State_boot).1.gAircopyState = AIRCOPY_TRANSFER ∧
    (AIRCOPY_Key_EXIT true false State_boot).1.gAircopyCurrentMapIndex = 0 ∧
    (AIRCOPY_ProcessKeys 2 sample_KeyEnv KEY_UP true false
      (AIRCOPY_Key_EXIT true false State_boot).1).1.gAircopyCurrentMapIndex = 1 ∧
    (AIRCOPY_ProcessKeys 2 sample_KeyEnv KEY_UP true false
      (AIRCOPY_Key_EXIT true false State_boot).1).1.gAircopyState = AIRCOPY_TRANSFER ∧
    (AIRCOPY_ProcessKeys 2 sample_KeyEnv KEY_UP true false
      { State_boot with gAircopyState := AIRCOPY_COMPLETE }).1.gAircopyCurrentMapIndex = 1 ∧
    (AIRCOPY_ProcessKeys 2 sample_KeyEnv KEY_UP true false
      { State_boot with gAircopyState := AIRCOPY_COMPLETE }).1.gAircopyState
        = AIRCOPY_COMPLETE := by
  decide

set_option maxRecDepth 100000 in
/-- C14 at a press of `KEY_DOWN` during a receive session of a two-bank build: the index goes
from 0 to 2, the settings map. -/
theorem C14_navigation_in_every_state_witness :
    (AIRCOPY_Key_EXIT true false State_boot).1.gAircopyCurrentMapIndex < AIRCOPY_NUM_MAPS 2 ∧
    (AIRCOPY_Key_EXIT true false State_boot).1.gAircopyState = AIRCOPY_TRANSFER ∧
    (AIRCOPY_ProcessKeys 2 sample_KeyEnv KEY_DOWN true false
      (AIRCOPY_Key_EXIT true false State_boot).1).1.gAircopyCurrentMapIndex = 2 :=
  ⟨by decide, by decide,
    (C14_navigation_in_every_state 2 sample_KeyEnv KEY_DOWN true false
      (AIRCOPY_Key_EXIT true false State_boot).1 (by decide)).1.trans (by decide)⟩

set_option maxRecDepth 100000 in
/-- C15 at the state left by a receive session with two errors: start-receive resets the
error count, start-send sets the state, the block count, the write index and the mode but
leaves the error count at 2. -/
theorem C15_start_send_keeps_error_count :
    State_afterErrors.gAircopyState = AIRCOPY_READY ∧
    State_afterErrors.gErrorsDuringAirCopy = 2 ∧
    State_afterErrors.gInputBoxIndex = 0 ∧
    (AIRCOPY_Key_EXIT true false State_afterErrors).1.gAircopyState = AIRCOPY_TRANSFER ∧
    (AIRCOPY_Key_EXIT true false State_afterErrors).1.gAirCopyBlockNumber = 0 ∧
    (AIRCOPY_Key_EXIT true false State_afterErrors).1.gErrorsDuringAirCopy = 0 ∧
    (AIRCOPY_Key_EXIT true false State_afterErrors).1.gFSKWriteIndex = 0 ∧
    (AIRCOPY_Key_EXIT true false State_afterErrors).1.gAirCopyIsSendMode = 0 ∧
    (AIRCOPY_Key_MENU 2 true false State_afterErrors).gAircopyState = AIRCOPY_TRANSFER ∧
    (AIRCOPY_Key_MENU 2 true false State_afterErrors).gAirCopyBlockNumber = 0 ∧
    (AIRCOPY_Key_MENU 2 true false State_afterErrors).gFSKWriteIndex = 0 ∧
    (AIRCOPY_Key_MENU 2 true false State_afterErrors).gAirCopyIsSendMode = 1 ∧
    (AIRCOPY_Key_MENU 2 true false State_afterErrors).gErrorsDuringAirCopy = 2 := by
  decide

/-- C11 as stated fails in a send session: after start-send from the boot state on the
settings map of a two-bank build (6 blocks), the sixth block goes out at tick 151; after
that tick the block count is 6, so the sum of the counters has reached `total_blocks`, and
the state is still `AIRCOPY_TRANSFER`. -/
theorem C11_transferring_at_total :
    ∃ sn evs,
      sendRun 2 sample_CRC sample_flash 151
        (AIRCOPY_Key_MENU 2 true false { State_boot with gAircopyCurrentMapIndex := 2 })
        = some (sn, evs) ∧
      sn.gAircopyState = AIRCOPY_TRANSFER ∧
      (AIRCOPY_GetCurrentMap 2 sn).1.total_blocks = 6 ∧
      sn.gAirCopyBlockNumber = 6 ∧
      sn.gAirCopyBlockNumber + sn.gErrorsDuringAirCopy
        ≥ (AIRCOPY_GetCurrentMap 2 sn).1.total_blocks := by
  obtain ⟨sn, evs, hrun, i1, i2, _, i5, _⟩ := send_session_start 2 sample_CRC sample_flash
    { State_boot with gAircopyCurrentMapIndex := 2 } (by decide) 151
  have hT : (AIRCOPY_GetCurrentMap 2
      ({ State_boot with gAircopyCurrentMapIndex := 2 } : State)).1.total_blocks = 6 := by
    decide
  have hd : dueTicks
      ({ State_boot with gAircopyCurrentMapIndex := 2 } : State).gAircopySendCountdown 6 151
      = 6 := by decide
  rw [hT, hd, if_pos (Nat.le_refl 6)] at i1 i2
  have i6 : (AIRCOPY_GetCurrentMap 2 sn).1.total_blocks = 6 := by rw [i5, hT]
  exact ⟨sn, evs, hrun, i1, i6, i2, by rw [i6, i2]; omega⟩

set_option maxRecDepth 100000 in
/-- C11 at the scenario of the spec (six packets, two of them rejected, on the settings map)
and at tick 151 of a send session on the same map. -/
theorem C11_completion_witness :
    (({ State_boot with gAircopyCurrentMapIndex := 2 } : State).gInputBoxIndex = 0 ∧
      ({ State_boot with gAircopyCurrentMapIndex := 2 } : State).gAircopyCurrentMapIndex
        < AIRCOPY_NUM_MAPS 2 ∧
      sample_session.length ≤ 65535 ∧ State_boot.g_FSK_Buffer.length = 36) ∧
    ((receivePackets 2 sample_CRC
        (AIRCOPY_Key_EXIT true false { State_boot with gAircopyCurrentMapIndex := 2 }).1
        sample_session).gAircopyState = AIRCOPY_COMPLETE ↔
      (receivePackets 2 sample_CRC
        (AIRCOPY_Key_EXIT true false { State_boot with gAircopyCurrentMapIndex := 2 }).1
        sample_session).gAirCopyBlockNumber +
      (receivePackets 2 sample_CRC
        (AIRCOPY_Key_EXIT true false { State_boot with gAircopyCurrentMapIndex := 2 }).1
        sample_session).gErrorsDuringAirCopy
      ≥ (AIRCOPY_GetCurrentMap 2 (receivePackets 2 sample_CRC
        (AIRCOPY_Key_EXIT true false { State_boot with gAircopyCurrentMapIndex := 2 }).1
        sample_session)).1.total_blocks) :=
  ⟨⟨by decide, by decide, by decide, by decide⟩,
    (C11_completion 2 sample_CRC sample_flash { State_boot with gAircopyCurrentMapIndex := 2 }
      State_boot sample_session 151 (by decide) (by decide) (by decide) (by decide)).1⟩

set_option maxRecDepth 100000 in
/-- C16 at start-send from the boot state of a two-bank build: the runs of all lengths. -/
theorem C16_send_offset_sequence_witness :
    State_boot.g_FSK_Buffer.length = 36 ∧
    (expectedOffsets (AIRCOPY_GetCurrentMap 2 State_boot).1).length
      = (AIRCOPY_GetCurrentMap 2 State_boot).1.total_blocks ∧
    (expectedOffsets (AIRCOPY_GetCurrentMap 2 State_boot).1).head?
      = some (segmentAt (AIRCOPY_GetCurrentMap 2 State_boot).1 0).start_offset ∧
    ∀ n, ∃ sn evs,
      sendRun 2 sample_CRC sample_flash n (AIRCOPY_Key_MENU 2 true false State_boot)
        = some (sn, evs) ∧
      (sentPackets evs).map packetOffset =
        (expectedOffsets (AIRCOPY_GetCurrentMap 2 State_boot).1).take
          (dueTicks State_boot.gAircopySendCountdown
            (AIRCOPY_GetCurrentMap 2 State_boot).1.total_blocks n) ∧
      (sn.gAircopyState = AIRCOPY_COMPLETE ↔
        firstDue State_boot.gAircopySendCountdown
          + 30 * (AIRCOPY_GetCurrentMap 2 State_boot).1.total_blocks ≤ n) ∧
      (firstDue State_boot.gAircopySendCountdown
          + 30 * (AIRCOPY_GetCurrentMap 2 State_boot).1.total_blocks ≤ n + 1 →
        (sentPackets evs).map packetOffset
          = expectedOffsets (AIRCOPY_GetCurrentMap 2 State_boot).1) :=
  have h := C16_send_offset_sequence 2 sample_CRC sample_flash State_boot (by decide)
  ⟨by decide, h.2.2.2.1, h.2.2.2.2.1, h.1⟩

set_option maxRecDepth 100000 in
/-- C17 at start-send from the boot state of a two-bank build, whose active map is bank 0:
68 blocks. -/
theorem C17_declared_block_counts_witness :
    State_boot.g_FSK_Buffer.length = 36 ∧
    (AIRCOPY_GetCurrentMap 2 State_boot).1.total_blocks = 68 ∧
    (AIRCOPY_GetCurrentMap 2 State_boot).1.total_blocks =
      (((AIRCOPY_GetCurrentMap 2 State_boot).1.segments.take
          (AIRCOPY_GetCurrentMap 2 State_boot).1.num_segments).map
        (fun seg => (seg.end_offset - seg.start_offset + 63) / 64)).sum :=
  ⟨by decide, by decide,
    (C17_declared_block_counts 2 sample_CRC sample_flash State_boot (by decide)).1⟩

set_option maxRecDepth 100000 in
/-- C20 at the boot state, which is `AIRCOPY_READY`: the tick changes nothing. -/
theorem C20_send_tick_noop_unless_due_witness :
    State_boot.g_FSK_Buffer.length = 36 ∧ State_boot.gAircopyState ≠ AIRCOPY_TRANSFER ∧
    AIRCOPY_SendMessage 2 sample_CRC sample_flash State_boot = some (true, State_boot, []) :=
  ⟨by decide, by decide,
    (C20_send_tick_noop_unless_due 2 sample_CRC sample_flash State_boot (by decide)).1
      (by decide)⟩

set_option maxRecDepth 100000 in
/-- C18 for a transfer of bank 0 between two radios in the boot state: the send session is
complete after 2041 ticks and has transmitted 68 packets. -/
theorem C18_error_free_transfer_accepted_witness :
    (State_boot.g_FSK_Buffer.length = 36 ∧ State_boot.gInputBoxIndex = 0 ∧
      State_boot.gAircopyCurrentMapIndex < AIRCOPY_NUM_MAPS 2 ∧
      firstDue State_boot.gAircopySendCountdown
        + 30 * (AIRCOPY_GetCurrentMap 2 State_boot).1.total_blocks ≤ 2041) ∧
    ∃ sn evs,
      sendRun 2 sample_CRC sample_flash 2041 (AIRCOPY_Key_MENU 2 true false State_boot)
        = some (sn, evs) ∧
      sn.gAircopyState = AIRCOPY_COMPLETE ∧
      (sentPackets evs).length = (AIRCOPY_GetCurrentMap 2 State_boot).1.total_blocks := by
  refine ⟨⟨by decide, by decide, by decide, by decide⟩, ?_⟩
  obtain ⟨sn, evs, h1, h2, h3, _⟩ := C18_error_free_transfer_accepted 2 sample_CRC sample_flash
    State_boot State_boot 2041 (by decide) (by decide) (by decide) rfl (by decide)
  exact ⟨sn, evs, h1, h2, h3⟩

set_option maxRecDepth 100000 in
/-- C19 for a transfer of bank 0 between two radios in the boot state, the receiver's storage
being all zero before: the send session is complete after 2041 ticks. -/
theorem C19_error_free_transfer_copies_witness :
    (State_boot.g_FSK_Buffer.length = 36 ∧ State_boot.gInputBoxIndex = 0 ∧
      State_boot.gAircopyCurrentMapIndex < AIRCOPY_NUM_MAPS 2 ∧
      firstDue State_boot.gAircopySendCountdown
        + 30 * (AIRCOPY_GetCurrentMap 2 State_boot).1.total_blocks ≤ 2041) ∧
    ∃ sn evs,
      sendRun 2 sample_CRC sample_flash 2041 (AIRCOPY_Key_MENU 2 true false State_boot)
        = some (sn, evs) ∧
      sn.gAircopyState = AIRCOPY_COMPLETE := by
  refine ⟨⟨by decide, by decide, by decide, by decide⟩, ?_⟩
  obtain ⟨sn, evs, h1, h2, _⟩ := C19_error_free_transfer_copies 2 sample_CRC sample_flash
    (fun _ => 0) State_boot State_boot 2041 (by decide) (by decide) (by decide) rfl
    (by decide)
  exact ⟨sn, evs, h1, h2⟩

set_option maxRecDepth 100000 in
/-- C21 at a packet with neither marker in a full buffer: re-arm, reset, re-arm. -/
theorem C21_receiver_rearmed_witness :
    36 ≤ ({ State_boot with gFSKWriteIndex := 36 } : State).gFSKWriteIndex ∧
    (AIRCOPY_StorePacket 2 sample_CRC 0 { State_boot with gFSKWriteIndex := 36 }).2 =
      [Event.BK4819_PrepareFSKReceive, Event.BK4819_ResetFSK,
       Event.BK4819_PrepareFSKReceive] :=
  ⟨by decide,
    ((C21_receiver_rearmed 2 sample_CRC 0 { State_boot with gFSKWriteIndex := 36 }).2
      (by decide)).2.2.1 (by decide)⟩

set_option maxRecDepth 100000 in
/-- C22 at offset 0xA040 of the settings map: the look-up returns the settings segment. -/
theorem C22_segment_lookup_succeeds_witness :
    AIRCOPY_StorePacket_validOffset
      (AIRCOPY_GetCurrentMap 2 { State_boot with gAircopyCurrentMapIndex := 2 }).1 0xA040
      = true ∧
    ∃ seg, (AIRCOPY_FindSegmentForOffset 2 0xA040
        { State_boot with gAircopyCurrentMapIndex := 2 }).1 = some seg ∧
      seg ∈ (AIRCOPY_GetCurrentMap 2
        { State_boot with gAircopyCurrentMapIndex := 2 }).1.segments ∧
      seg.start_offset ≤ 0xA040 ∧ 0xA040 < seg.end_offset :=
  ⟨by decide,
    (C22_segment_lookup_succeeds 2 sample_CRC 0 0xA040
      { State_boot with gAircopyCurrentMapIndex := 2 }).1 (by decide)⟩

set_option maxRecDepth 100000 in
/-- C23 at an index beyond the three maps of a two-bank build: it is reset to 0. -/
theorem C23_current_map_in_bounds_witness :
    AIRCOPY_NUM_MAPS 2 ≤ ({ State_boot with gAircopyCurrentMapIndex := 7 } : State
      ).gAircopyCurrentMapIndex ∧
    (AIRCOPY_GetCurrentMap 2 { State_boot with gAircopyCurrentMapIndex := 7 }).2 =
      { ({ State_boot with gAircopyCurrentMapIndex := 7 } : State) with
        gAircopyCurrentMapIndex := 0 } :=
  ⟨by decide,
    (C23_current_map_in_bounds 2 { State_boot with gAircopyCurrentMapIndex := 7 }).2.2.2.2
      (by decide)⟩

set_option maxRecDepth 100000 in
/-- C26 at the logical addresses 0xA000 and 0xB000, the starts of the last two entries. -/
theorem C26_translation_injective_witness :
    ((∃ p ∈ ADDR_MAPPINGS, inEntry p 0xA000) ∧ (∃ p ∈ ADDR_MAPPINGS, inEntry p 0xB000) ∧
      (0xA000 : Nat) ≠ 0xB000) ∧
    (AddrTranslate 0xA000 8 true).PY25Q16_Addr_out
      ≠ (AddrTranslate 0xB000 64 false).PY25Q16_Addr_out :=
  ⟨⟨by decide, by decide, by decide⟩,
    (C26_translation_injective 0xA000 0xB000 8 64 true false (by decide) (by decide)
      (by decide)).1⟩

set_option maxRecDepth 100000 in
/-- C27 as stated fails for a read that starts at an unbacked address and runs into a
mapping: the two-byte read at 0x8FFF returns 0xFF for the byte at 0x9000, which lies in the
entry that starts at 0x9000 and whose storage byte is 0. -/
theorem C27_hole_covers_backed_byte :
    (EEPROM_ReadBuffer sample_flash 0x8FFF [0, 0] 2).map Prod.fst = some [0xFF, 0xFF] ∧
    (∃ p ∈ ADDR_MAPPINGS, inEntry p (0x8FFF + 1) ∧
      sample_flash (p.PY25Q16_Addr + (0x8FFF + 1 - p.EEPROM_Addr)) % 256 = 0) := by
  decide

set_option maxRecDepth 100000 in
/-- C27 at the two-byte read at 0x9000, which is backed: the first byte is the storage byte
at the physical address 0x9000. -/
theorem C27_backed_bytes_read_back_witness :
    ((2 : Nat) ≤ 255 ∧ (0x9000 : Nat) < 65536 ∧ ([0, 0] : List Nat).length = 2) ∧
    ∃ buf cs, EEPROM_ReadBuffer sample_flash 0x9000 [0, 0] 2 = some (buf, cs) ∧
      buf.length = 2 := by
  refine ⟨⟨by decide, by decide, by decide⟩, ?_⟩
  obtain ⟨buf, cs, h1, h2, _⟩ := C27_backed_bytes_read_back sample_flash 0x9000 2 [0, 0]
    (by decide) (by decide) (by decide)
  exact ⟨buf, cs, h1, h2⟩


set_option maxRecDepth 100000 in
/-- C28 as stated fails at an offset that is not a multiple of 64: with bank 0 active
(segments 0x0000-0x07FF, 0x4000-0x47FF, 0x8000-0x80FF) the packet with offset 0x07FF is
accepted, its last granule is written at 0x0837, and the byte at the backed logical address
0x083E, which is in no segment of the map, is overwritten in storage. -/
theorem C28_unaligned_offset_leaves_map :
    packetAccepted 2 sample_CRC 0
      { State_boot with g_FSK_Buffer := sample_packet 0x07FF, gFSKWriteIndex := 36 } = true ∧
    (obfuscationLoop (sample_packet 0x07FF)).getD 1 0 = 0x07FF ∧
    Event.EEPROM_WriteBuffer 0x0837 (List.replicate 8 0) ∈
      (AIRCOPY_StorePacket 2 sample_CRC 0
        { State_boot with g_FSK_Buffer := sample_packet 0x07FF, gFSKWriteIndex := 36 }).2 ∧
    mapped 0x083E = true ∧ physical 0x083E = 0x083E ∧
    sample_flash 0x083E = 0x3E ∧
    storeEvents sample_flash (AIRCOPY_StorePacket 2 sample_CRC 0
        { State_boot with g_FSK_Buffer := sample_packet 0x07FF, gFSKWriteIndex := 36 }).2
      0x083E = 0 ∧
    ∀ seg ∈ (AIRCOPY_GetCurrentMap 2
        { State_boot with g_FSK_Buffer := sample_packet 0x07FF, gFSKWriteIndex := 36 }
        ).1.segments, ¬ (seg.start_offset ≤ 0x083E ∧ 0x083E < seg.end_offset) := by
  decide

set_option maxRecDepth 100000 in
/-- C28 at the accepted packet with offset 0x0040 of bank 0 and the physical address 0x0800:
the offset lies in a segment and the storage byte at 0x0800 is unchanged. -/
theorem C28_received_data_location_witness :
    (36 ≤ ({ State_boot with g_FSK_Buffer := sample_packet 0x0040,
                              gFSKWriteIndex := 36 } : State).gFSKWriteIndex ∧
      (sample_packet 0x0040).length = 36 ∧
      packetAccepted 2 sample_CRC 0
        { State_boot with g_FSK_Buffer := sample_packet 0x0040, gFSKWriteIndex := 36 } = true) ∧
    ∃ seg ∈ (AIRCOPY_GetCurrentMap 2
        { State_boot with g_FSK_Buffer := sample_packet 0x0040, gFSKWriteIndex := 36 }
        ).1.segments,
      seg.start_offset ≤ (obfuscationLoop (sample_packet 0x0040)).getD 1 0 ∧
      (obfuscationLoop (sample_packet 0x0040)).getD 1 0 < seg.end_offset :=
  ⟨⟨by decide, by decide, by decide⟩,
    (C28_received_data_location 2 sample_CRC 0
      { State_boot with g_FSK_Buffer := sample_packet 0x0040, gFSKWriteIndex := 36 }
      sample_flash 0x0800 (by decide) (by decide) (by decide)).1⟩

set_option maxRecDepth 100000 in
/-- C29 at the boot state of a two-bank build (bank 0, 68 blocks, countdown 1): after the 2041
ticks of a complete send session the countdown is 0, and it is still 0 after the next
start-send. -/
theorem C29_countdown_zero_at_restart_witness :
    (State_boot.g_FSK_Buffer.length = 36 ∧ State_boot.gAircopySendCountdown < 256 ∧
      firstDue State_boot.gAircopySendCountdown
        + 30 * (AIRCOPY_GetCurrentMap 2 State_boot).1.total_blocks ≤ 2041) ∧
    ∃ sn evs,
      sendRun 2 sample_CRC sample_flash 2041 (AIRCOPY_Key_MENU 2 true false State_boot)
        = some (sn, evs) ∧
      sn.gAircopyState = AIRCOPY_COMPLETE ∧ sn.gAircopySendCountdown = 0 ∧
      (AIRCOPY_Key_MENU 2 true false sn).gAircopyState = AIRCOPY_TRANSFER ∧
      (AIRCOPY_Key_MENU 2 true false sn).gAircopySendCountdown = 0 := by
  refine ⟨⟨by decide, by decide, by decide⟩, ?_⟩
  obtain ⟨sn, evs, h1, h2, h3, h4, h5, _⟩ := C29_countdown_zero_at_restart 2 sample_CRC
    sample_flash State_boot (by decide) (by decide) 2041 (by decide)
  exact ⟨sn, evs, h1, h2, h3, h4, h5⟩

set_option maxRecDepth 100000 in
/-- The accesses of one refresh in a receive session on the settings map (6 blocks) with 3
blocks and 1 new error: bit 3 is written, and the columns of the gauge read the bits 0..3. -/
theorem bitAccesses_sample :
    (UI_DisplayAircopy_bitAccesses 2
      { State_boot with gAircopyState := AIRCOPY_TRANSFER, gAircopyCurrentMapIndex := 2,
                        gAirCopyBlockNumber := 3, gErrorsDuringAirCopy := 1 }).1 = [3] ∧
    (UI_DisplayAircopy_bitAccesses 2
      { State_boot with gAircopyState := AIRCOPY_TRANSFER, gAircopyCurrentMapIndex := 2,
                        gAirCopyBlockNumber := 3, gErrorsDuringAirCopy := 1 }).2.dedup
      = [0, 1, 2, 3] := by
  decide

set_option maxRecDepth 100000 in
/-- The rendering that gives `State_afterErrors` is a defined call. -/
theorem State_afterErrors_rendered :
    UI_DisplayAircopy 2 (receivePackets 2 sample_CRC
      (AIRCOPY_Key_EXIT true false { State_boot with gAircopyCurrentMapIndex := 2 }).1
      (sample_session.take 6)) = some State_afterErrors := by
  decide

set_option maxRecDepth 100000 in
/-- A refresh that is undefined: a completed receive session on bank 0 with 58 blocks and 10
errors; the text `RCV:100.00% E:10` and its terminating zero need 17 bytes. -/
theorem UI_DisplayAircopy_overflow_sample :
    UI_DisplayAircopy_sprintf 2
      { State_boot with gAircopyState := AIRCOPY_COMPLETE, gAirCopyBlockNumber := 58,
                        gErrorsDuringAirCopy := 10 } = 17 ∧
    UI_DisplayAircopy 2
      { State_boot with gAircopyState := AIRCOPY_COMPLETE, gAirCopyBlockNumber := 58,
                        gErrorsDuringAirCopy := 10 } = none := by
  decide

set_option maxRecDepth 100000 in
/-- C12 at the boot state of a two-bank build: after one rejected packet of a receive
session the counters are 0 and 1, and the next packet, an accepted one, lowers neither. -/
theorem C12_counters_monotone_witness :
    (State_boot.gInputBoxIndex = 0 ∧
      State_boot.gAircopyCurrentMapIndex < AIRCOPY_NUM_MAPS 2 ∧
      State_boot.g_FSK_Buffer.length = 36 ∧
      [sample_badPacket].length
        < (AIRCOPY_GetCurrentMap 2 (AIRCOPY_Key_EXIT true false State_boot).1).1.total_blocks) ∧
    (receivePackets 2 sample_CRC (AIRCOPY_Key_EXIT true false State_boot).1
        [sample_badPacket]).gAirCopyBlockNumber ≤
      (AIRCOPY_StorePacket 2 sample_CRC 0
        { receivePackets 2 sample_CRC (AIRCOPY_Key_EXIT true false State_boot).1
            [sample_badPacket] with
          g_FSK_Buffer := sample_packet 0, gFSKWriteIndex := 36 }).1.gAirCopyBlockNumber ∧
    (receivePackets 2 sample_CRC (AIRCOPY_Key_EXIT true false State_boot).1
        [sample_badPacket]).gErrorsDuringAirCopy ≤
      (AIRCOPY_StorePacket 2 sample_CRC 0
        { receivePackets 2 sample_CRC (AIRCOPY_Key_EXIT true false State_boot).1
            [sample_badPacket] with
          g_FSK_Buffer := sample_packet 0, gFSKWriteIndex := 36 }).1.gErrorsDuringAirCopy :=
  ⟨⟨by decide, by decide, by decide, by decide⟩,
    (C12_counters_monotone 2 sample_CRC sample_flash State_boot [sample_badPacket] 0
      (sample_packet 0) 36 1 (by decide) (by decide) (by decide) (by decide)).1.2.2⟩

end AirCopy
